import Mathlib

/-! # milk: command-line argument binding and the function parameter store

A shallow embedding of
* `CLIcore/CLIcore_checkargs.c` : `CLI_checkarg0`, `CLI_checkarg`, `CLI_checkarg_array`,
  `CLIargs_to_FPSparams_setval`;
* `CLIcore_utils.h` : the standard function call wrapper `CLIfunction`;
* `function_parameters.c` : `functionparameter_GetParamIndex`, the `SetParamValue_*`
  setters and `function_parameter_add_entry`.

Conventions of the embedding.
* C strings are `String`; `strcmp(a, b) == 0` is `a = b`.
* `double` and `float` values are rationals; `long` and the other integer types are `Int`
  with explicit wrap-around where a narrower type is written.
* `printf` output is not modelled.
* `exit` is the result `none`.
* The numeric constants of `CLIcore.h` and `function_parameters.h` are not in the
  sources at hand; they are carried as the parameters `CLIConsts` and `FPSConsts`.
-/

namespace Milk

/-! ## Constants of `CLIcore.h` -/

/-- Numeric constants of `CLIcore.h` used by `CLIcore_checkargs.c` and `CLIcore_utils.h`.
The header is not among the sources, so the values are a parameter. -/
structure CLIConsts where
  CLIARG_MISSING : Nat
  CLIARG_FLOAT : Nat
  CLIARG_FLOAT32 : Nat
  CLIARG_FLOAT64 : Nat
  CLIARG_LONG : Nat
  CLIARG_ONOFF : Nat
  CLIARG_INT32 : Nat
  CLIARG_UINT32 : Nat
  CLIARG_INT64 : Nat
  CLIARG_UINT64 : Nat
  CLIARG_STR_NOT_IMG : Nat
  CLIARG_IMG : Nat
  CLIARG_STREAM : Nat
  CLIARG_STR : Nat
  CLICMDARG_FLAG_NOCLI : Nat
  CLICMDARG_FLAG_NOFPS : Nat
  STRINGMAXLEN_CMDARGTOKEN_VAL : Nat
  STRINGMAXLEN_CLICMDARG : Nat
  RETURN_SUCCESS : Nat
  CLICMD_INVALID_ARG : Nat
  RETURN_CLICHECKARGARRAY_SUCCESS : Nat
  RETURN_CLICHECKARGARRAY_FAILURE : Nat
  RETURN_CLICHECKARGARRAY_FUNCPARAMSET : Nat
  RETURN_CLICHECKARGARRAY_HELP : Nat
deriving DecidableEq, Repr

/-- The mask `x & 0x0000FFFF`. -/
def low16 (x : Nat) : Nat := x % 65536

/-- Case label `CLIARG_FLOAT32 & 0x0000FFFF`: the type of a token lexed as a floating
point number. -/
def CLIConsts.tokFLOAT (K : CLIConsts) : Nat := low16 K.CLIARG_FLOAT32

/-- Case label `CLIARG_INT64 & 0x0000FFFF`: the type of a token lexed as an integer. -/
def CLIConsts.tokINT (K : CLIConsts) : Nat := low16 K.CLIARG_INT64

/-- What the C compiler and the reading of the masks require of the constants:
the case labels of every `switch` are pairwise distinct, and the two masked float
labels (`CLIARG_FLOAT32 & 0x0000FFFF`, `CLIARG_FLOAT64 & 0x0000FFFF`) name the same token
type. The result codes of `CLI_checkarg_array` are distinct, and its SUCCESS code is the
`RETURN_SUCCESS` the wrappers compare it with. -/
def CLIConsts.WF (K : CLIConsts) : Prop :=
  [K.CLIARG_FLOAT32, K.CLIARG_FLOAT64, K.CLIARG_FLOAT, K.CLIARG_INT32, K.CLIARG_INT64,
    K.CLIARG_UINT32, K.CLIARG_UINT64, K.CLIARG_ONOFF, K.CLIARG_LONG, K.CLIARG_STR_NOT_IMG,
    K.CLIARG_IMG, K.CLIARG_STREAM, K.CLIARG_STR].Nodup
  ∧ [K.tokFLOAT, K.tokINT, K.CLIARG_STR_NOT_IMG, K.CLIARG_IMG, K.CLIARG_STR, 6].Nodup
  ∧ low16 K.CLIARG_FLOAT64 = K.tokFLOAT
  ∧ [K.RETURN_CLICHECKARGARRAY_SUCCESS, K.RETURN_CLICHECKARGARRAY_FAILURE,
      K.RETURN_CLICHECKARGARRAY_FUNCPARAMSET, K.RETURN_CLICHECKARGARRAY_HELP].Nodup
  ∧ K.RETURN_CLICHECKARGARRAY_SUCCESS = K.RETURN_SUCCESS
  ∧ K.CLICMD_INVALID_ARG ≠ K.RETURN_SUCCESS

instance (K : CLIConsts) : Decidable K.WF := by
  unfold CLIConsts.WF; infer_instance

/-- A concrete assignment of the shape the masks presuppose: the base type in the low
16 bits (float 1, integer 2, string-not-image 3, image 4, string 5) and the subtype in
the high 16 bits. Used to evaluate the model on concrete calls. -/
def milkConsts : CLIConsts where
  CLIARG_MISSING := 0
  CLIARG_FLOAT := 0x00000001
  CLIARG_FLOAT32 := 0x00010001
  CLIARG_FLOAT64 := 0x00020001
  CLIARG_LONG := 0x00000002
  CLIARG_ONOFF := 0x00010002
  CLIARG_INT32 := 0x00020002
  CLIARG_UINT32 := 0x00030002
  CLIARG_INT64 := 0x00040002
  CLIARG_UINT64 := 0x00050002
  CLIARG_STR_NOT_IMG := 0x00000003
  CLIARG_IMG := 0x00000004
  CLIARG_STREAM := 0x00010004
  CLIARG_STR := 0x00000005
  CLICMDARG_FLAG_NOCLI := 0x00000001
  CLICMDARG_FLAG_NOFPS := 0x00000002
  STRINGMAXLEN_CMDARGTOKEN_VAL := 200
  STRINGMAXLEN_CLICMDARG := 80
  RETURN_SUCCESS := 0
  CLICMD_INVALID_ARG := 5
  RETURN_CLICHECKARGARRAY_SUCCESS := 0
  RETURN_CLICHECKARGARRAY_FAILURE := 1
  RETURN_CLICHECKARGARRAY_FUNCPARAMSET := 2
  RETURN_CLICHECKARGARRAY_HELP := 3

/-- A second assignment, without subtypes in the high bits of the 64-bit integer and
double codes. It satisfies `WF` as well; it is used to show which results depend on the
header values. -/
def flatConsts : CLIConsts :=
  { milkConsts with CLIARG_INT64 := 0x00000002, CLIARG_LONG := 0x00060002,
                    CLIARG_FLOAT64 := 0x00000001, CLIARG_FLOAT := 0x00030001 }

/-! ## Tokens and the interpreter state read by the argument checker -/

/-- One lexed command-line token, `data.cmdargtoken[i]`: its type code and the three
members of `val` (`numf`, `numl`, `string`). -/
structure CMDARGTOKEN where
  type : Nat
  numf : ℚ
  numl : Int
  string : String
deriving DecidableEq, Repr

/-- A CLI variable, `data.variable[IDv]`: its type code and the members `value.f`,
`value.l`. -/
structure VARIABLE where
  type : Nat
  f : ℚ
  l : Int
deriving DecidableEq, Repr

/-- External collaborators of the argument checker: the variable table
(`variable_ID`, `data.variable`), the image table (`image_ID`), and the libc
conversions `snprintf("%f")`, `atof` and the narrowing of a `double` to `float`. -/
structure CLIEnv where
  variable_ID : String → Option Nat
  dataVariable : Nat → VARIABLE
  image_ID : String → Option Nat
  fmt_f : ℚ → String
  atof : String → ℚ
  toFloat32 : ℚ → ℚ

/-- The member `val` of `data.cmd[cmdi].argdata[arg]`, the last-value store of one
argument. It is a C union; the embedding keeps one field per member, and a descriptor
reads and writes only the member of its own kind. -/
structure CLICMDARGVAL where
  f32 : ℚ
  f64 : ℚ
  i32 : Int
  i64 : Int
  ui32 : Int
  ui64 : Int
  s : String
deriving DecidableEq, Repr

/-- One argument descriptor `fpscliarg[arg]` : `{type, fpstag, descr, flag}`. -/
structure CLICMDARGDEF where
  type : Nat
  fpstag : String
  descr : String
  flag : Nat
deriving DecidableEq, Repr

/-- The part of the global `data` and of the file-static flags of
`CLIcore_checkargs.c` that argument checking reads and writes. `helpcalls` records the
calls of `help_command`. -/
structure CLIData where
  cmdargtoken : List CMDARGTOKEN
  argdata : List CLICMDARGVAL
  argcheck_process_flag : Int
  functionhelp_called : Int
  helpcalls : List String
deriving DecidableEq, Repr

/-- A token slot that was not filled by the lexer. -/
def missingToken (K : CLIConsts) : CMDARGTOKEN :=
  { type := K.CLIARG_MISSING, numf := 0, numl := 0, string := "" }

/-- Read `data.cmdargtoken[n]`. -/
def CLIData.tok (K : CLIConsts) (d : CLIData) (n : Nat) : CMDARGTOKEN :=
  d.cmdargtoken.getD n (missingToken K)

/-- Write `data.cmdargtoken[n]`. -/
def CLIData.setTok (d : CLIData) (n : Nat) (t : CMDARGTOKEN) : CLIData :=
  { d with cmdargtoken := d.cmdargtoken.set n t }

/-- The default value of an argument store entry. -/
def CLICMDARGVAL.zero : CLICMDARGVAL :=
  { f32 := 0, f64 := 0, i32 := 0, i64 := 0, ui32 := 0, ui64 := 0, s := "" }

/-- Read `data.cmd[cmdi].argdata[arg].val`. -/
def CLIData.arg (d : CLIData) (n : Nat) : CLICMDARGVAL :=
  d.argdata.getD n CLICMDARGVAL.zero

/-- Write `data.cmd[cmdi].argdata[arg].val`. -/
def CLIData.setArg (d : CLIData) (n : Nat) (v : CLICMDARGVAL) : CLIData :=
  { d with argdata := d.argdata.set n v }

/-! ## C conversions -/

/-- The first `n` characters of a string: what `strncpy(dst, src, n)` and a truncating
`snprintf` leave in a zero-terminated destination. -/
def strTake (s : String) (n : Nat) : String := String.mk (s.data.take n)

/-- The result of `snprintf(token.val.string, STRINGMAXLEN_CMDARGTOKEN_VAL, ...)`. -/
def snprintfTok (K : CLIConsts) (s : String) : String :=
  strTake s (K.STRINGMAXLEN_CMDARGTOKEN_VAL - 1)

/-- Conversion `(long) x` of a `double`: truncation toward zero. -/
def c_long (x : ℚ) : Int := if 0 ≤ x then ⌊x⌋ else ⌈x⌉

/-- Wrap-around to `int32_t`. -/
def toInt32 (z : Int) : Int := (z + 2 ^ 31) % 2 ^ 32 - 2 ^ 31

/-- Wrap-around to `uint32_t`. -/
def toUInt32 (z : Int) : Int := z % 2 ^ 32

/-- Wrap-around to `int64_t` (`long`). -/
def toInt64 (z : Int) : Int := (z + 2 ^ 63) % 2 ^ 64 - 2 ^ 63

/-- Wrap-around to `uint64_t`. -/
def toUInt64 (z : Int) : Int := z % 2 ^ 64

/-! ## `CLI_checkarg0` -/

/-- The two consecutive `if`s of the OnOff branches of `CLI_checkarg0`: the strings
`on`/`ON` set `numl = 1`, the strings `off`/`OFF` set `numl = 0`, each with `rval = 0`;
any other string leaves `rval` at its initial value 2. -/
def checkarg0_onoff (t : CMDARGTOKEN) : CMDARGTOKEN × Nat :=
  let r1 : CMDARGTOKEN × Nat :=
    if t.string = "on" ∨ t.string = "ON" then ({ t with numl := 1 }, 0) else (t, 2)
  if t.string = "off" ∨ t.string = "OFF" then ({ r1.1 with numl := 0 }, 0) else r1

/-- Inner `switch` of `CLI_checkarg0` for an argument that should be float32 or float64
(source lines 63-189). Returns the rewritten token and `rval`. -/
def checkarg0_FLOAT (K : CLIConsts) (env : CLIEnv) (t : CMDARGTOKEN) : CMDARGTOKEN × Nat :=
  if t.type = low16 K.CLIARG_FLOAT32 then
    ({ t with numl := c_long t.numf, string := snprintfTok K (env.fmt_f t.numf) }, 0)
  else if t.type = low16 K.CLIARG_INT64 then
    ({ t with string := snprintfTok K (toString t.numl), numf := (t.numl : ℚ),
              type := K.CLIARG_FLOAT64 }, 0)
  else if t.type = K.CLIARG_STR_NOT_IMG then
    match env.variable_ID t.string with
    | none => (t, 1)
    | some IDv =>
      let v := env.dataVariable IDv
      if v.type = K.CLIARG_FLOAT64 then
        ({ t with numf := v.f, type := K.CLIARG_FLOAT64 }, 0)
      else if v.type = K.CLIARG_INT64 then
        ({ t with numf := (v.l : ℚ), type := K.CLIARG_FLOAT64 }, 0)
      else (t, 1)
  else if t.type = K.CLIARG_IMG then (t, 1)
  else if t.type = K.CLIARG_STR then (t, 1)
  else if t.type = 6 then
    ({ t with numf := env.atof t.string, string := snprintfTok K " ",
              type := K.CLIARG_FLOAT64 }, 0)
  else (t, 2)

/-- Inner `switch` of `CLI_checkarg0` for an argument that should be an integer or
on/off (source lines 195-367). -/
def checkarg0_INT (K : CLIConsts) (env : CLIEnv) (funcargtype : Nat) (t : CMDARGTOKEN) :
    CMDARGTOKEN × Nat :=
  if t.type = low16 K.CLIARG_FLOAT32 then
    ({ t with string := snprintfTok K (env.fmt_f t.numf), numl := c_long (t.numf + 0.5),
              type := K.CLIARG_INT64 }, 0)
  else if t.type = low16 K.CLIARG_INT64 then
    ({ t with string := snprintfTok K (toString t.numl) }, 0)
  else if t.type = K.CLIARG_STR_NOT_IMG then
    if funcargtype = K.CLIARG_ONOFF then checkarg0_onoff t
    else
      match env.variable_ID t.string with
      | none => (t, 1)
      | some IDv =>
        let v := env.dataVariable IDv
        if v.type = K.CLIARG_FLOAT32 ∨ v.type = K.CLIARG_FLOAT64 then
          ({ t with numl := c_long v.f, type := K.CLIARG_INT64 }, 0)
        else if v.type = K.CLIARG_INT32 ∨ v.type = K.CLIARG_INT64 ∨ v.type = K.CLIARG_UINT32
            ∨ v.type = K.CLIARG_UINT64 then
          ({ t with numl := v.l, type := K.CLIARG_INT64 }, 0)
        else (t, 1)
  else if t.type = K.CLIARG_IMG then (t, 1)
  else if t.type = K.CLIARG_STR then
    if funcargtype = K.CLIARG_ONOFF then checkarg0_onoff t else (t, 1)
  else (t, 2)

/-- Inner `switch` of `CLI_checkarg0` for an argument that should be a string, but not
an image (source lines 373-450). -/
def checkarg0_STR_NOT_IMG (K : CLIConsts) (env : CLIEnv) (t : CMDARGTOKEN) :
    CMDARGTOKEN × Nat :=
  if t.type = low16 K.CLIARG_FLOAT64 then
    ({ t with string := snprintfTok K (env.fmt_f t.numf) }, 1)
  else if t.type = low16 K.CLIARG_INT64 then
    ({ t with string := snprintfTok K (toString t.numl) }, 1)
  else if t.type = K.CLIARG_STR_NOT_IMG then (t, 0)
  else if t.type = K.CLIARG_IMG then (t, 1)
  else if t.type = K.CLIARG_STR then (t, 1)
  else if t.type = 6 then (t, 0)
  else (t, 2)

/-- Inner `switch` of `CLI_checkarg0` for an argument that should be an existing image
(source lines 458-539). -/
def checkarg0_IMG (K : CLIConsts) (env : CLIEnv) (t : CMDARGTOKEN) : CMDARGTOKEN × Nat :=
  if t.type = low16 K.CLIARG_FLOAT32 then
    ({ t with string := snprintfTok K (env.fmt_f t.numf) }, 1)
  else if t.type = low16 K.CLIARG_INT64 then
    ({ t with string := snprintfTok K (toString t.numl) }, 1)
  else if t.type = K.CLIARG_STR_NOT_IMG then (t, 1)
  else if t.type = K.CLIARG_IMG then (t, 0)
  else if t.type = K.CLIARG_STR then (t, 1)
  else if t.type = 6 then (t, 0)
  else (t, 2)

/-- Inner `switch` of `CLI_checkarg0` for an argument that should be a string, image or
not (source lines 546-613). -/
def checkarg0_STR (K : CLIConsts) (env : CLIEnv) (t : CMDARGTOKEN) : CMDARGTOKEN × Nat :=
  if t.type = low16 K.CLIARG_FLOAT32 then
    ({ t with string := snprintfTok K (env.fmt_f t.numf) }, 1)
  else if t.type = low16 K.CLIARG_INT64 then
    ({ t with string := snprintfTok K (toString t.numl) }, 1)
  else if t.type = K.CLIARG_STR_NOT_IMG then (t, 0)
  else if t.type = K.CLIARG_IMG then (t, 0)
  else if t.type = K.CLIARG_STR then (t, 0)
  else if t.type = 6 then (t, 0)
  else (t, 2)

/-- The outer `switch(funcargtype)` of `CLI_checkarg0`. An argument type that is none
of the case labels leaves `rval = 2`. -/
def checkarg0_switch (K : CLIConsts) (env : CLIEnv) (funcargtype : Nat) (t : CMDARGTOKEN) :
    CMDARGTOKEN × Nat :=
  if funcargtype = K.CLIARG_FLOAT32 ∨ funcargtype = K.CLIARG_FLOAT64
      ∨ funcargtype = K.CLIARG_FLOAT then
    checkarg0_FLOAT K env t
  else if funcargtype = K.CLIARG_INT32 ∨ funcargtype = K.CLIARG_INT64
      ∨ funcargtype = K.CLIARG_UINT32 ∨ funcargtype = K.CLIARG_UINT64
      ∨ funcargtype = K.CLIARG_ONOFF ∨ funcargtype = K.CLIARG_LONG then
    checkarg0_INT K env funcargtype t
  else if funcargtype = K.CLIARG_STR_NOT_IMG then checkarg0_STR_NOT_IMG K env t
  else if funcargtype = K.CLIARG_IMG then checkarg0_IMG K env t
  else if funcargtype = K.CLIARG_STR then checkarg0_STR K env t
  else (t, 2)

/-- `CLI_checkarg0(CLIargnum, funcargtype, errmsg)`: check that the token matches the
required argument type. Returns the new state and `rval` (0 if OK, 1 if not). A token
`?` stops argument processing, calls `help_command`, blanks the token and returns 1.
`errmsg` only selects which messages are printed. -/
def CLI_checkarg0 (K : CLIConsts) (env : CLIEnv) (d : CLIData) (CLIargnum : Nat)
    (funcargtype : Nat) (errmsg : Int) : CLIData × Nat :=
  let t := d.tok K CLIargnum
  if t.string = "?" then
    ({ d.setTok CLIargnum { t with string := snprintfTok K " " } with
         argcheck_process_flag := 0
         functionhelp_called := 1
         helpcalls := d.helpcalls ++ [(d.tok K 0).string] }, 1)
  else
    let r := checkarg0_switch K env funcargtype t
    (d.setTok CLIargnum r.1, if r.2 = 2 then 1 else r.2)

/-- `CLI_checkarg(CLIargnum, funcargtype)`: argument 1 re-arms the processing flag; the
check runs only while the flag is 1, otherwise the result is 1. -/
def CLI_checkarg (K : CLIConsts) (env : CLIEnv) (d : CLIData) (CLIargnum : Nat)
    (funcargtype : Nat) : CLIData × Nat :=
  let d1 := if CLIargnum = 1 then { d with argcheck_process_flag := 1 } else d
  if d1.argcheck_process_flag = 1 then CLI_checkarg0 K env d1 CLIargnum funcargtype 1
  else (d1, 1)

/-! ## `CLI_checkarg_array` -/

/-- The loop `for(i = i0; i < n; i++) if(p(x[i])) index = i;` over the remaining
elements: the index of the last element that satisfies `p`, or the value `m` that
`index` had before. -/
def lastIndexWhere {α : Type} (p : α → Bool) : List α → Nat → Option Nat → Option Nat
  | [], _, m => m
  | x :: xs, i, m => lastIndexWhere p xs (i + 1) (if p x then some i else m)

/-- First loop of `CLI_checkarg_array`: `argindexmatch`, the index of the last descriptor
whose `fpstag` equals the string of CLI argument 1 (`none` stands for -1). -/
def argindexmatch (fpscliarg : List CLICMDARGDEF) (s : String) : Option Nat :=
  lastIndexWhere (fun a => decide (s = a.fpstag)) fpscliarg 0 none

/-- The `switch` that stores the token value as the argument's last value in keyword
mode (source lines 748-793). -/
def argdata_store_keyword (K : CLIConsts) (env : CLIEnv) (type : Nat) (t : CMDARGTOKEN)
    (v : CLICMDARGVAL) : CLICMDARGVAL :=
  if type = K.CLIARG_FLOAT32 then { v with f32 := env.toFloat32 t.numf }
  else if type = K.CLIARG_FLOAT64 then { v with f64 := t.numf }
  else if type = K.CLIARG_INT32 then { v with i32 := toInt32 t.numl }
  else if type = K.CLIARG_INT64 then { v with i64 := t.numl }
  else if type = K.CLIARG_UINT32 then { v with ui32 := toUInt32 t.numl }
  else if type = K.CLIARG_UINT64 then { v with ui64 := toUInt64 t.numl }
  else if type = K.CLIARG_ONOFF then { v with i64 := t.numl }
  else if type = K.CLIARG_STR_NOT_IMG then
    { v with s := strTake t.string (K.STRINGMAXLEN_CLICMDARG - 1) }
  else if type = K.CLIARG_IMG then
    { v with s := strTake t.string (K.STRINGMAXLEN_CLICMDARG - 1) }
  else if type = K.CLIARG_STR then
    { v with s := strTake t.string (K.STRINGMAXLEN_CLICMDARG - 1) }
  else v

/-- The `switch` that updates the last value after a successful check in positional
mode (source lines 943-984). It has no case for `CLIARG_ONOFF`. -/
def argdata_store_positional (K : CLIConsts) (env : CLIEnv) (type : Nat) (t : CMDARGTOKEN)
    (v : CLICMDARGVAL) : CLICMDARGVAL :=
  if type = K.CLIARG_FLOAT32 then { v with f32 := env.toFloat32 t.numf }
  else if type = K.CLIARG_FLOAT64 then { v with f64 := t.numf }
  else if type = K.CLIARG_INT32 then { v with i32 := toInt32 t.numl }
  else if type = K.CLIARG_INT64 then { v with i64 := t.numl }
  else if type = K.CLIARG_UINT32 then { v with ui32 := toUInt32 t.numl }
  else if type = K.CLIARG_UINT64 then { v with ui64 := toUInt64 t.numl }
  else if type = K.CLIARG_STR_NOT_IMG then
    { v with s := strTake t.string (K.STRINGMAXLEN_CLICMDARG - 1) }
  else if type = K.CLIARG_IMG then
    { v with s := strTake t.string (K.STRINGMAXLEN_CLICMDARG - 1) }
  else if type = K.CLIARG_STR then
    { v with s := strTake t.string (K.STRINGMAXLEN_CLICMDARG - 1) }
  else v

/-- The `switch` that adopts the default/last value when the token is `.` (source lines
868-936): the token takes the stored value and the descriptor's type code. It has no
case for `CLIARG_ONOFF`. -/
def adopt_last_value (K : CLIConsts) (env : CLIEnv) (type : Nat) (v : CLICMDARGVAL)
    (t : CMDARGTOKEN) : CMDARGTOKEN :=
  if type = K.CLIARG_FLOAT32 then { t with numf := v.f32, type := K.CLIARG_FLOAT32 }
  else if type = K.CLIARG_FLOAT64 then { t with numf := v.f64, type := K.CLIARG_FLOAT64 }
  else if type = K.CLIARG_INT32 then { t with numl := v.i32, type := K.CLIARG_INT32 }
  else if type = K.CLIARG_INT64 then { t with numl := v.i64, type := K.CLIARG_INT64 }
  else if type = K.CLIARG_UINT32 then { t with numl := v.ui32, type := K.CLIARG_UINT32 }
  else if type = K.CLIARG_UINT64 then
    { t with numl := toInt64 v.ui64, type := K.CLIARG_UINT64 }
  else if type = K.CLIARG_STR_NOT_IMG then
    { t with string := strTake v.s (K.STRINGMAXLEN_CMDARGTOKEN_VAL - 1),
             type := K.CLIARG_STR_NOT_IMG }
  else if type = K.CLIARG_IMG then
    { t with string := strTake v.s (K.STRINGMAXLEN_CMDARGTOKEN_VAL - 1),
             type := if (env.image_ID v.s).isSome then K.CLIARG_IMG
                     else K.CLIARG_STR_NOT_IMG }
  else if type = K.CLIARG_STR then
    { t with string := strTake v.s (K.STRINGMAXLEN_CMDARGTOKEN_VAL - 1),
             type := K.CLIARG_STR }
  else t

/-- The variables of the positional loop of `CLI_checkarg_array`: the interpreter
state, the number `nberr` of failed arguments and the position `CLIarg` in the CLI
call. -/
structure CheckLoopState where
  d : CLIData
  nberr : Nat
  CLIarg : Nat
deriving DecidableEq, Repr

/-- The body of the positional loop of `CLI_checkarg_array` for descriptor `arg` (source
lines 816-1004). `Except.error` carries the value of the `return` inside the loop (help
was called); `Except.ok` carries the loop variables for the next iteration. -/
def checkarg_array_body (K : CLIConsts) (env : CLIEnv) (arg : Nat) (a : CLICMDARGDEF)
    (s : CheckLoopState) : Except (CLIData × Nat) CheckLoopState :=
  if a.flag &&& K.CLICMDARG_FLAG_NOCLI = 0 then
    let d1 :=
      if (s.d.tok K (s.CLIarg + 1)).string = "." then
        s.d.setTok (s.CLIarg + 1)
          (adopt_last_value K env a.type (s.d.arg arg) (s.d.tok K (s.CLIarg + 1)))
      else s.d
    let r := CLI_checkarg K env d1 (s.CLIarg + 1) a.type
    if r.2 = 0 then
      .ok { d := r.1.setArg arg
                   (argdata_store_positional K env a.type (r.1.tok K (s.CLIarg + 1))
                     (r.1.arg arg)),
            nberr := s.nberr, CLIarg := s.CLIarg + 1 }
    else if r.1.functionhelp_called = 1 then .error (r.1, K.RETURN_CLICHECKARGARRAY_HELP)
    else .ok { d := r.1, nberr := s.nberr + 1, CLIarg := s.CLIarg + 1 }
  else .ok s

/-- The iterations of the positional loop for the descriptors from index `arg` on. -/
def checkarg_array_iter (K : CLIConsts) (env : CLIEnv) :
    List CLICMDARGDEF → Nat → CheckLoopState → Except (CLIData × Nat) CheckLoopState
  | [], _, s => .ok s
  | a :: rest, arg, s =>
    match checkarg_array_body K env arg a s with
    | .error r => .error r
    | .ok s1 => checkarg_array_iter K env rest (arg + 1) s1

/-- The positional part of `CLI_checkarg_array` (source lines 812-1019): the loop over
all descriptors, then SUCCESS when no argument failed and FAILURE otherwise. -/
def checkarg_array_loop (K : CLIConsts) (env : CLIEnv) (fpscliarg : List CLICMDARGDEF)
    (d : CLIData) : CLIData × Nat :=
  match checkarg_array_iter K env fpscliarg 0 { d := d, nberr := 0, CLIarg := 0 } with
  | .error r => r
  | .ok s =>
    (s.d, if s.nberr = 0 then K.RETURN_CLICHECKARGARRAY_SUCCESS
          else K.RETURN_CLICHECKARGARRAY_FAILURE)

/-- `CLI_checkarg_array(fpscliarg, nbarg)` with `nbarg` the length of the descriptor
list. If CLI argument 1 is the tag of a descriptor, the descriptor's last value is set
from CLI argument 2 (keyword mode); otherwise the arguments are checked in order. -/
def CLI_checkarg_array (K : CLIConsts) (env : CLIEnv) (d : CLIData)
    (fpscliarg : List CLICMDARGDEF) : CLIData × Nat :=
  let d0 := { d with argcheck_process_flag := 1 }
  match argindexmatch fpscliarg (d0.tok K 1).string with
  | some m =>
    if (d0.tok K 2).type = K.CLIARG_MISSING then (d0, K.RETURN_CLICHECKARGARRAY_FAILURE)
    else
      let type := (fpscliarg.getD m ⟨0, "", "", 0⟩).type
      let r := CLI_checkarg K env d0 2 type
      if r.2 = 0 then
        (r.1.setArg m (argdata_store_keyword K env type (r.1.tok K 2) (r.1.arg m)),
          K.RETURN_CLICHECKARGARRAY_FUNCPARAMSET)
      else (r.1, K.RETURN_CLICHECKARGARRAY_FAILURE)
  | none => checkarg_array_loop K env fpscliarg d0

/-- The standard function call wrapper `CLIfunction` of `CLIcore_utils.h`
(`INSERT_STD_CLIfunction`): the compute function runs when `CLI_checkarg_array` returns
`RETURN_SUCCESS`, otherwise the result is `CLICMD_INVALID_ARG`. The compute function
itself is not modelled. -/
def CLIfunction (K : CLIConsts) (env : CLIEnv) (d : CLIData)
    (farg : List CLICMDARGDEF) : CLIData × Nat :=
  let r := CLI_checkarg_array K env d farg
  if r.2 = K.RETURN_SUCCESS then (r.1, K.RETURN_SUCCESS) else (r.1, K.CLICMD_INVALID_ARG)

/-- An environment without variables and images, for evaluating concrete calls; the
conversions are placeholders that the evaluated calls do not depend on. -/
def emptyEnv : CLIEnv where
  variable_ID := fun _ => none
  dataVariable := fun _ => ⟨0, 0, 0⟩
  image_ID := fun _ => none
  fmt_f := fun _ => "f"
  atof := fun _ => 0
  toFloat32 := fun x => x

/-! ## The function parameter store (`function_parameters.c`) -/

/-- Numeric constants of `function_parameters.h` used by the embedded functions. The
header is not among the sources, so the values are a parameter. -/
structure FPSConsts where
  FPFLAG_ACTIVE : Nat
  FPFLAG_ONOFF : Nat
  FPTYPE_UNDEF : Nat
  FPTYPE_INT64 : Nat
  FPTYPE_FLOAT64 : Nat
  FPTYPE_FLOAT32 : Nat
  FPTYPE_PID : Nat
  FPTYPE_TIMESPEC : Nat
  FPTYPE_FILENAME : Nat
  FPTYPE_FITSFILENAME : Nat
  FPTYPE_EXECFILENAME : Nat
  FPTYPE_DIRNAME : Nat
  FPTYPE_STREAMNAME : Nat
  FPTYPE_STRING : Nat
  FPTYPE_ONOFF : Nat
  FPTYPE_FPSNAME : Nat
  FUNCTION_PARAMETER_KEYWORD_STRMAXLEN : Nat
  FUNCTION_PARAMETER_KEYWORD_MAXLEVEL : Nat
  FUNCTION_PARAMETER_DESCR_STRMAXLEN : Nat
  FUNCTION_PARAMETER_STRMAXLEN : Nat
deriving DecidableEq, Repr

/-- What the C compiler requires of the type codes (the case labels of the `switch`
over the parameter type are pairwise distinct), and the `ACTIVE` flag is a non-zero
mask of a 64-bit word. -/
def FPSConsts.WF (C : FPSConsts) : Prop :=
  [C.FPTYPE_INT64, C.FPTYPE_FLOAT64, C.FPTYPE_FLOAT32, C.FPTYPE_PID, C.FPTYPE_TIMESPEC,
    C.FPTYPE_FILENAME, C.FPTYPE_FITSFILENAME, C.FPTYPE_EXECFILENAME, C.FPTYPE_DIRNAME,
    C.FPTYPE_STREAMNAME, C.FPTYPE_STRING, C.FPTYPE_ONOFF, C.FPTYPE_FPSNAME].Nodup
  ∧ C.FPFLAG_ACTIVE ≠ 0 ∧ C.FPFLAG_ACTIVE < 2 ^ 64
  ∧ C.FPFLAG_ONOFF ≠ 0 ∧ C.FPFLAG_ONOFF < 2 ^ 64

instance (C : FPSConsts) : Decidable C.WF := by
  unfold FPSConsts.WF; infer_instance

/-- A concrete assignment: one bit per flag and per type, 64-character keyword
segments, 20 keyword levels. Used to evaluate the model on concrete calls. -/
def milkFPSConsts : FPSConsts where
  FPFLAG_ACTIVE := 0x0000000000000001
  FPFLAG_ONOFF := 0x0000000000000010
  FPTYPE_UNDEF := 0x0001
  FPTYPE_INT64 := 0x0002
  FPTYPE_FLOAT64 := 0x0004
  FPTYPE_FLOAT32 := 0x0008
  FPTYPE_PID := 0x0010
  FPTYPE_TIMESPEC := 0x0020
  FPTYPE_FILENAME := 0x0040
  FPTYPE_FITSFILENAME := 0x0080
  FPTYPE_EXECFILENAME := 0x0100
  FPTYPE_DIRNAME := 0x0200
  FPTYPE_STREAMNAME := 0x0400
  FPTYPE_STRING := 0x0800
  FPTYPE_ONOFF := 0x1000
  FPTYPE_FPSNAME := 0x2000
  FUNCTION_PARAMETER_KEYWORD_STRMAXLEN := 64
  FUNCTION_PARAMETER_KEYWORD_MAXLEVEL := 20
  FUNCTION_PARAMETER_DESCR_STRMAXLEN := 64
  FUNCTION_PARAMETER_STRMAXLEN := 64

/-- The member `val` of a parameter. It is a C union of `l[4]`, `f[4]`, `s[4]`,
`pid[2]`, `ts[2]` and `string[2]`; the embedding keeps one field per array element, and
the two components `tv_sec`, `tv_nsec` of a `timespec`. -/
structure FPVAL where
  l0 : Int
  l1 : Int
  l2 : Int
  l3 : Int
  f0 : ℚ
  f1 : ℚ
  f2 : ℚ
  f3 : ℚ
  s0 : ℚ
  s1 : ℚ
  s2 : ℚ
  s3 : ℚ
  pid0 : Int
  pid1 : Int
  ts0 : Int × Int
  ts1 : Int × Int
  string0 : String
  string1 : String
deriving DecidableEq, Repr

/-- One parameter slot `FUNCTION_PARAMETER`: flags, the dotted full keyword, the array
of keyword segments with the number of segments in use, description, type, value and
the update counter `cnt0`. -/
structure FUNCTION_PARAMETER where
  fpflag : Nat
  keywordfull : String
  keyword : List String
  keywordlevel : Nat
  description : String
  type : Nat
  val : FPVAL
  cnt0 : Nat
deriving DecidableEq, Repr

/-- A function parameter structure: the header fields of `md` that the embedded
functions use, and the parameter array `parray`. -/
structure FUNCTION_PARAMETER_STRUCT where
  name : String
  signal : Nat
  status : Nat
  confwaitus : Nat
  conferrcnt : Nat
  msgcnt : Nat
  msgpindex : List Nat
  msgcode : List Nat
  message : List String
  parray : List FUNCTION_PARAMETER
deriving DecidableEq, Repr

/-- The header field `md->NBparamMAX`: the number of slots of `parray`, written once
at creation. -/
def FUNCTION_PARAMETER_STRUCT.NBparamMAX (fps : FUNCTION_PARAMETER_STRUCT) : Nat :=
  fps.parray.length

/-- An all-zero value. -/
def FPVAL.zero : FPVAL :=
  { l0 := 0, l1 := 0, l2 := 0, l3 := 0, f0 := 0, f1 := 0, f2 := 0, f3 := 0,
    s0 := 0, s1 := 0, s2 := 0, s3 := 0, pid0 := 0, pid1 := 0, ts0 := (0, 0), ts1 := (0, 0),
    string0 := "", string1 := "" }

/-- A slot of a freshly created store: the file is created by extending an empty file,
so every byte of the slot is zero, and `function_parameter_struct_create` writes
`fpflag = 0` and `cnt0 = 0`. -/
def FUNCTION_PARAMETER.zero (C : FPSConsts) : FUNCTION_PARAMETER :=
  { fpflag := 0, keywordfull := "",
    keyword := List.replicate C.FUNCTION_PARAMETER_KEYWORD_MAXLEVEL "",
    keywordlevel := 0, description := "", type := 0, val := FPVAL.zero, cnt0 := 0 }

/-- The store left by `function_parameter_struct_create(NBparamMAX, name)`; `signal`
holds the creation value `FUNCTION_PARAMETER_STRUCT_SIGNAL_CONFRUN`, passed in. -/
def function_parameter_struct_create (C : FPSConsts) (NBparamMAX : Nat) (name : String)
    (SIGNAL_CONFRUN : Nat) : FUNCTION_PARAMETER_STRUCT :=
  { name := name, signal := SIGNAL_CONFRUN, status := 0, confwaitus := 1000,
    conferrcnt := 0, msgcnt := 0, msgpindex := [], msgcode := [], message := [],
    parray := List.replicate NBparamMAX (FUNCTION_PARAMETER.zero C) }

/-- The test `fpflag & FPFLAG_ACTIVE`. -/
def FUNCTION_PARAMETER.active (C : FPSConsts) (p : FUNCTION_PARAMETER) : Prop :=
  p.fpflag &&& C.FPFLAG_ACTIVE ≠ 0

instance (C : FPSConsts) (p : FUNCTION_PARAMETER) : Decidable (p.active C) := by
  unfold FUNCTION_PARAMETER.active; infer_instance

/-- The operation `flag & ~mask` on a 64-bit word. -/
def clearFlag (flag mask : Nat) : Nat := flag &&& (2 ^ 64 - 1 - mask % 2 ^ 64)

/-- The test `strstr(haystack, needle) != NULL`. -/
def strstr (haystack needle : String) : Prop := needle.data <:+: haystack.data

instance (h n : String) : Decidable (strstr h n) := by
  unfold strstr; infer_instance

/-- The search loop of `functionparameter_GetParamIndex` from slot `i` on: the first
active slot whose full keyword contains `paramname`. -/
def GetParamIndex_scan (C : FPSConsts) (paramname : String) :
    List FUNCTION_PARAMETER → Nat → Option Nat
  | [], _ => none
  | p :: ps, i =>
    if p.active C ∧ strstr p.keywordfull paramname then some i
    else GetParamIndex_scan C paramname ps (i + 1)

/-- `functionparameter_GetParamIndex(fps, paramname)`; `none` when the process exits
because no parameter is found. -/
def functionparameter_GetParamIndex (C : FPSConsts) (fps : FUNCTION_PARAMETER_STRUCT)
    (paramname : String) : Option Nat :=
  GetParamIndex_scan C paramname fps.parray 0

/-- Apply `f` to slot `i` of the parameter array. -/
def FUNCTION_PARAMETER_STRUCT.modify (fps : FUNCTION_PARAMETER_STRUCT) (i : Nat)
    (f : FUNCTION_PARAMETER → FUNCTION_PARAMETER) : FUNCTION_PARAMETER_STRUCT :=
  { fps with parray := fps.parray.modify f i }

/-- `functionparameter_SetParamValue_INT64(fps, paramname, value)`. -/
def functionparameter_SetParamValue_INT64 (C : FPSConsts) (fps : FUNCTION_PARAMETER_STRUCT)
    (paramname : String) (value : Int) : Option FUNCTION_PARAMETER_STRUCT :=
  (functionparameter_GetParamIndex C fps paramname).map fun fpsi =>
    fps.modify fpsi fun p => { p with val := { p.val with l0 := value }, cnt0 := p.cnt0 + 1 }

/-- `functionparameter_SetParamValue_FLOAT64(fps, paramname, value)`. -/
def functionparameter_SetParamValue_FLOAT64 (C : FPSConsts) (fps : FUNCTION_PARAMETER_STRUCT)
    (paramname : String) (value : ℚ) : Option FUNCTION_PARAMETER_STRUCT :=
  (functionparameter_GetParamIndex C fps paramname).map fun fpsi =>
    fps.modify fpsi fun p => { p with val := { p.val with f0 := value }, cnt0 := p.cnt0 + 1 }

/-- `functionparameter_SetParamValue_FLOAT32(fps, paramname, value)`. -/
def functionparameter_SetParamValue_FLOAT32 (C : FPSConsts) (fps : FUNCTION_PARAMETER_STRUCT)
    (paramname : String) (value : ℚ) : Option FUNCTION_PARAMETER_STRUCT :=
  (functionparameter_GetParamIndex C fps paramname).map fun fpsi =>
    fps.modify fpsi fun p => { p with val := { p.val with s0 := value }, cnt0 := p.cnt0 + 1 }

/-- `functionparameter_SetParamValue_STRING(fps, paramname, stringvalue)`. -/
def functionparameter_SetParamValue_STRING (C : FPSConsts) (fps : FUNCTION_PARAMETER_STRUCT)
    (paramname : String) (stringvalue : String) : Option FUNCTION_PARAMETER_STRUCT :=
  (functionparameter_GetParamIndex C fps paramname).map fun fpsi =>
    fps.modify fpsi fun p =>
      { p with val := { p.val with
                        string0 := strTake stringvalue C.FUNCTION_PARAMETER_STRMAXLEN },
               cnt0 := p.cnt0 + 1 }

/-- `functionparameter_SetParamValue_ONOFF(fps, paramname, ONOFFvalue)`. -/
def functionparameter_SetParamValue_ONOFF (C : FPSConsts) (fps : FUNCTION_PARAMETER_STRUCT)
    (paramname : String) (ONOFFvalue : Int) : Option FUNCTION_PARAMETER_STRUCT :=
  (functionparameter_GetParamIndex C fps paramname).map fun fpsi =>
    fps.modify fpsi fun p =>
      if ONOFFvalue = 1 then
        { p with fpflag := p.fpflag ||| C.FPFLAG_ONOFF, val := { p.val with l0 := 1 },
                 cnt0 := p.cnt0 + 1 }
      else
        { p with fpflag := clearFlag p.fpflag C.FPFLAG_ONOFF, val := { p.val with l0 := 0 },
                 cnt0 := p.cnt0 + 1 }

/-- Modelled from the spec: the setters `functionparameter_SetParamValue_INT32`,
`_UINT32` and `_UINT64`, which `CLIargs_to_FPSparams_setval` calls and which are not in
`function_parameters.c`. Following the sentence "the descriptor's slot in the FPS is
updated (kind-specific write), the parameter's update_counter incremented", they write
the current-value slot `val.l[0]` and increment `cnt0`. -/
def functionparameter_SetParamValue_intkind (C : FPSConsts) (fps : FUNCTION_PARAMETER_STRUCT)
    (paramname : String) (value : Int) : Option FUNCTION_PARAMETER_STRUCT :=
  (functionparameter_GetParamIndex C fps paramname).map fun fpsi =>
    fps.modify fpsi fun p => { p with val := { p.val with l0 := value }, cnt0 := p.cnt0 + 1 }

/-- The body of the loop of `CLIargs_to_FPSparams_setval` for descriptor `arg`: the
`switch` over the descriptor type, which calls the setter of that type with the value
of token `arg + 1`. The result is the store and the increment of `NBarg_processed`. -/
def setval_step (K : CLIConsts) (C : FPSConsts) (env : CLIEnv) (d : CLIData) (arg : Nat)
    (a : CLICMDARGDEF) (fps : FUNCTION_PARAMETER_STRUCT) :
    Option (FUNCTION_PARAMETER_STRUCT × Nat) :=
  let t := d.tok K (arg + 1)
  if a.flag &&& K.CLICMDARG_FLAG_NOFPS = 0 then
    if a.type = K.CLIARG_FLOAT32 then
      (functionparameter_SetParamValue_FLOAT32 C fps a.fpstag (env.toFloat32 t.numf)).map (·, 1)
    else if a.type = K.CLIARG_FLOAT64 then
      (functionparameter_SetParamValue_FLOAT64 C fps a.fpstag t.numf).map (·, 1)
    else if a.type = K.CLIARG_ONOFF then
      (functionparameter_SetParamValue_ONOFF C fps a.fpstag (toInt32 t.numl)).map (·, 1)
    else if a.type = K.CLIARG_INT32 then
      (functionparameter_SetParamValue_intkind C fps a.fpstag (toInt32 t.numl)).map (·, 1)
    else if a.type = K.CLIARG_UINT32 then
      (functionparameter_SetParamValue_intkind C fps a.fpstag (toUInt32 t.numl)).map (·, 1)
    else if a.type = K.CLIARG_INT64 then
      (functionparameter_SetParamValue_INT64 C fps a.fpstag t.numl).map (·, 1)
    else if a.type = K.CLIARG_UINT64 then
      (functionparameter_SetParamValue_intkind C fps a.fpstag (toUInt64 t.numl)).map (·, 1)
    else if a.type = K.CLIARG_STR_NOT_IMG ∨ a.type = K.CLIARG_IMG ∨ a.type = K.CLIARG_STREAM
        ∨ a.type = K.CLIARG_STR then
      (functionparameter_SetParamValue_STRING C fps a.fpstag t.string).map (·, 1)
    else some (fps, 0)
  else some (fps, 0)

/-- The loop of `CLIargs_to_FPSparams_setval` for the descriptors from index `arg` on,
accumulating `NBarg_processed`. -/
def setval_loop (K : CLIConsts) (C : FPSConsts) (env : CLIEnv) (d : CLIData) :
    List CLICMDARGDEF → Nat → FUNCTION_PARAMETER_STRUCT → Nat →
    Option (FUNCTION_PARAMETER_STRUCT × Nat)
  | [], _, fps, n => some (fps, n)
  | a :: rest, arg, fps, n =>
    match setval_step K C env d arg a fps with
    | none => none
    | some (fps1, k) => setval_loop K C env d rest (arg + 1) fps1 (n + k)

/-- `CLIargs_to_FPSparams_setval(fpscliarg, nbarg, fps)` with `nbarg` the length of the
descriptor list: returns the store and `NBarg_processed`; `none` when a setter exits. -/
def CLIargs_to_FPSparams_setval (K : CLIConsts) (C : FPSConsts) (env : CLIEnv) (d : CLIData)
    (fpscliarg : List CLICMDARGDEF) (fps : FUNCTION_PARAMETER_STRUCT) :
    Option (FUNCTION_PARAMETER_STRUCT × Nat) :=
  setval_loop K C env d fpscliarg 0 fps 0

/-! ## `function_parameter_add_entry` -/

/-- The memory `valueptr` points to, as `function_parameter_add_entry` reads it for each
parameter type: four `int64_t`, four `double`, four `float`, one `timespec`, or a C
string. -/
structure VALUEPTR where
  asINT64 : Int × Int × Int × Int
  asFLOAT64 : ℚ × ℚ × ℚ × ℚ
  asFLOAT32 : ℚ × ℚ × ℚ × ℚ
  asTIMESPEC : Int × Int
  asString : String
deriving DecidableEq, Repr

/-- The successive results of `strtok(s, delim)`, `strtok(NULL, delim)`, ... until
`NULL`: the maximal non-empty runs of characters other than the delimiter. -/
def strtok_all (s : String) (delim : Char) : List String :=
  ((s.data.splitOn delim).filter (fun seg => seg ≠ [])).map String.mk

/-- `keywordstringC`: a keyword string that starts with `.` gets the name of the
structure in front. -/
def keywordstringC (fps : FUNCTION_PARAMETER_STRUCT) (keywordstring : String) : String :=
  if keywordstring.data.head? = some '.' then fps.name ++ keywordstring else keywordstring

/-- The scan for an existing keyword: the last slot, active or not, whose `keywordfull`
equals the keyword (`none` stands for `scanOK == 0`). -/
def scan_existing (kw : String) (parray : List FUNCTION_PARAMETER) : Option Nat :=
  lastIndexWhere (fun p => decide (kw = p.keywordfull)) parray 0 none

/-- The scan for the first available entry: the index of the first slot without
`FPFLAG_ACTIVE`; `none` when `pindex` reaches `NBparamMAX`. -/
def scan_free (C : FPSConsts) : List FUNCTION_PARAMETER → Option Nat
  | [] => none
  | p :: ps => if p.active C then (scan_free C ps).map (· + 1) else some 0

/-- The `while(pch != NULL)` loop that copies the keyword segments into
`keyword[keywordlevel]` and counts them. -/
def keyword_loop (C : FPSConsts) : List String → List String → Nat → List String × Nat
  | [], keyword, keywordlevel => (keyword, keywordlevel)
  | pch :: rest, keyword, keywordlevel =>
    keyword_loop C rest
      (keyword.set keywordlevel (strTake pch C.FUNCTION_PARAMETER_KEYWORD_STRMAXLEN))
      (keywordlevel + 1)

/-- The two `snprintf(..., "NULL")` of the string-valued types. -/
def FPVAL.setNULL (C : FPSConsts) (v : FPVAL) : FPVAL :=
  { v with string0 := strTake "NULL" (C.FUNCTION_PARAMETER_STRMAXLEN - 1),
           string1 := strTake "NULL" (C.FUNCTION_PARAMETER_STRMAXLEN - 1) }

/-- The `switch` "Default values" of `function_parameter_add_entry` (source lines
1804-1943). -/
def add_entry_defaults (C : FPSConsts) (p : FUNCTION_PARAMETER) : FUNCTION_PARAMETER :=
  if p.type = C.FPTYPE_INT64 then
    { p with val := { p.val with l0 := 0, l1 := 0, l2 := 0, l3 := 0 } }
  else if p.type = C.FPTYPE_FLOAT64 then
    { p with val := { p.val with f0 := 0, f1 := 0, f2 := 0, f3 := 0 } }
  else if p.type = C.FPTYPE_FLOAT32 then
    { p with val := { p.val with s0 := 0, s1 := 0, s2 := 0, s3 := 0 } }
  else if p.type = C.FPTYPE_PID then
    { p with val := { p.val with pid0 := 0, pid1 := 0 } }
  else if p.type = C.FPTYPE_TIMESPEC then
    { p with val := { p.val with ts0 := (0, 0), ts1 := (0, 0) } }
  else if p.type = C.FPTYPE_FILENAME ∨ p.type = C.FPTYPE_FITSFILENAME
      ∨ p.type = C.FPTYPE_EXECFILENAME ∨ p.type = C.FPTYPE_DIRNAME
      ∨ p.type = C.FPTYPE_STREAMNAME ∨ p.type = C.FPTYPE_STRING then
    { p with val := p.val.setNULL C }
  else if p.type = C.FPTYPE_ONOFF then
    { p with fpflag := clearFlag p.fpflag C.FPFLAG_ONOFF,
             val := { p.val with
                      string0 := strTake "OFF state" (C.FUNCTION_PARAMETER_STRMAXLEN - 1),
                      string1 := strTake " ON state" (C.FUNCTION_PARAMETER_STRMAXLEN - 1) } }
  else if p.type = C.FPTYPE_FPSNAME then
    { p with val := p.val.setNULL C }
  else p

/-- The `switch` that stores the value requested by the function call (source lines
1947-2043). -/
def add_entry_value (C : FPSConsts) (v : VALUEPTR) (p : FUNCTION_PARAMETER) :
    FUNCTION_PARAMETER :=
  if p.type = C.FPTYPE_INT64 then
    { p with val := { p.val with l0 := v.asINT64.1, l1 := v.asINT64.2.1,
                                 l2 := v.asINT64.2.2.1, l3 := v.asINT64.2.2.2 },
             cnt0 := p.cnt0 + 1 }
  else if p.type = C.FPTYPE_FLOAT64 then
    { p with val := { p.val with f0 := v.asFLOAT64.1, f1 := v.asFLOAT64.2.1,
                                 f2 := v.asFLOAT64.2.2.1, f3 := v.asFLOAT64.2.2.2 },
             cnt0 := p.cnt0 + 1 }
  else if p.type = C.FPTYPE_FLOAT32 then
    { p with val := { p.val with s0 := v.asFLOAT32.1, s1 := v.asFLOAT32.2.1,
                                 s2 := v.asFLOAT32.2.2.1, s3 := v.asFLOAT32.2.2.2 },
             cnt0 := p.cnt0 + 1 }
  else if p.type = C.FPTYPE_PID then
    { p with val := { p.val with pid0 := toInt32 v.asINT64.1 }, cnt0 := p.cnt0 + 1 }
  else if p.type = C.FPTYPE_TIMESPEC then
    { p with val := { p.val with ts0 := v.asTIMESPEC }, cnt0 := p.cnt0 + 1 }
  else if p.type = C.FPTYPE_FILENAME ∨ p.type = C.FPTYPE_FITSFILENAME
      ∨ p.type = C.FPTYPE_EXECFILENAME ∨ p.type = C.FPTYPE_DIRNAME
      ∨ p.type = C.FPTYPE_STREAMNAME ∨ p.type = C.FPTYPE_STRING then
    { p with val := { p.val with
                      string0 := strTake v.asString C.FUNCTION_PARAMETER_STRMAXLEN },
             cnt0 := p.cnt0 + 1 }
  else if p.type = C.FPTYPE_ONOFF then p
  else if p.type = C.FPTYPE_FPSNAME then
    { p with val := { p.val with
                      string0 := strTake v.asString C.FUNCTION_PARAMETER_STRMAXLEN },
             cnt0 := p.cnt0 + 1 }
  else p

/-- The writes of `function_parameter_add_entry` to the slot it allocates (source lines
1771-2043): flags, full keyword, keyword segments, description, type, counter, default
values, and the value given by the caller. -/
def add_entry_fill (C : FPSConsts) (kwC descriptionstring : String) (type fpflag : Nat)
    (valueptr : Option VALUEPTR) (p : FUNCTION_PARAMETER) : FUNCTION_PARAMETER :=
  let n := C.FUNCTION_PARAMETER_KEYWORD_STRMAXLEN * C.FUNCTION_PARAMETER_KEYWORD_MAXLEVEL
  let tmpstring := strTake kwC n
  let kl := keyword_loop C (strtok_all tmpstring '.') p.keyword 0
  let p1 : FUNCTION_PARAMETER :=
    { p with fpflag := fpflag, keywordfull := strTake kwC n, keyword := kl.1,
             keywordlevel := kl.2,
             description := strTake descriptionstring C.FUNCTION_PARAMETER_DESCR_STRMAXLEN,
             type := type, cnt0 := 0 }
  let p2 := add_entry_defaults C p1
  match valueptr with
  | none => p2
  | some v => add_entry_value C v p2

/-- `function_parameter_add_entry(fps, keywordstring, descriptionstring, type, fpflag,
valueptr)`: returns the store and `pindex`. The result is `none` when the call does
not return: the process exits because the limit `NBparamMAX` is reached, or the
behaviour is undefined because the keyword overruns a buffer (the local array
`keywordstringC` of `KEYWORD_STRMAXLEN * KEYWORD_MAXLEVEL` characters, or the rows of
`keyword[KEYWORD_MAXLEVEL]`). -/
def function_parameter_add_entry (C : FPSConsts) (fps : FUNCTION_PARAMETER_STRUCT)
    (keywordstring descriptionstring : String) (type fpflag : Nat)
    (valueptr : Option VALUEPTR) : Option (FUNCTION_PARAMETER_STRUCT × Nat) :=
  let kwC := keywordstringC fps keywordstring
  if C.FUNCTION_PARAMETER_KEYWORD_STRMAXLEN * C.FUNCTION_PARAMETER_KEYWORD_MAXLEVEL
      ≤ kwC.length then none
  else
    match scan_existing kwC fps.parray with
    | some pindex => some (fps, pindex)
    | none =>
      match scan_free C fps.parray with
      | none => none
      | some pindex =>
        if C.FUNCTION_PARAMETER_KEYWORD_MAXLEVEL < (strtok_all kwC '.').length then none
        else
          some (fps.modify pindex
                  (add_entry_fill C kwC descriptionstring type fpflag valueptr), pindex)

/-! ## The coercion table of the specification -/

/-- Expected kind "float": `CLIARG_FLOAT32`, `CLIARG_FLOAT64`, or the deprecated
`CLIARG_FLOAT`. -/
def CLIConsts.isFloatArg (K : CLIConsts) (ft : Nat) : Prop :=
  ft = K.CLIARG_FLOAT32 ∨ ft = K.CLIARG_FLOAT64 ∨ ft = K.CLIARG_FLOAT

/-- Expected kind "int/OnOff": the four integer types, `CLIARG_ONOFF`, or the deprecated
`CLIARG_LONG`. -/
def CLIConsts.isIntArg (K : CLIConsts) (ft : Nat) : Prop :=
  ft = K.CLIARG_INT32 ∨ ft = K.CLIARG_INT64 ∨ ft = K.CLIARG_UINT32 ∨ ft = K.CLIARG_UINT64
    ∨ ft = K.CLIARG_ONOFF ∨ ft = K.CLIARG_LONG

/-- One of the four words of an on/off argument. -/
def isOnOffWord (s : String) : Prop := s = "on" ∨ s = "ON" ∨ s = "off" ∨ s = "OFF"

/-- The lexed kinds the coercion table is stated for: float, int, image-ref,
command-word, or a string that is not a variable name. -/
def lexedKind (K : CLIConsts) (env : CLIEnv) (t : CMDARGTOKEN) : Prop :=
  t.type = K.tokFLOAT ∨ t.type = K.tokINT ∨ t.type = K.CLIARG_IMG ∨ t.type = K.CLIARG_STR
    ∨ (t.type = K.CLIARG_STR_NOT_IMG ∧ env.variable_ID t.string = none)

/-- The expected kinds the coercion table is stated for: float, int/OnOff,
string-not-image, image, string. -/
def expectedKind (K : CLIConsts) (ft : Nat) : Prop :=
  K.isFloatArg ft ∨ K.isIntArg ft ∨ ft = K.CLIARG_STR_NOT_IMG ∨ ft = K.CLIARG_IMG
    ∨ ft = K.CLIARG_STR

/-- The entries of the specification's coercion table that are not `X`, written from
the words of the specification: float and int tokens for float and int expected kinds;
an image-ref for image and string; a command-word for string; a non-variable string for
string-not-image and string; and a command-word or string for OnOff when it is one of
on, ON, off, OFF. -/
def coercion_table_accepts (K : CLIConsts) (t : CMDARGTOKEN) (ft : Nat) : Prop :=
  ((t.type = K.tokFLOAT ∨ t.type = K.tokINT) ∧ (K.isFloatArg ft ∨ K.isIntArg ft))
  ∨ (t.type = K.CLIARG_IMG ∧ (ft = K.CLIARG_IMG ∨ ft = K.CLIARG_STR))
  ∨ (t.type = K.CLIARG_STR ∧ ft = K.CLIARG_STR)
  ∨ (t.type = K.CLIARG_STR_NOT_IMG ∧ (ft = K.CLIARG_STR_NOT_IMG ∨ ft = K.CLIARG_STR))
  ∨ ((t.type = K.CLIARG_STR ∨ t.type = K.CLIARG_STR_NOT_IMG) ∧ ft = K.CLIARG_ONOFF
      ∧ isOnOffWord t.string)

instance (K : CLIConsts) (ft : Nat) : Decidable (K.isFloatArg ft) := by
  unfold CLIConsts.isFloatArg; infer_instance

instance (K : CLIConsts) (ft : Nat) : Decidable (K.isIntArg ft) := by
  unfold CLIConsts.isIntArg; infer_instance

instance (s : String) : Decidable (isOnOffWord s) := by
  unfold isOnOffWord; infer_instance

instance (K : CLIConsts) (env : CLIEnv) (t : CMDARGTOKEN) : Decidable (lexedKind K env t) := by
  unfold lexedKind; infer_instance

instance (K : CLIConsts) (ft : Nat) : Decidable (expectedKind K ft) := by
  unfold expectedKind; infer_instance

instance (K : CLIConsts) (t : CMDARGTOKEN) (ft : Nat) :
    Decidable (coercion_table_accepts K t ft) := by
  unfold coercion_table_accepts; infer_instance

/-- A state with the command word and one float token 2.5, for evaluating single
argument checks. -/
def floatTokenData : CLIData where
  cmdargtoken := [⟨5, 0, 0, "cmd"⟩, ⟨1, 5 / 2, 0, "2.5"⟩, ⟨0, 0, 0, ""⟩]
  argdata := [CLICMDARGVAL.zero]
  argcheck_process_flag := 1
  functionhelp_called := 0
  helpcalls := []

/-- A state with the command word and one float token -1.75, a value that is exact in
binary floating point, as is -1.75 + 0.5 = -1.25. -/
def negFloatTokenData : CLIData where
  cmdargtoken := [⟨5, 0, 0, "cmd"⟩, ⟨1, -7 / 4, 0, "-1.75"⟩, ⟨0, 0, 0, ""⟩]
  argdata := [CLICMDARGVAL.zero]
  argcheck_process_flag := 1
  functionhelp_called := 0
  helpcalls := []

/-- The state left by a help call at token `n`, from the words of the specification:
the token is blanked, argument processing is stopped, help is recorded as called, and
`help_command` has been called with the command word. -/
def helpState (K : CLIConsts) (d : CLIData) (n : Nat) : CLIData :=
  { d.setTok n { d.tok K n with string := snprintfTok K " " } with
      argcheck_process_flag := 0
      functionhelp_called := 1
      helpcalls := d.helpcalls ++ [(d.tok K 0).string] }

/-- The number of descriptors of a schema that take a CLI token (no `NOCLI` flag). -/
def countCLI (K : CLIConsts) (l : List CLICMDARGDEF) : Nat :=
  (l.filter (fun a => decide (a.flag &&& K.CLICMDARG_FLAG_NOCLI = 0))).length

/-- The schema `[.delay: Int64]`. -/
def delaySchema (K : CLIConsts) : List CLICMDARGDEF := [⟨K.CLIARG_INT64, ".delay", "delay", 0⟩]

/-- The call `cmd .delay ?`: argument 1 is the tag of the descriptor, argument 2 is the
literal `?`. -/
def keywordHelpData : CLIData where
  cmdargtoken := [⟨5, 0, 0, "cmd"⟩, ⟨3, 0, 0, ".delay"⟩, ⟨3, 0, 0, "?"⟩, ⟨0, 0, 0, ""⟩]
  argdata := [CLICMDARGVAL.zero]
  argcheck_process_flag := 1
  functionhelp_called := 0
  helpcalls := []

/-- The call `cmd 5 ?`: one integer argument followed by the literal `?`. -/
def trailingHelpData : CLIData where
  cmdargtoken := [⟨5, 0, 0, "cmd"⟩, ⟨2, 0, 5, "5"⟩, ⟨3, 0, 0, "?"⟩, ⟨0, 0, 0, ""⟩]
  argdata := [CLICMDARGVAL.zero]
  argcheck_process_flag := 1
  functionhelp_called := 0
  helpcalls := []

/-- The call `cmd 5 ?` for the two-argument schema of the witness. -/
def twoArgSchema (K : CLIConsts) : List CLICMDARGDEF :=
  [⟨K.CLIARG_INT64, ".delay", "delay", 0⟩, ⟨K.CLIARG_FLOAT64, ".gain", "gain", 0⟩]

deriving instance DecidableEq for Except

/-- The interpreter state at the end of a run of loop iterations, whether the loop
returned (`error`) or went through (`ok`). -/
def outcomeData : Except (CLIData × Nat) CheckLoopState → CLIData
  | .error r => r.1
  | .ok s => s.d

/-- The descriptors and stored last values for which the adoption of the last value is
followed by a successful check: the string kinds when the stored string fits the token
and store buffers and is not `?` (for an image, when it still names an image), and the
kinds int64 and float64 when their type code is the code `CLI_checkarg0` takes as an
integer, respectively float, token. -/
def dotAdoptable (K : CLIConsts) (env : CLIEnv) (a : CLICMDARGDEF) (v : CLICMDARGVAL) : Prop :=
  ((a.type = K.CLIARG_STR_NOT_IMG ∨ a.type = K.CLIARG_STR
      ∨ (a.type = K.CLIARG_IMG ∧ (env.image_ID v.s).isSome))
    ∧ v.s.length ≤ K.STRINGMAXLEN_CMDARGTOKEN_VAL - 1
    ∧ v.s.length ≤ K.STRINGMAXLEN_CLICMDARG - 1 ∧ v.s ≠ "?")
  ∨ (a.type = K.CLIARG_INT64 ∧ K.CLIARG_INT64 = K.tokINT)
  ∨ (a.type = K.CLIARG_FLOAT64 ∧ K.CLIARG_FLOAT64 = K.tokFLOAT)

instance (K : CLIConsts) (env : CLIEnv) (a : CLICMDARGDEF) (v : CLICMDARGVAL) :
    Decidable (dotAdoptable K env a v) := by
  unfold dotAdoptable; infer_instance

/-- The token carries the stored last value `v` of a descriptor of type `type`: the
string for the string kinds, `numl` for int64, `numf` for float64. -/
def carriesLastValue (K : CLIConsts) (type : Nat) (v : CLICMDARGVAL) (t : CMDARGTOKEN) : Prop :=
  ((type = K.CLIARG_STR_NOT_IMG ∨ type = K.CLIARG_STR ∨ type = K.CLIARG_IMG) → t.string = v.s)
  ∧ (type = K.CLIARG_INT64 → t.numl = v.i64)
  ∧ (type = K.CLIARG_FLOAT64 → t.numf = v.f64)

instance (K : CLIConsts) (type : Nat) (v : CLICMDARGVAL) (t : CMDARGTOKEN) :
    Decidable (carriesLastValue K type v t) := by
  unfold carriesLastValue; infer_instance

/-- The state of scenario S1: the call `cmd . 1.5 xyz` with previous last value
`delay = 42`. -/
def S1Data : CLIData where
  cmdargtoken := [⟨5, 0, 0, "cmd"⟩, ⟨3, 0, 0, "."⟩, ⟨1, 3 / 2, 0, "1.5"⟩, ⟨3, 0, 0, "xyz"⟩,
    ⟨0, 0, 0, ""⟩]
  argdata := [{ CLICMDARGVAL.zero with i64 := 42 }, CLICMDARGVAL.zero, CLICMDARGVAL.zero]
  argcheck_process_flag := 1
  functionhelp_called := 0
  helpcalls := []

/-- The schema of scenario S1: `[.delay: Int64, .gain: Float64, .name: StrNotImg]`. -/
def S1Schema (K : CLIConsts) : List CLICMDARGDEF :=
  [⟨K.CLIARG_INT64, ".delay", "delay", 0⟩, ⟨K.CLIARG_FLOAT64, ".gain", "gain", 0⟩,
    ⟨K.CLIARG_STR_NOT_IMG, ".name", "name", 0⟩]

/-- The call `cmd .` with a stored last value: integer 1 and string `im1`. -/
def dotData : CLIData where
  cmdargtoken := [⟨5, 0, 0, "cmd"⟩, ⟨3, 0, 0, "."⟩, ⟨0, 0, 0, ""⟩]
  argdata := [{ CLICMDARGVAL.zero with i64 := 1, ui64 := 1, s := "im1" }]
  argcheck_process_flag := 1
  functionhelp_called := 0
  helpcalls := []

/-- The last-value slot `v` of a descriptor of type `type` holds the value of token
`t`: the member of the descriptor's kind equals the token value converted to that kind.
Stated for the ten kinds float32, float64, int32, int64, uint32, uint64, on/off,
string-not-image, image and string. -/
def slotHolds (K : CLIConsts) (env : CLIEnv) (type : Nat) (v : CLICMDARGVAL)
    (t : CMDARGTOKEN) : Prop :=
  (type = K.CLIARG_FLOAT32 → v.f32 = env.toFloat32 t.numf) ∧
  (type = K.CLIARG_FLOAT64 → v.f64 = t.numf) ∧
  (type = K.CLIARG_INT32 → v.i32 = toInt32 t.numl) ∧
  (type = K.CLIARG_INT64 → v.i64 = t.numl) ∧
  (type = K.CLIARG_UINT32 → v.ui32 = toUInt32 t.numl) ∧
  (type = K.CLIARG_UINT64 → v.ui64 = toUInt64 t.numl) ∧
  (type = K.CLIARG_ONOFF → v.i64 = t.numl) ∧
  ((type = K.CLIARG_STR_NOT_IMG ∨ type = K.CLIARG_IMG ∨ type = K.CLIARG_STR) →
    v.s = strTake t.string (K.STRINGMAXLEN_CLICMDARG - 1))

/-- A process state that holds, next to the interpreter state, a function parameter
structure (`data.fps`). -/
structure CLIWorld where
  data : CLIData
  fps : FUNCTION_PARAMETER_STRUCT
deriving DecidableEq, Repr

/-- `CLI_checkarg_array` in a process that also holds a function parameter structure.
The function takes no structure as argument and its body names none, so the structure
is carried through unchanged. -/
def CLI_checkarg_array_world (K : CLIConsts) (env : CLIEnv) (w : CLIWorld)
    (fpscliarg : List CLICMDARGDEF) : CLIWorld × Nat :=
  ((CLI_checkarg_array K env w.data fpscliarg).1 |> fun d => { w with data := d },
   (CLI_checkarg_array K env w.data fpscliarg).2)

/-- A structure `fps` of three slots whose first slot is the Int64 parameter
`fps.delay`, added with the flag ACTIVE and no initial value. -/
def delayFPS : FUNCTION_PARAMETER_STRUCT :=
  match function_parameter_add_entry milkFPSConsts
      (function_parameter_struct_create milkFPSConsts 3 "fps" 0) ".delay" "delay"
      milkFPSConsts.FPTYPE_INT64 milkFPSConsts.FPFLAG_ACTIVE none with
  | some r => r.1
  | none => function_parameter_struct_create milkFPSConsts 3 "fps" 0

/-- The call `cmd .delay 7`: argument 1 is the tag of the descriptor, argument 2 the
integer 7. -/
def keywordSetData : CLIData where
  cmdargtoken := [⟨5, 0, 0, "cmd"⟩, ⟨3, 0, 0, ".delay"⟩, ⟨2, 0, 7, "7"⟩, ⟨0, 0, 0, ""⟩]
  argdata := [CLICMDARGVAL.zero, CLICMDARGVAL.zero]
  argcheck_process_flag := 1
  functionhelp_called := 0
  helpcalls := []

/-- The schema of scenario S2: `[.enable: OnOff]`. -/
def enableSchema (K : CLIConsts) : List CLICMDARGDEF :=
  [⟨K.CLIARG_ONOFF, ".enable", "enable", 0⟩]

/-- The call `cmd <word>` with the word lexed as a string that is not an image. -/
def wordData (word : String) : CLIData where
  cmdargtoken := [⟨5, 0, 0, "cmd"⟩, ⟨3, 0, 0, word⟩, ⟨0, 0, 0, ""⟩]
  argdata := [CLICMDARGVAL.zero]
  argcheck_process_flag := 1
  functionhelp_called := 0
  helpcalls := []

/-- A structure `fps` of three slots whose first slot is the OnOff parameter
`fps.enable`, added with the flag ACTIVE. -/
def enableFPS : FUNCTION_PARAMETER_STRUCT :=
  match function_parameter_add_entry milkFPSConsts
      (function_parameter_struct_create milkFPSConsts 3 "fps" 0) ".enable" "enable"
      milkFPSConsts.FPTYPE_ONOFF milkFPSConsts.FPFLAG_ACTIVE none with
  | some r => r.1
  | none => function_parameter_struct_create milkFPSConsts 3 "fps" 0

/-- A structure `fps` of three slots whose first two slots are the OnOff parameters
`fps.enablex` and `fps.enable`, added in this order with the flag ACTIVE. -/
def enablexFPS : FUNCTION_PARAMETER_STRUCT :=
  match function_parameter_add_entry milkFPSConsts
      (function_parameter_struct_create milkFPSConsts 3 "fps" 0) ".enablex" "enablex"
      milkFPSConsts.FPTYPE_ONOFF milkFPSConsts.FPFLAG_ACTIVE none with
  | some r =>
    match function_parameter_add_entry milkFPSConsts r.1 ".enable" "enable"
        milkFPSConsts.FPTYPE_ONOFF milkFPSConsts.FPFLAG_ACTIVE none with
    | some r1 => r1.1
    | none => r.1
  | none => function_parameter_struct_create milkFPSConsts 3 "fps" 0

/-- The schema `[.a: Int64 with NOCLI, .b: Int64, .c: Int64]`: the first descriptor is
not taken from the command line. -/
def nocliSchema (K : CLIConsts) : List CLICMDARGDEF :=
  [⟨K.CLIARG_INT64, ".a", "a", K.CLICMDARG_FLAG_NOCLI⟩, ⟨K.CLIARG_INT64, ".b", "b", 0⟩,
    ⟨K.CLIARG_INT64, ".c", "c", 0⟩]

/-- The call `cmd 5 6` with the stored last values `a = 9`, `b = 0`, `c = 0`. -/
def nocliData : CLIData where
  cmdargtoken := [⟨5, 0, 0, "cmd"⟩, ⟨2, 0, 5, "5"⟩, ⟨2, 0, 6, "6"⟩, ⟨0, 0, 0, ""⟩]
  argdata := [{ CLICMDARGVAL.zero with i64 := 9 }, CLICMDARGVAL.zero, CLICMDARGVAL.zero]
  argcheck_process_flag := 1
  functionhelp_called := 0
  helpcalls := []

/-- Add an Int64 parameter with the flag ACTIVE and no initial value; the structure is
returned as it is when the call does not return. -/
def addInt64 (fps : FUNCTION_PARAMETER_STRUCT) (keywordstring : String) :
    FUNCTION_PARAMETER_STRUCT :=
  match function_parameter_add_entry milkFPSConsts fps keywordstring keywordstring
      milkFPSConsts.FPTYPE_INT64 milkFPSConsts.FPFLAG_ACTIVE none with
  | some r => r.1
  | none => fps

/-- A structure `fps` of four slots with the Int64 parameters `fps.a`, `fps.b` and
`fps.c` in the slots 0, 1 and 2. -/
def abcFPS : FUNCTION_PARAMETER_STRUCT :=
  addInt64 (addInt64 (addInt64 (function_parameter_struct_create milkFPSConsts 4 "fps" 0) ".a")
    ".b") ".c"

/-- The full keyword, current value `val.l[0]` and update counter of every slot. -/
def slotValues (fps : FUNCTION_PARAMETER_STRUCT) : List (String × Int × Nat) :=
  fps.parray.map fun p => (p.keywordfull, p.val.l0, p.cnt0)

/-! ## The store invariant of the specification -/

/-- The `.`-join of the segments of a keyword path, from the words of the
specification (`".".join(p.keyword_path)`). -/
def dotJoin (segs : List String) : String :=
  String.mk (['.'].intercalate (segs.map String.data))

/-- The store invariant of the specification for one slot: a slot with ACTIVE set has a
type other than Undef, between 1 and `KEYWORD_MAXLEVEL` keyword segments, and a full
keyword equal to the `.`-join of its keyword path. -/
def FUNCTION_PARAMETER.storeInvariant (C : FPSConsts) (p : FUNCTION_PARAMETER) : Prop :=
  p.active C →
    p.type ≠ C.FPTYPE_UNDEF ∧ 1 ≤ p.keywordlevel ∧
    p.keywordlevel ≤ C.FUNCTION_PARAMETER_KEYWORD_MAXLEVEL ∧
    p.keywordfull = dotJoin (p.keyword.take p.keywordlevel)

instance (C : FPSConsts) (p : FUNCTION_PARAMETER) : Decidable (p.storeInvariant C) := by
  unfold FUNCTION_PARAMETER.storeInvariant; infer_instance

/-- The store invariant for every slot of a structure. -/
def FUNCTION_PARAMETER_STRUCT.storeInvariant (C : FPSConsts)
    (fps : FUNCTION_PARAMETER_STRUCT) : Prop :=
  ∀ p ∈ fps.parray, p.storeInvariant C

instance (C : FPSConsts) (fps : FUNCTION_PARAMETER_STRUCT) : Decidable (fps.storeInvariant C) := by
  unfold FUNCTION_PARAMETER_STRUCT.storeInvariant; infer_instance

/-- A call of `function_parameter_add_entry` or of one of the setters of
`function_parameters.c`, with its arguments. -/
inductive FPSCall where
  | add_entry (keywordstring descriptionstring : String) (type fpflag : Nat)
      (valueptr : Option VALUEPTR)
  | SetParamValue_INT64 (paramname : String) (value : Int)
  | SetParamValue_FLOAT64 (paramname : String) (value : ℚ)
  | SetParamValue_FLOAT32 (paramname : String) (value : ℚ)
  | SetParamValue_STRING (paramname : String) (stringvalue : String)
  | SetParamValue_ONOFF (paramname : String) (ONOFFvalue : Int)

/-- The structure after a call; `none` when the call does not return. -/
def FPSCall.run (C : FPSConsts) (fps : FUNCTION_PARAMETER_STRUCT) :
    FPSCall → Option FUNCTION_PARAMETER_STRUCT
  | .add_entry keywordstring descriptionstring type fpflag valueptr =>
    (function_parameter_add_entry C fps keywordstring descriptionstring type fpflag
      valueptr).map (·.1)
  | .SetParamValue_INT64 paramname value =>
    functionparameter_SetParamValue_INT64 C fps paramname value
  | .SetParamValue_FLOAT64 paramname value =>
    functionparameter_SetParamValue_FLOAT64 C fps paramname value
  | .SetParamValue_FLOAT32 paramname value =>
    functionparameter_SetParamValue_FLOAT32 C fps paramname value
  | .SetParamValue_STRING paramname stringvalue =>
    functionparameter_SetParamValue_STRING C fps paramname stringvalue
  | .SetParamValue_ONOFF paramname ONOFFvalue =>
    functionparameter_SetParamValue_ONOFF C fps paramname ONOFFvalue

/-- The structure after a sequence of calls; `none` when one of them does not return. -/
def runCalls (C : FPSConsts) :
    FUNCTION_PARAMETER_STRUCT → List FPSCall → Option FUNCTION_PARAMETER_STRUCT
  | fps, [] => some fps
  | fps, c :: cs =>
    match c.run C fps with
    | none => none
    | some fps1 => runCalls C fps1 cs

/-- A full keyword whose `.`-separated segments are all non-empty and shorter than
`KEYWORD_STRMAXLEN`. -/
def properKeyword (C : FPSConsts) (kwC : String) : Prop :=
  ∀ seg ∈ kwC.data.splitOn '.',
    seg ≠ [] ∧ seg.length < C.FUNCTION_PARAMETER_KEYWORD_STRMAXLEN

instance (C : FPSConsts) (kwC : String) : Decidable (properKeyword C kwC) := by
  unfold properKeyword; infer_instance

/-- The calls under which the store invariant is kept, for a structure `fps`:
`function_parameter_add_entry` with a type other than Undef and a proper full keyword;
every setter call. -/
def FPSCall.proper (C : FPSConsts) (fps : FUNCTION_PARAMETER_STRUCT) : FPSCall → Prop
  | .add_entry keywordstring _ type _ _ =>
    type ≠ C.FPTYPE_UNDEF ∧ properKeyword C (keywordstringC fps keywordstring)
  | _ => True

instance (C : FPSConsts) (fps : FUNCTION_PARAMETER_STRUCT) (c : FPSCall) :
    Decidable (c.proper C fps) := by
  cases c <;> unfold FPSCall.proper <;> infer_instance

/-- A sequence of calls on a fresh structure: two parameters are added and set. -/
def sampleCalls : List FPSCall :=
  [.add_entry ".x" "x" milkFPSConsts.FPTYPE_INT64 milkFPSConsts.FPFLAG_ACTIVE none,
   .SetParamValue_INT64 ".x" 5,
   .add_entry ".y.z" "z" milkFPSConsts.FPTYPE_ONOFF milkFPSConsts.FPFLAG_ACTIVE none,
   .SetParamValue_ONOFF ".y.z" 1,
   .add_entry ".x" "x again" milkFPSConsts.FPTYPE_FLOAT64 0 none]

/-- What the store invariant reads in each slot: whether ACTIVE is set, the type, the
full keyword and the keyword path. -/
def slotKeywords (C : FPSConsts) (fps : FUNCTION_PARAMETER_STRUCT) :
    List (Bool × Nat × String × List String) :=
  fps.parray.map fun p =>
    (decide (p.active C), p.type, p.keywordfull, p.keyword.take p.keywordlevel)

/-- The structure after the calls `sampleCalls` on a fresh structure `fps` of three
slots. -/
def sampleStore : FUNCTION_PARAMETER_STRUCT :=
  match runCalls milkFPSConsts (function_parameter_struct_create milkFPSConsts 3 "fps" 0)
      sampleCalls with
  | some fps => fps
  | none => function_parameter_struct_create milkFPSConsts 3 "fps" 0

/-! ## The validator (`functionparameter_CheckParameter`, `functionparameter_CheckParametersAll`) -/

/-- Further numeric constants of `function_parameters.h`, used by the validator and by
the command interpreter: parameter flags, message codes, the size of one message and
the number `FPS_NB_MSG` of rows of the message arrays of the header, the status and
signal bits of the header, and the size of the buffer of a log message. The header is
not among the sources, so the values are a parameter. -/
structure CheckConsts extends FPSConsts where
  FPFLAG_USED : Nat
  FPFLAG_CHECKINIT : Nat
  FPFLAG_MINLIMIT : Nat
  FPFLAG_MAXLIMIT : Nat
  FPFLAG_ERROR : Nat
  FPFLAG_WRITE : Nat
  FPFLAG_WRITECONF : Nat
  FPFLAG_WRITERUN : Nat
  FPFLAG_WRITESTATUS : Nat
  FPFLAG_FILE_RUN_REQUIRED : Nat
  FPFLAG_FPS_RUN_REQUIRED : Nat
  FPFLAG_STREAM_RUN_REQUIRED : Nat
  FPS_MSG_FLAG_NOTINITIALIZED : Nat
  FPS_MSG_FLAG_BELOWMIN : Nat
  FPS_MSG_FLAG_ABOVEMAX : Nat
  FPS_MSG_FLAG_ERROR : Nat
  FUNCTION_PARAMETER_STRUCT_MSG_SIZE : Nat
  FPS_NB_MSG : Nat
  FUNCTION_PARAMETER_STRUCT_STATUS_CONF : Nat
  FUNCTION_PARAMETER_STRUCT_STATUS_RUN : Nat
  FUNCTION_PARAMETER_STRUCT_STATUS_CMDCONF : Nat
  FUNCTION_PARAMETER_STRUCT_STATUS_CMDRUN : Nat
  FUNCTION_PARAMETER_STRUCT_STATUS_CHECKOK : Nat
  FUNCTION_PARAMETER_STRUCT_SIGNAL_CONFRUN : Nat
  FUNCTION_PARAMETER_STRUCT_SIGNAL_UPDATE : Nat
  FUNCTION_PARAMETER_STRUCT_SIGNAL_CHECKED : Nat
  STREAM_LOAD_SOURCE_NOTFOUND : Nat
  STRINGMAXLEN_FPS_LOGMSG : Nat
deriving DecidableEq, Repr

/-- The parameter flags that the validator tests. -/
def CheckConsts.testedFlags (V : CheckConsts) : List Nat :=
  [V.FPFLAG_ACTIVE, V.FPFLAG_USED, V.FPFLAG_CHECKINIT, V.FPFLAG_MINLIMIT, V.FPFLAG_MAXLIMIT,
    V.FPFLAG_FILE_RUN_REQUIRED, V.FPFLAG_FPS_RUN_REQUIRED, V.FPFLAG_STREAM_RUN_REQUIRED,
    V.FPFLAG_WRITE, V.FPFLAG_WRITECONF, V.FPFLAG_WRITERUN]

/-- What the validator theorems use of the constants: the flags `ERROR` and
`WRITESTATUS` that a pass writes are non-zero masks of a 64-bit word that share no bit
with each other and with the flags that the pass tests; `CHECKOK` is a non-zero mask
that shares no bit with `CONF` and `RUN`; `CHECKED` is a mask of a 64-bit word; the
numeric types share no bit with the type stream name (the stream check tests
`type & FPTYPE_STREAMNAME`); there is at least one message row. -/
def CheckConsts.WF (V : CheckConsts) : Prop :=
  V.toFPSConsts.WF
  ∧ (∀ a ∈ V.testedFlags, a < 2 ^ 64 ∧ a &&& V.FPFLAG_ERROR = 0 ∧ a &&& V.FPFLAG_WRITESTATUS = 0)
  ∧ V.FPFLAG_ERROR ≠ 0 ∧ V.FPFLAG_ERROR < 2 ^ 64
  ∧ V.FPFLAG_WRITESTATUS ≠ 0 ∧ V.FPFLAG_WRITESTATUS < 2 ^ 64
  ∧ V.FPFLAG_ERROR &&& V.FPFLAG_WRITESTATUS = 0
  ∧ V.FUNCTION_PARAMETER_STRUCT_STATUS_CHECKOK ≠ 0
  ∧ V.FUNCTION_PARAMETER_STRUCT_STATUS_CHECKOK < 2 ^ 64
  ∧ V.FUNCTION_PARAMETER_STRUCT_STATUS_CONF < 2 ^ 64
  ∧ V.FUNCTION_PARAMETER_STRUCT_STATUS_RUN < 2 ^ 64
  ∧ V.FUNCTION_PARAMETER_STRUCT_STATUS_CONF &&& V.FUNCTION_PARAMETER_STRUCT_STATUS_CHECKOK = 0
  ∧ V.FUNCTION_PARAMETER_STRUCT_STATUS_RUN &&& V.FUNCTION_PARAMETER_STRUCT_STATUS_CHECKOK = 0
  ∧ V.FUNCTION_PARAMETER_STRUCT_SIGNAL_CHECKED < 2 ^ 64
  ∧ V.FPTYPE_INT64 &&& V.FPTYPE_STREAMNAME = 0
  ∧ V.FPTYPE_FLOAT64 &&& V.FPTYPE_STREAMNAME = 0
  ∧ V.FPTYPE_FLOAT32 &&& V.FPTYPE_STREAMNAME = 0
  ∧ 0 < V.FPS_NB_MSG

instance (V : CheckConsts) : Decidable V.WF := by
  unfold CheckConsts.WF; infer_instance

/-- A concrete assignment: one bit per flag, 100 messages of 500 characters. Used to
evaluate the model on concrete calls. -/
def milkCheckConsts : CheckConsts where
  toFPSConsts := milkFPSConsts
  FPFLAG_USED := 0x0000000000000002
  FPFLAG_WRITE := 0x0000000000000100
  FPFLAG_WRITECONF := 0x0000000000000200
  FPFLAG_WRITERUN := 0x0000000000000400
  FPFLAG_WRITESTATUS := 0x0000000000000800
  FPFLAG_CHECKINIT := 0x0000000000001000
  FPFLAG_MINLIMIT := 0x0000000000002000
  FPFLAG_MAXLIMIT := 0x0000000000004000
  FPFLAG_ERROR := 0x0000000000008000
  FPFLAG_FILE_RUN_REQUIRED := 0x0000000000010000
  FPFLAG_FPS_RUN_REQUIRED := 0x0000000000020000
  FPFLAG_STREAM_RUN_REQUIRED := 0x0000000000040000
  FPS_MSG_FLAG_NOTINITIALIZED := 0x0001
  FPS_MSG_FLAG_BELOWMIN := 0x0002
  FPS_MSG_FLAG_ABOVEMAX := 0x0004
  FPS_MSG_FLAG_ERROR := 0x0008
  FUNCTION_PARAMETER_STRUCT_MSG_SIZE := 500
  FPS_NB_MSG := 100
  FUNCTION_PARAMETER_STRUCT_STATUS_CONF := 0x0001
  FUNCTION_PARAMETER_STRUCT_STATUS_RUN := 0x0002
  FUNCTION_PARAMETER_STRUCT_STATUS_CMDCONF := 0x0010
  FUNCTION_PARAMETER_STRUCT_STATUS_CMDRUN := 0x0020
  FUNCTION_PARAMETER_STRUCT_STATUS_CHECKOK := 0x0100
  FUNCTION_PARAMETER_STRUCT_SIGNAL_CONFRUN := 0x0001
  FUNCTION_PARAMETER_STRUCT_SIGNAL_UPDATE := 0x0004
  FUNCTION_PARAMETER_STRUCT_SIGNAL_CHECKED := 0x0008
  STREAM_LOAD_SOURCE_NOTFOUND := 0
  STRINGMAXLEN_FPS_LOGMSG := 1000

/-- The same assignment with room for two messages only, to evaluate a pass that fills
the message arrays. -/
def smallCheckConsts : CheckConsts := { milkCheckConsts with FPS_NB_MSG := 2 }

/-- What `COREMOD_IOFITS_LoadMemStream(name, &fpflag, &imLOC)` leaves: the stream
identifier it returns, the source location `imLOC`, and the flag word, which it receives
by address. -/
structure StreamProbe where
  ID : Int
  imLOC : Nat
  fpflag : Nat
deriving DecidableEq, Repr

/-- The answers of the file system, of the stream loader and of the formatting of
floating-point numbers, which the validator reads: `file_exists(name) != 0`,
`is_fits_file(name) != 0`, `stat(name) == 0 && st_mode & S_IXUSR`, the value returned
by `function_parameter_struct_connect(name, &fpstest, FPSCONNECT_SIMPLE)`, the result of
`COREMOD_IOFITS_LoadMemStream`, and the texts that `%lf` and `%f` print; and the macro
`SNPRINTF_CHECK` of a missing header: given the size of the buffer and the formatted
text, the content of the buffer, or `none` when the macro does not return. -/
structure FPSEnv where
  SNPRINTF_CHECK : Nat → String → Option String
  file_exists : String → Bool
  is_fits_file : String → Bool
  stat_executable : String → Bool
  struct_connect : String → Int
  LoadMemStream : String → Nat → StreamProbe
  fmt_lf : ℚ → String
  fmt_f : ℚ → String

/-- The text that `%ld` prints. -/
def fmt_ld (z : Int) : String := toString z

/-- Write `x` into element `n` of an array held as a list. The list holds the leading
elements of the array; the elements after the end of the list have the value `z` that
they have in a freshly created structure. -/
def arraySet {α : Type} (l : List α) (n : Nat) (x z : α) : List α :=
  (l ++ List.replicate (n + 1 - l.length) z).set n x

/-- The statements that record one message (source lines 3008-3018 and alike): the
parameter index, the code and the text are written into row `msgcnt` of the message
arrays, then `msgcnt` and `conferrcnt` are incremented. The source has no test of
`msgcnt` against the number of rows `FPS_NB_MSG`; the result is `none` when the row
written is past the last row. An entry is `(pindex, code, text)`. -/
def msg_write (V : CheckConsts) (fps : FUNCTION_PARAMETER_STRUCT) (e : Nat × Nat × String) :
    Option FUNCTION_PARAMETER_STRUCT :=
  if fps.msgcnt < V.FPS_NB_MSG then
    some { fps with
      msgpindex := arraySet fps.msgpindex fps.msgcnt e.1 0
      msgcode := arraySet fps.msgcode fps.msgcnt e.2.1 0
      message := arraySet fps.message fps.msgcnt
        (strTake e.2.2 (V.FUNCTION_PARAMETER_STRUCT_MSG_SIZE - 1)) ""
      msgcnt := fps.msgcnt + 1
      conferrcnt := fps.conferrcnt + 1 }
  else none

/-- Record the messages of a list, in order. -/
def log_write (V : CheckConsts) :
    List (Nat × Nat × String) → FUNCTION_PARAMETER_STRUCT → Option FUNCTION_PARAMETER_STRUCT
  | [], fps => some fps
  | e :: es, fps => (msg_write V fps e).bind (log_write V es)

/-- A group of checks of `functionparameter_CheckParameter`: each check that fails
records its message (code and text, for parameter `pindex`) and sets `err = 1`. The
state is the structure and `err`. -/
def check_fail (V : CheckConsts) (pindex : Nat) (msgs : List (Nat × String))
    (s : FUNCTION_PARAMETER_STRUCT × Nat) : Option (FUNCTION_PARAMETER_STRUCT × Nat) :=
  (log_write V (msgs.map fun m => (pindex, m)) s.1).map fun fps =>
    (fps, if msgs = [] then s.2 else 1)

/-- The check "not initialized" (source lines 3005-3020). -/
def initMsgs (V : CheckConsts) (p : FUNCTION_PARAMETER) : List (Nat × String) :=
  if p.fpflag &&& V.FPFLAG_CHECKINIT ≠ 0 ∧ p.cnt0 = 0 then
    [(V.FPS_MSG_FLAG_NOTINITIALIZED ||| V.FPS_MSG_FLAG_ERROR, "Not initialized")]
  else []

/-- The three checks of the minimum value, for the types int64, float64 and float32
(source lines 3024-3080). -/
def minMsgs (V : CheckConsts) (env : FPSEnv) (p : FUNCTION_PARAMETER) : List (Nat × String) :=
  (if p.type = V.FPTYPE_INT64 ∧ p.fpflag &&& V.FPFLAG_MINLIMIT ≠ 0 ∧ p.val.l0 < p.val.l1 then
    [(V.FPS_MSG_FLAG_BELOWMIN ||| V.FPS_MSG_FLAG_ERROR,
      "int64 value " ++ fmt_ld p.val.l0 ++ " below min " ++ fmt_ld p.val.l1)]
   else [])
  ++ (if p.type = V.FPTYPE_FLOAT64 ∧ p.fpflag &&& V.FPFLAG_MINLIMIT ≠ 0 ∧ p.val.f0 < p.val.f1 then
    [(V.FPS_MSG_FLAG_BELOWMIN ||| V.FPS_MSG_FLAG_ERROR,
      "float64 value " ++ env.fmt_lf p.val.f0 ++ " below min " ++ env.fmt_lf p.val.f1)]
   else [])
  ++ (if p.type = V.FPTYPE_FLOAT32 ∧ p.fpflag &&& V.FPFLAG_MINLIMIT ≠ 0 ∧ p.val.s0 < p.val.s1 then
    [(V.FPS_MSG_FLAG_BELOWMIN ||| V.FPS_MSG_FLAG_ERROR,
      "float32 value " ++ env.fmt_f p.val.s0 ++ " below min " ++ env.fmt_f p.val.s1)]
   else [])

/-- The three checks of the maximum value (source lines 3083-3143). -/
def maxMsgs (V : CheckConsts) (env : FPSEnv) (p : FUNCTION_PARAMETER) : List (Nat × String) :=
  (if p.type = V.FPTYPE_INT64 ∧ p.fpflag &&& V.FPFLAG_MAXLIMIT ≠ 0 ∧ p.val.l0 > p.val.l2 then
    [(V.FPS_MSG_FLAG_ABOVEMAX ||| V.FPS_MSG_FLAG_ERROR,
      "int64 value " ++ fmt_ld p.val.l0 ++ " above max " ++ fmt_ld p.val.l2)]
   else [])
  ++ (if p.type = V.FPTYPE_FLOAT64 ∧ p.fpflag &&& V.FPFLAG_MAXLIMIT ≠ 0 ∧ p.val.f0 > p.val.f2 then
    [(V.FPS_MSG_FLAG_ABOVEMAX ||| V.FPS_MSG_FLAG_ERROR,
      "float64 value " ++ env.fmt_lf p.val.f0 ++ " above max " ++ env.fmt_lf p.val.f2)]
   else [])
  ++ (if p.type = V.FPTYPE_FLOAT32 ∧ p.fpflag &&& V.FPFLAG_MAXLIMIT ≠ 0 ∧ p.val.s0 > p.val.s2 then
    [(V.FPS_MSG_FLAG_ABOVEMAX ||| V.FPS_MSG_FLAG_ERROR,
      "float32 value " ++ env.fmt_f p.val.s0 ++ " above max " ++ env.fmt_f p.val.s2)]
   else [])

/-- The checks of the file types: file name, FITS file name, executable file name
(source lines 3147-3226, build without `STANDALONE`). -/
def fileMsgs (V : CheckConsts) (env : FPSEnv) (p : FUNCTION_PARAMETER) : List (Nat × String) :=
  (if p.type = V.FPTYPE_FILENAME ∧ p.fpflag &&& V.FPFLAG_FILE_RUN_REQUIRED ≠ 0
      ∧ env.file_exists p.val.string0 = false then
    [(V.FPS_MSG_FLAG_ERROR, "File " ++ p.val.string0 ++ " does not exist")]
   else [])
  ++ (if p.type = V.FPTYPE_FITSFILENAME ∧ p.fpflag &&& V.FPFLAG_FILE_RUN_REQUIRED ≠ 0
      ∧ env.is_fits_file p.val.string0 = false then
    [(V.FPS_MSG_FLAG_ERROR, "FITS file " ++ p.val.string0 ++ " does not exist")]
   else [])
  ++ (if p.type = V.FPTYPE_EXECFILENAME ∧ p.fpflag &&& V.FPFLAG_FILE_RUN_REQUIRED ≠ 0
      ∧ env.stat_executable p.val.string0 = false then
    [(V.FPS_MSG_FLAG_ERROR, "File " ++ p.val.string0 ++ " cannot be executed")]
   else [])

/-- The check of a child structure (source lines 3230-3255). -/
def fpsnameMsgs (V : CheckConsts) (env : FPSEnv) (p : FUNCTION_PARAMETER) : List (Nat × String) :=
  if p.type = V.FPTYPE_FPSNAME ∧ p.fpflag &&& V.FPFLAG_FPS_RUN_REQUIRED ≠ 0
      ∧ env.struct_connect p.val.string0 < 1 then
    [(V.FPS_MSG_FLAG_ERROR, "FPS " ++ p.val.string0 ++ ": no connection")]
  else []

/-- The flag word of the parameter after the stream check (source lines 3266-3271):
the stream loader is called, with the address of the flag word, when
`type & FPTYPE_STREAMNAME`. The stream fields of `info` that the check fills in are not
part of the embedding. -/
def streamFlag (V : CheckConsts) (env : FPSEnv) (p : FUNCTION_PARAMETER) : Nat :=
  if p.type &&& V.FPTYPE_STREAMNAME ≠ 0 then (env.LoadMemStream p.val.string0 p.fpflag).fpflag
  else p.fpflag

/-- The stream check (source lines 3304-3324). -/
def streamMsgs (V : CheckConsts) (env : FPSEnv) (p : FUNCTION_PARAMETER) : List (Nat × String) :=
  if p.type &&& V.FPTYPE_STREAMNAME ≠ 0
      ∧ (env.LoadMemStream p.val.string0 p.fpflag).fpflag &&& V.FPFLAG_STREAM_RUN_REQUIRED ≠ 0
      ∧ (env.LoadMemStream p.val.string0 p.fpflag).imLOC = V.STREAM_LOAD_SOURCE_NOTFOUND then
    [(V.FPS_MSG_FLAG_ERROR, "cannot load stream " ++ p.val.string0)]
  else []

/-- `functionparameter_CheckParameter(fpsentry, pindex)`: the structure after the call
and the value `err` returned. A slot without ACTIVE or without USED is left as it is;
for a slot with ACTIVE the keyword is first formatted with `SNPRINTF_CHECK` for a line
of the log file, and the result is `none` when the macro does not return. Otherwise the
checks run in the order of the source, the minimum checks only while `err == 0` and
the maximum checks only while `err == 0`; at the end the flag ERROR of the slot is set
when `err == 1` and cleared otherwise. The lines written to the log file are not part
of the embedding. -/
def functionparameter_CheckParameter (V : CheckConsts) (env : FPSEnv)
    (fpsentry : FUNCTION_PARAMETER_STRUCT) (pindex : Nat) :
    Option (FUNCTION_PARAMETER_STRUCT × Nat) :=
  match fpsentry.parray[pindex]? with
  | none => none
  | some p =>
    if p.fpflag &&& V.FPFLAG_ACTIVE = 0 then some (fpsentry, 0)
    else if env.SNPRINTF_CHECK V.STRINGMAXLEN_FPS_LOGMSG p.keywordfull = none then none
    else if p.fpflag &&& V.FPFLAG_USED = 0 then some (fpsentry, 0)
    else
      (check_fail V pindex (initMsgs V p) (fpsentry, 0)).bind fun s1 =>
      (if s1.2 = 0 then check_fail V pindex (minMsgs V env p) s1 else some s1).bind fun s2 =>
      (if s2.2 = 0 then check_fail V pindex (maxMsgs V env p) s2 else some s2).bind fun s3 =>
      (check_fail V pindex (fileMsgs V env p) s3).bind fun s4 =>
      (check_fail V pindex (fpsnameMsgs V env p) s4).bind fun s5 =>
      (check_fail V pindex (streamMsgs V env p) s5).map fun s6 =>
        (s6.1.modify pindex fun q =>
            { q with fpflag := if s6.2 = 1 then streamFlag V env p ||| V.FPFLAG_ERROR
                               else clearFlag (streamFlag V env p) V.FPFLAG_ERROR },
          s6.2)

/-- The loop `for(pindex...) errcnt += functionparameter_CheckParameter(fpsentry,
pindex)` for the `n` slots from `pindex` on. -/
def CheckParameter_loop (V : CheckConsts) (env : FPSEnv) :
    Nat → Nat → FUNCTION_PARAMETER_STRUCT → Nat → Option (FUNCTION_PARAMETER_STRUCT × Nat)
  | _, 0, fps, errcnt => some (fps, errcnt)
  | pindex, n + 1, fps, errcnt =>
    match functionparameter_CheckParameter V env fps pindex with
    | none => none
    | some r => CheckParameter_loop V env (pindex + 1) n r.1 (errcnt + r.2)

/-- The variable `writeOK` of the write status loop (source lines 3404-3441): the flag
WRITE by default, replaced by WRITECONF if the status has CONF, then replaced by
WRITERUN if the status has RUN. -/
def writeOK (V : CheckConsts) (status : Nat) (p : FUNCTION_PARAMETER) : Nat :=
  let w0 := if p.fpflag &&& V.FPFLAG_WRITE ≠ 0 then 1 else 0
  let w1 :=
    if status &&& V.FUNCTION_PARAMETER_STRUCT_STATUS_CONF ≠ 0 then
      (if p.fpflag &&& V.FPFLAG_WRITECONF ≠ 0 then 1 else 0)
    else w0
  if status &&& V.FUNCTION_PARAMETER_STRUCT_STATUS_RUN ≠ 0 then
    (if p.fpflag &&& V.FPFLAG_WRITERUN ≠ 0 then 1 else 0)
  else w1

/-- One iteration of the write status loop (source lines 3443-3450). -/
def write_status (V : CheckConsts) (status : Nat) (p : FUNCTION_PARAMETER) :
    FUNCTION_PARAMETER :=
  if writeOK V status p = 0 then { p with fpflag := clearFlag p.fpflag V.FPFLAG_WRITESTATUS }
  else { p with fpflag := p.fpflag ||| V.FPFLAG_WRITESTATUS }

/-- `functionparameter_CheckParametersAll(fpsentry)`: the structure after the pass,
`none` when a message is written past the last row of the message arrays. -/
def functionparameter_CheckParametersAll (V : CheckConsts) (env : FPSEnv)
    (fpsentry : FUNCTION_PARAMETER_STRUCT) : Option FUNCTION_PARAMETER_STRUCT :=
  if V.FPS_NB_MSG = 0 then none
  else
    let f0 : FUNCTION_PARAMETER_STRUCT :=
      { fpsentry with message := arraySet fpsentry.message 0 "" "", msgcnt := 0, conferrcnt := 0 }
    match CheckParameter_loop V env 0 f0.NBparamMAX f0 0 with
    | none => none
    | some r =>
      let status :=
        if r.2 = 0 then r.1.status ||| V.FUNCTION_PARAMETER_STRUCT_STATUS_CHECKOK
        else clearFlag r.1.status V.FUNCTION_PARAMETER_STRUCT_STATUS_CHECKOK
      some { r.1 with
        conferrcnt := r.2
        status := status
        parray := r.1.parray.map (write_status V status)
        signal := clearFlag r.1.signal V.FUNCTION_PARAMETER_STRUCT_SIGNAL_CHECKED }

/-- An environment in which no file, stream or child structure is found; numbers are
printed by placeholders that the evaluated calls do not reach; `SNPRINTF_CHECK` returns
the text when it has at least one character and fits the buffer, and does not return
otherwise. -/
def emptyFPSEnv : FPSEnv where
  SNPRINTF_CHECK := fun n text => if 1 ≤ text.length ∧ text.length < n then some text else none
  file_exists := fun _ => false
  is_fits_file := fun _ => false
  stat_executable := fun _ => false
  struct_connect := fun _ => -1
  LoadMemStream := fun _ f => ⟨-1, 0, f⟩
  fmt_lf := fun _ => "f"
  fmt_f := fun _ => "f"

/-! ## The result of a validator pass in closed form -/

/-- The statements that format the keyword of a slot for the log file return: the slot
is without ACTIVE, or `SNPRINTF_CHECK` returns on its keyword. -/
def logReturns (V : CheckConsts) (env : FPSEnv) (p : FUNCTION_PARAMETER) : Prop :=
  p.fpflag &&& V.FPFLAG_ACTIVE = 0 ∨
    env.SNPRINTF_CHECK V.STRINGMAXLEN_FPS_LOGMSG p.keywordfull ≠ none

instance (V : CheckConsts) (env : FPSEnv) (p : FUNCTION_PARAMETER) :
    Decidable (logReturns V env p) := by
  unfold logReturns; infer_instance

/-- The messages that `functionparameter_CheckParameter` records for a slot, in the
order in which it records them. -/
def slotMsgs (V : CheckConsts) (env : FPSEnv) (p : FUNCTION_PARAMETER) : List (Nat × String) :=
  if p.fpflag &&& V.FPFLAG_ACTIVE = 0 ∨ p.fpflag &&& V.FPFLAG_USED = 0 then []
  else
    initMsgs V p
    ++ (if initMsgs V p = [] then minMsgs V env p else [])
    ++ (if initMsgs V p = [] ∧ minMsgs V env p = [] then maxMsgs V env p else [])
    ++ fileMsgs V env p ++ fpsnameMsgs V env p ++ streamMsgs V env p

/-- The value `err` that `functionparameter_CheckParameter` returns for a slot. -/
def slotErr (V : CheckConsts) (env : FPSEnv) (p : FUNCTION_PARAMETER) : Nat :=
  if slotMsgs V env p = [] then 0 else 1

/-- The slot as `functionparameter_CheckParameter` leaves it. -/
def slotAfter (V : CheckConsts) (env : FPSEnv) (p : FUNCTION_PARAMETER) : FUNCTION_PARAMETER :=
  if p.fpflag &&& V.FPFLAG_ACTIVE = 0 ∨ p.fpflag &&& V.FPFLAG_USED = 0 then p
  else
    { p with fpflag := if slotErr V env p = 1 then streamFlag V env p ||| V.FPFLAG_ERROR
                       else clearFlag (streamFlag V env p) V.FPFLAG_ERROR }

/-- The messages of the slots `ps`, which start at index `k`, each with the index of
its slot. -/
def passEntries (V : CheckConsts) (env : FPSEnv) :
    Nat → List FUNCTION_PARAMETER → List (Nat × Nat × String)
  | _, [] => []
  | k, p :: ps => (slotMsgs V env p).map (fun m => (k, m)) ++ passEntries V env (k + 1) ps

/-- Write the elements `xs` into an array from element `n` on. -/
def arrayWrite {α : Type} (l : List α) (n : Nat) : List α → α → List α
  | [], _ => l
  | x :: xs, z => arrayWrite (arraySet l n x z) (n + 1) xs z

/-- The structure after the messages `es` are recorded, when there is room for them. -/
def logApply (V : CheckConsts) (es : List (Nat × Nat × String))
    (fps : FUNCTION_PARAMETER_STRUCT) : FUNCTION_PARAMETER_STRUCT :=
  { fps with
    msgpindex := arrayWrite fps.msgpindex fps.msgcnt (es.map fun e => e.1) 0
    msgcode := arrayWrite fps.msgcode fps.msgcnt (es.map fun e => e.2.1) 0
    message := arrayWrite fps.message fps.msgcnt
      (es.map fun e => strTake e.2.2 (V.FUNCTION_PARAMETER_STRUCT_MSG_SIZE - 1)) ""
    msgcnt := fps.msgcnt + es.length
    conferrcnt := fps.conferrcnt + es.length }

/-- The number of slots for which the check returns `err = 1`. -/
def passErrcnt (V : CheckConsts) (env : FPSEnv) (ps : List FUNCTION_PARAMETER) : Nat :=
  (ps.map (slotErr V env)).sum

/-- The status word after a pass. -/
def passStatus (V : CheckConsts) (env : FPSEnv) (fps : FUNCTION_PARAMETER_STRUCT) : Nat :=
  if passErrcnt V env fps.parray = 0 then
    fps.status ||| V.FUNCTION_PARAMETER_STRUCT_STATUS_CHECKOK
  else clearFlag fps.status V.FUNCTION_PARAMETER_STRUCT_STATUS_CHECKOK

/-- The structure that `functionparameter_CheckParametersAll` leaves when there is room
for the messages of the pass. -/
def passResult (V : CheckConsts) (env : FPSEnv) (fps : FUNCTION_PARAMETER_STRUCT) :
    FUNCTION_PARAMETER_STRUCT :=
  { logApply V (passEntries V env 0 fps.parray)
      { fps with message := arraySet fps.message 0 "" "", msgcnt := 0, conferrcnt := 0 } with
    conferrcnt := passErrcnt V env fps.parray
    status := passStatus V env fps
    parray := fps.parray.map fun p => write_status V (passStatus V env fps) (slotAfter V env p)
    signal := clearFlag fps.signal V.FUNCTION_PARAMETER_STRUCT_SIGNAL_CHECKED }

/-! ## Range violations, in the words of the specification -/

/-- A numeric parameter with the flag MINLIMIT whose current value is below its
minimum. -/
def belowMin (V : CheckConsts) (p : FUNCTION_PARAMETER) : Prop :=
  p.fpflag &&& V.FPFLAG_MINLIMIT ≠ 0 ∧
  ((p.type = V.FPTYPE_INT64 ∧ p.val.l0 < p.val.l1) ∨
   (p.type = V.FPTYPE_FLOAT64 ∧ p.val.f0 < p.val.f1) ∨
   (p.type = V.FPTYPE_FLOAT32 ∧ p.val.s0 < p.val.s1))

/-- A numeric parameter with the flag MAXLIMIT whose current value is above its
maximum. -/
def aboveMax (V : CheckConsts) (p : FUNCTION_PARAMETER) : Prop :=
  p.fpflag &&& V.FPFLAG_MAXLIMIT ≠ 0 ∧
  ((p.type = V.FPTYPE_INT64 ∧ p.val.l0 > p.val.l2) ∨
   (p.type = V.FPTYPE_FLOAT64 ∧ p.val.f0 > p.val.f2) ∨
   (p.type = V.FPTYPE_FLOAT32 ∧ p.val.s0 > p.val.s2))

instance (V : CheckConsts) (p : FUNCTION_PARAMETER) : Decidable (belowMin V p) := by
  unfold belowMin; infer_instance

instance (V : CheckConsts) (p : FUNCTION_PARAMETER) : Decidable (aboveMax V p) := by
  unfold aboveMax; infer_instance

/-- The message that states the observed value and the violated limit of a numeric
parameter: the minimum when the value is below it, the maximum otherwise. -/
def rangeText (V : CheckConsts) (env : FPSEnv) (p : FUNCTION_PARAMETER) : String :=
  if belowMin V p then
    (if p.type = V.FPTYPE_INT64 then
      "int64 value " ++ fmt_ld p.val.l0 ++ " below min " ++ fmt_ld p.val.l1
     else if p.type = V.FPTYPE_FLOAT64 then
      "float64 value " ++ env.fmt_lf p.val.f0 ++ " below min " ++ env.fmt_lf p.val.f1
     else "float32 value " ++ env.fmt_f p.val.s0 ++ " below min " ++ env.fmt_f p.val.s1)
  else
    (if p.type = V.FPTYPE_INT64 then
      "int64 value " ++ fmt_ld p.val.l0 ++ " above max " ++ fmt_ld p.val.l2
     else if p.type = V.FPTYPE_FLOAT64 then
      "float64 value " ++ env.fmt_lf p.val.f0 ++ " above max " ++ env.fmt_lf p.val.f2
     else "float32 value " ++ env.fmt_f p.val.s0 ++ " above max " ++ env.fmt_f p.val.s2)

/-- The message code of a range violation: below the minimum, or above the maximum. -/
def rangeCode (V : CheckConsts) (p : FUNCTION_PARAMETER) : Nat :=
  if belowMin V p then V.FPS_MSG_FLAG_BELOWMIN ||| V.FPS_MSG_FLAG_ERROR
  else V.FPS_MSG_FLAG_ABOVEMAX ||| V.FPS_MSG_FLAG_ERROR

/-- A parameter slot for evaluating the validator: full keyword, type, flags, the
slots current, minimum and maximum of an int64 value, and the update counter. -/
def testSlot (keywordfull : String) (type fpflag : Nat) (l0 l1 l2 : Int) (cnt0 : Nat) :
    FUNCTION_PARAMETER :=
  { FUNCTION_PARAMETER.zero milkFPSConsts with
    fpflag := fpflag, keywordfull := keywordfull, type := type,
    val := { FPVAL.zero with l0 := l0, l1 := l1, l2 := l2 }, cnt0 := cnt0 }

/-- A structure `fps` with the given status word and slots, and an empty message
log. -/
def testFPS (status : Nat) (slots : List FUNCTION_PARAMETER) : FUNCTION_PARAMETER_STRUCT :=
  { function_parameter_struct_create milkFPSConsts 0 "fps" 0 with
    status := status, parray := slots }

/-- A structure with three slots and the status bits CONF and RUN: `fps.p` is an int64
parameter with MAXLIMIT, value 15 and maximum 10, written once, with the flag
WRITECONF; `fps.q` is an int64 parameter with CHECKINIT that was never written;
the third slot is not active. -/
def sampleCheckFPS : FUNCTION_PARAMETER_STRUCT :=
  testFPS (milkCheckConsts.FUNCTION_PARAMETER_STRUCT_STATUS_CONF |||
      milkCheckConsts.FUNCTION_PARAMETER_STRUCT_STATUS_RUN)
    [testSlot "fps.p" milkCheckConsts.FPTYPE_INT64
        (milkCheckConsts.FPFLAG_ACTIVE ||| milkCheckConsts.FPFLAG_USED |||
          milkCheckConsts.FPFLAG_MAXLIMIT ||| milkCheckConsts.FPFLAG_WRITECONF) 15 0 10 1,
     testSlot "fps.q" milkCheckConsts.FPTYPE_INT64
        (milkCheckConsts.FPFLAG_ACTIVE ||| milkCheckConsts.FPFLAG_USED |||
          milkCheckConsts.FPFLAG_CHECKINIT) 0 0 0 0,
     testSlot "" 0 0 0 0 0 0]

/-- The structure of scenario S3 with the flags `flags` next to ACTIVE and USED on its
only parameter: an int64 parameter with minimum 0, maximum 10 and value 15, written
once. -/
def S3FPS (flags : Nat) : FUNCTION_PARAMETER_STRUCT :=
  testFPS 0
    [testSlot "fps.p" milkCheckConsts.FPTYPE_INT64
      (milkCheckConsts.FPFLAG_ACTIVE ||| milkCheckConsts.FPFLAG_USED ||| flags) 15 0 10 1]

/-- A structure with three int64 parameters with CHECKINIT that were never written. -/
def uninitFPS : FUNCTION_PARAMETER_STRUCT :=
  testFPS 0
    [testSlot "fps.a" milkCheckConsts.FPTYPE_INT64
        (milkCheckConsts.FPFLAG_ACTIVE ||| milkCheckConsts.FPFLAG_USED |||
          milkCheckConsts.FPFLAG_CHECKINIT) 0 0 0 0,
     testSlot "fps.b" milkCheckConsts.FPTYPE_INT64
        (milkCheckConsts.FPFLAG_ACTIVE ||| milkCheckConsts.FPFLAG_USED |||
          milkCheckConsts.FPFLAG_CHECKINIT) 0 0 0 0,
     testSlot "fps.c" milkCheckConsts.FPTYPE_INT64
        (milkCheckConsts.FPFLAG_ACTIVE ||| milkCheckConsts.FPFLAG_USED |||
          milkCheckConsts.FPFLAG_CHECKINIT) 0 0 0 0]

/-- What a validator pass leaves, as the claims read it: `msgcnt`, `conferrcnt`, the
status and signal words, the first `msgcnt` rows of the message arrays, and the flag
word of every slot. -/
def passView (fps : FUNCTION_PARAMETER_STRUCT) :
    Nat × Nat × Nat × Nat × List (Nat × Nat × String) × List Nat :=
  (fps.msgcnt, fps.conferrcnt, fps.status, fps.signal,
    (List.range fps.msgcnt).map (fun k =>
      (fps.msgpindex.getD k 0, fps.msgcode.getD k 0, fps.message.getD k "")),
    fps.parray.map fun p => p.fpflag)

/-! ## The getters and the stand-alone setter -/

/-- `functionparameter_GetParamValue_INT64(fps, paramname)`: the structure after the
call, in which the value read is copied into `val.l[3]`, and the value returned; `none`
when the process exits because no parameter is found. -/
def functionparameter_GetParamValue_INT64 (C : FPSConsts) (fps : FUNCTION_PARAMETER_STRUCT)
    (paramname : String) : Option (FUNCTION_PARAMETER_STRUCT × Int) :=
  match functionparameter_GetParamIndex C fps paramname with
  | none => none
  | some fpsi =>
    (fps.parray[fpsi]?).map fun p0 =>
      (fps.modify fpsi (fun p => { p with val := { p.val with l3 := p.val.l0 } }), p0.val.l0)

/-- `functionparameter_GetParamValue_FLOAT64(fps, paramname)`. -/
def functionparameter_GetParamValue_FLOAT64 (C : FPSConsts) (fps : FUNCTION_PARAMETER_STRUCT)
    (paramname : String) : Option (FUNCTION_PARAMETER_STRUCT × ℚ) :=
  match functionparameter_GetParamIndex C fps paramname with
  | none => none
  | some fpsi =>
    (fps.parray[fpsi]?).map fun p0 =>
      (fps.modify fpsi (fun p => { p with val := { p.val with f3 := p.val.f0 } }), p0.val.f0)

/-- `functionparameter_GetParamValue_FLOAT32(fps, paramname)`. -/
def functionparameter_GetParamValue_FLOAT32 (C : FPSConsts) (fps : FUNCTION_PARAMETER_STRUCT)
    (paramname : String) : Option (FUNCTION_PARAMETER_STRUCT × ℚ) :=
  match functionparameter_GetParamIndex C fps paramname with
  | none => none
  | some fpsi =>
    (fps.parray[fpsi]?).map fun p0 =>
      (fps.modify fpsi (fun p => { p with val := { p.val with s3 := p.val.s0 } }), p0.val.s0)

/-- `functionparameter_GetParamValue_ONOFF(fps, paramname)`: 1 when the flag ONOFF of the
parameter is set, 0 otherwise; the structure is not written. -/
def functionparameter_GetParamValue_ONOFF (C : FPSConsts) (fps : FUNCTION_PARAMETER_STRUCT)
    (paramname : String) : Option (FUNCTION_PARAMETER_STRUCT × Int) :=
  match functionparameter_GetParamIndex C fps paramname with
  | none => none
  | some fpsi =>
    (fps.parray[fpsi]?).map fun p0 =>
      (fps, if p0.fpflag &&& C.FPFLAG_ONOFF ≠ 0 then 1 else 0)

/-- `function_parameter_SetValue_int64(keywordfull, val)` (source lines 1120-1152).
`shm name` is the structure held by the shared memory file of the name `name`, if there
is one. `keyword` is the content at entry of the local array `keyword`, which the
function does not initialise; the segments of `keywordfull` are copied into its first
rows. The function connects to the structure named by row 9, looks up `keywordfull`
with `functionparameter_GetParamIndex`, and writes `val.l[0]`; it does not write
`cnt0`. The result is the name connected to and the structure after the call. It is
`none` when the behaviour is undefined (the keyword overruns `tmpstring` or the rows of
`keyword`, row 9 is outside the array, or the connection fails and the parameter array
is read all the same) or the process exits in `functionparameter_GetParamIndex`. -/
def function_parameter_SetValue_int64 (C : FPSConsts)
    (shm : String → Option FUNCTION_PARAMETER_STRUCT) (keyword : List String)
    (keywordfull : String) (val : Int) : Option (String × FUNCTION_PARAMETER_STRUCT) :=
  if C.FUNCTION_PARAMETER_KEYWORD_STRMAXLEN * C.FUNCTION_PARAMETER_KEYWORD_MAXLEVEL
      ≤ keywordfull.length then none
  else if keyword.length ≠ C.FUNCTION_PARAMETER_KEYWORD_MAXLEVEL then none
  else if C.FUNCTION_PARAMETER_KEYWORD_MAXLEVEL < (strtok_all keywordfull '.').length then none
  else
    match (keyword_loop C (strtok_all keywordfull '.') keyword 0).1[9]? with
    | none => none
    | some name =>
      match shm name with
      | none => none
      | some fps =>
        match functionparameter_GetParamIndex C fps keywordfull with
        | none => none
        | some pindex =>
          some (name, fps.modify pindex fun p => { p with val := { p.val with l0 := val } })

/-- A structure named `fps9` with one int64 parameter of eleven keyword segments, the
tenth of which is the name of the structure; the parameter was written once. -/
def deepFPS : FUNCTION_PARAMETER_STRUCT :=
  { function_parameter_struct_create milkFPSConsts 0 "fps9" 0 with
    parray := [testSlot "s0.s1.s2.s3.s4.s5.s6.s7.s8.fps9.x" milkFPSConsts.FPTYPE_INT64
      milkFPSConsts.FPFLAG_ACTIVE 0 0 0 1] }

/-- The shared memory directory that holds the structure `deepFPS` only. -/
def deepShm (name : String) : Option FUNCTION_PARAMETER_STRUCT :=
  if name = "fps9" then some deepFPS else none

/-! ## The control loop: state, constants and library functions -/

/-- Numeric constants of `function_parameters.h` and of the C library used by the
command interpreter and by the task scheduler: the bits of the status and flag words
of a task, the sizes of the task list and of the queue list, the size of the buffer
of a command line, `UINT_MAX`, and the two return codes `RETURN_SUCCESS` and
`RETURN_FAILURE`. The headers are not among the sources, so the
values are a parameter. -/
structure CTRLConsts extends CheckConsts where
  FPSTASK_STATUS_ACTIVE : Nat
  FPSTASK_STATUS_SHOW : Nat
  FPSTASK_STATUS_RUNNING : Nat
  FPSTASK_STATUS_RECEIVED : Nat
  FPSTASK_STATUS_CMDNOTFOUND : Nat
  FPSTASK_STATUS_CMDFAIL : Nat
  FPSTASK_STATUS_CMDOK : Nat
  FPSTASK_FLAG_WAITONRUN : Nat
  FPSTASK_FLAG_WAITONCONF : Nat
  NB_FPSCTRL_TASK_MAX : Nat
  NB_FPSCTRL_TASKQUEUE_MAX : Nat
  STRINGMAXLEN_FPS_CMDLINE : Nat
  UINT_MAX : Nat
  RETURN_SUCCESS : Nat
  RETURN_FAILURE : Nat
deriving DecidableEq, Repr

/-- The bits of the status word of a task. -/
def CTRLConsts.taskStatusBits (T : CTRLConsts) : List Nat :=
  [T.FPSTASK_STATUS_ACTIVE, T.FPSTASK_STATUS_SHOW, T.FPSTASK_STATUS_RUNNING,
    T.FPSTASK_STATUS_RECEIVED, T.FPSTASK_STATUS_CMDNOTFOUND, T.FPSTASK_STATUS_CMDFAIL,
    T.FPSTASK_STATUS_CMDOK]

/-- What the theorems on the control loop use of the constants: the bits of the status
word of a task are non-zero masks of a 64-bit word that share no bit with each other,
and so are the two bits of the flag word; the two return codes differ; the status bits
`CMDCONF` and `CMDRUN` and the signal bits `CONFRUN` and `UPDATE` of a structure are
masks of a 64-bit word; the string buffers have room for one character at least. -/
def CTRLConsts.WF (T : CTRLConsts) : Prop :=
  T.toCheckConsts.WF
  ∧ T.taskStatusBits.Pairwise (fun a b => a &&& b = 0)
  ∧ (∀ a ∈ T.taskStatusBits, a ≠ 0 ∧ a < 2 ^ 64)
  ∧ T.FPSTASK_FLAG_WAITONRUN ≠ 0 ∧ T.FPSTASK_FLAG_WAITONRUN < 2 ^ 64
  ∧ T.FPSTASK_FLAG_WAITONCONF ≠ 0 ∧ T.FPSTASK_FLAG_WAITONCONF < 2 ^ 64
  ∧ T.FPSTASK_FLAG_WAITONRUN &&& T.FPSTASK_FLAG_WAITONCONF = 0
  ∧ T.RETURN_SUCCESS ≠ T.RETURN_FAILURE
  ∧ T.FUNCTION_PARAMETER_STRUCT_STATUS_CMDCONF < 2 ^ 64
  ∧ T.FUNCTION_PARAMETER_STRUCT_STATUS_CMDRUN < 2 ^ 64
  ∧ T.FUNCTION_PARAMETER_STRUCT_SIGNAL_CONFRUN < 2 ^ 64
  ∧ T.FUNCTION_PARAMETER_STRUCT_SIGNAL_UPDATE < 2 ^ 64
  ∧ 1 < T.FUNCTION_PARAMETER_STRMAXLEN
  ∧ 1 < T.STRINGMAXLEN_FPS_LOGMSG
  ∧ 1 < T.STRINGMAXLEN_FPS_CMDLINE

instance (T : CTRLConsts) : Decidable T.WF := by
  unfold CTRLConsts.WF; infer_instance

/-- A concrete assignment: one bit per status and flag, 1024 tasks, 100 queues. -/
def milkCTRLConsts : CTRLConsts where
  toCheckConsts := milkCheckConsts
  FPSTASK_STATUS_ACTIVE := 0x0000000000000001
  FPSTASK_STATUS_SHOW := 0x0000000000000002
  FPSTASK_STATUS_RUNNING := 0x0000000000000004
  FPSTASK_STATUS_RECEIVED := 0x0000000000000100
  FPSTASK_STATUS_CMDNOTFOUND := 0x0000000000000200
  FPSTASK_STATUS_CMDFAIL := 0x0000000000000400
  FPSTASK_STATUS_CMDOK := 0x0000000000000800
  FPSTASK_FLAG_WAITONRUN := 0x0000000000000001
  FPSTASK_FLAG_WAITONCONF := 0x0000000000000002
  NB_FPSCTRL_TASK_MAX := 1024
  NB_FPSCTRL_TASKQUEUE_MAX := 100
  STRINGMAXLEN_FPS_CMDLINE := 1000
  UINT_MAX := 4294967295
  RETURN_SUCCESS := 0
  RETURN_FAILURE := 1

/-- The same assignment with a task list of four entries and a queue list of three
entries, to evaluate scheduler ticks. -/
def smallCTRLConsts : CTRLConsts :=
  { milkCTRLConsts with NB_FPSCTRL_TASK_MAX := 4, NB_FPSCTRL_TASKQUEUE_MAX := 3 }

/-- One queue of the scheduler (`FPSCTRL_TASK_QUEUE`): its priority. -/
structure FPSCTRL_TASK_QUEUE where
  priority : Int
deriving DecidableEq, Repr

/-- One node of the keyword tree (`KEYWORD_TREE_NODE`): the fields that the command
interpreter reads. -/
structure KEYWORD_TREE_NODE where
  keywordfull : String
  fpsindex : Int
  pindex : Int
deriving DecidableEq, Repr

/-- The fields of `FPSCTRL_PROCESS_VARS` that the command interpreter uses. -/
structure FPSCTRL_PROCESS_VARS where
  exitloop : Int
  NBkwn : Int
deriving DecidableEq, Repr

/-- One entry of the task list (`FPSCTRL_TASK_ENTRY`). -/
structure FPSCTRL_TASK_ENTRY where
  cmdstring : String
  inputindex : Nat
  queue : Nat
  status : Nat
  flag : Nat
  fpsindex : Int
  creationtime : Int × Int
  activationtime : Int × Int
  completiontime : Int × Int
deriving DecidableEq, Repr

/-- What the control loop takes from outside `function_parameters.c`: the macro
`SNPRINTF_CHECK` of a missing header (given the size of the buffer and the formatted
text, the content of the buffer, or `none` when the macro does not return); the text
that `%s` prints for a null pointer; the C library functions `atoi`, `atol`, `atof`,
the conversion of a `double` to `float` and the text that `%f` prints; whether `fopen`
in append mode succeeds; what the other processes do to the connected structures
during the `k`-th call of `usleep`; and the time that the `k`-th reading of the clock
returns. -/
structure CTRLEnv where
  SNPRINTF_CHECK : Nat → String → Option String
  fmt_null : String
  atoi : String → Int
  atol : String → Int
  atof : String → ℚ
  toFloat32 : ℚ → ℚ
  fmt_f : ℚ → String
  fopen_append : String → Bool
  usleep : Nat → List FUNCTION_PARAMETER_STRUCT → List FUNCTION_PARAMETER_STRUCT
  clock_gettime : Nat → Int × Int
  logfname : String

/-- The state that the command interpreter works on: the arrays that it receives by
address (queue list, keyword tree, process variables, connected structures), its static
counter `testcnt`, the lines written to the log file by `functionparameter_outlog`
(keyword and text, without the time stamp), the number of calls of `usleep` and
the number of readings of the clock so far. The commands sent to `tmux`, the symbolic
links and the files written to disk are not part of the state. -/
structure CTRLState where
  fpsctrlqueuelist : List FPSCTRL_TASK_QUEUE
  keywnode : List KEYWORD_TREE_NODE
  fpsCTRLvar : FPSCTRL_PROCESS_VARS
  fps : List FUNCTION_PARAMETER_STRUCT
  testcnt : Int
  outlog : List (String × String)
  sleeps : Nat
  clock : Nat
deriving DecidableEq, Repr

/-- The content at entry of the local variables that
`functionparameter_FPSprocess_cmdline` does not initialise. -/
structure CMDLINE_LOCALS where
  fpsindex : Int
  pindex : Int
  FPScommand : String
  FPSarg0 : String
  FPSarg1 : String
  msgstring : String
deriving DecidableEq, Repr

/-- Element `i` of the array `fps`, for an index of type `int`; `none` outside the
array. -/
def getFPS (fps : List FUNCTION_PARAMETER_STRUCT) (i : Int) :
    Option FUNCTION_PARAMETER_STRUCT :=
  if 0 ≤ i then fps[i.toNat]? else none

/-- Apply `f` to element `i` of the array `fps`; `none` outside the array. -/
def setFPS (fps : List FUNCTION_PARAMETER_STRUCT) (i : Int)
    (f : FUNCTION_PARAMETER_STRUCT → FUNCTION_PARAMETER_STRUCT) :
    Option (List FUNCTION_PARAMETER_STRUCT) :=
  (getFPS fps i).map fun x => fps.set i.toNat (f x)

/-- Element `i` of the parameter array of a structure, for an index of type `long`;
`none` outside the array. -/
def getParam (f : FUNCTION_PARAMETER_STRUCT) (i : Int) : Option FUNCTION_PARAMETER :=
  if 0 ≤ i then f.parray[i.toNat]? else none

/-- The successive results of `strtok` with a set of delimiters. -/
def strtok_chars (s : String) (delims : List Char) : List String :=
  ((s.data.splitOnP (fun c => decide (c ∈ delims))).filter (fun seg => seg ≠ [])).map String.mk

/-- The string cut at its first newline character (`strchr`, then `*pos = 0`). -/
def cutNL (s : String) : String := String.mk (s.data.takeWhile (fun c => c ≠ Char.ofNat 10))

/-- The text printed by `%-40s` and alike: the string, padded with spaces on the right
to `n` characters. -/
def padRight (s : String) (n : Nat) : String :=
  s ++ String.mk (List.replicate (n - s.length) ' ')

/-- The test `strncmp(s, t, strlen(t)) == 0`. -/
def startsWith (s t : String) : Prop := s.data.take t.length = t.data

instance (s t : String) : Decidable (startsWith s t) := by
  unfold startsWith; infer_instance

/-- `functionparameter_outlog(keyw, fmt, ...)`: one line is added to the log file; the
clock is read once for the time stamp. -/
def functionparameter_outlog (keyw text : String) (s : CTRLState) : CTRLState :=
  { s with outlog := s.outlog ++ [(keyw, text)], clock := s.clock + 1 }

/-- One call of `usleep`: the other processes act on the connected structures. -/
def CTRLState.usleep (env : CTRLEnv) (s : CTRLState) : CTRLState :=
  { s with fps := env.usleep s.sleeps s.fps, sleeps := s.sleeps + 1 }

/-! ## The functions called by the command interpreter -/

/-- `functionparameter_RUNstart(fps, fpsindex)`. -/
def functionparameter_RUNstart (T : CTRLConsts) (fps : List FUNCTION_PARAMETER_STRUCT)
    (fpsindex : Int) : Option (List FUNCTION_PARAMETER_STRUCT) :=
  setFPS fps fpsindex fun f =>
    if f.status &&& T.FUNCTION_PARAMETER_STRUCT_STATUS_CHECKOK ≠ 0 then
      { f with status := f.status ||| T.FUNCTION_PARAMETER_STRUCT_STATUS_CMDRUN,
               signal := f.signal ||| T.FUNCTION_PARAMETER_STRUCT_SIGNAL_UPDATE }
    else f

/-- `functionparameter_RUNstop(fps, fpsindex)`. -/
def functionparameter_RUNstop (T : CTRLConsts) (fps : List FUNCTION_PARAMETER_STRUCT)
    (fpsindex : Int) : Option (List FUNCTION_PARAMETER_STRUCT) :=
  setFPS fps fpsindex fun f =>
    { f with status := clearFlag f.status T.FUNCTION_PARAMETER_STRUCT_STATUS_CMDRUN,
             signal := f.signal ||| T.FUNCTION_PARAMETER_STRUCT_SIGNAL_UPDATE }

/-- `functionparameter_CONFstart(fps, fpsindex)`. -/
def functionparameter_CONFstart (T : CTRLConsts) (fps : List FUNCTION_PARAMETER_STRUCT)
    (fpsindex : Int) : Option (List FUNCTION_PARAMETER_STRUCT) :=
  setFPS fps fpsindex fun f =>
    { f with status := f.status ||| T.FUNCTION_PARAMETER_STRUCT_STATUS_CMDCONF,
             signal := f.signal ||| T.FUNCTION_PARAMETER_STRUCT_SIGNAL_UPDATE }

/-- `functionparameter_CONFstop(fps, fpsindex)`. -/
def functionparameter_CONFstop (T : CTRLConsts) (fps : List FUNCTION_PARAMETER_STRUCT)
    (fpsindex : Int) : Option (List FUNCTION_PARAMETER_STRUCT) :=
  setFPS fps fpsindex fun f =>
    { f with signal := clearFlag f.signal T.FUNCTION_PARAMETER_STRUCT_SIGNAL_CONFRUN }

/-- `functionparameter_FPSremove(fps, fpsindex)`: the shared memory file is removed and
the `tmux` sessions are closed; the header and the parameters are not written. -/
def functionparameter_FPSremove (fps : List FUNCTION_PARAMETER_STRUCT)
    (fpsindex : Int) : Option (List FUNCTION_PARAMETER_STRUCT) :=
  setFPS fps fpsindex fun f => f

/-- `functionparameter_PrintParameter_ValueString(fpsentry, outstring, stringmaxlen)`:
the content of `outstring` after the call and the value returned; `none` when
`SNPRINTF_CHECK` does not return. -/
def functionparameter_PrintParameter_ValueString (T : CTRLConsts) (env : CTRLEnv)
    (fpsentry : FUNCTION_PARAMETER) (outstring : String) (stringmaxlen : Nat) :
    Option (String × Nat) :=
  let kw := padRight fpsentry.keywordfull 40
  let out (text : String) : Option (String × Nat) :=
    (env.SNPRINTF_CHECK stringmaxlen text).map fun m => (m, T.RETURN_SUCCESS)
  if fpsentry.type = T.FPTYPE_INT64 then
    out (kw ++ " INT64      " ++ fmt_ld fpsentry.val.l0 ++ " " ++ fmt_ld fpsentry.val.l1 ++ " "
      ++ fmt_ld fpsentry.val.l2 ++ " " ++ fmt_ld fpsentry.val.l3)
  else if fpsentry.type = T.FPTYPE_FLOAT64 then
    out (kw ++ " FLOAT64    " ++ env.fmt_f fpsentry.val.f0 ++ " " ++ env.fmt_f fpsentry.val.f1
      ++ " " ++ env.fmt_f fpsentry.val.f2 ++ " " ++ env.fmt_f fpsentry.val.f3)
  else if fpsentry.type = T.FPTYPE_FLOAT32 then
    out (kw ++ " FLOAT32    " ++ env.fmt_f fpsentry.val.s0 ++ " " ++ env.fmt_f fpsentry.val.s1
      ++ " " ++ env.fmt_f fpsentry.val.s2 ++ " " ++ env.fmt_f fpsentry.val.s3)
  else if fpsentry.type = T.FPTYPE_PID then
    out (kw ++ " PID        " ++ fmt_ld fpsentry.val.l0)
  else if fpsentry.type = T.FPTYPE_TIMESPEC then some (outstring, T.RETURN_FAILURE)
  else if fpsentry.type = T.FPTYPE_FILENAME then
    out (kw ++ " FILENAME   " ++ fpsentry.val.string0)
  else if fpsentry.type = T.FPTYPE_FITSFILENAME then
    out (kw ++ " FITSFILENAME   " ++ fpsentry.val.string0)
  else if fpsentry.type = T.FPTYPE_EXECFILENAME then
    out (kw ++ " EXECFILENAME   " ++ fpsentry.val.string0)
  else if fpsentry.type = T.FPTYPE_DIRNAME then
    out (kw ++ " DIRNAME    " ++ fpsentry.val.string0)
  else if fpsentry.type = T.FPTYPE_STREAMNAME then
    out (kw ++ " STREAMNAME " ++ fpsentry.val.string0)
  else if fpsentry.type = T.FPTYPE_STRING then
    out (kw ++ " STRING     " ++ fpsentry.val.string0)
  else if fpsentry.type = T.FPTYPE_ONOFF then
    if fpsentry.fpflag &&& T.FPFLAG_ONOFF ≠ 0 then out (kw ++ " ONOFF      ON")
    else out (kw ++ " ONOFF      OFF")
  else if fpsentry.type = T.FPTYPE_FPSNAME then
    out (kw ++ " FPSNAME   " ++ fpsentry.val.string0)
  else some (outstring, T.RETURN_FAILURE)

/-! ## The command interpreter `functionparameter_FPSprocess_cmdline` -/

/-- The words of a command line, as the interpreter holds them after its word loop. -/
structure CMDWORDS where
  nbword : Nat
  FPScommand : String
  FPSarg0 : String
  FPSarg1 : String
deriving DecidableEq, Repr

/-- The word loop (source lines 4904-4978). The line is split at blanks and tabs when it
has more than one character; `nbword` is the number of words. `FPScommand` is the first
word, `FPSarg0` the second and `FPSarg1` the third, each cut at a newline, `FPSarg1`
cut to the size of its buffer; where the line has no such word and the loop still
writes the variable, `strtok` has returned a null pointer and `%s` prints it. A
variable that the loop does not write keeps its content at entry. The result is `none`
when a word overruns the buffer `FPScommand` of 100 characters or the buffer
`FPSarg0`. The variables `FPSarg2` and `FPSarg3`, which are written and never read, are
not part of the embedding. -/
def cmdline_words (T : CTRLConsts) (env : CTRLEnv) (loc : CMDLINE_LOCALS) (inputcmd : String) :
    Option CMDWORDS :=
  let toks := if 1 < inputcmd.length then strtok_chars inputcmd [' ', Char.ofNat 9] else []
  let FPScommand := if 1 < inputcmd.length then toks.head?.getD env.fmt_null else loc.FPScommand
  let arg0 := (toks[1]?).getD env.fmt_null
  let arg1 := (toks[2]?).getD env.fmt_null
  if 1 < inputcmd.length ∧ 100 ≤ FPScommand.length then none
  else if 1 ≤ toks.length ∧
      T.FUNCTION_PARAMETER_KEYWORD_STRMAXLEN * T.FUNCTION_PARAMETER_KEYWORD_MAXLEVEL
        ≤ arg0.length then none
  else
    some { nbword := toks.length
           FPScommand := FPScommand
           FPSarg0 := if 1 ≤ toks.length then cutNL arg0 else loc.FPSarg0
           FPSarg1 := if 2 ≤ toks.length then
                        cutNL (strTake arg1 (T.FUNCTION_PARAMETER_STRMAXLEN - 1))
                      else loc.FPSarg1 }

/-- The local variables of the interpreter that its command blocks read and write, and
the state. -/
structure CMDVARS where
  s : CTRLState
  cmdOK : Nat
  cmdFOUND : Nat
  kwnindex : Int
  fpsindex : Int
  pindex : Int
  msgstring : String
deriving DecidableEq, Repr

/-- The block of the command `exit` (source lines 4996-5011). -/
def cmd_exit (w : CMDWORDS) (v : CMDVARS) : CMDVARS :=
  if v.cmdFOUND = 0 ∧ w.FPScommand = "exit" then
    if w.nbword ≠ 1 then
      { v with cmdFOUND := 1, cmdOK := 0,
               s := functionparameter_outlog "ERROR" "COMMAND cntinc takes NBARGS = 1" v.s }
    else
      { v with cmdFOUND := 1,
               s := functionparameter_outlog "INFO" "EXIT"
                      { v.s with fpsCTRLvar := { v.s.fpsCTRLvar with exitloop := 1 } } }
  else v

/-- The block of the command `cntinc` (source lines 5017-5032). -/
def cmd_cntinc (env : CTRLEnv) (w : CMDWORDS) (v : CMDVARS) : CMDVARS :=
  if v.cmdFOUND = 0 ∧ w.FPScommand = "cntinc" then
    if w.nbword ≠ 2 then
      { v with cmdFOUND := 1, cmdOK := 0,
               s := functionparameter_outlog "ERROR" "COMMAND cntinc takes NBARGS = 2" v.s }
    else
      { v with cmdFOUND := 1,
               s := functionparameter_outlog "INFO"
                      ("TEST [" ++ fmt_ld (env.atoi w.FPSarg0) ++ "] counter = "
                        ++ fmt_ld (v.s.testcnt + 1))
                      { v.s with testcnt := v.s.testcnt + 1 } }
  else v

/-- The block of the command `logsymlink` (source lines 5041-5067); the symbolic link
that it creates is not part of the state. -/
def cmd_logsymlink (env : CTRLEnv) (w : CMDWORDS) (v : CMDVARS) : CMDVARS :=
  if v.cmdFOUND = 0 ∧ w.FPScommand = "logsymlink" then
    if w.nbword ≠ 2 then
      { v with cmdFOUND := 1, cmdOK := 0,
               s := functionparameter_outlog "ERROR" "COMMAND logsymlink takes NBARGS = 1" v.s }
    else
      { v with cmdFOUND := 1,
               s := functionparameter_outlog "INFO"
                      ("CREATE SYM LINK " ++ w.FPSarg0 ++ " <- " ++ env.logfname) v.s }
  else v

/-- The block of the command `queueprio` (source lines 5073-5095): the priority of the
queue `atoi(FPSarg0)` becomes `atoi(FPSarg1)` when the queue index is at least 0 and
below `NB_FPSCTRL_TASKQUEUE_MAX`. The result is `none` when the queue list of the state
has no such element. -/
def cmd_queueprio (T : CTRLConsts) (env : CTRLEnv) (w : CMDWORDS) (v : CMDVARS) :
    Option CMDVARS :=
  if v.cmdFOUND = 0 ∧ w.FPScommand = "queueprio" then
    if w.nbword ≠ 3 then
      some { v with cmdFOUND := 1, cmdOK := 0,
                    s := functionparameter_outlog "ERROR" "COMMAND queueprio takes NBARGS = 2"
                           v.s }
    else if 0 ≤ env.atoi w.FPSarg0 ∧ env.atoi w.FPSarg0 < T.NB_FPSCTRL_TASKQUEUE_MAX then
      if (env.atoi w.FPSarg0).toNat < v.s.fpsctrlqueuelist.length then
        some { v with cmdFOUND := 1,
                      s := functionparameter_outlog "INFO" "QUEUE %d PRIO = %d"
                             { v.s with fpsctrlqueuelist :=
                                 (v.s.fpsctrlqueuelist.set (env.atoi w.FPSarg0).toNat
                                   { priority := env.atoi w.FPSarg1 }) } }
      else none
    else some { v with cmdFOUND := 1 }
  else some v

/-- The search of the keyword tree (source lines 5115-5123): the first of the `n` nodes
from node `k` on whose `keywordfull` equals the entry name, or -1. The result is `none`
when the search reads past the end of the node list of the state. -/
def kwn_scan (keywnode : List KEYWORD_TREE_NODE) (FPSentryname : String) : Nat → Nat → Option Int
  | 0, _ => some (-1)
  | n + 1, k =>
    match keywnode[k]? with
    | none => none
    | some node =>
      if node.keywordfull = FPSentryname then some (k : Int)
      else kwn_scan keywnode FPSentryname n (k + 1)

/-- The resolution of the entry name (source lines 5105-5143), run when no command has
been found so far: `FPSarg0` and `FPSarg1` are copied to `FPSentryname` and
`FPScmdarg1`; with more than one word the keyword tree is searched; a node found gives
`fpsindex` and `pindex`, otherwise `cmdOK = 0`. The result is `none` when the copy of
`FPSarg1` overruns `FPScmdarg1`, which the content at entry of `FPSarg1` can do when
the line has a single word. -/
def resolve_entry (T : CTRLConsts) (w : CMDWORDS) (v : CMDVARS) : Option CMDVARS :=
  if v.cmdFOUND = 0 then
    if T.FUNCTION_PARAMETER_STRMAXLEN ≤ w.FPSarg1.length then none
    else
      match (if 1 < w.nbword then
              kwn_scan v.s.keywnode w.FPSarg0 v.s.fpsCTRLvar.NBkwn.toNat 0
             else some (-1)) with
      | none => none
      | some kwnindex =>
        if kwnindex ≠ -1 then
          match v.s.keywnode[kwnindex.toNat]? with
          | none => none
          | some node =>
            some { v with kwnindex := kwnindex, fpsindex := node.fpsindex, pindex := node.pindex,
                          s := functionparameter_outlog "INFO"
                                 ("FPS ENTRY FOUND : " ++ padRight w.FPSarg0 40 ++ "  "
                                   ++ fmt_ld node.fpsindex ++ " " ++ fmt_ld node.pindex) v.s }
        else
          some { v with kwnindex := kwnindex, cmdOK := 0,
                        s := functionparameter_outlog "ERROR"
                               ("FPS ENTRY NOT FOUND : " ++ padRight w.FPSarg0 40) v.s }
  else some v

/-- The common shape of the blocks of the commands that take the entry name as their
only argument: with a number of words other than 2 an error is logged and `cmdOK = 0`;
otherwise the action `act` runs, a line `keyw` is logged, and `cmdOK = 1`. The action
receives the state and `fpsindex`; the log line is made from the structure
`fps[fpsindex]` after the action. -/
def entry_cmd (w : CMDWORDS) (name errtext : String)
    (act : CTRLState → Int → Option CTRLState) (keyw : String)
    (logtext : CTRLState → Int → FUNCTION_PARAMETER_STRUCT → String) (v : CMDVARS) :
    Option CMDVARS :=
  if v.cmdFOUND = 0 ∧ w.FPScommand = name then
    if w.nbword ≠ 2 then
      some { v with cmdFOUND := 1, cmdOK := 0,
                    s := functionparameter_outlog "ERROR" errtext v.s }
    else
      match act v.s v.fpsindex with
      | none => none
      | some s1 =>
        match getFPS s1.fps v.fpsindex with
        | none => none
        | some f =>
          some { v with cmdFOUND := 1, cmdOK := 1,
                        s := functionparameter_outlog keyw (logtext s1 v.fpsindex f) s1 }
  else some v

/-- The loop `while(cond && (timercnt < timercntmax)) { usleep(dt); timercnt++; }` of
the waiting commands, where `cond` tests the structure `fps[fpsindex]`; `n` is the
number `timercntmax - timercnt` of iterations that the second test still allows. The
result is the state and `timercnt` after the loop; `none` when `fpsindex` is outside
the array. -/
def wait_loop (env : CTRLEnv) (cond : FUNCTION_PARAMETER_STRUCT → Bool) (fpsindex : Int) :
    Nat → CTRLState → Nat → Option (CTRLState × Nat)
  | 0, s, timercnt => (getFPS s.fps fpsindex).map fun _ => (s, timercnt)
  | n + 1, s, timercnt =>
    match getFPS s.fps fpsindex with
    | none => none
    | some f =>
      if cond f then wait_loop env cond fpsindex n (s.usleep env) (timercnt + 1)
      else some (s, timercnt)

/-- The loop `while(looptry == 1)` of the command `confwupdate` (source lines
5257-5303), with `dt = 100` and `timercntmax = 10000`. Each iteration sets the signal
bits CHECKED and UPDATE, waits while CHECKED is set, sleeps once more, logs, and ends
the loop when `conferrcnt` is 0 or `timercnt` has passed `timercntmax`. The first
argument bounds the number of iterations; `none` when it is used up, or when `fpsindex`
is outside the array. -/
def confwupdate_loop (T : CTRLConsts) (env : CTRLEnv) (fpsindex : Int) :
    Nat → CTRLState → Nat → Nat → Option CTRLState
  | 0, _, _, _ => none
  | n + 1, s, timercnt, looptrycnt =>
    match setFPS s.fps fpsindex (fun f =>
        { f with signal := f.signal ||| T.FUNCTION_PARAMETER_STRUCT_SIGNAL_CHECKED
                             ||| T.FUNCTION_PARAMETER_STRUCT_SIGNAL_UPDATE }) with
    | none => none
    | some fps1 =>
      match wait_loop env
          (fun f => decide (f.signal &&& T.FUNCTION_PARAMETER_STRUCT_SIGNAL_CHECKED ≠ 0))
          fpsindex (10000 - timercnt) { s with fps := fps1 } timercnt with
      | none => none
      | some (s2, timercnt2) =>
        match getFPS (s2.usleep env).fps fpsindex with
        | none => none
        | some f =>
          let s3 := functionparameter_outlog "CONFWUPDATE"
            ("[" ++ fmt_ld looptrycnt ++ "] waited " ++ fmt_ld (100 * (timercnt2 + 1))
              ++ " us on FPS " ++ fmt_ld fpsindex ++ " " ++ f.name ++ ". conferrcnt = "
              ++ fmt_ld f.conferrcnt) (s2.usleep env)
          if f.conferrcnt = 0 ∨ 10000 < timercnt2 + 1 then some s3
          else confwupdate_loop T env fpsindex n s3 (timercnt2 + 1) (looptrycnt + 1)

/-- The block of the command `confwupdate` (source lines 5243-5308). The loop runs at
most 10001 times, since each iteration increments `timercnt` and the loop ends when
`timercnt` has passed 10000. -/
def cmd_confwupdate (T : CTRLConsts) (env : CTRLEnv) (w : CMDWORDS) (v : CMDVARS) :
    Option CMDVARS :=
  if v.cmdFOUND = 0 ∧ w.FPScommand = "confwupdate" then
    if w.nbword ≠ 2 then
      some { v with cmdFOUND := 1, cmdOK := 0,
                    s := functionparameter_outlog "ERROR" "COMMAND confwupdate takes NBARGS = 1"
                           v.s }
    else
      (confwupdate_loop T env v.fpsindex 10001 v.s 0 0).map fun s1 =>
        { v with cmdFOUND := 1, cmdOK := 1, s := s1 }
  else some v

/-- The block of the command `runwait` (source lines 5340-5367), with `dt = 10000` and
`timercntmax = 100000`. -/
def cmd_runwait (T : CTRLConsts) (env : CTRLEnv) (w : CMDWORDS) (v : CMDVARS) :
    Option CMDVARS :=
  if v.cmdFOUND = 0 ∧ w.FPScommand = "runwait" then
    if w.nbword ≠ 2 then
      some { v with cmdFOUND := 1, cmdOK := 0,
                    s := functionparameter_outlog "ERROR" "COMMAND runwait takes NBARGS = 1" v.s }
    else
      match wait_loop env
          (fun f => decide (f.status &&& T.FUNCTION_PARAMETER_STRUCT_STATUS_CMDRUN ≠ 0))
          v.fpsindex 100000 v.s 0 with
      | none => none
      | some (s1, timercnt) =>
        match getFPS s1.fps v.fpsindex with
        | none => none
        | some f =>
          some { v with cmdFOUND := 1, cmdOK := 1,
                        s := functionparameter_outlog "RUNWAIT"
                               ("waited " ++ fmt_ld (10000 * timercnt) ++ " us on FPS "
                                 ++ fmt_ld v.fpsindex ++ " " ++ f.name) s1 }
  else some v

/-- The `switch` over the type of the parameter in the block of the command `setval`
(source lines 5447-5581): the structure after the call of the setter, the texts logged
with the keyword SETVAL, and `updated`. The setter receives the entry name and looks up
the parameter itself. `none` when the setter does not return. -/
def setval_switch (T : CTRLConsts) (env : CTRLEnv) (FPSentryname FPScmdarg1 : String)
    (f : FUNCTION_PARAMETER_STRUCT) (type : Nat) :
    Option (FUNCTION_PARAMETER_STRUCT × List String × Nat) :=
  let kw := padRight FPSentryname 40
  let str (label : String) : Option (FUNCTION_PARAMETER_STRUCT × List String × Nat) :=
    (functionparameter_SetParamValue_STRING T.toFPSConsts f FPSentryname FPScmdarg1).map
      fun f1 => (f1, [kw ++ label ++ FPScmdarg1], 1)
  if type = T.FPTYPE_INT64 then
    (functionparameter_SetParamValue_INT64 T.toFPSConsts f FPSentryname
        (env.atol FPScmdarg1)).map
      fun f1 => (f1, [kw ++ " INT64      " ++ fmt_ld (env.atol FPScmdarg1)], 1)
  else if type = T.FPTYPE_FLOAT64 then
    (functionparameter_SetParamValue_FLOAT64 T.toFPSConsts f FPSentryname
        (env.atof FPScmdarg1)).map
      fun f1 => (f1, [kw ++ " FLOAT64    " ++ env.fmt_f (env.atof FPScmdarg1)], 1)
  else if type = T.FPTYPE_FLOAT32 then
    (functionparameter_SetParamValue_FLOAT32 T.toFPSConsts f FPSentryname
        (env.toFloat32 (env.atof FPScmdarg1))).map
      fun f1 => (f1, [kw ++ " FLOAT32    " ++ env.fmt_f (env.atof FPScmdarg1)], 1)
  else if type = T.FPTYPE_PID then
    (functionparameter_SetParamValue_INT64 T.toFPSConsts f FPSentryname
        (env.atol FPScmdarg1)).map
      fun f1 => (f1, [kw ++ " PID        " ++ fmt_ld (env.atol FPScmdarg1)], 1)
  else if type = T.FPTYPE_TIMESPEC then some (f, [], 0)
  else if type = T.FPTYPE_FILENAME then str " FILENAME   "
  else if type = T.FPTYPE_FITSFILENAME then str " FITSFILENAME   "
  else if type = T.FPTYPE_EXECFILENAME then str " EXECFILENAME   "
  else if type = T.FPTYPE_DIRNAME then str " DIRNAME    "
  else if type = T.FPTYPE_STREAMNAME then str " STREAMNAME "
  else if type = T.FPTYPE_STRING then str " STRING     "
  else if type = T.FPTYPE_ONOFF then
    if startsWith FPScmdarg1 "ON" then
      (functionparameter_SetParamValue_ONOFF T.toFPSConsts f FPSentryname 1).map
        fun f1 => (f1, [kw ++ " ONOFF      ON"], 1)
    else if startsWith FPScmdarg1 "OFF" then
      (functionparameter_SetParamValue_ONOFF T.toFPSConsts f FPSentryname 0).map
        fun f1 => (f1, [kw ++ " ONOFF      OFF"], 1)
    else some (f, [], 0)
  else if type = T.FPTYPE_FPSNAME then str " FPSNAME   "
  else some (f, [], 0)

/-- The block of the command `setval` (source lines 5429-5600). With a number of words
other than 3 an error is logged and `cmdOK` keeps its value. Otherwise the type of
`fps[fpsindex].parray[pindex]` selects the setter; when a setter has run, `cmdOK = 1`,
`functionparameter_WriteParameterToDisk` writes the parameter to a file (it reads the
clock once) and the signal bit UPDATE is set; when none has run, `cmdOK = 0`. `none`
when `fpsindex` or `pindex` is outside its array. -/
def cmd_setval (T : CTRLConsts) (env : CTRLEnv) (w : CMDWORDS) (v : CMDVARS) :
    Option CMDVARS :=
  if v.cmdFOUND = 0 ∧ w.FPScommand = "setval" then
    if w.nbword ≠ 3 then
      (env.SNPRINTF_CHECK T.STRINGMAXLEN_FPS_LOGMSG "COMMAND setval takes NBARGS = 2").map
        fun m => { v with cmdFOUND := 1, msgstring := m,
                          s := functionparameter_outlog "ERROR" m v.s }
    else
      match getFPS v.s.fps v.fpsindex with
      | none => none
      | some f =>
        match getParam f v.pindex with
        | none => none
        | some p =>
          match setval_switch T env w.FPSarg0 w.FPSarg1 f p.type with
          | none => none
          | some (f1, logs, updated) =>
            let s1 := logs.foldl (fun s t => functionparameter_outlog "SETVAL" t s)
              { v.s with fps := v.s.fps.set v.fpsindex.toNat f1 }
            if updated = 1 then
              some { v with cmdFOUND := 1, cmdOK := 1,
                            s := { s1 with
                                   clock := s1.clock + 1
                                   fps := s1.fps.set v.fpsindex.toNat
                                     { f1 with signal := f1.signal |||
                                         T.FUNCTION_PARAMETER_STRUCT_SIGNAL_UPDATE } } }
            else some { v with cmdFOUND := 1, cmdOK := 0, s := s1 }
  else some v

/-- The block of the commands `getval` and `fwrval` (source lines 5606-5790). The text
made by `functionparameter_PrintParameter_ValueString` from the parameter
`fps[fpsindex].parray[pindex]` is logged with the keyword GETVAL, or written to the
file `FPScmdarg1` and logged with the keyword FWRVAL. `none` when an index is outside
its array, when `SNPRINTF_CHECK` does not return, or when the file cannot be opened. -/
def cmd_getval (T : CTRLConsts) (env : CTRLEnv) (w : CMDWORDS) (v : CMDVARS) :
    Option CMDVARS :=
  if v.cmdFOUND = 0 ∧ (w.FPScommand = "getval" ∨ w.FPScommand = "fwrval") then
    if w.FPScommand = "getval" ∧ w.nbword ≠ 2 then
      some { v with cmdFOUND := 1, cmdOK := 0,
                    s := functionparameter_outlog "ERROR" "COMMAND getval NBARGS = 1" v.s }
    else if w.FPScommand = "fwrval" ∧ w.nbword ≠ 3 then
      some { v with cmdFOUND := 1, cmdOK := 0,
                    s := functionparameter_outlog "ERROR" "COMMAND fwrval NBARGS = 2" v.s }
    else
      match getFPS v.s.fps v.fpsindex with
      | none => none
      | some f =>
        match getParam f v.pindex with
        | none => none
        | some p =>
          match functionparameter_PrintParameter_ValueString T env p v.msgstring
              T.STRINGMAXLEN_FPS_LOGMSG with
          | none => none
          | some (msg, ret) =>
            if ret = T.RETURN_SUCCESS then
              if w.FPScommand = "getval" then
                some { v with cmdFOUND := 1, cmdOK := 1, msgstring := msg,
                              s := functionparameter_outlog "GETVAL" msg v.s }
              else if env.fopen_append w.FPSarg1 = false then none
              else
                (env.SNPRINTF_CHECK T.STRINGMAXLEN_FPS_LOGMSG
                    ("WROTE to file " ++ w.FPSarg1)).map fun msg1 =>
                  { v with cmdFOUND := 1, cmdOK := 1, msgstring := msg,
                           s := functionparameter_outlog "FWRVAL" msg1
                                  (functionparameter_outlog "FWRVAL" msg
                                    { v.s with clock := v.s.clock + 1 }) }
            else some { v with cmdFOUND := 1, cmdOK := 0, msgstring := msg }
  else some v

/-- The blocks of the commands that act on a resolved entry (source lines 5147-5790),
in the order of the source; they run when the entry name has been found in the keyword
tree. -/
def entry_cmds (T : CTRLConsts) (env : CTRLEnv) (w : CMDWORDS) (v : CMDVARS) : Option CMDVARS :=
  if v.kwnindex ≠ -1 then
    (((((((((entry_cmd w "confstart" "COMMAND confstart takes NBARGS = 1"
        (fun s i => (functionparameter_CONFstart T s.fps i).map fun l => { s with fps := l })
        "CONFSTART" (fun _ i f => "start CONF process " ++ fmt_ld i ++ " " ++ f.name) v).bind
      (entry_cmd w "confstop" "COMMAND confstop takes NBARGS = 1"
        (fun s i => (functionparameter_CONFstop T s.fps i).map fun l => { s with fps := l })
        "CONFSTOP" (fun _ i f => "stop CONF process " ++ fmt_ld i ++ " " ++ f.name))).bind
      (entry_cmd w "confupdate" "COMMAND confupdate takes NBARGS = 1"
        (fun s i => (setFPS s.fps i fun f =>
            { f with signal := f.signal ||| T.FUNCTION_PARAMETER_STRUCT_SIGNAL_CHECKED
                                 ||| T.FUNCTION_PARAMETER_STRUCT_SIGNAL_UPDATE }).map
          fun l => { s with fps := l })
        "CONFUPDATE" (fun _ i f => "update CONF process " ++ fmt_ld i ++ " " ++ f.name))).bind
      (cmd_confwupdate T env w)).bind
      (entry_cmd w "runstart" "COMMAND runstart takes NBARGS = 1"
        (fun s i => (functionparameter_RUNstart T s.fps i).map fun l => { s with fps := l })
        "RUNSTART" (fun _ i f => "start RUN process " ++ fmt_ld i ++ " " ++ f.name))).bind
      (cmd_runwait T env w)).bind
      (entry_cmd w "runstop" "COMMAND runstop takes NBARGS = 1"
        (fun s i => (functionparameter_RUNstop T s.fps i).map fun l => { s with fps := l })
        "RUNSTOP" (fun _ i f => "stop RUN process " ++ fmt_ld i ++ " " ++ f.name))).bind
      (entry_cmd w "fpsrm" "COMMAND fpsrm takes NBARGS = 1"
        (fun s i => (functionparameter_FPSremove s.fps i).map fun l => { s with fps := l })
        "FPSRM" (fun _ i f => "FPS remove " ++ fmt_ld i ++ " " ++ f.name))).bind
      (cmd_setval T env w)).bind
      (cmd_getval T env w)
  else some v

/-- The end of the interpreter (source lines 5798-5823): the status bits CMDFAIL, CMDOK
and CMDNOTFOUND, each with its log line. -/
def cmd_status (T : CTRLConsts) (env : CTRLEnv) (FPScmdline : String) (w : CMDWORDS)
    (v : CMDVARS) (taskstatus : Nat) : Option (CTRLState × Nat) :=
  let quoted := String.singleton (Char.ofNat 34) ++ FPScmdline ++ String.singleton (Char.ofNat 34)
  let r0 : Option (CTRLState × Nat) :=
    if v.cmdOK = 0 then
      (env.SNPRINTF_CHECK T.STRINGMAXLEN_FPS_LOGMSG quoted).map fun m =>
        (functionparameter_outlog "CMDFAIL" m v.s, taskstatus ||| T.FPSTASK_STATUS_CMDFAIL)
    else some (v.s, taskstatus)
  let r1 : Option (CTRLState × Nat) :=
    r0.bind fun r =>
      if v.cmdOK = 1 then
        (env.SNPRINTF_CHECK T.STRINGMAXLEN_FPS_LOGMSG quoted).map fun m =>
          (functionparameter_outlog "CMDOK" m r.1, r.2 ||| T.FPSTASK_STATUS_CMDOK)
      else some r
  r1.bind fun r =>
    if v.cmdFOUND = 0 then
      (env.SNPRINTF_CHECK T.STRINGMAXLEN_FPS_LOGMSG
          ("COMMAND NOT FOUND: " ++ w.FPScommand)).map fun m =>
        (functionparameter_outlog "ERROR" m r.1, r.2 ||| T.FPSTASK_STATUS_CMDNOTFOUND)
    else some r

/-- `functionparameter_FPSprocess_cmdline(FPScmdline, fpsctrlqueuelist, keywnode,
fpsCTRLvar, fps, taskstatus)`: the state after the call, the word `*taskstatus` after
the call, and the value returned, which is -1 for an empty line and for a line that
starts with the comment character, and the content of the local variable `fpsindex`
otherwise. `loc` is the content at entry of the local variables that the function does
not initialise. The result is `none` when the call does not return or its behaviour is
undefined, as described at the blocks. -/
def functionparameter_FPSprocess_cmdline (T : CTRLConsts) (env : CTRLEnv)
    (loc : CMDLINE_LOCALS) (FPScmdline : String) (s : CTRLState) (taskstatus : Nat) :
    Option (CTRLState × Nat × Int) :=
  if FPScmdline.length = 0 then some (s, taskstatus, -1)
  else
    match env.SNPRINTF_CHECK T.STRINGMAXLEN_FPS_CMDLINE FPScmdline with
    | none => none
    | some inputcmd =>
      if inputcmd.data.head? = some (Char.ofNat 35) then some (s, taskstatus, -1)
      else
        match cmdline_words T env loc inputcmd with
        | none => none
        | some w =>
          let v0 : CMDVARS :=
            { s := functionparameter_outlog "CMDRCV" ("[" ++ inputcmd ++ "]") s
              cmdOK := 2
              cmdFOUND := if w.nbword = 0 then 1 else 0
              kwnindex := -1
              fpsindex := loc.fpsindex
              pindex := loc.pindex
              msgstring := loc.msgstring }
          match (((cmd_queueprio T env w
                    (cmd_logsymlink env w (cmd_cntinc env w (cmd_exit w v0)))).bind
                  (resolve_entry T w)).bind (entry_cmds T env w)) with
          | none => none
          | some v =>
            (cmd_status T env FPScmdline w v (taskstatus ||| T.FPSTASK_STATUS_RECEIVED)).map
              fun r => (r.1, r.2, v.fpsindex)

/-! ## Evaluation data for the command interpreter -/

/-- The value of the leading decimal digits of a list of characters. -/
def digitsVal (cs : List Char) : Nat :=
  (cs.takeWhile Char.isDigit).foldl (fun n c => 10 * n + (c.toNat - 48)) 0

/-- The number read by `atol` from a string that holds white space, an optional sign
and decimal digits of a number in the range of `long`. -/
def c_atol (s : String) : Int :=
  match s.data.dropWhile Char.isWhitespace with
  | '-' :: r => - (digitsVal r : Int)
  | '+' :: r => (digitsVal r : Int)
  | cs => (digitsVal cs : Int)

/-- Library functions for the evaluation of the interpreter: `SNPRINTF_CHECK` returns
the text when it has at least one character and fits the buffer, and does not return
otherwise; `%s` prints a null pointer as `(null)`; `atoi` and `atol` read decimal
numbers; no other process acts during `usleep`; the clock counts its readings. -/
def stdCTRLEnv : CTRLEnv where
  SNPRINTF_CHECK := fun n text => if 1 ≤ text.length ∧ text.length < n then some text else none
  fmt_null := "(null)"
  atoi := c_atol
  atol := c_atol
  atof := fun s => (c_atol s : ℚ)
  toFloat32 := fun x => x
  fmt_f := fun _ => "f"
  fopen_append := fun _ => true
  usleep := fun _ l => l
  clock_gettime := fun k => ((k : Int), 0)
  logfname := "fpslog"

/-- Local variables that hold empty strings and the index -1 at entry. -/
def zeroLocals : CMDLINE_LOCALS :=
  { fpsindex := -1, pindex := -1, FPScommand := "", FPSarg0 := "", FPSarg1 := "",
    msgstring := "" }

/-- A structure `fps` with two active int64 parameters, `fps.delayus` in slot 0 and
`fps.delay` in slot 1, both with the value 0 and written once. -/
def delayFPS2 : FUNCTION_PARAMETER_STRUCT :=
  testFPS 0
    [testSlot "fps.delayus" milkCheckConsts.FPTYPE_INT64 milkCheckConsts.FPFLAG_ACTIVE 0 0 0 1,
     testSlot "fps.delay" milkCheckConsts.FPTYPE_INT64 milkCheckConsts.FPFLAG_ACTIVE 0 0 0 1]

/-- The state of a control loop connected to the structure `delayFPS2`, with the keyword
tree that `functionparameter_scan_fps` builds for it: the root, the node `fps`, and
one leaf for each parameter. -/
def delayCTRL : CTRLState :=
  { fpsctrlqueuelist := List.replicate 3 { priority := 1 }
    keywnode := [⟨"", 0, 0⟩, ⟨"fps", 0, 0⟩, ⟨"fps.delayus", 0, 0⟩, ⟨"fps.delay", 0, 1⟩]
    fpsCTRLvar := { exitloop := 0, NBkwn := 4 }
    fps := [delayFPS2]
    testcnt := 0
    outlog := []
    sleeps := 0
    clock := 0 }

/-! ## The task scheduler `function_parameter_process_fpsCMDarray` -/

/-- The loop over the task list that finds the task to execute in queue `qi` (source
lines 6144-6156): among the tasks with the status bit ACTIVE and the queue `qi`, the
first one with the smallest `inputindex` below the start value of `inputindexmin`.
The arguments are the tasks from index `cmdindex` on, `cmdindex`, `inputindexmin`, and
`cmdindexExec`, which is `none` as long as `cmdOK == 0`. -/
def scan_queue (T : CTRLConsts) (qi : Nat) :
    List FPSCTRL_TASK_ENTRY → Nat → Nat → Option Nat → Option Nat
  | [], _, _, cmdindexExec => cmdindexExec
  | t :: ts, cmdindex, inputindexmin, cmdindexExec =>
    if t.status &&& T.FPSTASK_STATUS_ACTIVE ≠ 0 ∧ t.queue = qi
        ∧ t.inputindex < inputindexmin then
      scan_queue T qi ts (cmdindex + 1) t.inputindex (some cmdindex)
    else scan_queue T qi ts (cmdindex + 1) inputindexmin cmdindexExec

/-- The variable `task_completed` for a running task (source lines 6170-6191): a task
with the flag WAITONRUN is not completed while the status word of its structure has
the bit `STATUS_CMDRUN`; a task with the flag WAITONCONF is not completed while the
status word of its structure has the bit of the constant `SIGNAL_CHECKED`. `none` when
the structure is read and `fpsindex` is outside the array. -/
def task_completed (T : CTRLConsts) (fps : List FUNCTION_PARAMETER_STRUCT)
    (t : FPSCTRL_TASK_ENTRY) : Option Bool :=
  let waitrun : Option Bool :=
    if t.flag &&& T.FPSTASK_FLAG_WAITONRUN ≠ 0 then
      (getFPS fps t.fpsindex).map fun f =>
        decide (f.status &&& T.FUNCTION_PARAMETER_STRUCT_STATUS_CMDRUN ≠ 0)
    else some false
  let waitconf : Option Bool :=
    if t.flag &&& T.FPSTASK_FLAG_WAITONCONF ≠ 0 then
      (getFPS fps t.fpsindex).map fun f =>
        decide (f.status &&& T.FUNCTION_PARAMETER_STRUCT_SIGNAL_CHECKED ≠ 0)
    else some false
  waitrun.bind fun b1 => waitconf.map fun b2 => !(b1 || b2)

/-- The loop `while(queue_nexttask[qi] == QUEUE_SCANREADY)` for queue `qi` (source lines
6130-6211): the task list and the number of clock readings after the loop, and
`queue_nexttask[qi]`, which is -1 (`QUEUE_NOTASK`), -2 (`QUEUE_WAIT`) or the index of a
task. A running task that is completed loses the status bits RUNNING and ACTIVE, gets
its completion time, and the queue is scanned again. The first argument bounds the
number of scans; the result is `none` when it is used up, or when `task_completed` is
`none`. -/
def queue_scan (T : CTRLConsts) (env : CTRLEnv) (fps : List FUNCTION_PARAMETER_STRUCT)
    (qi : Nat) : Nat → List FPSCTRL_TASK_ENTRY → Nat → Option (List FPSCTRL_TASK_ENTRY × Nat × Int)
  | 0, _, _ => none
  | n + 1, tasks, clock =>
    match scan_queue T qi tasks 0 T.UINT_MAX none with
    | none => some (tasks, clock, -1)
    | some cmdindexExec =>
      match tasks[cmdindexExec]? with
      | none => none
      | some t =>
        if t.status &&& T.FPSTASK_STATUS_RUNNING = 0 then some (tasks, clock, (cmdindexExec : Int))
        else
          match task_completed T fps t with
          | none => none
          | some false => some (tasks, clock, -2)
          | some true =>
            queue_scan T env fps qi n
              (tasks.set cmdindexExec
                { t with status := clearFlag (clearFlag t.status T.FPSTASK_STATUS_RUNNING)
                                     T.FPSTASK_STATUS_ACTIVE
                         completiontime := env.clock_gettime clock })
              (clock + 1)

/-- The first loop over the queues (source lines 6126-6212), for the `n` queues from
`qi` on: the task list, the number of clock readings, and the elements of
`queue_nexttask` for these queues. Each queue is scanned at most once more than there
are tasks. -/
def queues_scan (T : CTRLConsts) (env : CTRLEnv) (fps : List FUNCTION_PARAMETER_STRUCT) :
    Nat → Nat → List FPSCTRL_TASK_ENTRY → Nat → Option (List FPSCTRL_TASK_ENTRY × Nat × List Int)
  | 0, _, tasks, clock => some (tasks, clock, [])
  | n + 1, qi, tasks, clock =>
    match queue_scan T env fps qi (tasks.length + 1) tasks clock with
    | none => none
    | some r =>
      (queues_scan T env fps n (qi + 1) r.1 r.2.1).map fun x => (x.1, x.2.1, r.2.2 :: x.2.2)

/-- The second loop over the queues (source lines 6216-6228), over the pairs of
`queue_nexttask[qi]` and `fpsctrlqueuelist[qi].priority`: the state is
`nexttask_priority` and `nexttask_cmdindex`. -/
def select_loop : List (Int × Int) → Int × Int → Int × Int
  | [], r => r
  | x :: rest, r =>
    if x.1 ≠ -1 ∧ x.1 ≠ -2 ∧ x.2 > r.1 then select_loop rest (x.2, x.1)
    else select_loop rest r

/-- `function_parameter_process_fpsCMDarray(fpsctrltasklist, fpsctrlqueuelist, keywnode,
fpsCTRLvar, fps)`: the task list and the state after the tick, and the number
`NBtaskLaunched` returned. The task list has `NB_FPSCTRL_TASK_MAX` entries and the
queue list `NB_FPSCTRL_TASKQUEUE_MAX` entries. `loc` is the content at entry of the
uninitialised local variables of the interpreter. The result is `none` when the scan
of a queue or the interpreter has the result `none`. -/
def function_parameter_process_fpsCMDarray (T : CTRLConsts) (env : CTRLEnv)
    (loc : CMDLINE_LOCALS) (fpsctrltasklist : List FPSCTRL_TASK_ENTRY) (s : CTRLState) :
    Option (List FPSCTRL_TASK_ENTRY × CTRLState × Nat) :=
  if fpsctrltasklist.length ≠ T.NB_FPSCTRL_TASK_MAX
      ∨ s.fpsctrlqueuelist.length ≠ T.NB_FPSCTRL_TASKQUEUE_MAX then none
  else
    match queues_scan T env s.fps T.NB_FPSCTRL_TASKQUEUE_MAX 0 fpsctrltasklist s.clock with
    | none => none
    | some (tasks1, clock1, queue_nexttask) =>
      let sel := select_loop (queue_nexttask.zip (s.fpsctrlqueuelist.map fun q => q.priority))
        (-1, -1)
      if sel.2 ≠ -1 ∧ sel.1 > 0 then
        match tasks1[sel.2.toNat]? with
        | none => none
        | some t =>
          match functionparameter_FPSprocess_cmdline T env loc t.cmdstring
              { s with clock := clock1 } 0 with
          | none => none
          | some r =>
            some (tasks1.set sel.2.toNat
                    { t with fpsindex := r.2.2
                             status := t.status ||| r.2.1 ||| T.FPSTASK_STATUS_RUNNING
                             activationtime := env.clock_gettime r.1.clock },
                  { r.1 with clock := r.1.clock + 1 }, 1)
      else some (tasks1, { s with clock := clock1 }, 0)

/-- A task entry that is not in use: every field is zero. -/
def FPSCTRL_TASK_ENTRY.zero : FPSCTRL_TASK_ENTRY :=
  { cmdstring := "", inputindex := 0, queue := 0, status := 0, flag := 0, fpsindex := 0,
    creationtime := (0, 0), activationtime := (0, 0), completiontime := (0, 0) }

/-- A task as `functionparameter_read_fpsCMD_fifo` enters it: status ACTIVE and SHOW. -/
def newTask (cmdstring : String) (inputindex queue : Nat) : FPSCTRL_TASK_ENTRY :=
  { FPSCTRL_TASK_ENTRY.zero with
    cmdstring := cmdstring, inputindex := inputindex, queue := queue
    status := milkCTRLConsts.FPSTASK_STATUS_ACTIVE ||| milkCTRLConsts.FPSTASK_STATUS_SHOW }

/-- The task list of scenario S4: one task in queue 1 and one task in queue 2; no task
in queue 0. -/
def S4tasks : List FPSCTRL_TASK_ENTRY :=
  [newTask "setval fps.delayus 7" 0 1, newTask "getval fps.delayus" 1 2,
    FPSCTRL_TASK_ENTRY.zero, FPSCTRL_TASK_ENTRY.zero]

/-- The state of scenario S4: the priorities of the queues 0, 1 and 2 are 10, 20
and 5. -/
def S4state : CTRLState :=
  { delayCTRL with fpsctrlqueuelist := [⟨10⟩, ⟨20⟩, ⟨5⟩] }

/-! ## The candidate of a queue, in the words of the specification -/

/-- A task that belongs to queue `q` as far as the scheduler is concerned: its status
has the bit ACTIVE and its queue is `q`. -/
def inQueue (T : CTRLConsts) (q : Nat) (t : FPSCTRL_TASK_ENTRY) : Prop :=
  t.status &&& T.FPSTASK_STATUS_ACTIVE ≠ 0 ∧ t.queue = q

instance (T : CTRLConsts) (q : Nat) (t : FPSCTRL_TASK_ENTRY) : Decidable (inQueue T q t) := by
  unfold inQueue; infer_instance

/-- The task at index `c` is the head of queue `q`: it is an active task of the queue,
its `inputindex` is below `UINT_MAX`, no active task of the queue has a smaller
`inputindex`, and none with the same `inputindex` has a smaller index in the task
list. -/
def queueHead (T : CTRLConsts) (tasks : List FPSCTRL_TASK_ENTRY) (q c : Nat) : Prop :=
  ∃ t, tasks[c]? = some t ∧ inQueue T q t ∧ t.inputindex < T.UINT_MAX ∧
    ∀ j t1, tasks[j]? = some t1 → inQueue T q t1 →
      t.inputindex ≤ t1.inputindex ∧ (t1.inputindex = t.inputindex → c ≤ j)

/-- The task at index `c` is the candidate of queue `q`: it is the head of the queue
and it is not running. -/
def queueCandidate (T : CTRLConsts) (tasks : List FPSCTRL_TASK_ENTRY) (q c : Nat) : Prop :=
  queueHead T tasks q c ∧
    ∃ t, tasks[c]? = some t ∧ t.status &&& T.FPSTASK_STATUS_RUNNING = 0

/-- The priority of queue `q`. -/
def queuePriority (s : CTRLState) (q : Nat) : Option Int :=
  (s.fpsctrlqueuelist[q]?).map fun x => x.priority

/-- The task `t1` is the task `t0`, as it is or completed: without the status bits
RUNNING and ACTIVE, which `t0` had, and with a completion time. -/
def completedFrom (T : CTRLConsts) (t0 t1 : FPSCTRL_TASK_ENTRY) : Prop :=
  t1 = t0 ∨
    (t0.status &&& T.FPSTASK_STATUS_ACTIVE ≠ 0 ∧ t0.status &&& T.FPSTASK_STATUS_RUNNING ≠ 0 ∧
      ∃ ct, t1 = { t0 with
        status := clearFlag (clearFlag t0.status T.FPSTASK_STATUS_RUNNING)
                    T.FPSTASK_STATUS_ACTIVE
        completiontime := ct })

/-- The task as the dispatch leaves it: the value returned by the interpreter in
`fpsindex`, the status bits of the interpreter and the bit RUNNING added to the status,
and the activation time. -/
def dispatched (T : CTRLConsts) (t : FPSCTRL_TASK_ENTRY) (taskstatus : Nat) (fpsindex : Int)
    (time : Int × Int) : FPSCTRL_TASK_ENTRY :=
  { t with fpsindex := fpsindex
           status := t.status ||| taskstatus ||| T.FPSTASK_STATUS_RUNNING
           activationtime := time }

/-- The task list `tasks1` is the task list `tasks` after completions in the queues
that satisfy `P`: each task is as it was or completed, and the tasks of the other
queues are as they were. -/
def completionsOn (T : CTRLConsts) (P : Nat → Prop) (tasks tasks1 : List FPSCTRL_TASK_ENTRY) :
    Prop :=
  tasks1.length = tasks.length ∧
    ∀ (j : Nat) (t0 : FPSCTRL_TASK_ENTRY), tasks[j]? = some t0 →
      ∃ t1, tasks1[j]? = some t1 ∧ completedFrom T t0 t1 ∧ (¬ P t0.queue → t1 = t0)

/-- What the scan of queue `q` leaves in `queue_nexttask[q]`, for the task list after
the scan: -1 when the queue has no head; -2 when the head of the queue is running;
the index of the candidate of the queue otherwise. -/
def queueResult (T : CTRLConsts) (tasks : List FPSCTRL_TASK_ENTRY) (q : Nat) (r : Int) : Prop :=
  (r = -1 ∧ ∀ c, ¬ queueHead T tasks q c) ∨
  (r = -2 ∧ ∃ c t, queueHead T tasks q c ∧ tasks[c]? = some t ∧
      t.status &&& T.FPSTASK_STATUS_RUNNING ≠ 0) ∨
  (∃ c : Nat, r = (c : Int) ∧ queueCandidate T tasks q c)

/-! ## The slot that an accessor works on -/

/-- The structure `fps1` is the structure `fps` but for slot `i` of the parameter array:
the header and the other slots are the same. -/
def sameButSlot (fps fps1 : FUNCTION_PARAMETER_STRUCT) (i : Nat) : Prop :=
  { fps1 with parray := fps.parray } = fps ∧ fps1.parray.length = fps.parray.length ∧
    ∀ j, j ≠ i → fps1.parray[j]? = fps.parray[j]?

/-! ## The status bits that the command interpreter returns -/

/-- The number of the bits CMDOK, CMDFAIL and CMDNOTFOUND that are set in a status
word. -/
def cmdBitCount (T : CTRLConsts) (status : Nat) : Nat :=
  ([T.FPSTASK_STATUS_CMDOK, T.FPSTASK_STATUS_CMDFAIL, T.FPSTASK_STATUS_CMDNOTFOUND].filter
    fun b => decide (status &&& b ≠ 0)).length

/-- The local variables `cmdFOUND` and `cmdOK` tell the same story: either no block has
recognised the command and `cmdOK` has its start value 2, or a block has recognised it
and has set `cmdOK` to 0 or 1. -/
def CMDVARS.decided (v : CMDVARS) : Prop :=
  (v.cmdFOUND = 0 ∧ v.cmdOK = 2) ∨ (v.cmdFOUND = 1 ∧ (v.cmdOK = 0 ∨ v.cmdOK = 1))

/-- The entry name of a command line resolves: the line has more than one word and the
search of the keyword tree finds a node whose full keyword is the second word. -/
def entryResolves (s : CTRLState) (w : CMDWORDS) : Prop :=
  1 < w.nbword ∧
    ∃ k : Nat, kwn_scan s.keywnode w.FPSarg0 s.fpsCTRLvar.NBkwn.toNat 0 = some (k : Int)

/-! ## Evaluation data for the gates of the scheduler -/

/-- A task list of four entries whose entry 0 is the task `cmdstring`, in queue 0 with
`inputindex` 0 and the flag word `flag`, as `functionparameter_read_fpsCMD_fifo` enters
it. -/
def gateTasks (cmdstring : String) (flag : Nat) : List FPSCTRL_TASK_ENTRY :=
  [{ newTask cmdstring 0 0 with flag := flag }, FPSCTRL_TASK_ENTRY.zero,
    FPSCTRL_TASK_ENTRY.zero, FPSCTRL_TASK_ENTRY.zero]

/-- The task list of scenario S5, after the dispatch of its first task: entry 0 is a
running task `runstart fps.delayus` of queue 2 with the flag WAITONRUN, whose structure
is structure 0; entry 1 is the next task of queue 2. -/
def S5tasks : List FPSCTRL_TASK_ENTRY :=
  [{ newTask "runstart fps.delayus" 0 2 with
      status := 0x907, flag := milkCTRLConsts.FPSTASK_FLAG_WAITONRUN },
    newTask "getval fps.delayus" 1 2, FPSCTRL_TASK_ENTRY.zero, FPSCTRL_TASK_ENTRY.zero]

/-- The control state of scenario S5, with the status word `status` in the structure. -/
def S5state (status : Nat) : CTRLState :=
  { delayCTRL with fps := [{ delayFPS2 with status := status }] }

/-! ## The reader of the command FIFO `functionparameter_read_fpsCMD_fifo` -/

/-- The static variables of `functionparameter_read_fpsCMD_fifo`: the queue, the two
wait toggles and the counter `cmdinputcnt`, which is a `uint16_t`. -/
structure FIFO_STATICS where
  queue : Nat
  waitonrun : Int
  waitonconf : Int
  cmdinputcnt : Nat
deriving DecidableEq, Repr

/-- The content at entry of the local variables `queue_index` and `queue_priority`,
which `sscanf` leaves as they are when it converts no number. -/
structure FIFO_LOCALS where
  queue_index : Int
  queue_priority : Int
deriving DecidableEq, Repr

/-- Why a call of the reader does not return: `full` is the call `exit(0)` when the
task list has no free entry; `undefined` is a write past the buffer `buff`, a number
that `sscanf` cannot represent in an `int`, a command that fills `cmdstring` without
a terminator, or an index outside the queue list. -/
inductive FIFO_STOP where
  | full
  | undefined
deriving DecidableEq, Repr

/-- The variables of the reader while it runs: its static variables, the task list, the
control state (of which it writes the queue list and reads the clock), and `cmdcnt`. -/
structure FIFO_VARS where
  statics : FIFO_STATICS
  fpsctrltasklist : List FPSCTRL_TASK_ENTRY
  s : CTRLState
  cmdcnt : Nat
deriving DecidableEq, Repr

/-- The white space of `isspace` in the C locale. -/
def c_isspace (c : Char) : Bool :=
  c = ' ' || (9 ≤ c.toNat && c.toNat ≤ 13)

/-- The number that `sscanf(line, "%s %d", stringtmp, &n)` stores in `n`: the line
holds a word, white space or nothing, and then an optional sign and decimal digits.
`none` when no number is converted. -/
def sscanf_s_d (line : String) : Option Int :=
  let afterword := (line.data.dropWhile c_isspace).dropWhile (fun c => !c_isspace c)
  match afterword.dropWhile c_isspace with
  | '-' :: r => if r.head?.any Char.isDigit then some (-(digitsVal r : Int)) else none
  | '+' :: r => if r.head?.any Char.isDigit then some (digitsVal r : Int) else none
  | cs => if cs.head?.any Char.isDigit then some (digitsVal cs : Int) else none

/-- The search of the next free entry (source lines 5903-5916): the index of the first
entry from `cmdindex` on whose status is 0, or `none` when the loop ends with
`cmdindex == NB_FPSCTRL_TASK_MAX`. -/
def task_free_slot : List FPSCTRL_TASK_ENTRY → Nat → Option Nat
  | [], _ => none
  | t :: ts, cmdindex => if t.status = 0 then some cmdindex else task_free_slot ts (cmdindex + 1)

/-- The first test on a line (source line 5932): the line is disregarded when its first
byte is the comment character or a blank, or when it has no byte before the newline. -/
def fifo_disregards (buff : List Char) : Prop :=
  buff.head? = some (Char.ofNat 35) ∨ buff.head? = some ' ' ∨ buff.length + 1 < 2

instance (buff : List Char) : Decidable (fifo_disregards buff) := by
  unfold fifo_disregards; infer_instance

/-- The entry that the reader writes for a command (source lines 6020-6044) into the
free entry `t`. -/
def fifo_entry (T : CTRLConsts) (env : CTRLEnv) (st : FIFO_STATICS) (clock : Nat)
    (FPScmdline : String) (t : FPSCTRL_TASK_ENTRY) : FPSCTRL_TASK_ENTRY :=
  { t with
    cmdstring := FPScmdline
    status := T.FPSTASK_STATUS_ACTIVE ||| T.FPSTASK_STATUS_SHOW
    inputindex := st.cmdinputcnt
    queue := st.queue
    creationtime := env.clock_gettime clock
    flag :=
      (fun f1 : Nat =>
        if st.waitonconf = 1 then f1 ||| T.FPSTASK_FLAG_WAITONCONF
        else clearFlag f1 T.FPSTASK_FLAG_WAITONCONF)
      (if st.waitonrun = 1 then t.flag ||| T.FPSTASK_FLAG_WAITONRUN
       else clearFlag t.flag T.FPSTASK_FLAG_WAITONRUN) }

/-- The string `FPScmdline` that the bytes of a line make: the reader writes a zero
byte in the place of the newline, so the string ends at the first zero byte. -/
def fifo_cmdline (buff : List Char) : String :=
  String.mk (buff.takeWhile (fun c => c ≠ Char.ofNat 0))

/-- What the reader does with one line (source lines 5896-6051); `buff` holds the bytes
of the line before the newline, and `FPScmdline` is the string that they make, which
ends at a zero byte if there is one. The free entry is searched first, and the process
exits when there is none, whatever the line is. Then the line is disregarded, or it is
one of the seven directives, recognised by the start of the line, or it is entered
into the task list as a command. -/
def fifo_line (T : CTRLConsts) (env : CTRLEnv) (loc : FIFO_LOCALS) (buff : List Char)
    (v : FIFO_VARS) : Except FIFO_STOP FIFO_VARS :=
  let FPScmdline := fifo_cmdline buff
  match task_free_slot v.fpsctrltasklist 0 with
  | none => .error .full
  | some cmdindex =>
    if fifo_disregards buff then .ok v
    else if startsWith FPScmdline "taskcntzero" then
      .ok { v with statics := { v.statics with cmdinputcnt := 0 } }
    else if startsWith FPScmdline "setqindex" then
      let queue_index := (sscanf_s_d FPScmdline).getD loc.queue_index
      if queue_index < -2147483648 ∨ 2147483647 < queue_index then .error .undefined
      else if -1 < queue_index ∧ queue_index < T.NB_FPSCTRL_TASKQUEUE_MAX then
        .ok { v with statics := { v.statics with queue := queue_index.toNat } }
      else .ok v
    else if startsWith FPScmdline "setqprio" then
      let queue_priority := (sscanf_s_d FPScmdline).getD loc.queue_priority
      if queue_priority < -2147483648 ∨ 2147483647 < queue_priority then .error .undefined
      else if v.s.fpsctrlqueuelist.length ≤ v.statics.queue then .error .undefined
      else
        .ok { v with s := { v.s with fpsctrlqueuelist :=
                (v.s.fpsctrlqueuelist.set v.statics.queue
                  { priority := if queue_priority < 0 then 0 else queue_priority }) } }
    else if startsWith FPScmdline "waitonrunON" then
      .ok { v with statics := { v.statics with waitonrun := 1 } }
    else if startsWith FPScmdline "waitonrunOFF" then
      .ok { v with statics := { v.statics with waitonrun := 0 } }
    else if startsWith FPScmdline "waitonconfON" then
      .ok { v with statics := { v.statics with waitonconf := 1 } }
    else if startsWith FPScmdline "waitonconfOFF" then
      .ok { v with statics := { v.statics with waitonconf := 0 } }
    else
      match v.fpsctrltasklist[cmdindex]? with
      | none => .error .undefined
      | some t =>
        if T.STRINGMAXLEN_FPS_CMDLINE ≤ FPScmdline.length then .error .undefined
        else
          .ok { v with
                fpsctrltasklist :=
                  (v.fpsctrltasklist.set cmdindex
                    (fifo_entry T env v.statics v.s.clock FPScmdline t))
                s := { v.s with clock := v.s.clock + 1 }
                statics := { v.statics with
                             cmdinputcnt := (v.statics.cmdinputcnt + 1) % 2 ^ 16 }
                cmdcnt := v.cmdcnt + 1 }

/-- The loops that read the FIFO one byte at a time (source lines 5865-6055). The first
argument holds the bytes that `read` delivers during the call, the second the bytes of
the current line that are in `buff`. A byte is written into `buff`, which has 200
elements, before it is compared with the newline. When `read` delivers no byte the
function returns; the bytes of a line without its newline are dropped. -/
def fifo_read_loop (T : CTRLConsts) (env : CTRLEnv) (loc : FIFO_LOCALS) :
    List Char → List Char → FIFO_VARS → Except FIFO_STOP FIFO_VARS
  | [], _, v => .ok v
  | c :: rest, buff, v =>
    if 200 ≤ buff.length then .error .undefined
    else if c = Char.ofNat 10 then
      match fifo_line T env loc buff v with
      | .error e => .error e
      | .ok v1 => fifo_read_loop T env loc rest [] v1
    else fifo_read_loop T env loc rest (buff ++ [c]) v

/-- `functionparameter_read_fpsCMD_fifo(fpsCTRLfifofd, fpsctrltasklist,
fpsctrlqueuelist)`: `input` holds the bytes that `read` delivers during the call. The
result is the static variables, the task list and the control state after the call, and
the value `cmdcnt` returned. The task list has `NB_FPSCTRL_TASK_MAX` entries and the
queue list `NB_FPSCTRL_TASKQUEUE_MAX` entries. -/
def functionparameter_read_fpsCMD_fifo (T : CTRLConsts) (env : CTRLEnv) (loc : FIFO_LOCALS)
    (input : String) (statics : FIFO_STATICS) (fpsctrltasklist : List FPSCTRL_TASK_ENTRY)
    (s : CTRLState) : Except FIFO_STOP FIFO_VARS :=
  if fpsctrltasklist.length ≠ T.NB_FPSCTRL_TASK_MAX
      ∨ s.fpsctrlqueuelist.length ≠ T.NB_FPSCTRL_TASKQUEUE_MAX then .error .undefined
  else
    fifo_read_loop T env loc input.data []
      { statics := statics, fpsctrltasklist := fpsctrltasklist, s := s, cmdcnt := 0 }

/-- The static variables at the start of the process: all zero. -/
def FIFO_STATICS.zero : FIFO_STATICS :=
  { queue := 0, waitonrun := 0, waitonconf := 0, cmdinputcnt := 0 }

/-- Local variables that hold 0 at entry. -/
def zeroFifoLocals : FIFO_LOCALS := { queue_index := 0, queue_priority := 0 }

/-- The bytes of a sequence of lines, each followed by a newline. -/
def fifoText (lines : List String) : String :=
  String.join (lines.map fun l => l ++ String.singleton (Char.ofNat 10))
/-! ## Runs of the control loop -/

/-- One step of the control loop, as far as the task list is concerned: a call of the
reader with the bytes that the FIFO delivers, a tick of the scheduler, or a write of the
connected structures by the other processes. The arguments `loc` are the contents at
entry of the uninitialised local variables. -/
inductive CTRL_EVENT where
  | fifo (input : String) (loc : FIFO_LOCALS)
  | tick (loc : CMDLINE_LOCALS)
  | shm (fps : List FUNCTION_PARAMETER_STRUCT)

/-- The variables of the control loop of `functionparameter_CTRLscreen` that the reader
and the scheduler work on: the static variables of the reader, the task list, the
control state, and the counters `fifocmdcnt`, `NBtaskLaunched` (the tasks launched in
the passes of the loop since the screen was last drawn) and `NBtaskLaunchedcnt`. The
counters are taken without overflow. -/
structure CTRL_LOOP where
  statics : FIFO_STATICS
  fpsctrltasklist : List FPSCTRL_TASK_ENTRY
  s : CTRLState
  fifocmdcnt : Nat
  NBtaskLaunched : Nat
  NBtaskLaunchedcnt : Nat
deriving DecidableEq, Repr

/-- One step of the control loop (source lines 8131-8158 for the reader and the
scheduler): the value returned by the reader is added to `fifocmdcnt`; the value
returned by the scheduler is added to `NBtaskLaunched`, and the new value of
`NBtaskLaunched` is added to `NBtaskLaunchedcnt`. A tick that does not return is the
stop `undefined`. -/
def ctrl_step (T : CTRLConsts) (env : CTRLEnv) (e : CTRL_EVENT) (L : CTRL_LOOP) :
    Except FIFO_STOP CTRL_LOOP :=
  match e with
  | .fifo input loc =>
    match functionparameter_read_fpsCMD_fifo T env loc input L.statics L.fpsctrltasklist L.s with
    | .error x => .error x
    | .ok v =>
      .ok { L with statics := v.statics, fpsctrltasklist := v.fpsctrltasklist, s := v.s,
                   fifocmdcnt := L.fifocmdcnt + v.cmdcnt }
  | .tick loc =>
    match function_parameter_process_fpsCMDarray T env loc L.fpsctrltasklist L.s with
    | none => .error .undefined
    | some r =>
      .ok { L with fpsctrltasklist := r.1, s := r.2.1,
                   NBtaskLaunched := L.NBtaskLaunched + r.2.2,
                   NBtaskLaunchedcnt := L.NBtaskLaunchedcnt + (L.NBtaskLaunched + r.2.2) }
  | .shm fps => .ok { L with s := { L.s with fps := fps } }

/-- A run of the control loop: a sequence of steps, which ends at the first step that
does not return. -/
def ctrl_run (T : CTRLConsts) (env : CTRLEnv) : List CTRL_EVENT → CTRL_LOOP →
    Except FIFO_STOP CTRL_LOOP
  | [], L => .ok L
  | e :: es, L =>
    match ctrl_step T env e L with
    | .error x => .error x
    | .ok L1 => ctrl_run T env es L1

/-- The variables of the control loop before its first pass (source lines 7975-7992):
the status of every entry of the task list is 0, the static variables of the reader
and the counter `fifocmdcnt` are 0. -/
def CTRL_LOOP.atStart (T : CTRLConsts) (L : CTRL_LOOP) : Prop :=
  L.fpsctrltasklist.length = T.NB_FPSCTRL_TASK_MAX ∧
  (∀ t ∈ L.fpsctrltasklist, t.status = 0) ∧ L.statics = FIFO_STATICS.zero ∧
  L.fifocmdcnt = 0

instance (T : CTRLConsts) (L : CTRL_LOOP) : Decidable (L.atStart T) := by
  unfold CTRL_LOOP.atStart; infer_instance

/-- The variables of a control loop with a task list of four entries, before its first
pass, connected to the structure with the parameters `fps.delayus` and `fps.delay`. -/
def startLoop : CTRL_LOOP :=
  { statics := FIFO_STATICS.zero
    fpsctrltasklist := List.replicate 4 FPSCTRL_TASK_ENTRY.zero
    s := delayCTRL
    fifocmdcnt := 0
    NBtaskLaunched := 0
    NBtaskLaunchedcnt := 0 }

/-! ## The lines of the FIFO and the order of activation, in the words of the
specification -/

/-- The kinds of lines of the FIFO. -/
inductive FIFO_KIND where
  | disregarded
  | taskcntzero
  | setqindex
  | setqprio
  | waitonrunON
  | waitonrunOFF
  | waitonconfON
  | waitonconfOFF
  | command
deriving DecidableEq, Repr

/-- The kind of a line: disregarded (empty, or starting with the comment character or
with a blank), one of the seven directives, recognised by the start of the line in the
order of the tests of the reader, or a command. -/
def fifo_kind (buff : List Char) : FIFO_KIND :=
  if fifo_disregards buff then .disregarded
  else if startsWith (fifo_cmdline buff) "taskcntzero" then .taskcntzero
  else if startsWith (fifo_cmdline buff) "setqindex" then .setqindex
  else if startsWith (fifo_cmdline buff) "setqprio" then .setqprio
  else if startsWith (fifo_cmdline buff) "waitonrunON" then .waitonrunON
  else if startsWith (fifo_cmdline buff) "waitonrunOFF" then .waitonrunOFF
  else if startsWith (fifo_cmdline buff) "waitonconfON" then .waitonconfON
  else if startsWith (fifo_cmdline buff) "waitonconfOFF" then .waitonconfOFF
  else .command

/-- The number that a directive line gives to `sscanf`, or the content at entry of the
local variable when there is none, is in the range of an `int`. -/
def fifo_int_ok (garbage : Int) (buff : List Char) : Prop :=
  -2147483648 ≤ (sscanf_s_d (fifo_cmdline buff)).getD garbage ∧
    (sscanf_s_d (fifo_cmdline buff)).getD garbage ≤ 2147483647

instance (garbage : Int) (buff : List Char) : Decidable (fifo_int_ok garbage buff) := by
  unfold fifo_int_ok; infer_instance

/-- A line between a line `setqindex N` and the next command that leaves the queue `N`
selected: it is not a command; if it is a `setqindex` line, its number is `N` or is not
the index of a queue; and the number of a `setqindex` or `setqprio` line is in the
range of an `int`. -/
def fifo_between (T : CTRLConsts) (loc : FIFO_LOCALS) (N : Nat) (buff : List Char) : Prop :=
  fifo_kind buff ≠ .command ∧
  (fifo_kind buff = .setqindex →
    fifo_int_ok loc.queue_index buff ∧
    ((sscanf_s_d (fifo_cmdline buff)).getD loc.queue_index = (N : Int) ∨
      ¬ (-1 < (sscanf_s_d (fifo_cmdline buff)).getD loc.queue_index ∧
        (sscanf_s_d (fifo_cmdline buff)).getD loc.queue_index
          < (T.NB_FPSCTRL_TASKQUEUE_MAX : Int)))) ∧
  (fifo_kind buff = .setqprio → fifo_int_ok loc.queue_priority buff)

instance (T : CTRLConsts) (loc : FIFO_LOCALS) (N : Nat) (buff : List Char) :
    Decidable (fifo_between T loc N buff) := by
  unfold fifo_between; infer_instance

/-- A line that fits the buffer of the reader: fewer than 200 bytes, none of which is a
newline. -/
def fifo_fits (buff : List Char) : Prop :=
  buff.length < 200 ∧ Char.ofNat 10 ∉ buff

instance (buff : List Char) : Decidable (fifo_fits buff) := by
  unfold fifo_fits; infer_instance

/-- The bytes of a sequence of lines, each followed by a newline. -/
def fifo_bytes (lines : List (List Char)) : List Char :=
  (lines.map fun l => l ++ [Char.ofNat 10]).flatten

/-- No line of the bytes that the reader receives is the directive `taskcntzero`; the
second argument holds the bytes of the current line read so far. -/
def fifo_no_reset : List Char → List Char → Bool
  | [], _ => true
  | c :: rest, buff =>
    if c = Char.ofNat 10 then
      (fifo_kind buff != .taskcntzero) && fifo_no_reset rest []
    else fifo_no_reset rest (buff ++ [c])

/-- No call of the reader in a sequence of steps receives the directive
`taskcntzero`. -/
def events_no_reset : List CTRL_EVENT → Bool
  | [] => true
  | .fifo input _ :: es => fifo_no_reset input.data [] && events_no_reset es
  | _ :: es => events_no_reset es

/-- A task that has been activated: it is running, or it is no longer active. -/
def taskActivated (T : CTRLConsts) (t : FPSCTRL_TASK_ENTRY) : Prop :=
  t.status &&& T.FPSTASK_STATUS_RUNNING ≠ 0 ∨ t.status &&& T.FPSTASK_STATUS_ACTIVE = 0

instance (T : CTRLConsts) (t : FPSCTRL_TASK_ENTRY) : Decidable (taskActivated T t) := by
  unfold taskActivated; infer_instance

/-- The order of activation in a task list: of two entries in use (status other than
0) in the same queue, the one with the larger `inputindex` has been activated only if
the one with the smaller `inputindex` has been. -/
def schedOrdered (T : CTRLConsts) (tasks : List FPSCTRL_TASK_ENTRY) : Prop :=
  ∀ (i j : Nat) (a b : FPSCTRL_TASK_ENTRY), tasks[i]? = some a → tasks[j]? = some b →
    a.status ≠ 0 → b.status ≠ 0 → a.queue = b.queue → a.inputindex < b.inputindex →
    taskActivated T b → taskActivated T a

/-- The order of activation as a test over the pairs of entries of a task list. -/
def schedOrderedB (T : CTRLConsts) (tasks : List FPSCTRL_TASK_ENTRY) : Bool :=
  tasks.all fun a => tasks.all fun b =>
    decide (a.status ≠ 0 → b.status ≠ 0 → a.queue = b.queue → a.inputindex < b.inputindex →
      taskActivated T b → taskActivated T a)

/-- The number of entries of a task list whose status is 0. -/
def freeCount (tasks : List FPSCTRL_TASK_ENTRY) : Nat :=
  tasks.countP fun t => decide (t.status = 0)

/-- The state of the entries of a task list after `cnt` commands have been entered:
the list has the size of the control loop, the status of an entry is 0 or holds the bit
SHOW, and the entries with the status 0 and the commands entered make up the list. -/
def slotsInv (T : CTRLConsts) (tasks : List FPSCTRL_TASK_ENTRY) (cnt : Nat) : Prop :=
  tasks.length = T.NB_FPSCTRL_TASK_MAX ∧
  (∀ t ∈ tasks, t.status = 0 ∨ t.status &&& T.FPSTASK_STATUS_SHOW ≠ 0) ∧
  freeCount tasks + cnt = T.NB_FPSCTRL_TASK_MAX

/-- The state of the counter `cmdinputcnt` and of the task list when no directive
`taskcntzero` has been read: the counter is the number of entries in use, as a
`uint16_t`; the `inputindex` of an entry in use is below that number; and the order of
activation holds. -/
def orderInv (T : CTRLConsts) (tasks : List FPSCTRL_TASK_ENTRY) (cmdinputcnt : Nat) : Prop :=
  cmdinputcnt = (T.NB_FPSCTRL_TASK_MAX - freeCount tasks) % 2 ^ 16 ∧
  (∀ t ∈ tasks, t.status ≠ 0 → t.inputindex < T.NB_FPSCTRL_TASK_MAX - freeCount tasks) ∧
  schedOrdered T tasks

/-! # Theorems -/

/-! ## Facts about the constants -/

/-- The facts about the token-type labels that `WF` provides. -/
theorem CLIConsts.WF.tokLabels {K : CLIConsts} (hK : K.WF) :
    low16 K.CLIARG_FLOAT32 ≠ low16 K.CLIARG_INT64 ∧
    low16 K.CLIARG_FLOAT32 ≠ K.CLIARG_STR_NOT_IMG ∧
    low16 K.CLIARG_FLOAT32 ≠ K.CLIARG_IMG ∧ low16 K.CLIARG_FLOAT32 ≠ K.CLIARG_STR ∧
    low16 K.CLIARG_INT64 ≠ K.CLIARG_STR_NOT_IMG ∧ low16 K.CLIARG_INT64 ≠ K.CLIARG_IMG ∧
    low16 K.CLIARG_INT64 ≠ K.CLIARG_STR ∧ K.CLIARG_STR_NOT_IMG ≠ K.CLIARG_IMG ∧
    K.CLIARG_STR_NOT_IMG ≠ K.CLIARG_STR ∧ K.CLIARG_IMG ≠ K.CLIARG_STR ∧
    low16 K.CLIARG_FLOAT64 = low16 K.CLIARG_FLOAT32 := by
  obtain ⟨-, h2, h3, -⟩ := hK
  simp only [List.nodup_cons, List.mem_cons, List.mem_singleton, not_or, List.not_mem_nil,
    not_false_eq_true, List.nodup_nil, and_true, CLIConsts.tokFLOAT, CLIConsts.tokINT] at h2 h3
  omega

/-- The argument-type codes are pairwise distinct, in the form `omega` can use. -/
theorem CLIConsts.WF.argLabels {K : CLIConsts} (hK : K.WF) :
    [K.CLIARG_FLOAT32, K.CLIARG_FLOAT64, K.CLIARG_FLOAT, K.CLIARG_INT32, K.CLIARG_INT64,
      K.CLIARG_UINT32, K.CLIARG_UINT64, K.CLIARG_ONOFF, K.CLIARG_LONG, K.CLIARG_STR_NOT_IMG,
      K.CLIARG_IMG, K.CLIARG_STREAM, K.CLIARG_STR].Pairwise (fun a b => a ≠ b) := hK.1

/-! ## `CLI_checkarg0` and the coercion table -/

theorem checkarg0_onoff_snd (t : CMDARGTOKEN) :
    ((checkarg0_onoff t).2 = 0 ↔ isOnOffWord t.string) ∧
    ((checkarg0_onoff t).2 = 0 ∨ (checkarg0_onoff t).2 = 2) := by
  unfold checkarg0_onoff isOnOffWord
  by_cases h1 : t.string = "on" ∨ t.string = "ON" <;>
  by_cases h2 : t.string = "off" ∨ t.string = "OFF" <;> simp [h1, h2]

theorem checkarg0_FLOAT_snd (K : CLIConsts) (env : CLIEnv) (hK : K.WF) (t : CMDARGTOKEN)
    (hkind : lexedKind K env t) :
    ((checkarg0_FLOAT K env t).2 = 0 ↔ (t.type = K.tokFLOAT ∨ t.type = K.tokINT)) ∧
    ((checkarg0_FLOAT K env t).2 = 0 ∨ (checkarg0_FLOAT K env t).2 = 1) := by
  have hl := hK.tokLabels
  unfold lexedKind CLIConsts.tokFLOAT CLIConsts.tokINT at hkind
  unfold checkarg0_FLOAT CLIConsts.tokFLOAT CLIConsts.tokINT
  rcases hkind with hk | hk | hk | hk | ⟨hk, hv⟩
  · simp [hk]
  · rw [if_neg (by omega), if_pos hk]; simp [hk]
  · rw [if_neg (by omega), if_neg (by omega), if_neg (by omega), if_pos hk]
    simp; omega
  · rw [if_neg (by omega), if_neg (by omega), if_neg (by omega), if_neg (by omega), if_pos hk]
    simp; omega
  · rw [if_neg (by omega), if_neg (by omega), if_pos hk, hv]
    simp; omega

theorem checkarg0_INT_snd (K : CLIConsts) (env : CLIEnv) (hK : K.WF) (ft : Nat)
    (t : CMDARGTOKEN) (hkind : lexedKind K env t) :
    ((checkarg0_INT K env ft t).2 = 0 ↔
      ((t.type = K.tokFLOAT ∨ t.type = K.tokINT) ∨
        ((t.type = K.CLIARG_STR ∨ t.type = K.CLIARG_STR_NOT_IMG) ∧ ft = K.CLIARG_ONOFF
          ∧ isOnOffWord t.string))) ∧
    ((checkarg0_INT K env ft t).2 = 0 ∨ (checkarg0_INT K env ft t).2 = 1
      ∨ (checkarg0_INT K env ft t).2 = 2) := by
  have hl := hK.tokLabels
  obtain ⟨ho1, ho2⟩ := checkarg0_onoff_snd t
  unfold lexedKind CLIConsts.tokFLOAT CLIConsts.tokINT at hkind
  unfold checkarg0_INT CLIConsts.tokFLOAT CLIConsts.tokINT
  rcases hkind with hk | hk | hk | hk | ⟨hk, hv⟩
  · simp [hk]
  · rw [if_neg (by omega), if_pos hk]; simp [hk]
  · rw [if_neg (by omega), if_neg (by omega), if_neg (by omega), if_pos hk]
    simp; omega
  · rw [if_neg (by omega), if_neg (by omega), if_neg (by omega), if_neg (by omega), if_pos hk]
    by_cases hf : ft = K.CLIARG_ONOFF
    · rw [if_pos hf]
      refine ⟨?_, by omega⟩
      rw [ho1]; constructor
      · intro h; exact Or.inr ⟨Or.inl hk, hf, h⟩
      · rintro (h | ⟨-, -, h⟩)
        · omega
        · exact h
    · rw [if_neg hf]; simp [hf]; omega
  · rw [if_neg (by omega), if_neg (by omega), if_pos hk]
    by_cases hf : ft = K.CLIARG_ONOFF
    · rw [if_pos hf]
      refine ⟨?_, by omega⟩
      rw [ho1]; constructor
      · intro h; exact Or.inr ⟨Or.inr hk, hf, h⟩
      · rintro (h | ⟨-, -, h⟩)
        · omega
        · exact h
    · rw [if_neg hf, hv]; simp [hf]; omega

theorem checkarg0_STR_NOT_IMG_snd (K : CLIConsts) (env : CLIEnv) (hK : K.WF)
    (t : CMDARGTOKEN) (hkind : lexedKind K env t) :
    ((checkarg0_STR_NOT_IMG K env t).2 = 0 ↔ t.type = K.CLIARG_STR_NOT_IMG) ∧
    ((checkarg0_STR_NOT_IMG K env t).2 = 0 ∨ (checkarg0_STR_NOT_IMG K env t).2 = 1) := by
  have hl := hK.tokLabels
  unfold lexedKind CLIConsts.tokFLOAT CLIConsts.tokINT at hkind
  unfold checkarg0_STR_NOT_IMG
  rcases hkind with hk | hk | hk | hk | ⟨hk, -⟩
  · rw [if_pos (by omega)]; simp; omega
  · rw [if_neg (by omega), if_pos hk]; simp; omega
  · rw [if_neg (by omega), if_neg (by omega), if_neg (by omega), if_pos hk]
    simp; omega
  · rw [if_neg (by omega), if_neg (by omega), if_neg (by omega), if_neg (by omega), if_pos hk]
    simp; omega
  · rw [if_neg (by omega), if_neg (by omega), if_pos hk]
    simp [hk]

theorem checkarg0_IMG_snd (K : CLIConsts) (env : CLIEnv) (hK : K.WF)
    (t : CMDARGTOKEN) (hkind : lexedKind K env t) :
    ((checkarg0_IMG K env t).2 = 0 ↔ t.type = K.CLIARG_IMG) ∧
    ((checkarg0_IMG K env t).2 = 0 ∨ (checkarg0_IMG K env t).2 = 1) := by
  have hl := hK.tokLabels
  unfold lexedKind CLIConsts.tokFLOAT CLIConsts.tokINT at hkind
  unfold checkarg0_IMG
  rcases hkind with hk | hk | hk | hk | ⟨hk, -⟩
  · rw [if_pos hk]; simp; omega
  · rw [if_neg (by omega), if_pos hk]; simp; omega
  · rw [if_neg (by omega), if_neg (by omega), if_neg (by omega), if_pos hk]
    simp [hk]
  · rw [if_neg (by omega), if_neg (by omega), if_neg (by omega), if_neg (by omega), if_pos hk]
    simp; omega
  · rw [if_neg (by omega), if_neg (by omega), if_pos hk]
    simp; omega

theorem checkarg0_STR_snd (K : CLIConsts) (env : CLIEnv) (hK : K.WF)
    (t : CMDARGTOKEN) (hkind : lexedKind K env t) :
    ((checkarg0_STR K env t).2 = 0 ↔
      (t.type = K.CLIARG_STR_NOT_IMG ∨ t.type = K.CLIARG_IMG ∨ t.type = K.CLIARG_STR)) ∧
    ((checkarg0_STR K env t).2 = 0 ∨ (checkarg0_STR K env t).2 = 1) := by
  have hl := hK.tokLabels
  unfold lexedKind CLIConsts.tokFLOAT CLIConsts.tokINT at hkind
  unfold checkarg0_STR
  rcases hkind with hk | hk | hk | hk | ⟨hk, -⟩
  · rw [if_pos hk]; simp; omega
  · rw [if_neg (by omega), if_pos hk]; simp; omega
  · rw [if_neg (by omega), if_neg (by omega), if_neg (by omega), if_pos hk]
    simp [hk]
  · rw [if_neg (by omega), if_neg (by omega), if_neg (by omega), if_neg (by omega), if_pos hk]
    simp [hk]
  · rw [if_neg (by omega), if_neg (by omega), if_pos hk]
    simp [hk]

/-- The five expected kinds of the coercion table exclude each other. -/
theorem CLIConsts.WF.expected_excl {K : CLIConsts} (hK : K.WF) (ft : Nat) :
    (K.isIntArg ft → ¬ K.isFloatArg ft) ∧
    (ft = K.CLIARG_STR_NOT_IMG → ¬ K.isFloatArg ft ∧ ¬ K.isIntArg ft) ∧
    (ft = K.CLIARG_IMG → ¬ K.isFloatArg ft ∧ ¬ K.isIntArg ft ∧ ft ≠ K.CLIARG_STR_NOT_IMG) ∧
    (ft = K.CLIARG_STR → ¬ K.isFloatArg ft ∧ ¬ K.isIntArg ft ∧ ft ≠ K.CLIARG_STR_NOT_IMG
      ∧ ft ≠ K.CLIARG_IMG) := by
  have h1 := hK.1
  have h1r := List.nodup_reverse.mpr h1
  simp only [List.reverse_cons, List.reverse_nil, List.nil_append, List.cons_append,
    List.nodup_cons, List.mem_cons, List.mem_singleton, not_or, List.not_mem_nil,
    not_false_eq_true, List.nodup_nil, and_true] at h1 h1r
  unfold CLIConsts.isFloatArg CLIConsts.isIntArg
  refine ⟨?_, ?_, ?_, ?_⟩
  · rintro (h | h | h | h | h | h) <;> subst h <;> simp [h1, h1r]
  · rintro h; subst h; simp [h1, h1r]
  · rintro h; subst h; simp [h1, h1r]
  · rintro h; subst h; simp [h1, h1r]

/-- The outer `switch` of `CLI_checkarg0` on lexed tokens and the expected kinds of the
coercion table: `rval = 0` exactly at the entries of the table that are not `X`. -/
theorem checkarg0_switch_table (K : CLIConsts) (env : CLIEnv) (hK : K.WF) (t : CMDARGTOKEN)
    (ft : Nat) (hkind : lexedKind K env t) (hft : expectedKind K ft) :
    ((checkarg0_switch K env ft t).2 = 0 ↔ coercion_table_accepts K t ft) ∧
    ((checkarg0_switch K env ft t).2 = 0 ∨ (checkarg0_switch K env ft t).2 = 1
      ∨ (checkarg0_switch K env ft t).2 = 2) := by
  have hl := hK.tokLabels
  obtain ⟨hx1, hx2, hx3, hx4⟩ := hK.expected_excl ft
  obtain ⟨hF1, hF2⟩ := checkarg0_FLOAT_snd K env hK t hkind
  obtain ⟨hI1, hI2⟩ := checkarg0_INT_snd K env hK ft t hkind
  obtain ⟨hS1, hS2⟩ := checkarg0_STR_NOT_IMG_snd K env hK t hkind
  obtain ⟨hG1, hG2⟩ := checkarg0_IMG_snd K env hK t hkind
  obtain ⟨hT1, hT2⟩ := checkarg0_STR_snd K env hK t hkind
  unfold checkarg0_switch coercion_table_accepts
  unfold expectedKind at hft
  unfold CLIConsts.tokFLOAT CLIConsts.tokINT CLIConsts.isFloatArg CLIConsts.isIntArg at *
  rcases hft with hf | hf | hf | hf | hf
  · rw [if_pos hf]
    refine ⟨?_, hF2.imp_right Or.inl⟩
    rw [hF1]
    constructor
    · intro h; exact Or.inl ⟨h, Or.inl hf⟩
    · rintro (⟨h, -⟩ | ⟨h, h'⟩ | ⟨h, h'⟩ | ⟨h, h'⟩ | ⟨h, h', -⟩)
      · exact h
      · exact absurd hf (by rcases h' with h' | h' <;> [exact (hx3 h').1; exact (hx4 h').1])
      · exact absurd hf (hx4 h').1
      · exact absurd hf (by rcases h' with h' | h' <;> [exact (hx2 h').1; exact (hx4 h').1])
      · exact absurd hf (hx1 (Or.inr (Or.inr (Or.inr (Or.inr (Or.inl h'))))))
  · rw [if_neg (hx1 hf), if_pos hf]
    refine ⟨?_, hI2⟩
    rw [hI1]
    constructor
    · rintro (h | h)
      · exact Or.inl ⟨h, Or.inr hf⟩
      · exact Or.inr (Or.inr (Or.inr (Or.inr h)))
    · rintro (⟨h, -⟩ | ⟨h, h'⟩ | ⟨h, h'⟩ | ⟨h, h'⟩ | h)
      · exact Or.inl h
      · exact absurd hf (by rcases h' with h' | h' <;> [exact (hx3 h').2.1; exact (hx4 h').2.1])
      · exact absurd hf (hx4 h').2.1
      · exact absurd hf (by rcases h' with h' | h' <;> [exact (hx2 h').2; exact (hx4 h').2.1])
      · exact Or.inr h
  · rw [if_neg (hx2 hf).1, if_neg (hx2 hf).2, if_pos hf]
    refine ⟨?_, hS2.imp_right Or.inl⟩
    rw [hS1]
    constructor
    · intro h; exact Or.inr (Or.inr (Or.inr (Or.inl ⟨h, Or.inl hf⟩)))
    · rintro (⟨h, h'⟩ | ⟨h, h'⟩ | ⟨h, h'⟩ | ⟨h, h'⟩ | ⟨h, h', -⟩)
      · exact absurd h' (by rintro (h' | h') <;> [exact (hx2 hf).1 h'; exact (hx2 hf).2 h'])
      · exact absurd hf (by rcases h' with h' | h' <;> [exact (hx3 h').2.2; exact (hx4 h').2.2.1])
      · exact absurd hf (hx4 h').2.2.1
      · exact h
      · exact absurd (Or.inr (Or.inr (Or.inr (Or.inr (Or.inl h'))))) (hx2 hf).2
  · rw [if_neg (hx3 hf).1, if_neg (hx3 hf).2.1, if_neg (hx3 hf).2.2, if_pos hf]
    refine ⟨?_, hG2.imp_right Or.inl⟩
    rw [hG1]
    constructor
    · intro h; exact Or.inr (Or.inl ⟨h, Or.inl hf⟩)
    · rintro (⟨h, h'⟩ | ⟨h, h'⟩ | ⟨h, h'⟩ | ⟨h, h'⟩ | ⟨h, h', -⟩)
      · exact absurd h' (by rintro (h' | h') <;> [exact (hx3 hf).1 h'; exact (hx3 hf).2.1 h'])
      · exact h
      · exact absurd hf (hx4 h').2.2.2
      · exact absurd hf (by rcases h' with h' | h' <;> [exact (hx3 hf).2.2 h' |>.elim; exact (hx4 h').2.2.2])
      · exact absurd (Or.inr (Or.inr (Or.inr (Or.inr (Or.inl h'))))) (hx3 hf).2.1
  · rw [if_neg (hx4 hf).1, if_neg (hx4 hf).2.1, if_neg (hx4 hf).2.2.1, if_neg (hx4 hf).2.2.2,
      if_pos hf]
    refine ⟨?_, hT2.imp_right Or.inl⟩
    rw [hT1]
    constructor
    · rintro (h | h | h)
      · exact Or.inr (Or.inr (Or.inr (Or.inl ⟨h, Or.inr hf⟩)))
      · exact Or.inr (Or.inl ⟨h, Or.inr hf⟩)
      · exact Or.inr (Or.inr (Or.inl ⟨h, hf⟩))
    · rintro (⟨h, h'⟩ | ⟨h, h'⟩ | ⟨h, h'⟩ | ⟨h, h'⟩ | ⟨h, h', -⟩)
      · exact absurd h' (by rintro (h' | h') <;> [exact (hx4 hf).1 h'; exact (hx4 hf).2.1 h'])
      · exact Or.inr (Or.inl h)
      · exact Or.inr (Or.inr h)
      · exact Or.inl h
      · exact absurd (Or.inr (Or.inr (Or.inr (Or.inr (Or.inl h'))))) (hx4 hf).2.1

/-- Reading back a token slot after writing another token into it. -/
theorem CLIData.tok_setTok (K : CLIConsts) (d : CLIData) (n : Nat) (t : CMDARGTOKEN)
    (hn : n < d.cmdargtoken.length) : (d.setTok n t).tok K n = t := by
  simp [CLIData.tok, CLIData.setTok, List.getD_eq_getElem?_getD, hn]

/-- C1. For every token other than `?` whose lexed kind is float, int, image-ref,
command-word, or a string that is not a variable name, and every expected kind (float,
int/OnOff, string-not-image, image, string), `CLI_checkarg0` returns 0 exactly when the
entry of the coercion table is not `X`, and returns 1 in every other case. -/
theorem C1_checkarg0_coercion_table (K : CLIConsts) (env : CLIEnv) (d : CLIData)
    (CLIargnum funcargtype : Nat) (errmsg : Int) (hK : K.WF)
    (hq : (d.tok K CLIargnum).string ≠ "?")
    (hkind : lexedKind K env (d.tok K CLIargnum))
    (hft : expectedKind K funcargtype) :
    ((CLI_checkarg0 K env d CLIargnum funcargtype errmsg).2 = 0 ↔
      coercion_table_accepts K (d.tok K CLIargnum) funcargtype) ∧
    (¬ coercion_table_accepts K (d.tok K CLIargnum) funcargtype →
      (CLI_checkarg0 K env d CLIargnum funcargtype errmsg).2 = 1) := by
  obtain ⟨h1, h2⟩ := checkarg0_switch_table K env hK (d.tok K CLIargnum) funcargtype hkind hft
  have hr : (CLI_checkarg0 K env d CLIargnum funcargtype errmsg).2 =
      if (checkarg0_switch K env funcargtype (d.tok K CLIargnum)).2 = 2 then 1
      else (checkarg0_switch K env funcargtype (d.tok K CLIargnum)).2 := by
    simp [CLI_checkarg0, hq]
  rw [hr, ← h1]
  by_cases h : (checkarg0_switch K env funcargtype (d.tok K CLIargnum)).2 = 2
  · rw [if_pos h]; omega
  · rw [if_neg h]; omega

/-- Witness for C1: a float token checked against an int64 argument. -/
theorem C1_checkarg0_coercion_table_witness :
    ((CLI_checkarg0 milkConsts emptyEnv floatTokenData 1 milkConsts.CLIARG_INT64 1).2 = 0 ↔
      coercion_table_accepts milkConsts (floatTokenData.tok milkConsts 1)
        milkConsts.CLIARG_INT64) ∧
    (¬ coercion_table_accepts milkConsts (floatTokenData.tok milkConsts 1)
        milkConsts.CLIARG_INT64 →
      (CLI_checkarg0 milkConsts emptyEnv floatTokenData 1 milkConsts.CLIARG_INT64 1).2 = 1) :=
  C1_checkarg0_coercion_table milkConsts emptyEnv floatTokenData 1 milkConsts.CLIARG_INT64 1
    (by decide) (by decide) (by decide) (by decide)

/-! ## Dispatch of the outer `switch` -/

theorem checkarg0_switch_float (K : CLIConsts) (env : CLIEnv) (ft : Nat) (t : CMDARGTOKEN)
    (hf : K.isFloatArg ft) : checkarg0_switch K env ft t = checkarg0_FLOAT K env t := by
  unfold CLIConsts.isFloatArg at hf
  unfold checkarg0_switch
  rw [if_pos hf]

theorem checkarg0_switch_int (K : CLIConsts) (env : CLIEnv) (hK : K.WF) (ft : Nat)
    (t : CMDARGTOKEN) (hf : K.isIntArg ft) :
    checkarg0_switch K env ft t = checkarg0_INT K env ft t := by
  have h1 := (hK.expected_excl ft).1 hf
  unfold CLIConsts.isFloatArg at h1
  unfold CLIConsts.isIntArg at hf
  unfold checkarg0_switch
  rw [if_neg h1, if_pos hf]

theorem checkarg0_switch_sni (K : CLIConsts) (env : CLIEnv) (hK : K.WF) (ft : Nat)
    (t : CMDARGTOKEN) (hf : ft = K.CLIARG_STR_NOT_IMG) :
    checkarg0_switch K env ft t = checkarg0_STR_NOT_IMG K env t := by
  obtain ⟨h1, h2⟩ := (hK.expected_excl ft).2.1 hf
  unfold CLIConsts.isFloatArg at h1
  unfold CLIConsts.isIntArg at h2
  unfold checkarg0_switch
  rw [if_neg h1, if_neg h2, if_pos hf]

theorem checkarg0_switch_img (K : CLIConsts) (env : CLIEnv) (hK : K.WF) (ft : Nat)
    (t : CMDARGTOKEN) (hf : ft = K.CLIARG_IMG) :
    checkarg0_switch K env ft t = checkarg0_IMG K env t := by
  obtain ⟨h1, h2, h3⟩ := (hK.expected_excl ft).2.2.1 hf
  unfold CLIConsts.isFloatArg at h1
  unfold CLIConsts.isIntArg at h2
  unfold checkarg0_switch
  rw [if_neg h1, if_neg h2, if_neg h3, if_pos hf]

theorem checkarg0_switch_str (K : CLIConsts) (env : CLIEnv) (hK : K.WF) (ft : Nat)
    (t : CMDARGTOKEN) (hf : ft = K.CLIARG_STR) :
    checkarg0_switch K env ft t = checkarg0_STR K env t := by
  obtain ⟨h1, h2, h3, h4⟩ := (hK.expected_excl ft).2.2.2 hf
  unfold CLIConsts.isFloatArg at h1
  unfold CLIConsts.isIntArg at h2
  unfold checkarg0_switch
  rw [if_neg h1, if_neg h2, if_neg h3, if_neg h4, if_pos hf]

/-- `CLI_checkarg0` on a token other than `?`: the token is rewritten by the `switch`
and `rval = 2` becomes 1. -/
theorem CLI_checkarg0_not_help (K : CLIConsts) (env : CLIEnv) (d : CLIData)
    (CLIargnum funcargtype : Nat) (errmsg : Int)
    (hq : (d.tok K CLIargnum).string ≠ "?") :
    CLI_checkarg0 K env d CLIargnum funcargtype errmsg =
      (d.setTok CLIargnum (checkarg0_switch K env funcargtype (d.tok K CLIargnum)).1,
        if (checkarg0_switch K env funcargtype (d.tok K CLIargnum)).2 = 2 then 1
        else (checkarg0_switch K env funcargtype (d.tok K CLIargnum)).2) := by
  simp [CLI_checkarg0, hq]

/-! ## Float token for an integer argument -/

/-- What `CLI_checkarg0` does with a float token for an integer argument: it accepts,
retypes the token as `CLIARG_INT64` and sets `numl = (long)(numf + 0.5)`. -/
theorem checkarg0_float_to_int (K : CLIConsts) (env : CLIEnv) (d : CLIData)
    (CLIargnum funcargtype : Nat) (errmsg : Int) (hK : K.WF)
    (hn : CLIargnum < d.cmdargtoken.length)
    (hq : (d.tok K CLIargnum).string ≠ "?")
    (ht : (d.tok K CLIargnum).type = K.tokFLOAT) (hft : K.isIntArg funcargtype) :
    (CLI_checkarg0 K env d CLIargnum funcargtype errmsg).2 = 0 ∧
    ((CLI_checkarg0 K env d CLIargnum funcargtype errmsg).1.tok K CLIargnum).type
      = K.CLIARG_INT64 ∧
    ((CLI_checkarg0 K env d CLIargnum funcargtype errmsg).1.tok K CLIargnum).numl
      = c_long ((d.tok K CLIargnum).numf + 1 / 2) := by
  have hsw := checkarg0_switch_int K env hK funcargtype (d.tok K CLIargnum) hft
  have hint : checkarg0_INT K env funcargtype (d.tok K CLIargnum) =
      ({ d.tok K CLIargnum with
          string := snprintfTok K (env.fmt_f (d.tok K CLIargnum).numf)
          numl := c_long ((d.tok K CLIargnum).numf + 0.5)
          type := K.CLIARG_INT64 }, 0) := by
    unfold CLIConsts.tokFLOAT at ht
    unfold checkarg0_INT
    rw [if_pos ht]
  have h05 : (0.5 : ℚ) = 1 / 2 := by norm_num
  rw [CLI_checkarg0_not_help K env d CLIargnum funcargtype errmsg hq, hsw, hint]
  simp only [CLIData.tok_setTok K _ _ _ hn, h05]
  simp

/-- The conversion agrees with rounding half up when `x + 1/2` is not negative. -/
theorem c_long_half_nonneg (x : ℚ) (hx : 0 ≤ x + 1 / 2) : c_long (x + 1 / 2) = ⌊x + 1 / 2⌋ := by
  unfold c_long; rw [if_pos hx]

/-- C6, evaluated at the float token -1.75 checked against an int64 argument: the token
is accepted and retyped as integer, and its integer value is -1, while -1.75 rounded
half up, `floor(-1.75 + 1/2)`, is -2. -/
theorem C6_float_to_int_negative :
    (CLI_checkarg0 milkConsts emptyEnv negFloatTokenData 1 milkConsts.CLIARG_INT64 1).2 = 0 ∧
    ((CLI_checkarg0 milkConsts emptyEnv negFloatTokenData 1 milkConsts.CLIARG_INT64 1).1.tok
        milkConsts 1).type = milkConsts.CLIARG_INT64 ∧
    ((CLI_checkarg0 milkConsts emptyEnv negFloatTokenData 1 milkConsts.CLIARG_INT64 1).1.tok
        milkConsts 1).numl = -1 ∧
    ⌊((negFloatTokenData.tok milkConsts 1).numf + 1 / 2 : ℚ)⌋ = -2 := by
  obtain ⟨h1, h2, h3⟩ := checkarg0_float_to_int milkConsts emptyEnv negFloatTokenData 1
    milkConsts.CLIARG_INT64 1 (by decide) (by decide) (by decide) (by decide) (by decide)
  refine ⟨h1, h2, ?_, ?_⟩
  · rw [h3]
    have : (negFloatTokenData.tok milkConsts 1).numf = -7 / 4 := rfl
    rw [this]; unfold c_long; norm_num
    rw [Int.ceil_eq_iff]; norm_num
  · have : (negFloatTokenData.tok milkConsts 1).numf = -7 / 4 := rfl
    rw [this]; norm_num

/-! ## Frame properties of the argument checks -/

theorem CLIData.tok_setTok_ne (K : CLIConsts) (d : CLIData) (n p : Nat) (t : CMDARGTOKEN)
    (hp : p ≠ n) : (d.setTok n t).tok K p = d.tok K p := by
  simp [CLIData.tok, CLIData.setTok, List.getD_eq_getElem?_getD, List.getElem?_set_ne (Ne.symm hp)]

theorem CLIData.tok_lt_of_string_ne (K : CLIConsts) (d : CLIData) (n : Nat)
    (h : (d.tok K n).string ≠ "") : n < d.cmdargtoken.length := by
  by_contra hn
  apply h
  simp [CLIData.tok, List.getD_eq_getElem?_getD, List.getElem?_eq_none (Nat.le_of_not_lt hn),
    missingToken]

theorem CLIData.setTok_self (K : CLIConsts) (d : CLIData) (n : Nat) :
    d.setTok n (d.tok K n) = d := by
  cases d with
  | mk toks ad f h hc =>
    simp only [CLIData.setTok, CLIData.tok, CLIData.mk.injEq, and_true, true_and]
    apply List.ext_getElem?
    intro i
    by_cases hi : i = n
    · subst hi
      by_cases hl : i < toks.length
      · simp [List.getD_eq_getElem?_getD, hl]
      · simp [List.getElem?_eq_none (Nat.le_of_not_lt hl)]
        omega
    · simp [List.getElem?_set_ne (Ne.symm hi)]

theorem CLIData.arg_setArg_ne (d : CLIData) (n j : Nat) (v : CLICMDARGVAL) (hj : j ≠ n) :
    (d.setArg n v).arg j = d.arg j := by
  simp [CLIData.arg, CLIData.setArg, List.getD_eq_getElem?_getD, List.getElem?_set_ne (Ne.symm hj)]

theorem CLIData.arg_setArg (d : CLIData) (n : Nat) (v : CLICMDARGVAL)
    (hn : n < d.argdata.length) : (d.setArg n v).arg n = v := by
  simp [CLIData.arg, CLIData.setArg, List.getD_eq_getElem?_getD, hn]

/-- `CLI_checkarg0` on the token `?`: the help state and the result 1. -/
theorem CLI_checkarg0_help (K : CLIConsts) (env : CLIEnv) (d : CLIData)
    (CLIargnum funcargtype : Nat) (errmsg : Int) (hq : (d.tok K CLIargnum).string = "?") :
    CLI_checkarg0 K env d CLIargnum funcargtype errmsg = (helpState K d CLIargnum, 1) := by
  simp [CLI_checkarg0, hq, helpState]

/-- While the processing flag is 1, `CLI_checkarg` is `CLI_checkarg0` with error
messages. -/
theorem CLI_checkarg_of_flag (K : CLIConsts) (env : CLIEnv) (d : CLIData)
    (CLIargnum funcargtype : Nat) (hf : d.argcheck_process_flag = 1) :
    CLI_checkarg K env d CLIargnum funcargtype = CLI_checkarg0 K env d CLIargnum funcargtype 1 := by
  have hd : { d with argcheck_process_flag := 1 } = d := by
    cases d; simp_all
  unfold CLI_checkarg
  by_cases h1 : CLIargnum = 1
  · simp [h1, hd, hf]
  · simp [h1, hf]

/-- What `CLI_checkarg0` leaves unchanged: the last-value store, the number of token
slots and every token other than the one checked; and, when the token is not `?`, the
two file-static flags and the help record. -/
theorem CLI_checkarg0_frame (K : CLIConsts) (env : CLIEnv) (d : CLIData)
    (n ft : Nat) (e : Int) :
    (CLI_checkarg0 K env d n ft e).1.argdata = d.argdata ∧
    (CLI_checkarg0 K env d n ft e).1.cmdargtoken.length = d.cmdargtoken.length ∧
    (∀ p, p ≠ n → (CLI_checkarg0 K env d n ft e).1.tok K p = d.tok K p) ∧
    ((d.tok K n).string ≠ "?" →
      (CLI_checkarg0 K env d n ft e).1.argcheck_process_flag = d.argcheck_process_flag ∧
      (CLI_checkarg0 K env d n ft e).1.functionhelp_called = d.functionhelp_called ∧
      (CLI_checkarg0 K env d n ft e).1.helpcalls = d.helpcalls) ∧
    ((d.tok K n).string = "?" →
      (CLI_checkarg0 K env d n ft e).2 = 1 ∧
      (CLI_checkarg0 K env d n ft e).1.functionhelp_called = 1) := by
  by_cases hq : (d.tok K n).string = "?"
  · rw [CLI_checkarg0_help K env d n ft e hq]
    refine ⟨rfl, by simp [helpState, CLIData.setTok], ?_, fun h => absurd hq h, fun _ => ⟨rfl, rfl⟩⟩
    intro p hp
    have := CLIData.tok_setTok_ne K d n p { d.tok K n with string := snprintfTok K " " } hp
    simpa [helpState, CLIData.tok, CLIData.setTok] using this
  · rw [CLI_checkarg0_not_help K env d n ft e hq]
    refine ⟨rfl, by simp [CLIData.setTok], ?_, fun _ => ⟨rfl, rfl, rfl⟩, fun h => absurd h hq⟩
    intro p hp
    exact CLIData.tok_setTok_ne K d n p _ hp

/-! ## The positional loop -/

theorem checkarg_array_iter_append (K : CLIConsts) (env : CLIEnv) (l1 l2 : List CLICMDARGDEF)
    (arg : Nat) (s : CheckLoopState) :
    checkarg_array_iter K env (l1 ++ l2) arg s =
      match checkarg_array_iter K env l1 arg s with
      | .error r => .error r
      | .ok s1 => checkarg_array_iter K env l2 (arg + l1.length) s1 := by
  induction l1 generalizing arg s with
  | nil => simp [checkarg_array_iter]
  | cons a rest ih =>
    simp only [List.cons_append, checkarg_array_iter, List.length_cons]
    cases hb : checkarg_array_body K env arg a s with
    | error r => simp
    | ok s1 =>
      have : arg + 1 + rest.length = arg + (rest.length + 1) := by omega
      have h2 := ih (arg + 1) s1
      rw [this] at h2
      exact h2

/-- The token after the optional adoption of the last value, as the loop body hands it
to `CLI_checkarg`. -/
theorem checkarg_array_body_eq (K : CLIConsts) (env : CLIEnv) (arg : Nat) (a : CLICMDARGDEF)
    (s : CheckLoopState) (hcli : a.flag &&& K.CLICMDARG_FLAG_NOCLI = 0) (d1 : CLIData)
    (hd1 : d1 = if (s.d.tok K (s.CLIarg + 1)).string = "." then
        s.d.setTok (s.CLIarg + 1)
          (adopt_last_value K env a.type (s.d.arg arg) (s.d.tok K (s.CLIarg + 1)))
      else s.d) :
    checkarg_array_body K env arg a s =
      if (CLI_checkarg K env d1 (s.CLIarg + 1) a.type).2 = 0 then
        .ok { d := (CLI_checkarg K env d1 (s.CLIarg + 1) a.type).1.setArg arg
                (argdata_store_positional K env a.type
                  ((CLI_checkarg K env d1 (s.CLIarg + 1) a.type).1.tok K (s.CLIarg + 1))
                  ((CLI_checkarg K env d1 (s.CLIarg + 1) a.type).1.arg arg)),
              nberr := s.nberr, CLIarg := s.CLIarg + 1 }
      else if (CLI_checkarg K env d1 (s.CLIarg + 1) a.type).1.functionhelp_called = 1 then
        .error ((CLI_checkarg K env d1 (s.CLIarg + 1) a.type).1, K.RETURN_CLICHECKARGARRAY_HELP)
      else .ok { d := (CLI_checkarg K env d1 (s.CLIarg + 1) a.type).1, nberr := s.nberr + 1,
                 CLIarg := s.CLIarg + 1 } := by
  subst hd1
  unfold checkarg_array_body
  rw [if_pos hcli]

/-- A descriptor with `NOCLI` is skipped. -/
theorem checkarg_array_body_nocli (K : CLIConsts) (env : CLIEnv) (arg : Nat)
    (a : CLICMDARGDEF) (s : CheckLoopState) (hcli : ¬ a.flag &&& K.CLICMDARG_FLAG_NOCLI = 0) :
    checkarg_array_body K env arg a s = .ok s := by
  unfold checkarg_array_body
  rw [if_neg hcli]

/-- The loop body on the token `?`: the function returns HELP from the help state. -/
theorem checkarg_array_body_help (K : CLIConsts) (env : CLIEnv) (arg : Nat)
    (a : CLICMDARGDEF) (s : CheckLoopState) (hcli : a.flag &&& K.CLICMDARG_FLAG_NOCLI = 0)
    (hf : s.d.argcheck_process_flag = 1)
    (hq : (s.d.tok K (s.CLIarg + 1)).string = "?") :
    checkarg_array_body K env arg a s =
      .error (helpState K s.d (s.CLIarg + 1), K.RETURN_CLICHECKARGARRAY_HELP) := by
  have hdot : ¬ (s.d.tok K (s.CLIarg + 1)).string = "." := by rw [hq]; decide
  rw [checkarg_array_body_eq K env arg a s hcli s.d (by rw [if_neg hdot]),
    CLI_checkarg_of_flag K env s.d _ _ hf, CLI_checkarg0_help K env s.d _ _ _ hq]
  simp [helpState]

/-- What one iteration that does not return leaves unchanged: the processing flag stays
1, `CLIarg` advances by one exactly for a descriptor without `NOCLI`, only the token at
the current position and the last value of the current descriptor can change. -/
theorem checkarg_array_body_ok (K : CLIConsts) (env : CLIEnv) (arg : Nat)
    (a : CLICMDARGDEF) (s s1 : CheckLoopState)
    (hb : checkarg_array_body K env arg a s = .ok s1)
    (hf : s.d.argcheck_process_flag = 1) :
    s1.d.argcheck_process_flag = 1 ∧
    s1.CLIarg = s.CLIarg + countCLI K [a] ∧
    (∀ p, (p ≤ s.CLIarg ∨ s1.CLIarg < p) → s1.d.tok K p = s.d.tok K p) ∧
    (∀ j, j ≠ arg → s1.d.arg j = s.d.arg j) ∧
    s1.d.argdata.length = s.d.argdata.length := by
  by_cases hcli : a.flag &&& K.CLICMDARG_FLAG_NOCLI = 0
  · have hc : countCLI K [a] = 1 := by simp [countCLI, hcli]
    rw [hc]
    obtain ⟨d1, hd1⟩ : ∃ d1, d1 = if (s.d.tok K (s.CLIarg + 1)).string = "." then
        s.d.setTok (s.CLIarg + 1)
          (adopt_last_value K env a.type (s.d.arg arg) (s.d.tok K (s.CLIarg + 1)))
      else s.d := ⟨_, rfl⟩
    have hd1f : d1.argcheck_process_flag = 1 := by
      rw [hd1]; split_ifs <;> simp [CLIData.setTok, hf]
    have hd1a : d1.argdata = s.d.argdata := by
      rw [hd1]; split_ifs <;> simp [CLIData.setTok]
    have hd1t : ∀ p, p ≠ s.CLIarg + 1 → d1.tok K p = s.d.tok K p := by
      intro p hp
      rw [hd1]; split_ifs
      · exact CLIData.tok_setTok_ne K _ _ _ _ hp
      · rfl
    rw [checkarg_array_body_eq K env arg a s hcli d1 hd1,
      CLI_checkarg_of_flag K env d1 _ _ hd1f] at hb
    obtain ⟨fa, fl, ft, fn, fq⟩ := CLI_checkarg0_frame K env d1 (s.CLIarg + 1) a.type 1
    by_cases hr : (CLI_checkarg0 K env d1 (s.CLIarg + 1) a.type 1).2 = 0
    · rw [if_pos hr] at hb
      have hnq : (d1.tok K (s.CLIarg + 1)).string ≠ "?" := by
        intro h; have := (fq h).1; omega
      injection hb with hb
      subst hb
      refine ⟨?_, rfl, ?_, ?_, ?_⟩
      · simp only [CLIData.setArg]; rw [(fn hnq).1]; exact hd1f
      · intro p hp
        have hp : p ≠ s.CLIarg + 1 := by simp only [] at hp; omega
        have := ft p hp
        simp only [CLIData.setArg, CLIData.tok] at this ⊢
        rw [this]; exact hd1t p hp
      · intro j hj
        rw [CLIData.arg_setArg_ne _ _ _ _ hj]
        simp only [CLIData.arg]; rw [fa, hd1a]
      · simp only [CLIData.setArg, List.length_set]; rw [fa, hd1a]
    · rw [if_neg hr] at hb
      by_cases hh : (CLI_checkarg0 K env d1 (s.CLIarg + 1) a.type 1).1.functionhelp_called = 1
      · rw [if_pos hh] at hb; cases hb
      · rw [if_neg hh] at hb
        have hnq : (d1.tok K (s.CLIarg + 1)).string ≠ "?" := by
          intro h; exact hh (fq h).2
        injection hb with hb
        subst hb
        refine ⟨?_, rfl, ?_, ?_, ?_⟩
        · simp only []; rw [(fn hnq).1]; exact hd1f
        · intro p hp
          have hp : p ≠ s.CLIarg + 1 := by simp only [] at hp; omega
          simp only []; rw [ft p hp]; exact hd1t p hp
        · intro j _
          simp only [CLIData.arg]; rw [fa, hd1a]
        · simp only []; rw [fa, hd1a]
  · rw [checkarg_array_body_nocli K env arg a s hcli] at hb
    injection hb with hb
    subst hb
    have hc : countCLI K [a] = 0 := by simp [countCLI, hcli]
    exact ⟨hf, by rw [hc]; rfl, fun _ _ => rfl, fun _ _ => rfl, rfl⟩
theorem countCLI_cons (K : CLIConsts) (a : CLICMDARGDEF) (l : List CLICMDARGDEF) :
    countCLI K (a :: l) = countCLI K [a] + countCLI K l := by
  unfold countCLI
  by_cases h : a.flag &&& K.CLICMDARG_FLAG_NOCLI = 0
  · simp [List.filter_cons, h]; omega
  · simp [List.filter_cons, h]

/-- What a run of iterations that does not return leaves unchanged. -/
theorem checkarg_array_iter_ok (K : CLIConsts) (env : CLIEnv) (l : List CLICMDARGDEF)
    (arg : Nat) (s s1 : CheckLoopState)
    (hi : checkarg_array_iter K env l arg s = .ok s1)
    (hf : s.d.argcheck_process_flag = 1) :
    s1.d.argcheck_process_flag = 1 ∧
    s1.CLIarg = s.CLIarg + countCLI K l ∧
    (∀ p, s1.CLIarg < p → s1.d.tok K p = s.d.tok K p) ∧
    (∀ j, (j < arg ∨ arg + l.length ≤ j) → s1.d.arg j = s.d.arg j) ∧
    s1.d.argdata.length = s.d.argdata.length := by
  induction l generalizing arg s with
  | nil =>
    simp only [checkarg_array_iter] at hi
    injection hi with hi
    subst hi
    exact ⟨hf, by simp [countCLI], fun _ _ => rfl, fun _ _ => rfl, rfl⟩
  | cons a rest ih =>
    simp only [checkarg_array_iter] at hi
    cases hb : checkarg_array_body K env arg a s with
    | error r => rw [hb] at hi; cases hi
    | ok s2 =>
      rw [hb] at hi
      obtain ⟨b1, b2, b3, b4, b5⟩ := checkarg_array_body_ok K env arg a s s2 hb hf
      obtain ⟨i1, i2, i3, i4, i5⟩ := ih (arg + 1) s2 hi b1
      refine ⟨i1, ?_, ?_, ?_, ?_⟩
      · rw [i2, b2, countCLI_cons K a rest]; omega
      · intro p hp
        rw [i3 p hp]
        apply b3
        rw [i2] at hp
        right; omega
      · intro j hj
        rw [i4 j (by simp only [List.length_cons] at hj; omega)]
        apply b4
        simp only [List.length_cons] at hj; omega
      · rw [i5, b5]

/-- C4. In positional mode, for every schema `l1 ++ a :: l2` whose descriptor `a` takes
a CLI token: if the iterations for the earlier descriptors `l1` do not leave the
function and the token at the position of `a` (position `k`, one more than the number
of descriptors of `l1` without NOCLI) is the literal `?`, then `CLI_checkarg_array`
returns HELP from the help state: that token is blanked, and no later token and no
last value of `a` or of a later descriptor is touched. -/
theorem C4_help_positional (K : CLIConsts) (env : CLIEnv) (d : CLIData)
    (l1 l2 : List CLICMDARGDEF) (a : CLICMDARGDEF) (s1 : CheckLoopState)
    (hkw : argindexmatch (l1 ++ a :: l2) (d.tok K 1).string = none)
    (hpre : checkarg_array_iter K env l1 0
      { d := { d with argcheck_process_flag := 1 }, nberr := 0, CLIarg := 0 } = .ok s1)
    (hcli : a.flag &&& K.CLICMDARG_FLAG_NOCLI = 0)
    (hq : (d.tok K (countCLI K l1 + 1)).string = "?") :
    CLI_checkarg_array K env d (l1 ++ a :: l2) =
      (helpState K s1.d (countCLI K l1 + 1), K.RETURN_CLICHECKARGARRAY_HELP) ∧
    ((helpState K s1.d (countCLI K l1 + 1)).tok K (countCLI K l1 + 1)).string
      = snprintfTok K " " ∧
    (∀ p, countCLI K l1 + 1 < p →
      (helpState K s1.d (countCLI K l1 + 1)).tok K p = d.tok K p) ∧
    (∀ j, l1.length ≤ j → (helpState K s1.d (countCLI K l1 + 1)).arg j = d.arg j) := by
  obtain ⟨i1, i2, i3, i4, i5⟩ := checkarg_array_iter_ok K env l1 0 _ s1 hpre rfl
  simp only [Nat.zero_add] at i2 i4
  have hdtok : ∀ p, ({ d with argcheck_process_flag := 1 } : CLIData).tok K p = d.tok K p :=
    fun _ => rfl
  have hdarg : ∀ j, ({ d with argcheck_process_flag := 1 } : CLIData).arg j = d.arg j :=
    fun _ => rfl
  have hq1 : (s1.d.tok K (s1.CLIarg + 1)).string = "?" := by
    rw [i3 _ (by omega), hdtok, i2]; exact hq
  have hlen : countCLI K l1 + 1 < s1.d.cmdargtoken.length := by
    apply CLIData.tok_lt_of_string_ne K
    rw [← i2, hq1]; decide
  refine ⟨?_, ?_, ?_, ?_⟩
  · unfold CLI_checkarg_array
    simp only [hdtok, hkw]
    unfold checkarg_array_loop
    rw [checkarg_array_iter_append, hpre]
    simp only [checkarg_array_iter]
    rw [checkarg_array_body_help K env _ a s1 hcli i1 hq1, i2]
  · have := CLIData.tok_setTok K s1.d (countCLI K l1 + 1)
      { s1.d.tok K (countCLI K l1 + 1) with string := snprintfTok K " " } hlen
    simp only [helpState, CLIData.tok, CLIData.setTok] at this ⊢
    rw [this]
  · intro p hp
    have := CLIData.tok_setTok_ne K s1.d (countCLI K l1 + 1) p
      { s1.d.tok K (countCLI K l1 + 1) with string := snprintfTok K " " } (by omega)
    simp only [helpState, CLIData.tok, CLIData.setTok] at this ⊢
    rw [this]
    have h3 := i3 p (by omega)
    simp only [CLIData.tok] at h3
    rw [h3]
  · intro j hj
    have h4 := i4 j (Or.inr hj)
    simp only [CLIData.arg] at h4
    simp only [helpState, CLIData.arg, CLIData.setTok]
    rw [h4]

/-- Witness for C4: the call `cmd 5 ?` for a schema of two arguments; the first
iteration binds 5 and the second meets `?`. -/
theorem C4_help_positional_witness :
    CLI_checkarg_array milkConsts emptyEnv trailingHelpData
        ([⟨milkConsts.CLIARG_INT64, ".delay", "delay", 0⟩]
          ++ ⟨milkConsts.CLIARG_FLOAT64, ".gain", "gain", 0⟩ :: []) =
      (helpState milkConsts
        (⟨(trailingHelpData.setTok 1 ⟨2, 0, 5, "5"⟩).setArg 0
            { CLICMDARGVAL.zero with i64 := 5 }, 0, 1⟩ : CheckLoopState).d
        (countCLI milkConsts [⟨milkConsts.CLIARG_INT64, ".delay", "delay", 0⟩] + 1),
        milkConsts.RETURN_CLICHECKARGARRAY_HELP) :=
  (C4_help_positional milkConsts emptyEnv trailingHelpData
    [⟨milkConsts.CLIARG_INT64, ".delay", "delay", 0⟩] []
    ⟨milkConsts.CLIARG_FLOAT64, ".gain", "gain", 0⟩
    ⟨(trailingHelpData.setTok 1 ⟨2, 0, 5, "5"⟩).setArg 0 { CLICMDARGVAL.zero with i64 := 5 },
      0, 1⟩
    (by decide) (by decide) (by decide) (by decide)).1

/-- C4 as stated fails at two calls. In keyword mode (`cmd .delay ?`) help is shown and
the token is blanked, but the result is FAILURE, not HELP. And a `?` at a position that
no descriptor consumes (`cmd 5 ?` with the one-argument schema) is never examined: the
result is SUCCESS and the token is not blanked. -/
theorem C4_help_counterexample :
    (CLI_checkarg_array milkConsts emptyEnv keywordHelpData (delaySchema milkConsts)).2
      = milkConsts.RETURN_CLICHECKARGARRAY_FAILURE ∧
    (CLI_checkarg_array milkConsts emptyEnv keywordHelpData (delaySchema milkConsts)).2
      ≠ milkConsts.RETURN_CLICHECKARGARRAY_HELP ∧
    (CLI_checkarg_array milkConsts emptyEnv keywordHelpData (delaySchema milkConsts)).1
      = helpState milkConsts keywordHelpData 2 ∧
    (CLI_checkarg_array milkConsts emptyEnv trailingHelpData (delaySchema milkConsts)).2
      = milkConsts.RETURN_CLICHECKARGARRAY_SUCCESS ∧
    ((CLI_checkarg_array milkConsts emptyEnv trailingHelpData (delaySchema milkConsts)).1.tok
      milkConsts 2).string = "?" := by
  decide

/-! ## Adoption of the last value for the token `.` -/

theorem strTake_of_le (s : String) (n : Nat) (h : s.length ≤ n) : strTake s n = s := by
  cases s with
  | mk data =>
    have h' : data.length ≤ n := h
    show String.mk (data.take n) = String.mk data
    rw [List.take_of_length_le h']

/-- The type codes are pairwise distinct, in both orientations, as a list of facts for
`simp`. -/
theorem CLIConsts.WF.argNe {K : CLIConsts} (hK : K.WF) :
    [K.CLIARG_FLOAT32, K.CLIARG_FLOAT64, K.CLIARG_FLOAT, K.CLIARG_INT32, K.CLIARG_INT64,
      K.CLIARG_UINT32, K.CLIARG_UINT64, K.CLIARG_ONOFF, K.CLIARG_LONG, K.CLIARG_STR_NOT_IMG,
      K.CLIARG_IMG, K.CLIARG_STREAM, K.CLIARG_STR].Nodup ∧
    [K.CLIARG_FLOAT32, K.CLIARG_FLOAT64, K.CLIARG_FLOAT, K.CLIARG_INT32, K.CLIARG_INT64,
      K.CLIARG_UINT32, K.CLIARG_UINT64, K.CLIARG_ONOFF, K.CLIARG_LONG, K.CLIARG_STR_NOT_IMG,
      K.CLIARG_IMG, K.CLIARG_STREAM, K.CLIARG_STR].reverse.Nodup :=
  ⟨hK.1, List.nodup_reverse.mpr hK.1⟩

/-- The adopted token for each kind of `dotAdoptable`. -/
theorem adopt_last_value_cases (K : CLIConsts) (env : CLIEnv) (hK : K.WF) (type : Nat)
    (v : CLICMDARGVAL) (t : CMDARGTOKEN) :
    (type = K.CLIARG_STR_NOT_IMG → adopt_last_value K env type v t =
      { t with string := strTake v.s (K.STRINGMAXLEN_CMDARGTOKEN_VAL - 1),
               type := K.CLIARG_STR_NOT_IMG }) ∧
    (type = K.CLIARG_STR → adopt_last_value K env type v t =
      { t with string := strTake v.s (K.STRINGMAXLEN_CMDARGTOKEN_VAL - 1),
               type := K.CLIARG_STR }) ∧
    (type = K.CLIARG_IMG → adopt_last_value K env type v t =
      { t with string := strTake v.s (K.STRINGMAXLEN_CMDARGTOKEN_VAL - 1),
               type := if (env.image_ID v.s).isSome then K.CLIARG_IMG
                       else K.CLIARG_STR_NOT_IMG }) ∧
    (type = K.CLIARG_INT64 → adopt_last_value K env type v t =
      { t with numl := v.i64, type := K.CLIARG_INT64 }) ∧
    (type = K.CLIARG_FLOAT64 → adopt_last_value K env type v t =
      { t with numf := v.f64, type := K.CLIARG_FLOAT64 }) ∧
    (type = K.CLIARG_ONOFF → adopt_last_value K env type v t = t) := by
  obtain ⟨h1, h1r⟩ := hK.argNe
  simp only [List.reverse_cons, List.reverse_nil, List.nil_append, List.cons_append,
    List.nodup_cons, List.mem_cons, List.mem_singleton, not_or, List.not_mem_nil,
    not_false_eq_true, List.nodup_nil, and_true] at h1 h1r
  refine ⟨?_, ?_, ?_, ?_, ?_, ?_⟩ <;> intro h <;> subst h <;>
    simp [adopt_last_value, h1, h1r]

/-- The store `switch` of positional mode for each kind of `dotAdoptable`. -/
theorem argdata_store_positional_cases (K : CLIConsts) (env : CLIEnv) (hK : K.WF) (type : Nat)
    (t : CMDARGTOKEN) (v : CLICMDARGVAL) :
    ((type = K.CLIARG_STR_NOT_IMG ∨ type = K.CLIARG_STR ∨ type = K.CLIARG_IMG) →
      argdata_store_positional K env type t v =
        { v with s := strTake t.string (K.STRINGMAXLEN_CLICMDARG - 1) }) ∧
    (type = K.CLIARG_INT64 → argdata_store_positional K env type t v = { v with i64 := t.numl }) ∧
    (type = K.CLIARG_FLOAT64 →
      argdata_store_positional K env type t v = { v with f64 := t.numf }) ∧
    (type = K.CLIARG_ONOFF → argdata_store_positional K env type t v = v) := by
  obtain ⟨h1, h1r⟩ := hK.argNe
  simp only [List.reverse_cons, List.reverse_nil, List.nil_append, List.cons_append,
    List.nodup_cons, List.mem_cons, List.mem_singleton, not_or, List.not_mem_nil,
    not_false_eq_true, List.nodup_nil, and_true] at h1 h1r
  refine ⟨?_, ?_, ?_, ?_⟩
  · rintro (h | h | h) <;> subst h <;> simp [argdata_store_positional, h1, h1r]
  · intro h; subst h; simp [argdata_store_positional, h1, h1r]
  · intro h; subst h; simp [argdata_store_positional, h1, h1r]
  · intro h; subst h; simp [argdata_store_positional, h1, h1r]

/-- The distinctness facts between the string kinds and the kinds int64, float64. -/
theorem CLIConsts.WF.kindNe {K : CLIConsts} (hK : K.WF) :
    K.CLIARG_STR_NOT_IMG ≠ K.CLIARG_INT64 ∧ K.CLIARG_STR_NOT_IMG ≠ K.CLIARG_FLOAT64 ∧
    K.CLIARG_STR ≠ K.CLIARG_INT64 ∧ K.CLIARG_STR ≠ K.CLIARG_FLOAT64 ∧
    K.CLIARG_IMG ≠ K.CLIARG_INT64 ∧ K.CLIARG_IMG ≠ K.CLIARG_FLOAT64 ∧
    K.CLIARG_INT64 ≠ K.CLIARG_FLOAT64 ∧
    K.CLIARG_INT64 ≠ K.CLIARG_STR_NOT_IMG ∧ K.CLIARG_INT64 ≠ K.CLIARG_STR ∧
    K.CLIARG_INT64 ≠ K.CLIARG_IMG ∧ K.CLIARG_FLOAT64 ≠ K.CLIARG_STR_NOT_IMG ∧
    K.CLIARG_FLOAT64 ≠ K.CLIARG_STR ∧ K.CLIARG_FLOAT64 ≠ K.CLIARG_IMG ∧
    K.CLIARG_FLOAT64 ≠ K.CLIARG_INT64 := by
  obtain ⟨h1, h1r⟩ := hK.argNe
  simp only [List.reverse_cons, List.reverse_nil, List.nil_append, List.cons_append,
    List.nodup_cons, List.mem_cons, List.mem_singleton, not_or, List.not_mem_nil,
    not_false_eq_true, List.nodup_nil, and_true] at h1 h1r
  simp [h1, h1r]

/-- Adoption, check and store for a descriptor and stored value that are
`dotAdoptable`: the adopted token is not `?`, the check accepts it, the checked token
carries the stored value, and storing it back leaves the stored value as it was. -/
theorem dot_check_store (K : CLIConsts) (env : CLIEnv) (hK : K.WF) (a : CLICMDARGDEF)
    (v : CLICMDARGVAL) (t : CMDARGTOKEN) (had : dotAdoptable K env a v)
    (ht : t.string = ".") :
    (adopt_last_value K env a.type v t).string ≠ "?" ∧
    (checkarg0_switch K env a.type (adopt_last_value K env a.type v t)).2 = 0 ∧
    carriesLastValue K a.type v
      (checkarg0_switch K env a.type (adopt_last_value K env a.type v t)).1 ∧
    argdata_store_positional K env a.type
      (checkarg0_switch K env a.type (adopt_last_value K env a.type v t)).1 v = v := by
  obtain ⟨l1, l2, l3, l4, l5, l6, l7, l8, l9, l10, l11⟩ := hK.tokLabels
  obtain ⟨k1, k2, k3, k4, k5, k6, k7, k8, k9, k10, k11, k12, k13, k14⟩ := hK.kindNe
  obtain ⟨a1, a2, a3, a4, a5, -⟩ := adopt_last_value_cases K env hK a.type v t
  obtain ⟨s1, s2, s3, -⟩ := argdata_store_positional_cases K env hK a.type
    (checkarg0_switch K env a.type (adopt_last_value K env a.type v t)).1 v
  have hdq : ¬ ("." : String) = "?" := by decide
  unfold dotAdoptable at had
  unfold carriesLastValue
  rcases had with ⟨hk, hf1, hf2, hnq⟩ | ⟨hk, hc⟩ | ⟨hk, hc⟩
  · have hstr : strTake v.s (K.STRINGMAXLEN_CMDARGTOKEN_VAL - 1) = v.s := strTake_of_le _ _ hf1
    have hstr2 : strTake v.s (K.STRINGMAXLEN_CLICMDARG - 1) = v.s := strTake_of_le _ _ hf2
    rcases hk with hk | hk | ⟨hk, himg⟩
    · rw [s1 (Or.inl hk), a1 hk, checkarg0_switch_sni K env hK _ _ hk, hstr]
      unfold checkarg0_STR_NOT_IMG
      simp only []
      rw [if_neg (fun h => l2 (l11 ▸ h.symm)), if_neg (fun h => l5 h.symm), if_pos trivial]
      refine ⟨hnq, rfl, ⟨fun _ => rfl, fun h => absurd (hk.symm.trans h) k1,
        fun h => absurd (hk.symm.trans h) k2⟩, ?_⟩
      show ({ v with s := strTake v.s _ } : CLICMDARGVAL) = v
      rw [hstr2]
    · rw [s1 (Or.inr (Or.inl hk)), a2 hk, checkarg0_switch_str K env hK _ _ hk, hstr]
      unfold checkarg0_STR
      simp only []
      rw [if_neg (fun h => l4 h.symm), if_neg (fun h => l7 h.symm),
        if_neg (fun h => l9 h.symm), if_neg (fun h => l10 h.symm), if_pos trivial]
      refine ⟨hnq, rfl, ⟨fun _ => rfl, fun h => absurd (hk.symm.trans h) k3,
        fun h => absurd (hk.symm.trans h) k4⟩, ?_⟩
      show ({ v with s := strTake v.s _ } : CLICMDARGVAL) = v
      rw [hstr2]
    · rw [s1 (Or.inr (Or.inr hk)), a3 hk, checkarg0_switch_img K env hK _ _ hk, hstr,
        if_pos himg]
      unfold checkarg0_IMG
      simp only []
      rw [if_neg (fun h => l3 h.symm), if_neg (fun h => l6 h.symm),
        if_neg (fun h => l8 h.symm), if_pos trivial]
      refine ⟨hnq, rfl, ⟨fun _ => rfl, fun h => absurd (hk.symm.trans h) k5,
        fun h => absurd (hk.symm.trans h) k6⟩, ?_⟩
      show ({ v with s := strTake v.s _ } : CLICMDARGVAL) = v
      rw [hstr2]
  · have hint : K.isIntArg a.type := Or.inr (Or.inl hk)
    unfold CLIConsts.tokINT at hc
    rw [s2 hk, a4 hk, checkarg0_switch_int K env hK _ _ hint]
    unfold checkarg0_INT
    simp only []
    rw [if_neg (fun h => l1 (h.symm.trans hc)), if_pos hc]
    refine ⟨ht ▸ hdq, rfl, ⟨fun h => ?_, fun _ => rfl, fun h => absurd (hk.symm.trans h) k7⟩, ?_⟩
    · rcases h with h | h | h
      · exact absurd (hk.symm.trans h) k8
      · exact absurd (hk.symm.trans h) k9
      · exact absurd (hk.symm.trans h) k10
    · cases v; rfl
  · have hfl : K.isFloatArg a.type := Or.inr (Or.inl hk)
    unfold CLIConsts.tokFLOAT at hc
    rw [s3 hk, a5 hk, checkarg0_switch_float K env _ _ hfl]
    unfold checkarg0_FLOAT
    simp only []
    rw [if_pos hc]
    refine ⟨ht ▸ hdq, rfl, ⟨fun h => ?_, fun h => absurd (hk.symm.trans h) k14, fun _ => rfl⟩, ?_⟩
    · rcases h with h | h | h
      · exact absurd (hk.symm.trans h) k11
      · exact absurd (hk.symm.trans h) k12
      · exact absurd (hk.symm.trans h) k13
    · cases v; rfl

/-- `CLI_checkarg` never writes the last-value store. -/
theorem CLI_checkarg_argdata (K : CLIConsts) (env : CLIEnv) (d : CLIData) (n ft : Nat) :
    (CLI_checkarg K env d n ft).1.argdata = d.argdata := by
  unfold CLI_checkarg
  by_cases h1 : n = 1
  · simp only [h1, if_true]
    exact (CLI_checkarg0_frame K env { d with argcheck_process_flag := 1 } 1 ft 1).1
  · simp only [h1, if_false]
    by_cases h2 : d.argcheck_process_flag = 1
    · rw [if_pos h2]
      exact (CLI_checkarg0_frame K env d n ft 1).1
    · rw [if_neg h2]

/-- One iteration on the token `.` for a descriptor whose stored value is
`dotAdoptable`: the iteration goes on without counting an error, the token carries the
stored value, and the stored value is what it was. -/
theorem checkarg_array_body_dot (K : CLIConsts) (env : CLIEnv) (hK : K.WF) (arg : Nat)
    (a : CLICMDARGDEF) (s : CheckLoopState)
    (hcli : a.flag &&& K.CLICMDARG_FLAG_NOCLI = 0)
    (hf : s.d.argcheck_process_flag = 1)
    (hdot : (s.d.tok K (s.CLIarg + 1)).string = ".")
    (had : dotAdoptable K env a (s.d.arg arg))
    (harg : arg < s.d.argdata.length) :
    ∃ s2, checkarg_array_body K env arg a s = .ok s2 ∧ s2.nberr = s.nberr ∧
      s2.CLIarg = s.CLIarg + 1 ∧ s2.d.arg arg = s.d.arg arg ∧
      carriesLastValue K a.type (s.d.arg arg) (s2.d.tok K (s.CLIarg + 1)) := by
  obtain ⟨c1, c2, c3, c4⟩ := dot_check_store K env hK a (s.d.arg arg)
    (s.d.tok K (s.CLIarg + 1)) had hdot
  have hlen : s.CLIarg + 1 < s.d.cmdargtoken.length := by
    apply CLIData.tok_lt_of_string_ne K
    rw [hdot]; decide
  obtain ⟨d1, hd1⟩ : ∃ d1, d1 = s.d.setTok (s.CLIarg + 1)
      (adopt_last_value K env a.type (s.d.arg arg) (s.d.tok K (s.CLIarg + 1))) := ⟨_, rfl⟩
  have hd1tok : d1.tok K (s.CLIarg + 1) =
      adopt_last_value K env a.type (s.d.arg arg) (s.d.tok K (s.CLIarg + 1)) := by
    rw [hd1]; exact CLIData.tok_setTok K _ _ _ hlen
  have hd1f : d1.argcheck_process_flag = 1 := by rw [hd1]; exact hf
  have hd1a : d1.argdata = s.d.argdata := by rw [hd1]; rfl
  have hd1l : s.CLIarg + 1 < d1.cmdargtoken.length := by
    rw [hd1]; simp only [CLIData.setTok, List.length_set]; exact hlen
  have hnq : (d1.tok K (s.CLIarg + 1)).string ≠ "?" := by rw [hd1tok]; exact c1
  obtain ⟨r, hr⟩ : ∃ r, r = d1.setTok (s.CLIarg + 1)
      (checkarg0_switch K env a.type (d1.tok K (s.CLIarg + 1))).1 := ⟨_, rfl⟩
  have hchk : CLI_checkarg K env d1 (s.CLIarg + 1) a.type = (r, 0) := by
    rw [CLI_checkarg_of_flag K env d1 _ _ hd1f, CLI_checkarg0_not_help K env d1 _ _ _ hnq,
      hr, hd1tok, c2]
    rfl
  have hrtok : r.tok K (s.CLIarg + 1) =
      (checkarg0_switch K env a.type (adopt_last_value K env a.type (s.d.arg arg)
        (s.d.tok K (s.CLIarg + 1)))).1 := by
    rw [hr, CLIData.tok_setTok K _ _ _ hd1l, hd1tok]
  have hrarg : r.arg arg = s.d.arg arg := by
    rw [hr]; simp only [CLIData.arg, CLIData.setTok]; rw [hd1a]
  have hrlen : arg < r.argdata.length := by
    rw [hr]; simp only [CLIData.setTok]; rw [hd1a]; exact harg
  refine ⟨{ d := r.setArg arg (s.d.arg arg), nberr := s.nberr, CLIarg := s.CLIarg + 1 },
    ?_, rfl, rfl, ?_, ?_⟩
  · rw [checkarg_array_body_eq K env arg a s hcli d1 (by rw [if_pos hdot]; exact hd1), hchk]
    simp only [if_true]
    rw [hrtok, hrarg, c4]
  · exact CLIData.arg_setArg _ _ _ hrlen
  · have : (r.setArg arg (s.d.arg arg)).tok K (s.CLIarg + 1) = r.tok K (s.CLIarg + 1) := rfl
    simp only []
    rw [this, hrtok]
    exact c3

/-- An iteration that returns from the function leaves the last values unchanged. -/
theorem checkarg_array_body_error (K : CLIConsts) (env : CLIEnv) (arg : Nat)
    (a : CLICMDARGDEF) (s : CheckLoopState) (r : CLIData × Nat)
    (hb : checkarg_array_body K env arg a s = .error r) : r.1.argdata = s.d.argdata := by
  by_cases hcli : a.flag &&& K.CLICMDARG_FLAG_NOCLI = 0
  · obtain ⟨d1, hd1⟩ : ∃ d1, d1 = if (s.d.tok K (s.CLIarg + 1)).string = "." then
        s.d.setTok (s.CLIarg + 1)
          (adopt_last_value K env a.type (s.d.arg arg) (s.d.tok K (s.CLIarg + 1)))
      else s.d := ⟨_, rfl⟩
    have hd1a : d1.argdata = s.d.argdata := by
      rw [hd1]; split_ifs <;> simp [CLIData.setTok]
    rw [checkarg_array_body_eq K env arg a s hcli d1 hd1] at hb
    have hfr := CLI_checkarg_argdata K env d1 (s.CLIarg + 1) a.type
    split_ifs at hb
    injection hb with hb
    subst hb
    simp only []
    rw [hfr, hd1a]
  · rw [checkarg_array_body_nocli K env arg a s hcli] at hb
    cases hb

/-- The iterations for the descriptors from index `arg` on leave the last values of
the descriptors before `arg` unchanged, whether the loop returns or goes through. -/
theorem checkarg_array_iter_frame_arg (K : CLIConsts) (env : CLIEnv) (l : List CLICMDARGDEF)
    (arg : Nat) (s : CheckLoopState) (hf : s.d.argcheck_process_flag = 1) (j : Nat)
    (hj : j < arg) :
    (outcomeData (checkarg_array_iter K env l arg s)).arg j = s.d.arg j := by
  induction l generalizing arg s with
  | nil => simp [checkarg_array_iter, outcomeData]
  | cons a rest ih =>
    simp only [checkarg_array_iter]
    cases hb : checkarg_array_body K env arg a s with
    | error r =>
      simp only [outcomeData, CLIData.arg]
      rw [checkarg_array_body_error K env arg a s r hb]
    | ok s2 =>
      simp only []
      obtain ⟨b1, -, -, b4, -⟩ := checkarg_array_body_ok K env arg a s s2 hb hf
      rw [ih (arg + 1) s2 b1 (by omega)]
      exact b4 j (by omega)

theorem checkarg_array_loop_fst (K : CLIConsts) (env : CLIEnv) (l : List CLICMDARGDEF)
    (d : CLIData) :
    (checkarg_array_loop K env l d).1 =
      outcomeData (checkarg_array_iter K env l 0 { d := d, nberr := 0, CLIarg := 0 }) := by
  unfold checkarg_array_loop outcomeData
  cases checkarg_array_iter K env l 0 { d := d, nberr := 0, CLIarg := 0 } <;> rfl

/-- C2. In positional mode, for a descriptor `a` without NOCLI of a schema
`l1 ++ a :: l2`, reached without an earlier return, whose CLI token is the literal `.`:
when the descriptor and its stored last value are `dotAdoptable` (kinds StrNotImg and
Str; Img when the stored name is an existing image; Int64 and Float64 when their type
code is the code the checker takes as an integer or float token), the token takes the
last value, the binding of that descriptor succeeds (the loop goes on and counts no
error), and the descriptor's last value is unchanged, also at the end of the call. -/
theorem C2_dot_adopts_last_value (K : CLIConsts) (env : CLIEnv) (hK : K.WF) (d : CLIData)
    (l1 l2 : List CLICMDARGDEF) (a : CLICMDARGDEF) (s1 : CheckLoopState)
    (hkw : argindexmatch (l1 ++ a :: l2) (d.tok K 1).string = none)
    (hpre : checkarg_array_iter K env l1 0
      { d := { d with argcheck_process_flag := 1 }, nberr := 0, CLIarg := 0 } = .ok s1)
    (hcli : a.flag &&& K.CLICMDARG_FLAG_NOCLI = 0)
    (hdot : (d.tok K (countCLI K l1 + 1)).string = ".")
    (had : dotAdoptable K env a (d.arg l1.length))
    (harg : l1.length < d.argdata.length) :
    ∃ s2, checkarg_array_iter K env (l1 ++ [a]) 0
        { d := { d with argcheck_process_flag := 1 }, nberr := 0, CLIarg := 0 } = .ok s2 ∧
      s2.nberr = s1.nberr ∧ s2.CLIarg = countCLI K l1 + 1 ∧
      carriesLastValue K a.type (d.arg l1.length) (s2.d.tok K (countCLI K l1 + 1)) ∧
      s2.d.arg l1.length = d.arg l1.length ∧
      (CLI_checkarg_array K env d (l1 ++ a :: l2)).1.arg l1.length = d.arg l1.length := by
  obtain ⟨i1, i2, i3, i4, i5⟩ := checkarg_array_iter_ok K env l1 0 _ s1 hpre rfl
  simp only [Nat.zero_add] at i2 i4
  have hdtok : ∀ p, ({ d with argcheck_process_flag := 1 } : CLIData).tok K p = d.tok K p :=
    fun _ => rfl
  have hdarg : ∀ j, ({ d with argcheck_process_flag := 1 } : CLIData).arg j = d.arg j :=
    fun _ => rfl
  have hs1arg : s1.d.arg l1.length = d.arg l1.length := by
    rw [i4 _ (Or.inr (Nat.le_refl _)), hdarg]
  have hdot1 : (s1.d.tok K (s1.CLIarg + 1)).string = "." := by
    rw [i3 _ (by omega), hdtok, i2]; exact hdot
  have harg1 : l1.length < s1.d.argdata.length := by rw [i5]; exact harg
  obtain ⟨s2, hb, b1, b2, b3, b4⟩ := checkarg_array_body_dot K env hK l1.length a s1 hcli i1
    hdot1 (by rw [hs1arg]; exact had) harg1
  have hiter : checkarg_array_iter K env (l1 ++ [a]) 0
      { d := { d with argcheck_process_flag := 1 }, nberr := 0, CLIarg := 0 } = .ok s2 := by
    rw [checkarg_array_iter_append, hpre]
    simp only [checkarg_array_iter, Nat.zero_add]
    rw [hb]
  obtain ⟨j1, -, -, -, -⟩ := checkarg_array_iter_ok K env (l1 ++ [a]) 0 _ s2 hiter rfl
  refine ⟨s2, hiter, b1, by rw [b2, i2], ?_, by rw [b3, hs1arg], ?_⟩
  · rw [hs1arg, i2] at b4; exact b4
  · have hsplit : l1 ++ a :: l2 = (l1 ++ [a]) ++ l2 := by simp
    unfold CLI_checkarg_array
    simp only [hdtok, hkw]
    rw [checkarg_array_loop_fst, hsplit, checkarg_array_iter_append, hiter]
    simp only []
    rw [checkarg_array_iter_frame_arg K env l2 _ s2 j1 l1.length (by simp), b3, hs1arg]

/-- Witness for C2: scenario S1 with type codes without subtype bits for int64; the
descriptor `.delay` is the first of the schema. -/
theorem C2_dot_adopts_last_value_witness :
    ∃ s2, checkarg_array_iter flatConsts emptyEnv
        ([] ++ [⟨flatConsts.CLIARG_INT64, ".delay", "delay", 0⟩]) 0
        { d := { S1Data with argcheck_process_flag := 1 }, nberr := 0, CLIarg := 0 } = .ok s2 ∧
      s2.nberr = (⟨{ S1Data with argcheck_process_flag := 1 }, 0, 0⟩ : CheckLoopState).nberr ∧
      s2.CLIarg = countCLI flatConsts [] + 1 ∧
      carriesLastValue flatConsts
        (⟨flatConsts.CLIARG_INT64, ".delay", "delay", 0⟩ : CLICMDARGDEF).type
        (S1Data.arg ([] : List CLICMDARGDEF).length)
        (s2.d.tok flatConsts (countCLI flatConsts [] + 1)) ∧
      s2.d.arg ([] : List CLICMDARGDEF).length = S1Data.arg ([] : List CLICMDARGDEF).length ∧
      (CLI_checkarg_array flatConsts emptyEnv S1Data
        ([] ++ ⟨flatConsts.CLIARG_INT64, ".delay", "delay", 0⟩ ::
          [⟨flatConsts.CLIARG_FLOAT64, ".gain", "gain", 0⟩,
           ⟨flatConsts.CLIARG_STR_NOT_IMG, ".name", "name", 0⟩])).1.arg
          ([] : List CLICMDARGDEF).length = S1Data.arg ([] : List CLICMDARGDEF).length :=
  C2_dot_adopts_last_value flatConsts emptyEnv (by decide) S1Data []
    [⟨flatConsts.CLIARG_FLOAT64, ".gain", "gain", 0⟩,
     ⟨flatConsts.CLIARG_STR_NOT_IMG, ".name", "name", 0⟩]
    ⟨flatConsts.CLIARG_INT64, ".delay", "delay", 0⟩
    ⟨{ S1Data with argcheck_process_flag := 1 }, 0, 0⟩
    (by decide) rfl (by decide) (by decide) (by decide) (by decide)

/-- C2 as stated fails at two calls `cmd .`. For the schema `[.enable: OnOff]` the token
is not substituted (the adoption `switch` has no OnOff case) and the result is FAILURE.
For the schema `[.in: Img]` whose stored name `im1` is no longer an image, the token
takes the name but is typed string-not-image, and the result is FAILURE. -/
theorem C2_dot_counterexample :
    CLI_checkarg_array milkConsts emptyEnv dotData
        [⟨milkConsts.CLIARG_ONOFF, ".enable", "enable", 0⟩]
      = (dotData, milkConsts.RETURN_CLICHECKARGARRAY_FAILURE) ∧
    (CLI_checkarg_array milkConsts emptyEnv dotData
        [⟨milkConsts.CLIARG_IMG, ".in", "input image", 0⟩]).2
      = milkConsts.RETURN_CLICHECKARGARRAY_FAILURE ∧
    (CLI_checkarg_array milkConsts emptyEnv dotData
        [⟨milkConsts.CLIARG_IMG, ".in", "input image", 0⟩]).1.tok milkConsts 1
      = ⟨milkConsts.CLIARG_STR_NOT_IMG, 0, 0, "im1"⟩ := by
  decide

/-- Scenario S1 under the two assignments of type codes. When `CLIARG_INT64` carries a
subtype above bit 15 (`milkConsts`), the token `.` takes the value 42 and the type code
`CLIARG_INT64`, which `CLI_checkarg0` does not take as an integer token: the result is
FAILURE. When `CLIARG_INT64` is itself the integer token code (`flatConsts`), the result
is SUCCESS with `delay = 42`, `gain = 1.5` and `name = "xyz"`. -/
theorem S1_depends_on_type_codes :
    (CLI_checkarg_array milkConsts emptyEnv S1Data (S1Schema milkConsts)).2
      = milkConsts.RETURN_CLICHECKARGARRAY_FAILURE ∧
    (CLI_checkarg_array flatConsts emptyEnv S1Data (S1Schema flatConsts)).2
      = flatConsts.RETURN_CLICHECKARGARRAY_SUCCESS ∧
    ((CLI_checkarg_array flatConsts emptyEnv S1Data (S1Schema flatConsts)).1.arg 0).i64 = 42 ∧
    ((CLI_checkarg_array flatConsts emptyEnv S1Data (S1Schema flatConsts)).1.arg 1).f64 = 3 / 2 ∧
    ((CLI_checkarg_array flatConsts emptyEnv S1Data (S1Schema flatConsts)).1.arg 2).s = "xyz" :=
  ⟨by decide, by decide, by decide, rfl, by decide⟩

/-! ## Keyword mode -/

/-- The loop `lastIndexWhere` returns `none` exactly when it started from `none` and no
element satisfies the test. -/
theorem lastIndexWhere_none {α : Type} (p : α → Bool) (l : List α) (i : Nat) (m : Option Nat) :
    lastIndexWhere p l i m = none ↔ m = none ∧ ∀ x ∈ l, p x = false := by
  induction l generalizing i m with
  | nil => simp [lastIndexWhere]
  | cons x xs ih =>
    simp only [lastIndexWhere, ih, List.mem_cons, forall_eq_or_imp]
    by_cases hx : p x = true
    · simp [hx]
    · simp only [Bool.not_eq_true] at hx
      simp [hx]

/-- When `lastIndexWhere` returns an index, either it is the index of the last element
that satisfies the test, or no element does and it is the index it started from. -/
theorem lastIndexWhere_some {α : Type} (p : α → Bool) (l : List α) (i : Nat) (m : Option Nat)
    (k : Nat) (h : lastIndexWhere p l i m = some k) :
    (i ≤ k ∧ (∃ x, l[k - i]? = some x ∧ p x = true) ∧
        ∀ j x, k - i < j → l[j]? = some x → p x = false) ∨
    (m = some k ∧ ∀ x ∈ l, p x = false) := by
  induction l generalizing i m with
  | nil =>
    simp only [lastIndexWhere] at h
    exact Or.inr ⟨h, by simp⟩
  | cons y ys ih =>
    simp only [lastIndexWhere] at h
    rcases ih (i + 1) _ h with ⟨h1, ⟨x, hx1, hx2⟩, h3⟩ | ⟨h1, h2⟩
    · left
      refine ⟨by omega, ⟨x, ?_, hx2⟩, ?_⟩
      · have : k - i = (k - (i + 1)) + 1 := by omega
        rw [this, List.getElem?_cons_succ]; exact hx1
      · intro j x' hj hx'
        cases j with
        | zero => omega
        | succ j' =>
          rw [List.getElem?_cons_succ] at hx'
          exact h3 j' x' (by omega) hx'
    · by_cases hy : p y = true
      · rw [if_pos hy] at h1
        injection h1 with h1
        left
        refine ⟨by omega, ⟨y, ?_, hy⟩, ?_⟩
        · have : k - i = 0 := by omega
          rw [this]; simp
        · intro j x' hj hx'
          cases j with
          | zero => omega
          | succ j' =>
            rw [List.getElem?_cons_succ] at hx'
            exact h2 x' (List.getElem?_mem hx')
      · rw [if_neg hy] at h1
        right
        refine ⟨h1, ?_⟩
        intro x' hx'
        rcases List.mem_cons.mp hx' with hx' | hx'
        · rw [hx']; simpa using hy
        · exact h2 x' hx'

/-- `argindexmatch` returns the index of the last descriptor whose tag is the string. -/
theorem argindexmatch_some (fpscliarg : List CLICMDARGDEF) (s : String) (m : Nat)
    (h : argindexmatch fpscliarg s = some m) :
    (∃ a, fpscliarg[m]? = some a ∧ a.fpstag = s) ∧
    ∀ j b, m < j → fpscliarg[j]? = some b → b.fpstag ≠ s := by
  unfold argindexmatch at h
  rcases lastIndexWhere_some _ _ _ _ _ h with ⟨-, ⟨x, hx1, hx2⟩, h3⟩ | ⟨h1, -⟩
  · simp only [Nat.sub_zero] at hx1 h3
    refine ⟨⟨x, hx1, ?_⟩, ?_⟩
    · have : s = x.fpstag := by simpa using hx2
      exact this.symm
    · intro j b hj hb
      have := h3 j b hj hb
      simp only [decide_eq_false_iff_not] at this
      exact fun h' => this h'.symm
  · cases h1

/-- The store `switch` of keyword mode puts the token value into the slot. -/
theorem argdata_store_keyword_holds (K : CLIConsts) (env : CLIEnv) (hK : K.WF) (type : Nat)
    (t : CMDARGTOKEN) (v : CLICMDARGVAL) :
    slotHolds K env type (argdata_store_keyword K env type t v) t := by
  obtain ⟨h1, h1r⟩ := hK.argNe
  simp only [List.reverse_cons, List.reverse_nil, List.nil_append, List.cons_append,
    List.nodup_cons, List.mem_cons, List.mem_singleton, not_or, List.not_mem_nil,
    not_false_eq_true, List.nodup_nil, and_true] at h1 h1r
  unfold slotHolds
  refine ⟨?_, ?_, ?_, ?_, ?_, ?_, ?_, ?_⟩
  · intro h; subst h; simp [argdata_store_keyword, h1, h1r]
  · intro h; subst h; simp [argdata_store_keyword, h1, h1r]
  · intro h; subst h; simp [argdata_store_keyword, h1, h1r]
  · intro h; subst h; simp [argdata_store_keyword, h1, h1r]
  · intro h; subst h; simp [argdata_store_keyword, h1, h1r]
  · intro h; subst h; simp [argdata_store_keyword, h1, h1r]
  · intro h; subst h; simp [argdata_store_keyword, h1, h1r]
  · rintro (h | h | h) <;> subst h <;> simp [argdata_store_keyword, h1, h1r]

/-- C3. Keyword mode: whenever the string of token 1 is the tag of a descriptor,
`CLI_checkarg_array` updates the last descriptor `m` with that tag. If token 2 is
present and `CLI_checkarg` accepts it for the kind of `m`, the coerced value of token 2
is written into the last-value slot of `m` (for the ten kinds of `slotHolds`), no other
slot changes, and the result is FUNCPARAMSET. If token 2 is missing or not accepted, the
result is FAILURE and no last-value slot changes. -/
theorem C3_keyword_mode (K : CLIConsts) (env : CLIEnv) (hK : K.WF) (d : CLIData)
    (fpscliarg : List CLICMDARGDEF) (m : Nat)
    (hm : argindexmatch fpscliarg (d.tok K 1).string = some m)
    (hlen : m < d.argdata.length) :
    ∃ a, fpscliarg[m]? = some a ∧ a.fpstag = (d.tok K 1).string ∧
      (∀ j b, m < j → fpscliarg[j]? = some b → b.fpstag ≠ (d.tok K 1).string) ∧
      (((d.tok K 2).type ≠ K.CLIARG_MISSING ∧
          (CLI_checkarg K env { d with argcheck_process_flag := 1 } 2 a.type).2 = 0) →
        (CLI_checkarg_array K env d fpscliarg).2 = K.RETURN_CLICHECKARGARRAY_FUNCPARAMSET ∧
        slotHolds K env a.type ((CLI_checkarg_array K env d fpscliarg).1.arg m)
          ((CLI_checkarg K env { d with argcheck_process_flag := 1 } 2 a.type).1.tok K 2) ∧
        ∀ j, j ≠ m → (CLI_checkarg_array K env d fpscliarg).1.arg j = d.arg j) ∧
      (¬ ((d.tok K 2).type ≠ K.CLIARG_MISSING ∧
          (CLI_checkarg K env { d with argcheck_process_flag := 1 } 2 a.type).2 = 0) →
        (CLI_checkarg_array K env d fpscliarg).2 = K.RETURN_CLICHECKARGARRAY_FAILURE ∧
        (CLI_checkarg_array K env d fpscliarg).1.argdata = d.argdata) := by
  obtain ⟨⟨a, ha1, ha2⟩, hlast⟩ := argindexmatch_some _ _ _ hm
  have hget : fpscliarg.getD m ⟨0, "", "", 0⟩ = a := by
    simp [List.getD_eq_getElem?_getD, ha1]
  have hdtok : ∀ p, ({ d with argcheck_process_flag := 1 } : CLIData).tok K p = d.tok K p :=
    fun _ => rfl
  have hfr := CLI_checkarg_argdata K env { d with argcheck_process_flag := 1 } 2 a.type
  refine ⟨a, ha1, ha2, hlast, ?_, ?_⟩
  · rintro ⟨hmiss, hacc⟩
    have hres : CLI_checkarg_array K env d fpscliarg =
        ((CLI_checkarg K env { d with argcheck_process_flag := 1 } 2 a.type).1.setArg m
          (argdata_store_keyword K env a.type
            ((CLI_checkarg K env { d with argcheck_process_flag := 1 } 2 a.type).1.tok K 2)
            ((CLI_checkarg K env { d with argcheck_process_flag := 1 } 2 a.type).1.arg m)),
          K.RETURN_CLICHECKARGARRAY_FUNCPARAMSET) := by
      unfold CLI_checkarg_array
      simp only [hdtok, hm, hget, if_neg hmiss, if_pos hacc]
    rw [hres]
    refine ⟨rfl, ?_, ?_⟩
    · simp only []
      rw [CLIData.arg_setArg _ _ _ (by rw [hfr]; exact hlen)]
      exact argdata_store_keyword_holds K env hK _ _ _
    · intro j hj
      simp only []
      rw [CLIData.arg_setArg_ne _ _ _ _ hj]
      simp only [CLIData.arg]; rw [hfr]
  · intro hn
    by_cases hmiss : (d.tok K 2).type = K.CLIARG_MISSING
    · have hres : CLI_checkarg_array K env d fpscliarg =
          ({ d with argcheck_process_flag := 1 }, K.RETURN_CLICHECKARGARRAY_FAILURE) := by
        unfold CLI_checkarg_array
        simp only [hdtok, hm, if_pos hmiss]
      rw [hres]; exact ⟨rfl, rfl⟩
    · have hacc : ¬ (CLI_checkarg K env { d with argcheck_process_flag := 1 } 2 a.type).2 = 0 :=
        fun h => hn ⟨hmiss, h⟩
      have hres : CLI_checkarg_array K env d fpscliarg =
          ((CLI_checkarg K env { d with argcheck_process_flag := 1 } 2 a.type).1,
            K.RETURN_CLICHECKARGARRAY_FAILURE) := by
        unfold CLI_checkarg_array
        simp only [hdtok, hm, hget, if_neg hmiss, if_neg hacc]
      rw [hres]; exact ⟨rfl, hfr⟩

/-- Witness for C3: the call `cmd .delay 7` for the schema `[.delay: Int64]` returns
FUNCPARAMSET and stores 7 as the last value of `.delay`. -/
theorem C3_keyword_mode_witness :
    argindexmatch (delaySchema milkConsts) (keywordSetData.tok milkConsts 1).string = some 0 ∧
    (CLI_checkarg_array milkConsts emptyEnv keywordSetData (delaySchema milkConsts)).2
      = milkConsts.RETURN_CLICHECKARGARRAY_FUNCPARAMSET ∧
    ((CLI_checkarg_array milkConsts emptyEnv keywordSetData (delaySchema milkConsts)).1.arg 0).i64
      = 7 := by
  obtain ⟨a, ha, -, -, h1, -⟩ := C3_keyword_mode milkConsts emptyEnv (by decide) keywordSetData
    (delaySchema milkConsts) 0 (by decide) (by decide)
  have ha' : a = ⟨milkConsts.CLIARG_INT64, ".delay", "delay", 0⟩ := by
    have : (delaySchema milkConsts)[0]? = some ⟨milkConsts.CLIARG_INT64, ".delay", "delay", 0⟩ :=
      rfl
    rw [this] at ha
    injection ha with ha
    exact ha.symm
  subst ha'
  obtain ⟨r1, r2, -⟩ := h1 ⟨by decide, by decide⟩
  refine ⟨by decide, r1, ?_⟩
  rw [r2.2.2.2.1 rfl]
  decide

/-- C3 as stated fails at the call `cmd .delay 7`. With the schema `[.delay: Int64]` the
last value of `.delay` becomes 7 and the result is FUNCPARAMSET, but the function
parameter structure of the process is not written: its parameter `fps.delay` keeps the
value 0 and the update counter 0, and the wrapper `CLIfunction` reports
`CLICMD_INVALID_ARG`. With a descriptor of the deprecated kind `CLIARG_LONG` the token
is accepted and the result is FUNCPARAMSET, but no last value is written. -/
theorem C3_keyword_mode_counterexample :
    (CLI_checkarg_array_world milkConsts emptyEnv ⟨keywordSetData, delayFPS⟩
        (delaySchema milkConsts)).2 = milkConsts.RETURN_CLICHECKARGARRAY_FUNCPARAMSET ∧
    ((CLI_checkarg_array_world milkConsts emptyEnv ⟨keywordSetData, delayFPS⟩
        (delaySchema milkConsts)).1.data.arg 0).i64 = 7 ∧
    functionparameter_GetParamIndex milkFPSConsts
      (CLI_checkarg_array_world milkConsts emptyEnv ⟨keywordSetData, delayFPS⟩
        (delaySchema milkConsts)).1.fps ".delay" = some 0 ∧
    ((CLI_checkarg_array_world milkConsts emptyEnv ⟨keywordSetData, delayFPS⟩
        (delaySchema milkConsts)).1.fps.parray.map (fun p => (p.val.l0, p.cnt0)))
      = [(0, 0), (0, 0), (0, 0)] ∧
    (CLIfunction milkConsts emptyEnv keywordSetData (delaySchema milkConsts)).2
      = milkConsts.CLICMD_INVALID_ARG ∧
    CLI_checkarg_array milkConsts emptyEnv keywordSetData
        [⟨milkConsts.CLIARG_LONG, ".delay", "delay", 0⟩]
      = ({ keywordSetData with argcheck_process_flag := 1 },
          milkConsts.RETURN_CLICHECKARGARRAY_FUNCPARAMSET) := by
  decide

/-! ## Flags and the setters of the parameter store -/

theorem or_and_self_mask (f m : Nat) : (f ||| m) &&& m = m := by
  apply Nat.eq_of_testBit_eq
  intro i
  simp only [Nat.testBit_and, Nat.testBit_or]
  cases f.testBit i <;> cases m.testBit i <;> rfl

theorem clearFlag_and_mask (f m : Nat) (hm : m < 2 ^ 64) : clearFlag f m &&& m = 0 := by
  unfold clearFlag
  rw [Nat.mod_eq_of_lt hm]
  apply Nat.eq_of_testBit_eq
  intro i
  have h2 : 2 ^ 64 - 1 - m = 2 ^ 64 - (m + 1) := by omega
  rw [h2]
  simp only [Nat.testBit_and, Nat.testBit_two_pow_sub_succ hm, Nat.zero_testBit]
  cases f.testBit i <;> cases m.testBit i <;> simp

/-- The search of `functionparameter_GetParamIndex` returns the first active slot whose
full keyword contains the name. -/
theorem GetParamIndex_scan_some (C : FPSConsts) (paramname : String)
    (l : List FUNCTION_PARAMETER) (i0 k : Nat)
    (h : GetParamIndex_scan C paramname l i0 = some k) :
    i0 ≤ k ∧ (∃ p, l[k - i0]? = some p ∧ p.active C ∧ strstr p.keywordfull paramname) ∧
    ∀ j q, j < k - i0 → l[j]? = some q → ¬ (q.active C ∧ strstr q.keywordfull paramname) := by
  induction l generalizing i0 with
  | nil => simp [GetParamIndex_scan] at h
  | cons x xs ih =>
    simp only [GetParamIndex_scan] at h
    by_cases hx : x.active C ∧ strstr x.keywordfull paramname
    · rw [if_pos hx] at h
      injection h with h
      subst h
      refine ⟨Nat.le_refl _, ⟨x, by simp, hx⟩, ?_⟩
      intro j q hj
      omega
    · rw [if_neg hx] at h
      obtain ⟨h1, ⟨p, hp1, hp2⟩, h3⟩ := ih (i0 + 1) h
      refine ⟨by omega, ⟨p, ?_, hp2⟩, ?_⟩
      · have : k - i0 = (k - (i0 + 1)) + 1 := by omega
        rw [this, List.getElem?_cons_succ]; exact hp1
      · intro j q hj hq
        cases j with
        | zero =>
          simp only [List.getElem?_cons_zero, Option.some.injEq] at hq
          rw [← hq]; exact hx
        | succ j' =>
          rw [List.getElem?_cons_succ] at hq
          exact h3 j' q (by omega) hq

/-- Reading slot `j` of the parameter array after `modify`. -/
theorem FUNCTION_PARAMETER_STRUCT.parray_modify (fps : FUNCTION_PARAMETER_STRUCT) (i j : Nat)
    (f : FUNCTION_PARAMETER → FUNCTION_PARAMETER) :
    (fps.modify i f).parray[j]? = (fps.parray[j]?).map (fun p => if i = j then f p else p) := by
  simp only [FUNCTION_PARAMETER_STRUCT.modify, List.getElem?_modify]
  rfl

/-! ## On/off arguments -/

theorem checkarg0_onoff_on (t : CMDARGTOKEN) (h : t.string = "on" ∨ t.string = "ON") :
    checkarg0_onoff t = ({ t with numl := 1 }, 0) := by
  unfold checkarg0_onoff
  have h2 : ¬ (t.string = "off" ∨ t.string = "OFF") := by
    rcases h with h | h <;> rw [h] <;> decide
  simp only [if_pos h, if_neg h2]

theorem checkarg0_onoff_off (t : CMDARGTOKEN) (h : t.string = "off" ∨ t.string = "OFF") :
    checkarg0_onoff t = ({ t with numl := 0 }, 0) := by
  unfold checkarg0_onoff
  have h2 : ¬ (t.string = "on" ∨ t.string = "ON") := by
    rcases h with h | h <;> rw [h] <;> decide
  simp only [if_neg h2, if_pos h]

theorem checkarg0_onoff_other (t : CMDARGTOKEN) (h : ¬ isOnOffWord t.string) :
    checkarg0_onoff t = (t, 2) := by
  unfold isOnOffWord at h
  unfold checkarg0_onoff
  have h1 : ¬ (t.string = "on" ∨ t.string = "ON") := fun h' => h (by tauto)
  have h2 : ¬ (t.string = "off" ∨ t.string = "OFF") := fun h' => h (by tauto)
  simp only [if_neg h1, if_neg h2]

/-- For an OnOff argument, a command word or a string that is not an image goes through
the on/off test. -/
theorem checkarg0_switch_onoff_word (K : CLIConsts) (env : CLIEnv) (hK : K.WF)
    (t : CMDARGTOKEN) (ht : t.type = K.CLIARG_STR_NOT_IMG ∨ t.type = K.CLIARG_STR) :
    checkarg0_switch K env K.CLIARG_ONOFF t = checkarg0_onoff t := by
  obtain ⟨l1, l2, l3, l4, l5, l6, l7, l8, l9, l10, l11⟩ := hK.tokLabels
  rw [checkarg0_switch_int K env hK _ _ (Or.inr (Or.inr (Or.inr (Or.inr (Or.inl rfl)))))]
  unfold checkarg0_INT
  rcases ht with ht | ht
  · rw [if_neg (fun h => l2 (h.symm.trans ht)), if_neg (fun h => l5 (h.symm.trans ht)),
      if_pos ht, if_pos rfl]
  · rw [if_neg (fun h => l4 (h.symm.trans ht)), if_neg (fun h => l7 (h.symm.trans ht)),
      if_neg (fun h => l9 (h.symm.trans ht)), if_neg (fun h => l10 (h.symm.trans ht)),
      if_pos ht, if_pos rfl]

theorem argindexmatch_single (a : CLICMDARGDEF) (s : String) (h : a.fpstag ≠ s) :
    argindexmatch [a] s = none := by
  unfold argindexmatch
  rw [lastIndexWhere_none]
  refine ⟨rfl, ?_⟩
  intro x hx
  rw [List.mem_singleton] at hx
  subst hx
  simpa using fun h' => h h'.symm

/-- The positional check of a one-descriptor schema `[a]` with an OnOff descriptor and
a word token that is not `.`: the result of `CLI_checkarg` on token 1 decides. -/
theorem checkarg_array_single_onoff (K : CLIConsts) (env : CLIEnv) (hK : K.WF) (d : CLIData)
    (a : CLICMDARGDEF) (ha : a.type = K.CLIARG_ONOFF)
    (hcli : a.flag &&& K.CLICMDARG_FLAG_NOCLI = 0)
    (hkw : a.fpstag ≠ (d.tok K 1).string) :
    (CLI_checkarg K env { d with argcheck_process_flag := 1 } 1 K.CLIARG_ONOFF).2 = 0 →
      CLI_checkarg_array K env d [a] =
        ((CLI_checkarg K env { d with argcheck_process_flag := 1 } 1 K.CLIARG_ONOFF).1.setArg 0
          ((CLI_checkarg K env { d with argcheck_process_flag := 1 } 1 K.CLIARG_ONOFF).1.arg 0),
         K.RETURN_CLICHECKARGARRAY_SUCCESS) := by
  intro hacc
  have hdtok : ∀ p, ({ d with argcheck_process_flag := 1 } : CLIData).tok K p = d.tok K p :=
    fun _ => rfl
  have hd1 : (if (d.tok K 1).string = "." then
        ({ d with argcheck_process_flag := 1 } : CLIData).setTok 1
          (adopt_last_value K env a.type (({ d with argcheck_process_flag := 1 } : CLIData).arg 0)
            (d.tok K 1))
      else { d with argcheck_process_flag := 1 }) = { d with argcheck_process_flag := 1 } := by
    split_ifs
    · rw [(adopt_last_value_cases K env hK a.type _ _).2.2.2.2.2 ha]
      exact CLIData.setTok_self K { d with argcheck_process_flag := 1 } 1
    · rfl
  unfold CLI_checkarg_array
  simp only [hdtok, argindexmatch_single a _ hkw]
  unfold checkarg_array_loop
  simp only [checkarg_array_iter]
  rw [checkarg_array_body_eq K env 0 a _ hcli { d with argcheck_process_flag := 1 }
    (by simp only [Nat.zero_add, hdtok]; exact hd1.symm)]
  simp only [Nat.zero_add, ha, if_pos hacc]
  rw [(argdata_store_positional_cases K env hK K.CLIARG_ONOFF _ _).2.2.2 rfl]
  simp
theorem checkarg_array_single_onoff_fail (K : CLIConsts) (env : CLIEnv) (hK : K.WF)
    (d : CLIData) (a : CLICMDARGDEF) (ha : a.type = K.CLIARG_ONOFF)
    (hcli : a.flag &&& K.CLICMDARG_FLAG_NOCLI = 0)
    (hkw : a.fpstag ≠ (d.tok K 1).string)
    (hrej : (CLI_checkarg K env { d with argcheck_process_flag := 1 } 1 K.CLIARG_ONOFF).2 ≠ 0) :
    (CLI_checkarg_array K env d [a]).2 = K.RETURN_CLICHECKARGARRAY_HELP ∨
    (CLI_checkarg_array K env d [a]).2 = K.RETURN_CLICHECKARGARRAY_FAILURE := by
  have hdtok : ∀ p, ({ d with argcheck_process_flag := 1 } : CLIData).tok K p = d.tok K p :=
    fun _ => rfl
  have hd1 : (if (d.tok K 1).string = "." then
        ({ d with argcheck_process_flag := 1 } : CLIData).setTok 1
          (adopt_last_value K env a.type (({ d with argcheck_process_flag := 1 } : CLIData).arg 0)
            (d.tok K 1))
      else { d with argcheck_process_flag := 1 }) = { d with argcheck_process_flag := 1 } := by
    split_ifs
    · rw [(adopt_last_value_cases K env hK a.type _ _).2.2.2.2.2 ha]
      exact CLIData.setTok_self K { d with argcheck_process_flag := 1 } 1
    · rfl
  unfold CLI_checkarg_array
  simp only [hdtok, argindexmatch_single a _ hkw]
  unfold checkarg_array_loop
  simp only [checkarg_array_iter]
  rw [checkarg_array_body_eq K env 0 a _ hcli { d with argcheck_process_flag := 1 }
    (by simp only [Nat.zero_add, hdtok]; exact hd1.symm)]
  simp only [Nat.zero_add, ha, if_neg hrej]
  by_cases hh : (CLI_checkarg K env { d with argcheck_process_flag := 1 } 1
      K.CLIARG_ONOFF).1.functionhelp_called = 1
  · left; simp [hh]
  · right; simp [hh]

/-- The result of `CLI_checkarg` on token 1 for an OnOff argument and a word token. -/
theorem CLI_checkarg_onoff_word (K : CLIConsts) (env : CLIEnv) (hK : K.WF) (d : CLIData)
    (ht : (d.tok K 1).type = K.CLIARG_STR_NOT_IMG ∨ (d.tok K 1).type = K.CLIARG_STR)
    (hq : (d.tok K 1).string ≠ "?") :
    CLI_checkarg K env { d with argcheck_process_flag := 1 } 1 K.CLIARG_ONOFF =
      (({ d with argcheck_process_flag := 1 } : CLIData).setTok 1 (checkarg0_onoff (d.tok K 1)).1,
        if (checkarg0_onoff (d.tok K 1)).2 = 2 then 1 else (checkarg0_onoff (d.tok K 1)).2) := by
  have hdtok : ∀ p, ({ d with argcheck_process_flag := 1 } : CLIData).tok K p = d.tok K p :=
    fun _ => rfl
  rw [CLI_checkarg_of_flag K env _ _ _ rfl,
    CLI_checkarg0_not_help K env _ _ _ _ (by rw [hdtok]; exact hq), hdtok,
    checkarg0_switch_onoff_word K env hK _ ht]

/-- The step of `CLIargs_to_FPSparams_setval` for an OnOff descriptor: the setter is
called with the integer value of the token, cast to `int`. -/
theorem setval_step_onoff (K : CLIConsts) (C : FPSConsts) (env : CLIEnv) (hK : K.WF)
    (d : CLIData) (arg : Nat) (a : CLICMDARGDEF) (fps : FUNCTION_PARAMETER_STRUCT)
    (ha : a.type = K.CLIARG_ONOFF) (hfps : a.flag &&& K.CLICMDARG_FLAG_NOFPS = 0) :
    setval_step K C env d arg a fps =
      (functionparameter_SetParamValue_ONOFF C fps a.fpstag
        (toInt32 (d.tok K (arg + 1)).numl)).map (·, 1) := by
  obtain ⟨h1, h1r⟩ := hK.argNe
  simp only [List.reverse_cons, List.reverse_nil, List.nil_append, List.cons_append,
    List.nodup_cons, List.mem_cons, List.mem_singleton, not_or, List.not_mem_nil,
    not_false_eq_true, List.nodup_nil, and_true] at h1 h1r
  unfold setval_step
  simp [hfps, ha, h1, h1r]

/-- The setter `functionparameter_SetParamValue_ONOFF` on the slot that
`functionparameter_GetParamIndex` resolves. -/
theorem SetParamValue_ONOFF_spec (C : FPSConsts) (hC : C.WF) (fps : FUNCTION_PARAMETER_STRUCT)
    (paramname : String) (v : Int) (i : Nat)
    (hi : functionparameter_GetParamIndex C fps paramname = some i) :
    ∃ fps1 p0 p, functionparameter_SetParamValue_ONOFF C fps paramname v = some fps1 ∧
      fps.parray[i]? = some p0 ∧ fps1.parray[i]? = some p ∧ p.cnt0 = p0.cnt0 + 1 ∧
      (v = 1 → p.fpflag &&& C.FPFLAG_ONOFF = C.FPFLAG_ONOFF ∧ p.val.l0 = 1) ∧
      (v ≠ 1 → p.fpflag &&& C.FPFLAG_ONOFF = 0 ∧ p.val.l0 = 0) := by
  obtain ⟨-, ⟨p0, hp0, -⟩, -⟩ := GetParamIndex_scan_some C paramname fps.parray 0 i hi
  simp only [Nat.sub_zero] at hp0
  unfold functionparameter_SetParamValue_ONOFF
  rw [hi]
  simp only [Option.map_some']
  refine ⟨_, p0,
    (if v = 1 then
        { p0 with fpflag := p0.fpflag ||| C.FPFLAG_ONOFF, val := { p0.val with l0 := 1 },
                  cnt0 := p0.cnt0 + 1 }
      else
        { p0 with fpflag := clearFlag p0.fpflag C.FPFLAG_ONOFF, val := { p0.val with l0 := 0 },
                  cnt0 := p0.cnt0 + 1 }), rfl, hp0, ?_, ?_, ?_, ?_⟩
  · rw [FUNCTION_PARAMETER_STRUCT.parray_modify, hp0]
    simp only [Option.map_some', if_true]
  · split_ifs <;> rfl
  · intro hv
    rw [if_pos hv]
    exact ⟨or_and_self_mask _ _, rfl⟩
  · intro hv
    rw [if_neg hv]
    exact ⟨clearFlag_and_mask _ _ hC.2.2.2.2, rfl⟩

/-- The binding of a word token (a string that is not an image, or a command word) for
a schema with one OnOff descriptor `a`: the word `on` or `ON` is accepted and bound to
1, and `CLIargs_to_FPSparams_setval` then sets the ONOFF flag and the current value 1
in the slot `i` that `functionparameter_GetParamIndex` resolves for the tag; `off` or
`OFF` is accepted and bound to 0, and the ONOFF flag is cleared and the current value
set to 0 in that slot; every other word makes `CLI_checkarg_array` return a result other
than SUCCESS, which the wrapper `CLIfunction` reports as `CLICMD_INVALID_ARG`. In the
first two cases the word is not itself the tag of the descriptor. The slot `i` is the
first active slot whose full keyword contains the tag, which need not be the parameter
of the descriptor. -/
theorem onoff_binding_resolved_slot (K : CLIConsts) (C : FPSConsts) (env : CLIEnv) (hK : K.WF)
    (hC : C.WF) (d : CLIData) (a : CLICMDARGDEF) (fps : FUNCTION_PARAMETER_STRUCT) (i : Nat)
    (ha : a.type = K.CLIARG_ONOFF)
    (hcli : a.flag &&& K.CLICMDARG_FLAG_NOCLI = 0)
    (hfps : a.flag &&& K.CLICMDARG_FLAG_NOFPS = 0)
    (ht : (d.tok K 1).type = K.CLIARG_STR_NOT_IMG ∨ (d.tok K 1).type = K.CLIARG_STR)
    (hi : functionparameter_GetParamIndex C fps a.fpstag = some i) :
    (((d.tok K 1).string = "on" ∨ (d.tok K 1).string = "ON") →
      a.fpstag ≠ (d.tok K 1).string →
      (CLI_checkarg_array K env d [a]).2 = K.RETURN_CLICHECKARGARRAY_SUCCESS ∧
      ((CLI_checkarg_array K env d [a]).1.tok K 1).numl = 1 ∧
      ∃ fps1 p, CLIargs_to_FPSparams_setval K C env (CLI_checkarg_array K env d [a]).1 [a] fps
          = some (fps1, 1) ∧
        fps1.parray[i]? = some p ∧ p.fpflag &&& C.FPFLAG_ONOFF = C.FPFLAG_ONOFF ∧
        p.val.l0 = 1) ∧
    (((d.tok K 1).string = "off" ∨ (d.tok K 1).string = "OFF") →
      a.fpstag ≠ (d.tok K 1).string →
      (CLI_checkarg_array K env d [a]).2 = K.RETURN_CLICHECKARGARRAY_SUCCESS ∧
      ((CLI_checkarg_array K env d [a]).1.tok K 1).numl = 0 ∧
      ∃ fps1 p, CLIargs_to_FPSparams_setval K C env (CLI_checkarg_array K env d [a]).1 [a] fps
          = some (fps1, 1) ∧
        fps1.parray[i]? = some p ∧ p.fpflag &&& C.FPFLAG_ONOFF = 0 ∧ p.val.l0 = 0) ∧
    (¬ isOnOffWord (d.tok K 1).string →
      (CLI_checkarg_array K env d [a]).2 ≠ K.RETURN_CLICHECKARGARRAY_SUCCESS ∧
      (CLIfunction K env d [a]).2 = K.CLICMD_INVALID_ARG) := by
  have hdtok : ∀ p, ({ d with argcheck_process_flag := 1 } : CLIData).tok K p = d.tok K p :=
    fun _ => rfl
  have hret := hK.2.2.2.1
  simp only [List.nodup_cons, List.mem_cons, List.mem_singleton, not_or, List.not_mem_nil,
    not_false_eq_true, List.nodup_nil, and_true] at hret
  obtain ⟨⟨r1, r2, r3⟩, -⟩ := hret
  -- the accepted words
  have hacc : ∀ (n : Int), checkarg0_onoff (d.tok K 1) = ({ d.tok K 1 with numl := n }, 0) →
      (d.tok K 1).string ≠ "?" → (d.tok K 1).string ≠ "" → a.fpstag ≠ (d.tok K 1).string →
      (CLI_checkarg_array K env d [a]).2 = K.RETURN_CLICHECKARGARRAY_SUCCESS ∧
      ((CLI_checkarg_array K env d [a]).1.tok K 1).numl = n ∧
      CLIargs_to_FPSparams_setval K C env (CLI_checkarg_array K env d [a]).1 [a] fps =
        (functionparameter_SetParamValue_ONOFF C fps a.fpstag (toInt32 n)).map (·, 1) := by
    intro n hon hq hne hkw
    have hlen : 1 < d.cmdargtoken.length := CLIData.tok_lt_of_string_ne K d 1 hne
    have hchk := CLI_checkarg_onoff_word K env hK d ht hq
    rw [hon] at hchk
    simp only [] at hchk
    have hres := checkarg_array_single_onoff K env hK d a ha hcli hkw (by rw [hchk]; rfl)
    rw [hchk] at hres
    simp only [] at hres
    have htok : ((CLI_checkarg_array K env d [a]).1.tok K 1) = { d.tok K 1 with numl := n } := by
      rw [hres]
      exact CLIData.tok_setTok K { d with argcheck_process_flag := 1 } 1 _ hlen
    refine ⟨by rw [hres], by rw [htok], ?_⟩
    unfold CLIargs_to_FPSparams_setval
    simp only [setval_loop]
    rw [setval_step_onoff K C env hK _ 0 a fps ha hfps]
    simp only [Nat.zero_add]
    rw [htok]
    cases functionparameter_SetParamValue_ONOFF C fps a.fpstag (toInt32 n) <;> rfl
  refine ⟨?_, ?_, ?_⟩
  · intro hw hkw
    have hq : (d.tok K 1).string ≠ "?" := by rcases hw with h | h <;> rw [h] <;> decide
    have hne : (d.tok K 1).string ≠ "" := by rcases hw with h | h <;> rw [h] <;> decide
    obtain ⟨a1, a2, a3⟩ := hacc 1 (checkarg0_onoff_on _ hw) hq hne hkw
    obtain ⟨fps1, p0, p, s1, -, s3, -, s5, -⟩ :=
      SetParamValue_ONOFF_spec C hC fps a.fpstag (toInt32 1) i hi
    refine ⟨a1, a2, fps1, p, ?_, s3, (s5 (by decide)).1, (s5 (by decide)).2⟩
    rw [a3, s1]; rfl
  · intro hw hkw
    have hq : (d.tok K 1).string ≠ "?" := by rcases hw with h | h <;> rw [h] <;> decide
    have hne : (d.tok K 1).string ≠ "" := by rcases hw with h | h <;> rw [h] <;> decide
    obtain ⟨a1, a2, a3⟩ := hacc 0 (checkarg0_onoff_off _ hw) hq hne hkw
    obtain ⟨fps1, p0, p, s1, -, s3, -, -, s6⟩ :=
      SetParamValue_ONOFF_spec C hC fps a.fpstag (toInt32 0) i hi
    refine ⟨a1, a2, fps1, p, ?_, s3, (s6 (by decide)).1, (s6 (by decide)).2⟩
    rw [a3, s1]; rfl
  · intro hw
    have hns : (CLI_checkarg_array K env d [a]).2 ≠ K.RETURN_CLICHECKARGARRAY_SUCCESS := by
      by_cases hkw : a.fpstag = (d.tok K 1).string
      · -- keyword mode
        have hm : argindexmatch [a] (d.tok K 1).string = some 0 := by
          unfold argindexmatch
          simp [lastIndexWhere, hkw]
        unfold CLI_checkarg_array
        simp only [hdtok, hm]
        split_ifs
        · exact fun h => r1 h.symm
        · exact fun h => r2 h.symm
        · exact fun h => r1 h.symm
      · have hrej : (CLI_checkarg K env { d with argcheck_process_flag := 1 } 1
            K.CLIARG_ONOFF).2 ≠ 0 := by
          by_cases hq : (d.tok K 1).string = "?"
          · rw [CLI_checkarg_of_flag K env _ _ _ rfl,
              CLI_checkarg0_help K env _ _ _ _ (by rw [hdtok]; exact hq)]
            exact Nat.one_ne_zero
          · rw [CLI_checkarg_onoff_word K env hK d ht hq, checkarg0_onoff_other _ hw]
            exact Nat.one_ne_zero
        rcases checkarg_array_single_onoff_fail K env hK d a ha hcli hkw hrej with h | h
        · rw [h]; exact fun h' => r3 h'.symm
        · rw [h]; exact fun h' => r1 h'.symm
    refine ⟨hns, ?_⟩
    unfold CLIfunction
    rw [if_neg (by rw [← hK.2.2.2.2.1]; exact hns)]

/-- Scenario S2 on a structure whose only parameter is `fps.enable`. The call `cmd ON`
for the schema `[.enable: OnOff]` is accepted with the value 1 and sets the ONOFF flag
and the value 1 of `fps.enable`; the call `cmd maybe` is reported as
`CLICMD_INVALID_ARG`. -/
theorem onoff_binding_S2 :
    ((CLI_checkarg_array milkConsts emptyEnv (wordData "ON") (enableSchema milkConsts)).2
        = milkConsts.RETURN_CLICHECKARGARRAY_SUCCESS ∧
      ((CLI_checkarg_array milkConsts emptyEnv (wordData "ON")
        (enableSchema milkConsts)).1.tok milkConsts 1).numl = 1 ∧
      ∃ fps1 p, CLIargs_to_FPSparams_setval milkConsts milkFPSConsts emptyEnv
          (CLI_checkarg_array milkConsts emptyEnv (wordData "ON") (enableSchema milkConsts)).1
          (enableSchema milkConsts) enableFPS = some (fps1, 1) ∧
        fps1.parray[0]? = some p ∧
        p.fpflag &&& milkFPSConsts.FPFLAG_ONOFF = milkFPSConsts.FPFLAG_ONOFF ∧ p.val.l0 = 1) ∧
    (CLIfunction milkConsts emptyEnv (wordData "maybe") (enableSchema milkConsts)).2
      = milkConsts.CLICMD_INVALID_ARG :=
  ⟨(onoff_binding_resolved_slot milkConsts milkFPSConsts emptyEnv (by decide) (by decide) (wordData "ON")
      ⟨milkConsts.CLIARG_ONOFF, ".enable", "enable", 0⟩ enableFPS 0 rfl (by decide) (by decide)
      (by decide) (by decide)).1 (Or.inr rfl) (by decide),
   ((onoff_binding_resolved_slot milkConsts milkFPSConsts emptyEnv (by decide) (by decide)
      (wordData "maybe") ⟨milkConsts.CLIARG_ONOFF, ".enable", "enable", 0⟩ enableFPS 0 rfl
      (by decide) (by decide) (by decide) (by decide)).2.2 (by decide)).2⟩

/-- C5. Scenario S2 on a structure with the OnOff parameters `fps.enablex` and
`fps.enable`, stored in this order, both with the ONOFF flag clear, the value 0 and
the update counter 0. The call `cmd ON` for the schema `[.enable: OnOff]` is accepted
and bound to 1, and `CLIargs_to_FPSparams_setval` returns 1; but the lookup of the tag
`.enable` by `functionparameter_GetParamIndex` gives slot 0, whose full keyword
`fps.enablex` contains the tag: the ONOFF flag (0x10), the value 1 and the update
counter 1 are written to `fps.enablex`, and the parameter `fps.enable` keeps the flag
clear and the value 0. The call `cmd OFF` likewise counts an update of `fps.enablex`
only. -/
theorem C5_onoff_writes_first_match :
    enablexFPS.parray.map
        (fun p => (p.keywordfull, p.fpflag &&& milkFPSConsts.FPFLAG_ACTIVE,
          p.fpflag &&& milkFPSConsts.FPFLAG_ONOFF, p.val.l0, p.cnt0))
      = [("fps.enablex", 1, 0, 0, 0), ("fps.enable", 1, 0, 0, 0), ("", 0, 0, 0, 0)] ∧
    (CLI_checkarg_array milkConsts emptyEnv (wordData "ON") (enableSchema milkConsts)).2
      = milkConsts.RETURN_CLICHECKARGARRAY_SUCCESS ∧
    ((CLI_checkarg_array milkConsts emptyEnv (wordData "ON")
      (enableSchema milkConsts)).1.tok milkConsts 1).numl = 1 ∧
    functionparameter_GetParamIndex milkFPSConsts enablexFPS ".enable" = some 0 ∧
    (CLIargs_to_FPSparams_setval milkConsts milkFPSConsts emptyEnv
        (CLI_checkarg_array milkConsts emptyEnv (wordData "ON") (enableSchema milkConsts)).1
        (enableSchema milkConsts) enablexFPS).map
      (fun r => (r.1.parray.map
        (fun p => (p.keywordfull, p.fpflag &&& milkFPSConsts.FPFLAG_ONOFF, p.val.l0, p.cnt0)),
        r.2))
      = some ([("fps.enablex", 0x10, 1, 1), ("fps.enable", 0, 0, 0), ("", 0, 0, 0)], 1) ∧
    (CLIargs_to_FPSparams_setval milkConsts milkFPSConsts emptyEnv
        (CLI_checkarg_array milkConsts emptyEnv (wordData "OFF") (enableSchema milkConsts)).1
        (enableSchema milkConsts) enablexFPS).map
      (fun r => (r.1.parray.map
        (fun p => (p.keywordfull, p.fpflag &&& milkFPSConsts.FPFLAG_ONOFF, p.val.l0, p.cnt0)),
        r.2))
      = some ([("fps.enablex", 0, 0, 1), ("fps.enable", 0, 0, 0), ("", 0, 0, 0)], 1) := by
  refine ⟨by decide, by decide, by decide, by decide, by decide, by decide⟩

/-! ## `CLIargs_to_FPSparams_setval` and descriptors with `NOCLI` -/

/-- C7. The call `cmd 5 6` for the schema `[.a: Int64 with NOCLI, .b: Int64, .c: Int64]`:
`CLI_checkarg_array` succeeds and binds 5 to `b` and 6 to `c`, leaving the last value 9
of `a`; `CLIargs_to_FPSparams_setval` then reads the token at the descriptor index plus
one, not the token bound to the descriptor: it writes 5 into `fps.a`, 6 into `fps.b` and
the value 0 of the missing token 3 into `fps.c`, and returns 3. -/
theorem C7_setval_reads_descriptor_index :
    (CLI_checkarg_array milkConsts emptyEnv nocliData (nocliSchema milkConsts)).2
      = milkConsts.RETURN_CLICHECKARGARRAY_SUCCESS ∧
    ((CLI_checkarg_array milkConsts emptyEnv nocliData (nocliSchema milkConsts)).1.argdata.map
      fun v => v.i64) = [9, 5, 6] ∧
    slotValues abcFPS = [("fps.a", 0, 0), ("fps.b", 0, 0), ("fps.c", 0, 0), ("", 0, 0)] ∧
    (CLIargs_to_FPSparams_setval milkConsts milkFPSConsts emptyEnv
        (CLI_checkarg_array milkConsts emptyEnv nocliData (nocliSchema milkConsts)).1
        (nocliSchema milkConsts) abcFPS).map (fun r => (slotValues r.1, r.2))
      = some ([("fps.a", 5, 1), ("fps.b", 6, 1), ("fps.c", 0, 1), ("", 0, 0)], 3) := by
  refine ⟨by decide, by decide, by decide, by decide⟩

/-! ## `function_parameter_add_entry` -/

theorem clearFlag_and_other (f m a : Nat) (hm : m < 2 ^ 64) (ha2 : a < 2 ^ 64)
    (ha : a &&& m = 0) : clearFlag f m &&& a = f &&& a := by
  unfold clearFlag
  rw [Nat.mod_eq_of_lt hm]
  apply Nat.eq_of_testBit_eq
  intro i
  have h2 : 2 ^ 64 - 1 - m = 2 ^ 64 - (m + 1) := by omega
  have h3 : (a &&& m).testBit i = false := by rw [ha]; exact Nat.zero_testBit i
  rw [Nat.testBit_and] at h3
  rw [h2]
  simp only [Nat.testBit_and, Nat.testBit_two_pow_sub_succ hm]
  by_cases hi : i < 64
  · simp only [hi, decide_True, Bool.true_and]
    revert h3
    cases f.testBit i <;> cases m.testBit i <;> cases a.testBit i <;> simp
  · have h4 : a.testBit i = false :=
      Nat.testBit_lt_two_pow
        (lt_of_lt_of_le ha2 (Nat.pow_le_pow_right (by norm_num) (not_lt.mp hi)))
    simp [h4]

/-- The scan for the first available entry returns the lowest index of a slot without
`FPFLAG_ACTIVE`. -/
theorem scan_free_some (C : FPSConsts) (l : List FUNCTION_PARAMETER) (i : Nat)
    (h : scan_free C l = some i) :
    (∃ p, l[i]? = some p ∧ ¬ p.active C) ∧ ∀ j q, j < i → l[j]? = some q → q.active C := by
  induction l generalizing i with
  | nil => simp [scan_free] at h
  | cons x xs ih =>
    simp only [scan_free] at h
    by_cases hx : x.active C
    · rw [if_pos hx] at h
      cases hs : scan_free C xs with
      | none => rw [hs] at h; simp at h
      | some k =>
        rw [hs] at h
        simp only [Option.map_some', Option.some.injEq] at h
        subst h
        obtain ⟨⟨p, hp1, hp2⟩, h3⟩ := ih k hs
        refine ⟨⟨p, by simpa using hp1, hp2⟩, ?_⟩
        intro j q hj hq
        cases j with
        | zero =>
          simp only [List.getElem?_cons_zero, Option.some.injEq] at hq
          subst hq
          exact hx
        | succ j =>
          rw [List.getElem?_cons_succ] at hq
          exact h3 j q (by omega) hq
    · rw [if_neg hx] at h
      injection h with h
      subst h
      exact ⟨⟨x, by simp, hx⟩, fun j q hj => absurd hj (Nat.not_lt_zero j)⟩

/-- The scan for the first available entry finds one when a slot without
`FPFLAG_ACTIVE` exists. -/
theorem scan_free_exists (C : FPSConsts) (l : List FUNCTION_PARAMETER)
    (h : ∃ p ∈ l, ¬ p.active C) : ∃ i, scan_free C l = some i := by
  induction l with
  | nil =>
    obtain ⟨p, hp, -⟩ := h
    cases hp
  | cons x xs ih =>
    simp only [scan_free]
    by_cases hx : x.active C
    · rw [if_pos hx]
      obtain ⟨p, hp, hp2⟩ := h
      rcases List.mem_cons.mp hp with rfl | hp
      · exact absurd hx hp2
      · obtain ⟨i, hi⟩ := ih ⟨p, hp, hp2⟩
        exact ⟨i + 1, by rw [hi]; rfl⟩
    · rw [if_neg hx]
      exact ⟨0, rfl⟩

/-- The segment loop writes the truncated segments into the rows `k, k + 1, ...` of the
keyword array and advances the level by the number of segments. -/
theorem keyword_loop_spec (C : FPSConsts) (segs kw : List String) (k : Nat)
    (h : k + segs.length ≤ kw.length) :
    (keyword_loop C segs kw k).2 = k + segs.length ∧
    (keyword_loop C segs kw k).1.length = kw.length ∧
    (keyword_loop C segs kw k).1.take (k + segs.length) =
      kw.take k ++ segs.map (fun s => strTake s C.FUNCTION_PARAMETER_KEYWORD_STRMAXLEN) := by
  induction segs generalizing kw k with
  | nil => simp [keyword_loop]
  | cons s rest ih =>
    simp only [keyword_loop, List.length_cons] at h ⊢
    obtain ⟨h1, h2, h3⟩ :=
      ih (kw.set k (strTake s C.FUNCTION_PARAMETER_KEYWORD_STRMAXLEN)) (k + 1)
        (by rw [List.length_set]; omega)
    refine ⟨by rw [h1]; omega, by rw [h2, List.length_set], ?_⟩
    have e : k + (rest.length + 1) = k + 1 + rest.length := by omega
    rw [e, h3]
    have hk : k < kw.length := by omega
    have h4 : (kw.set k (strTake s C.FUNCTION_PARAMETER_KEYWORD_STRMAXLEN)).take (k + 1) =
        kw.take k ++ [strTake s C.FUNCTION_PARAMETER_KEYWORD_STRMAXLEN] := by
      have h5 : (kw.set k (strTake s C.FUNCTION_PARAMETER_KEYWORD_STRMAXLEN)).take k =
          kw.take k := by
        apply List.ext_getElem?
        intro n
        simp only [List.getElem?_take]
        split_ifs with hn
        · rw [List.getElem?_set_ne (by omega)]
        · rfl
      rw [List.take_succ, h5]
      simp [List.getElem?_set, hk]
    rw [h4]
    simp

/-- The default-value `switch` leaves the type, the keyword and the description. -/
theorem add_entry_defaults_frame (C : FPSConsts) (p : FUNCTION_PARAMETER) :
    (add_entry_defaults C p).type = p.type ∧
    (add_entry_defaults C p).keywordfull = p.keywordfull ∧
    (add_entry_defaults C p).keyword = p.keyword ∧
    (add_entry_defaults C p).keywordlevel = p.keywordlevel ∧
    (add_entry_defaults C p).description = p.description ∧
    ((add_entry_defaults C p).fpflag = p.fpflag ∨
      (add_entry_defaults C p).fpflag = clearFlag p.fpflag C.FPFLAG_ONOFF) ∧
    (p.type ≠ C.FPTYPE_ONOFF → (add_entry_defaults C p).fpflag = p.fpflag) := by
  unfold add_entry_defaults
  split_ifs with h1 h2 h3 h4 h5 h6 h7 h8 <;>
    first
    | exact ⟨rfl, rfl, rfl, rfl, rfl, Or.inl rfl, fun _ => rfl⟩
    | exact ⟨rfl, rfl, rfl, rfl, rfl, Or.inr rfl, fun h => absurd h7 h⟩

/-- The value `switch` leaves the flags, the type, the keyword and the description. -/
theorem add_entry_value_frame (C : FPSConsts) (v : VALUEPTR) (p : FUNCTION_PARAMETER) :
    (add_entry_value C v p).type = p.type ∧
    (add_entry_value C v p).keywordfull = p.keywordfull ∧
    (add_entry_value C v p).keyword = p.keyword ∧
    (add_entry_value C v p).keywordlevel = p.keywordlevel ∧
    (add_entry_value C v p).description = p.description ∧
    (add_entry_value C v p).fpflag = p.fpflag := by
  unfold add_entry_value
  split_ifs <;> exact ⟨rfl, rfl, rfl, rfl, rfl, rfl⟩

/-- The metadata of a slot filled by `function_parameter_add_entry`. -/
theorem add_entry_fill_fields (C : FPSConsts) (kwC descriptionstring : String)
    (type fpflag : Nat) (valueptr : Option VALUEPTR) (p : FUNCTION_PARAMETER) :
    (add_entry_fill C kwC descriptionstring type fpflag valueptr p).type = type ∧
    (add_entry_fill C kwC descriptionstring type fpflag valueptr p).keywordfull =
      strTake kwC (C.FUNCTION_PARAMETER_KEYWORD_STRMAXLEN *
        C.FUNCTION_PARAMETER_KEYWORD_MAXLEVEL) ∧
    (add_entry_fill C kwC descriptionstring type fpflag valueptr p).keyword =
      (keyword_loop C (strtok_all (strTake kwC (C.FUNCTION_PARAMETER_KEYWORD_STRMAXLEN *
        C.FUNCTION_PARAMETER_KEYWORD_MAXLEVEL)) '.') p.keyword 0).1 ∧
    (add_entry_fill C kwC descriptionstring type fpflag valueptr p).keywordlevel =
      (keyword_loop C (strtok_all (strTake kwC (C.FUNCTION_PARAMETER_KEYWORD_STRMAXLEN *
        C.FUNCTION_PARAMETER_KEYWORD_MAXLEVEL)) '.') p.keyword 0).2 ∧
    (add_entry_fill C kwC descriptionstring type fpflag valueptr p).description =
      strTake descriptionstring C.FUNCTION_PARAMETER_DESCR_STRMAXLEN ∧
    ((add_entry_fill C kwC descriptionstring type fpflag valueptr p).fpflag = fpflag ∨
      (add_entry_fill C kwC descriptionstring type fpflag valueptr p).fpflag =
        clearFlag fpflag C.FPFLAG_ONOFF) ∧
    (type ≠ C.FPTYPE_ONOFF →
      (add_entry_fill C kwC descriptionstring type fpflag valueptr p).fpflag = fpflag) := by
  unfold add_entry_fill
  simp only []
  cases valueptr with
  | none =>
    simp only []
    obtain ⟨h1, h2, h3, h4, h5, h6, h7⟩ := add_entry_defaults_frame C
      { p with fpflag := fpflag,
               keywordfull := strTake kwC (C.FUNCTION_PARAMETER_KEYWORD_STRMAXLEN *
                 C.FUNCTION_PARAMETER_KEYWORD_MAXLEVEL),
               keyword := (keyword_loop C (strtok_all (strTake kwC
                 (C.FUNCTION_PARAMETER_KEYWORD_STRMAXLEN *
                   C.FUNCTION_PARAMETER_KEYWORD_MAXLEVEL)) '.') p.keyword 0).1,
               keywordlevel := (keyword_loop C (strtok_all (strTake kwC
                 (C.FUNCTION_PARAMETER_KEYWORD_STRMAXLEN *
                   C.FUNCTION_PARAMETER_KEYWORD_MAXLEVEL)) '.') p.keyword 0).2,
               description := strTake descriptionstring C.FUNCTION_PARAMETER_DESCR_STRMAXLEN,
               type := type, cnt0 := 0 }
    exact ⟨h1, h2, h3, h4, h5, h6, h7⟩
  | some v =>
    simp only []
    obtain ⟨h1, h2, h3, h4, h5, h6, h7⟩ := add_entry_defaults_frame C
      { p with fpflag := fpflag,
               keywordfull := strTake kwC (C.FUNCTION_PARAMETER_KEYWORD_STRMAXLEN *
                 C.FUNCTION_PARAMETER_KEYWORD_MAXLEVEL),
               keyword := (keyword_loop C (strtok_all (strTake kwC
                 (C.FUNCTION_PARAMETER_KEYWORD_STRMAXLEN *
                   C.FUNCTION_PARAMETER_KEYWORD_MAXLEVEL)) '.') p.keyword 0).1,
               keywordlevel := (keyword_loop C (strtok_all (strTake kwC
                 (C.FUNCTION_PARAMETER_KEYWORD_STRMAXLEN *
                   C.FUNCTION_PARAMETER_KEYWORD_MAXLEVEL)) '.') p.keyword 0).2,
               description := strTake descriptionstring C.FUNCTION_PARAMETER_DESCR_STRMAXLEN,
               type := type, cnt0 := 0 }
    obtain ⟨g1, g2, g3, g4, g5, g6⟩ := add_entry_value_frame C v (add_entry_defaults C
      { p with fpflag := fpflag,
               keywordfull := strTake kwC (C.FUNCTION_PARAMETER_KEYWORD_STRMAXLEN *
                 C.FUNCTION_PARAMETER_KEYWORD_MAXLEVEL),
               keyword := (keyword_loop C (strtok_all (strTake kwC
                 (C.FUNCTION_PARAMETER_KEYWORD_STRMAXLEN *
                   C.FUNCTION_PARAMETER_KEYWORD_MAXLEVEL)) '.') p.keyword 0).1,
               keywordlevel := (keyword_loop C (strtok_all (strTake kwC
                 (C.FUNCTION_PARAMETER_KEYWORD_STRMAXLEN *
                   C.FUNCTION_PARAMETER_KEYWORD_MAXLEVEL)) '.') p.keyword 0).2,
               description := strTake descriptionstring C.FUNCTION_PARAMETER_DESCR_STRMAXLEN,
               type := type, cnt0 := 0 })
    exact ⟨g1.trans h1, g2.trans h2, g3.trans h3, g4.trans h4, g5.trans h5,
      h6.imp (fun h => g6.trans h) (fun h => g6.trans h), fun h => g6.trans (h7 h)⟩

/-- C8. For a structure with a slot without ACTIVE and a call whose full keyword (the
keyword, with the structure name in front when it starts with `.`) is held by no slot,
is shorter than the keyword buffer and has at most `KEYWORD_MAXLEVEL` segments:
`function_parameter_add_entry` returns the lowest index `i` of a slot without ACTIVE.
Afterwards slot `i` has the flags passed by the caller (with ONOFF cleared for the type
on/off), so it has ACTIVE set exactly when the caller passes ACTIVE; it holds the given
type, the first `DESCR_STRMAXLEN` characters of the description, the full keyword, and
as keyword path the segments of the full keyword; every other slot and the header are
unchanged. -/
theorem C8_add_entry_new_keyword (C : FPSConsts) (hC : C.WF)
    (hdisj : C.FPFLAG_ACTIVE &&& C.FPFLAG_ONOFF = 0)
    (fps : FUNCTION_PARAMETER_STRUCT) (keywordstring descriptionstring : String)
    (type fpflag : Nat) (valueptr : Option VALUEPTR)
    (hfree : ∃ p ∈ fps.parray, ¬ p.active C)
    (hnew : ∀ p ∈ fps.parray, p.keywordfull ≠ keywordstringC fps keywordstring)
    (hlen : (keywordstringC fps keywordstring).length <
      C.FUNCTION_PARAMETER_KEYWORD_STRMAXLEN * C.FUNCTION_PARAMETER_KEYWORD_MAXLEVEL)
    (hseg : (strtok_all (keywordstringC fps keywordstring) '.').length ≤
      C.FUNCTION_PARAMETER_KEYWORD_MAXLEVEL)
    (hrows : ∀ p ∈ fps.parray, p.keyword.length = C.FUNCTION_PARAMETER_KEYWORD_MAXLEVEL) :
    ∃ fps1 i p0 p,
      function_parameter_add_entry C fps keywordstring descriptionstring type fpflag valueptr
        = some (fps1, i) ∧
      fps.parray[i]? = some p0 ∧ ¬ p0.active C ∧
      (∀ j q, j < i → fps.parray[j]? = some q → q.active C) ∧
      fps1.parray[i]? = some p ∧
      (p.active C ↔ fpflag &&& C.FPFLAG_ACTIVE ≠ 0) ∧
      (type ≠ C.FPTYPE_ONOFF → p.fpflag = fpflag) ∧
      p.type = type ∧
      p.description = strTake descriptionstring C.FUNCTION_PARAMETER_DESCR_STRMAXLEN ∧
      p.keywordfull = keywordstringC fps keywordstring ∧
      p.keywordlevel = (strtok_all (keywordstringC fps keywordstring) '.').length ∧
      p.keyword.take p.keywordlevel =
        (strtok_all (keywordstringC fps keywordstring) '.').map
          (fun s => strTake s C.FUNCTION_PARAMETER_KEYWORD_STRMAXLEN) ∧
      (∀ j, j ≠ i → fps1.parray[j]? = fps.parray[j]?) ∧
      fps1 = { fps with parray := fps1.parray } := by
  obtain ⟨i, hi⟩ := scan_free_exists C fps.parray hfree
  obtain ⟨⟨p0, hp0, hp0a⟩, hlow⟩ := scan_free_some C fps.parray i hi
  have hscan : scan_existing (keywordstringC fps keywordstring) fps.parray = none := by
    unfold scan_existing
    rw [lastIndexWhere_none]
    refine ⟨rfl, fun x hx => ?_⟩
    simpa using fun h => hnew x hx h.symm
  have hadd : function_parameter_add_entry C fps keywordstring descriptionstring type fpflag
      valueptr = some (fps.modify i (add_entry_fill C (keywordstringC fps keywordstring)
        descriptionstring type fpflag valueptr), i) := by
    unfold function_parameter_add_entry
    simp only []
    rw [if_neg (by omega), hscan]
    simp only [hi]
    rw [if_neg (by omega)]
  obtain ⟨f1, f2, f3, f4, f5, f6, f7⟩ := add_entry_fill_fields C
    (keywordstringC fps keywordstring) descriptionstring type fpflag valueptr p0
  have hst := strTake_of_le (keywordstringC fps keywordstring) _ (le_of_lt hlen)
  rw [hst] at f2 f3 f4
  obtain ⟨k1, -, k3⟩ := keyword_loop_spec C (strtok_all (keywordstringC fps keywordstring) '.')
    p0.keyword 0 (by rw [hrows p0 (List.getElem?_mem hp0)]; omega)
  rw [Nat.zero_add] at k1 k3
  refine ⟨_, i, p0, add_entry_fill C (keywordstringC fps keywordstring) descriptionstring type
    fpflag valueptr p0, hadd, hp0, hp0a, hlow, ?_, ?_, f7, f1, f5, f2, ?_, ?_, ?_, rfl⟩
  · rw [FUNCTION_PARAMETER_STRUCT.parray_modify, hp0]
    simp
  · unfold FUNCTION_PARAMETER.active
    rcases f6 with h | h
    · rw [h]
    · rw [h, clearFlag_and_other _ _ _ hC.2.2.2.2 hC.2.2.1 hdisj]
  · rw [f4, k1]
  · rw [f4, f3, k1, k3]
    simp
  · intro j hj
    rw [FUNCTION_PARAMETER_STRUCT.parray_modify]
    cases fps.parray[j]? with
    | none => rfl
    | some q => simp [Ne.symm hj]

/-- Witness for C8: the first parameter `.x` added to a fresh structure `fps` of three
slots. -/
theorem C8_add_entry_new_keyword_witness :
    ∃ fps1 i p0 p,
      function_parameter_add_entry milkFPSConsts
        (function_parameter_struct_create milkFPSConsts 3 "fps" 0) ".x" "x"
        milkFPSConsts.FPTYPE_INT64 milkFPSConsts.FPFLAG_ACTIVE none = some (fps1, i) ∧
      (function_parameter_struct_create milkFPSConsts 3 "fps" 0).parray[i]? = some p0 ∧
      ¬ p0.active milkFPSConsts ∧
      (∀ j q, j < i →
        (function_parameter_struct_create milkFPSConsts 3 "fps" 0).parray[j]? = some q →
        q.active milkFPSConsts) ∧
      fps1.parray[i]? = some p ∧
      (p.active milkFPSConsts ↔
        milkFPSConsts.FPFLAG_ACTIVE &&& milkFPSConsts.FPFLAG_ACTIVE ≠ 0) ∧
      (milkFPSConsts.FPTYPE_INT64 ≠ milkFPSConsts.FPTYPE_ONOFF →
        p.fpflag = milkFPSConsts.FPFLAG_ACTIVE) ∧
      p.type = milkFPSConsts.FPTYPE_INT64 ∧
      p.description = strTake "x" milkFPSConsts.FUNCTION_PARAMETER_DESCR_STRMAXLEN ∧
      p.keywordfull =
        keywordstringC (function_parameter_struct_create milkFPSConsts 3 "fps" 0) ".x" ∧
      p.keywordlevel = (strtok_all
        (keywordstringC (function_parameter_struct_create milkFPSConsts 3 "fps" 0) ".x")
        '.').length ∧
      p.keyword.take p.keywordlevel =
        (strtok_all
          (keywordstringC (function_parameter_struct_create milkFPSConsts 3 "fps" 0) ".x")
          '.').map (fun s => strTake s milkFPSConsts.FUNCTION_PARAMETER_KEYWORD_STRMAXLEN) ∧
      (∀ j, j ≠ i → fps1.parray[j]? =
        (function_parameter_struct_create milkFPSConsts 3 "fps" 0).parray[j]?) ∧
      fps1 = { function_parameter_struct_create milkFPSConsts 3 "fps" 0 with
                parray := fps1.parray } :=
  C8_add_entry_new_keyword milkFPSConsts (by decide) (by decide)
    (function_parameter_struct_create milkFPSConsts 3 "fps" 0) ".x" "x"
    milkFPSConsts.FPTYPE_INT64 milkFPSConsts.FPFLAG_ACTIVE none (by decide) (by decide)
    (by decide) (by decide) (by decide)

/-- Counterexample for C8 as stated. A fresh structure has a slot without ACTIVE and
no slot holds `fps.x`; a call with flags 0 returns slot 0 and leaves it without ACTIVE;
a call with a description of 65 characters leaves a slot whose description is not the
given one. -/
theorem C8_add_entry_counterexample :
    (∃ p ∈ (function_parameter_struct_create milkFPSConsts 3 "fps" 0).parray,
      ¬ p.active milkFPSConsts) ∧
    (∀ p ∈ (function_parameter_struct_create milkFPSConsts 3 "fps" 0).parray,
      p.keywordfull ≠ "fps.x") ∧
    (function_parameter_add_entry milkFPSConsts
        (function_parameter_struct_create milkFPSConsts 3 "fps" 0) ".x" "x"
        milkFPSConsts.FPTYPE_INT64 0 none).map
      (fun r => (r.2, r.1.parray.map fun p => (p.keywordfull, decide (p.active milkFPSConsts))))
      = some (0, [("fps.x", false), ("", false), ("", false)]) ∧
    (function_parameter_add_entry milkFPSConsts
        (function_parameter_struct_create milkFPSConsts 3 "fps" 0) ".x"
        (String.mk (List.replicate 65 'd'))
        milkFPSConsts.FPTYPE_INT64 milkFPSConsts.FPFLAG_ACTIVE none).map
      (fun r => (r.2, r.1.parray.map fun p =>
        (p.keywordfull, decide (p.description = String.mk (List.replicate 65 'd')))))
      = some (0, [("fps.x", false), ("", false), ("", false)]) := by
  refine ⟨by decide, by decide, by decide, by decide⟩

/-- The scan for an existing keyword returns the slot that holds the keyword when no
other slot holds it. -/
theorem scan_existing_unique (kw : String) (l : List FUNCTION_PARAMETER) (k : Nat)
    (hk : ∃ p, l[k]? = some p ∧ p.keywordfull = kw)
    (ho : ∀ j q, j ≠ k → l[j]? = some q → q.keywordfull ≠ kw) :
    scan_existing kw l = some k := by
  obtain ⟨p, hp1, hp2⟩ := hk
  unfold scan_existing
  cases h : lastIndexWhere (fun p => decide (kw = p.keywordfull)) l 0 none with
  | none =>
    rw [lastIndexWhere_none] at h
    have := h.2 p (List.getElem?_mem hp1)
    simp only [decide_eq_false_iff_not] at this
    exact absurd hp2.symm this
  | some m =>
    rcases lastIndexWhere_some _ _ _ _ _ h with ⟨-, ⟨x, hx1, hx2⟩, -⟩ | ⟨h1, -⟩
    · simp only [Nat.sub_zero] at hx1
      have hx3 : kw = x.keywordfull := by simpa using hx2
      by_cases hm : m = k
      · rw [hm]
      · exact absurd hx3.symm (ho m x hm hx1)
    · cases h1

/-- C9. `function_parameter_add_entry` is idempotent per keyword: when a call returns
index `i` and leaves the structure `fps1`, a second call on `fps1` with the same keyword
string returns `i` and leaves `fps1` as it is, whatever description, type, flags or
value the second call passes. -/
theorem C9_add_entry_idempotent (C : FPSConsts) (fps fps1 : FUNCTION_PARAMETER_STRUCT)
    (keywordstring d1 d2 : String) (t1 f1 t2 f2 : Nat) (v1 v2 : Option VALUEPTR) (i : Nat)
    (h : function_parameter_add_entry C fps keywordstring d1 t1 f1 v1 = some (fps1, i)) :
    function_parameter_add_entry C fps1 keywordstring d2 t2 f2 v2 = some (fps1, i) := by
  unfold function_parameter_add_entry at h
  simp only [] at h
  by_cases hlen : C.FUNCTION_PARAMETER_KEYWORD_STRMAXLEN * C.FUNCTION_PARAMETER_KEYWORD_MAXLEVEL
      ≤ (keywordstringC fps keywordstring).length
  · rw [if_pos hlen] at h
    cases h
  · rw [if_neg hlen] at h
    cases hs : scan_existing (keywordstringC fps keywordstring) fps.parray with
    | some k =>
      rw [hs] at h
      simp only [Option.some.injEq, Prod.mk.injEq] at h
      obtain ⟨h1, h2⟩ := h
      subst h1 h2
      unfold function_parameter_add_entry
      simp only []
      rw [if_neg hlen, hs]
    | none =>
      rw [hs] at h
      simp only [] at h
      cases hf : scan_free C fps.parray with
      | none =>
        rw [hf] at h
        cases h
      | some k =>
        rw [hf] at h
        simp only [] at h
        by_cases hsg : C.FUNCTION_PARAMETER_KEYWORD_MAXLEVEL <
            (strtok_all (keywordstringC fps keywordstring) '.').length
        · rw [if_pos hsg] at h
          cases h
        · rw [if_neg hsg] at h
          simp only [Option.some.injEq, Prod.mk.injEq] at h
          obtain ⟨h1, h2⟩ := h
          subst h1 h2
          obtain ⟨⟨p0, hp0, -⟩, -⟩ := scan_free_some C fps.parray k hf
          have hname : keywordstringC (fps.modify k (add_entry_fill C
              (keywordstringC fps keywordstring) d1 t1 f1 v1)) keywordstring =
              keywordstringC fps keywordstring := rfl
          have hex : scan_existing (keywordstringC fps keywordstring)
              (fps.modify k (add_entry_fill C (keywordstringC fps keywordstring) d1 t1 f1
                v1)).parray = some k := by
            apply scan_existing_unique
            · refine ⟨add_entry_fill C (keywordstringC fps keywordstring) d1 t1 f1 v1 p0, ?_, ?_⟩
              · rw [FUNCTION_PARAMETER_STRUCT.parray_modify, hp0]
                simp
              · rw [(add_entry_fill_fields C _ d1 t1 f1 v1 p0).2.1]
                exact strTake_of_le _ _ (le_of_lt (not_le.mp hlen))
            · intro j q hj hq
              rw [FUNCTION_PARAMETER_STRUCT.parray_modify] at hq
              unfold scan_existing at hs
              rw [lastIndexWhere_none] at hs
              cases hq0 : fps.parray[j]? with
              | none => rw [hq0] at hq; cases hq
              | some q0 =>
                rw [hq0] at hq
                simp only [Option.map_some', if_neg (Ne.symm hj), Option.some.injEq] at hq
                subst hq
                have := hs.2 q0 (List.getElem?_mem hq0)
                simp only [decide_eq_false_iff_not] at this
                exact fun h' => this h'.symm
          unfold function_parameter_add_entry
          simp only []
          rw [hname, if_neg hlen, hex]

/-- Witness for C9: after `.delay` is added to a fresh structure as an Int64 parameter,
a second call with the same keyword, another type, description and flags and a value
returns slot 0 and leaves the structure as it is. -/
theorem C9_add_entry_idempotent_witness :
    function_parameter_add_entry milkFPSConsts
        (function_parameter_struct_create milkFPSConsts 3 "fps" 0) ".delay" "delay"
        milkFPSConsts.FPTYPE_INT64 milkFPSConsts.FPFLAG_ACTIVE none = some (delayFPS, 0) ∧
    function_parameter_add_entry milkFPSConsts delayFPS ".delay" "other"
        milkFPSConsts.FPTYPE_FLOAT64 0 (some ⟨(1, 2, 3, 4), (1, 2, 3, 4), (1, 2, 3, 4), (5, 6), "v"⟩)
      = some (delayFPS, 0) :=
  ⟨by decide, C9_add_entry_idempotent milkFPSConsts
    (function_parameter_struct_create milkFPSConsts 3 "fps" 0) delayFPS ".delay" "delay" "other"
    milkFPSConsts.FPTYPE_INT64 milkFPSConsts.FPFLAG_ACTIVE milkFPSConsts.FPTYPE_FLOAT64 0 none
    (some ⟨(1, 2, 3, 4), (1, 2, 3, 4), (1, 2, 3, 4), (5, 6), "v"⟩) 0 (by decide)⟩

/-! ## The store invariant -/

/-- What the calls keep for every slot: the keyword array has `KEYWORD_MAXLEVEL` rows and
the slot satisfies the store invariant. -/
theorem modify_keeps_invariant (C : FPSConsts) (fps : FUNCTION_PARAMETER_STRUCT) (i : Nat)
    (g : FUNCTION_PARAMETER → FUNCTION_PARAMETER)
    (hinv : ∀ p ∈ fps.parray,
      p.keyword.length = C.FUNCTION_PARAMETER_KEYWORD_MAXLEVEL ∧ p.storeInvariant C)
    (hg : ∀ p0, fps.parray[i]? = some p0 →
      (g p0).keyword.length = C.FUNCTION_PARAMETER_KEYWORD_MAXLEVEL ∧ (g p0).storeInvariant C) :
    ∀ p ∈ (fps.modify i g).parray,
      p.keyword.length = C.FUNCTION_PARAMETER_KEYWORD_MAXLEVEL ∧ p.storeInvariant C := by
  intro p hp
  obtain ⟨j, hj⟩ := List.getElem?_of_mem hp
  rw [FUNCTION_PARAMETER_STRUCT.parray_modify] at hj
  cases hq : fps.parray[j]? with
  | none => rw [hq] at hj; cases hj
  | some q =>
    rw [hq] at hj
    simp only [Option.map_some', Option.some.injEq] at hj
    by_cases hij : i = j
    · rw [if_pos hij] at hj
      subst hj
      exact hg q (hij ▸ hq)
    · rw [if_neg hij] at hj
      subst hj
      exact hinv _ (List.getElem?_mem hq)

/-- A setter that changes a slot found by `functionparameter_GetParamIndex` without
touching its type and keyword keeps the invariant: the slot found is active. -/
theorem setter_keeps_invariant (C : FPSConsts) (fps fps1 : FUNCTION_PARAMETER_STRUCT)
    (paramname : String) (g : FUNCTION_PARAMETER → FUNCTION_PARAMETER)
    (hfield : ∀ p, (g p).type = p.type ∧ (g p).keywordfull = p.keywordfull ∧
      (g p).keyword = p.keyword ∧ (g p).keywordlevel = p.keywordlevel)
    (hrun : (functionparameter_GetParamIndex C fps paramname).map (fun i => fps.modify i g)
      = some fps1)
    (hinv : ∀ p ∈ fps.parray,
      p.keyword.length = C.FUNCTION_PARAMETER_KEYWORD_MAXLEVEL ∧ p.storeInvariant C) :
    fps1.name = fps.name ∧ ∀ p ∈ fps1.parray,
      p.keyword.length = C.FUNCTION_PARAMETER_KEYWORD_MAXLEVEL ∧ p.storeInvariant C := by
  cases hi : functionparameter_GetParamIndex C fps paramname with
  | none => rw [hi] at hrun; cases hrun
  | some i =>
    rw [hi] at hrun
    simp only [Option.map_some', Option.some.injEq] at hrun
    subst hrun
    refine ⟨rfl, modify_keeps_invariant C fps i g hinv ?_⟩
    intro p0 hp0
    obtain ⟨-, ⟨q, hq1, hq2, -⟩, -⟩ := GetParamIndex_scan_some C paramname fps.parray 0 i hi
    rw [Nat.sub_zero, hp0] at hq1
    injection hq1 with hq1
    subst hq1
    obtain ⟨g1, g2, g3, g4⟩ := hfield p0
    have h0 := hinv p0 (List.getElem?_mem hp0)
    refine ⟨by rw [g3]; exact h0.1, ?_⟩
    intro _
    unfold FUNCTION_PARAMETER.storeInvariant at h0
    rw [g1, g2, g3, g4]
    exact h0.2 hq2

/-- The segments of a proper keyword, as `strtok` returns them, are the parts between
the dots; there is at least one, and their `.`-join is the keyword. -/
theorem properKeyword_segments (C : FPSConsts) (kwC : String) (h : properKeyword C kwC) :
    strtok_all kwC '.' = (kwC.data.splitOn '.').map String.mk ∧
    1 ≤ (strtok_all kwC '.').length ∧
    (strtok_all kwC '.').map (fun s => strTake s C.FUNCTION_PARAMETER_KEYWORD_STRMAXLEN)
      = strtok_all kwC '.' ∧
    dotJoin (strtok_all kwC '.') = kwC := by
  have h1 : strtok_all kwC '.' = (kwC.data.splitOn '.').map String.mk := by
    unfold strtok_all
    congr 1
    rw [List.filter_eq_self]
    intro seg hseg
    simpa using (h seg hseg).1
  have hne : kwC.data.splitOn '.' ≠ [] := by
    intro h0
    have h2 : ['.'].intercalate (kwC.data.splitOn '.') = kwC.data :=
      List.intercalate_splitOn kwC.data '.'
    rw [h0] at h2
    have h3 : kwC.data = [] := by rw [← h2]; rfl
    rw [h3, List.splitOn_nil] at h0
    cases h0
  refine ⟨h1, ?_, ?_, ?_⟩
  · rw [h1, List.length_map]
    exact List.length_pos.mpr hne
  · rw [h1, List.map_map]
    apply List.map_congr_left
    intro seg hseg
    exact strTake_of_le _ _ (le_of_lt (h seg hseg).2)
  · rw [h1]
    unfold dotJoin
    rw [List.map_map]
    have h4 : (String.data ∘ String.mk) = (id : List Char → List Char) := rfl
    rw [h4, List.map_id, List.intercalate_splitOn]

/-- A call of `function_parameter_add_entry` with a type other than Undef and a proper
keyword keeps the invariant. -/
theorem add_entry_keeps_invariant (C : FPSConsts) (fps fps1 : FUNCTION_PARAMETER_STRUCT)
    (keywordstring descriptionstring : String) (type fpflag : Nat)
    (valueptr : Option VALUEPTR) (i : Nat)
    (ht : type ≠ C.FPTYPE_UNDEF) (hkw : properKeyword C (keywordstringC fps keywordstring))
    (hrun : function_parameter_add_entry C fps keywordstring descriptionstring type fpflag
      valueptr = some (fps1, i))
    (hinv : ∀ p ∈ fps.parray,
      p.keyword.length = C.FUNCTION_PARAMETER_KEYWORD_MAXLEVEL ∧ p.storeInvariant C) :
    fps1.name = fps.name ∧ ∀ p ∈ fps1.parray,
      p.keyword.length = C.FUNCTION_PARAMETER_KEYWORD_MAXLEVEL ∧ p.storeInvariant C := by
  unfold function_parameter_add_entry at hrun
  simp only [] at hrun
  by_cases hlen : C.FUNCTION_PARAMETER_KEYWORD_STRMAXLEN * C.FUNCTION_PARAMETER_KEYWORD_MAXLEVEL
      ≤ (keywordstringC fps keywordstring).length
  · rw [if_pos hlen] at hrun
    cases hrun
  · rw [if_neg hlen] at hrun
    cases hs : scan_existing (keywordstringC fps keywordstring) fps.parray with
    | some k =>
      rw [hs] at hrun
      simp only [Option.some.injEq, Prod.mk.injEq] at hrun
      obtain ⟨h1, -⟩ := hrun
      subst h1
      exact ⟨rfl, hinv⟩
    | none =>
      rw [hs] at hrun
      simp only [] at hrun
      cases hf : scan_free C fps.parray with
      | none =>
        rw [hf] at hrun
        cases hrun
      | some k =>
        rw [hf] at hrun
        simp only [] at hrun
        by_cases hsg : C.FUNCTION_PARAMETER_KEYWORD_MAXLEVEL <
            (strtok_all (keywordstringC fps keywordstring) '.').length
        · rw [if_pos hsg] at hrun
          cases hrun
        · rw [if_neg hsg] at hrun
          simp only [Option.some.injEq, Prod.mk.injEq] at hrun
          obtain ⟨h1, -⟩ := hrun
          subst h1
          refine ⟨rfl, modify_keeps_invariant C fps k _ hinv ?_⟩
          intro p0 hp0
          obtain ⟨f1, f2, f3, f4, -, -, -⟩ := add_entry_fill_fields C
            (keywordstringC fps keywordstring) descriptionstring type fpflag valueptr p0
          have hst := strTake_of_le (keywordstringC fps keywordstring) _
            (le_of_lt (not_le.mp hlen))
          rw [hst] at f2 f3 f4
          have hrow := (hinv p0 (List.getElem?_mem hp0)).1
          obtain ⟨k1, k2, k3⟩ := keyword_loop_spec C
            (strtok_all (keywordstringC fps keywordstring) '.') p0.keyword 0
            (by rw [hrow]; omega)
          rw [Nat.zero_add] at k1 k3
          obtain ⟨-, s2, s3, s4⟩ := properKeyword_segments C _ hkw
          refine ⟨by rw [f3, k2]; exact hrow, ?_⟩
          intro _
          refine ⟨by rw [f1]; exact ht, by rw [f4, k1]; exact s2,
            by rw [f4, k1]; exact not_lt.mp hsg, ?_⟩
          rw [f2, f4, f3, k1, k3, List.take_zero, List.nil_append, s3, s4]

/-- A run of proper calls keeps the invariant and the name of the structure. -/
theorem runCalls_keeps_invariant (C : FPSConsts) (calls : List FPSCall)
    (fps0 fps fps1 : FUNCTION_PARAMETER_STRUCT) (hname : fps.name = fps0.name)
    (hproper : ∀ c ∈ calls, c.proper C fps0)
    (hrun : runCalls C fps calls = some fps1)
    (hinv : ∀ p ∈ fps.parray,
      p.keyword.length = C.FUNCTION_PARAMETER_KEYWORD_MAXLEVEL ∧ p.storeInvariant C) :
    ∀ p ∈ fps1.parray,
      p.keyword.length = C.FUNCTION_PARAMETER_KEYWORD_MAXLEVEL ∧ p.storeInvariant C := by
  induction calls generalizing fps with
  | nil =>
    simp only [runCalls, Option.some.injEq] at hrun
    subst hrun
    exact hinv
  | cons c cs ih =>
    simp only [runCalls] at hrun
    have hc := hproper c (List.mem_cons_self c cs)
    have hcs : ∀ c ∈ cs, c.proper C fps0 := fun c' h' => hproper c' (List.mem_cons_of_mem c h')
    cases h2 : c.run C fps with
    | none => rw [h2] at hrun; cases hrun
    | some fps2 =>
      rw [h2] at hrun
      simp only [] at hrun
      have key : fps2.name = fps.name ∧ ∀ p ∈ fps2.parray,
          p.keyword.length = C.FUNCTION_PARAMETER_KEYWORD_MAXLEVEL ∧ p.storeInvariant C := by
        cases c with
        | add_entry keywordstring descriptionstring type fpflag valueptr =>
          simp only [FPSCall.run] at h2
          cases h3 : function_parameter_add_entry C fps keywordstring descriptionstring type
              fpflag valueptr with
          | none => rw [h3] at h2; cases h2
          | some r =>
            rw [h3] at h2
            simp only [Option.map_some', Option.some.injEq] at h2
            subst h2
            have hkw : properKeyword C (keywordstringC fps keywordstring) := by
              have : keywordstringC fps keywordstring = keywordstringC fps0 keywordstring := by
                unfold keywordstringC
                rw [hname]
              rw [this]
              exact hc.2
            exact add_entry_keeps_invariant C fps r.1 keywordstring descriptionstring type
              fpflag valueptr r.2 hc.1 hkw h3 hinv
        | SetParamValue_INT64 paramname value =>
          refine setter_keeps_invariant C fps fps2 paramname _ ?_ h2 hinv
          exact fun _ => ⟨rfl, rfl, rfl, rfl⟩
        | SetParamValue_FLOAT64 paramname value =>
          refine setter_keeps_invariant C fps fps2 paramname _ ?_ h2 hinv
          exact fun _ => ⟨rfl, rfl, rfl, rfl⟩
        | SetParamValue_FLOAT32 paramname value =>
          refine setter_keeps_invariant C fps fps2 paramname _ ?_ h2 hinv
          exact fun _ => ⟨rfl, rfl, rfl, rfl⟩
        | SetParamValue_STRING paramname stringvalue =>
          refine setter_keeps_invariant C fps fps2 paramname _ ?_ h2 hinv
          exact fun _ => ⟨rfl, rfl, rfl, rfl⟩
        | SetParamValue_ONOFF paramname ONOFFvalue =>
          refine setter_keeps_invariant C fps fps2 paramname _ ?_ h2 hinv
          intro p
          by_cases hv : ONOFFvalue = 1
          · simp only [if_pos hv, and_self]
          · simp only [if_neg hv, and_self]
      exact ih fps2 (key.1.trans hname) hcs hrun key.2

/-- C10. Store invariant: in every structure reached from a freshly created one by a
sequence of calls of `function_parameter_add_entry` with a type other than Undef and a
full keyword whose segments are non-empty and shorter than `KEYWORD_STRMAXLEN`, and of
the setters, every slot with ACTIVE set has a type other than Undef, a keyword path of
at least 1 and at most `KEYWORD_MAXLEVEL` segments, and a full keyword equal to the
`.`-join of its keyword path. -/
theorem C10_store_invariant (C : FPSConsts) (NBparamMAX : Nat) (name : String)
    (SIGNAL_CONFRUN : Nat) (calls : List FPSCall) (fps : FUNCTION_PARAMETER_STRUCT)
    (hproper : ∀ c ∈ calls,
      c.proper C (function_parameter_struct_create C NBparamMAX name SIGNAL_CONFRUN))
    (hrun : runCalls C (function_parameter_struct_create C NBparamMAX name SIGNAL_CONFRUN)
      calls = some fps) :
    ∀ p ∈ fps.parray, p.active C →
      p.type ≠ C.FPTYPE_UNDEF ∧ 1 ≤ p.keywordlevel ∧
      p.keywordlevel ≤ C.FUNCTION_PARAMETER_KEYWORD_MAXLEVEL ∧
      p.keywordfull = dotJoin (p.keyword.take p.keywordlevel) := by
  intro p hp
  refine (runCalls_keeps_invariant C calls _ _ fps rfl hproper hrun ?_ p hp).2
  intro q hq
  have hq2 : q = FUNCTION_PARAMETER.zero C := by
    unfold function_parameter_struct_create at hq
    exact List.eq_of_mem_replicate hq
  subst hq2
  refine ⟨List.length_replicate _ _, ?_⟩
  intro ha
  exact absurd (Nat.zero_and _) ha

/-- Witness for C10: the invariant after two parameters are added to a fresh structure
and set. -/
theorem C10_store_invariant_witness :
    runCalls milkFPSConsts (function_parameter_struct_create milkFPSConsts 3 "fps" 0)
      sampleCalls = some sampleStore ∧
    slotKeywords milkFPSConsts sampleStore
      = [(true, 2, "fps.x", ["fps", "x"]), (true, 4096, "fps.y.z", ["fps", "y", "z"]),
          (false, 0, "", [])] ∧
    ∀ p ∈ sampleStore.parray, p.active milkFPSConsts →
      p.type ≠ milkFPSConsts.FPTYPE_UNDEF ∧ 1 ≤ p.keywordlevel ∧
      p.keywordlevel ≤ milkFPSConsts.FUNCTION_PARAMETER_KEYWORD_MAXLEVEL ∧
      p.keywordfull = dotJoin (p.keyword.take p.keywordlevel) :=
  ⟨by decide, by decide, C10_store_invariant milkFPSConsts 3 "fps" 0 sampleCalls sampleStore
    (by decide) (by decide)⟩

/-- Counterexample for C10 as stated. On a fresh structure, a call of
`function_parameter_add_entry` with the keyword `a..b` leaves an active slot whose full
keyword `a..b` is not the join `a.b` of its keyword path, and a call with the type Undef
leaves an active slot of type Undef; the invariant does not hold afterwards. -/
theorem C10_store_invariant_counterexample :
    (runCalls milkFPSConsts (function_parameter_struct_create milkFPSConsts 3 "fps" 0)
        [.add_entry "a..b" "x" milkFPSConsts.FPTYPE_INT64 milkFPSConsts.FPFLAG_ACTIVE none,
         .add_entry ".u" "u" milkFPSConsts.FPTYPE_UNDEF milkFPSConsts.FPFLAG_ACTIVE none]).map
        (slotKeywords milkFPSConsts)
      = some [(true, 2, "a..b", ["a", "b"]), (true, 1, "fps.u", ["fps", "u"]),
          (false, 0, "", [])] ∧
    dotJoin ["a", "b"] = "a.b" ∧
    milkFPSConsts.FPTYPE_UNDEF = 1 ∧
    (runCalls milkFPSConsts (function_parameter_struct_create milkFPSConsts 3 "fps" 0)
        [.add_entry "a..b" "x" milkFPSConsts.FPTYPE_INT64 milkFPSConsts.FPFLAG_ACTIVE none,
         .add_entry ".u" "u" milkFPSConsts.FPTYPE_UNDEF milkFPSConsts.FPFLAG_ACTIVE none]).map
        (fun fps => decide (fps.storeInvariant milkFPSConsts))
      = some false := by
  refine ⟨by decide, by decide, by decide, by decide⟩

/-! ## The validator -/

theorem arraySet_length {α : Type} (l : List α) (n : Nat) (x z : α) :
    (arraySet l n x z).length = max l.length (n + 1) := by
  unfold arraySet
  rw [List.length_set, List.length_append, List.length_replicate]
  omega

theorem arraySet_getD {α : Type} (l : List α) (n k : Nat) (x z : α) :
    (arraySet l n x z).getD k z = if k = n then x else l.getD k z := by
  unfold arraySet
  rw [List.getD_eq_getElem?_getD, List.getD_eq_getElem?_getD, List.getElem?_set]
  by_cases hk : k = n
  · subst hk
    have hlen : k < (l ++ List.replicate (k + 1 - l.length) z).length := by
      rw [List.length_append, List.length_replicate]; omega
    have hlen2 : k < l.length + (k + 1 - l.length) := by omega
    simp [hlen2]
  · rw [if_neg (Ne.symm hk), if_neg hk]
    by_cases h1 : k < l.length
    · rw [List.getElem?_append_left h1]
    · rw [List.getElem?_append_right (not_lt.mp h1)]
      rw [List.getElem?_eq_none (not_lt.mp h1)]
      by_cases h2 : k - l.length < n + 1 - l.length
      · rw [List.getElem?_replicate, if_pos h2]; rfl
      · rw [List.getElem?_replicate, if_neg h2]

theorem arrayWrite_getD {α : Type} (l : List α) (n k : Nat) (xs : List α) (z : α) :
    (arrayWrite l n xs z).getD k z =
      if n ≤ k ∧ k < n + xs.length then xs.getD (k - n) z else l.getD k z := by
  induction xs generalizing l n with
  | nil =>
    simp only [arrayWrite, List.length_nil, Nat.add_zero]
    rw [if_neg (by omega)]
  | cons x xs ih =>
    simp only [arrayWrite, ih, arraySet_getD, List.length_cons]
    by_cases h1 : n + 1 ≤ k ∧ k < n + 1 + xs.length
    · rw [if_pos h1, if_pos (by omega)]
      have : k - n = (k - (n + 1)) + 1 := by omega
      rw [this, List.getD_cons_succ]
    · rw [if_neg h1]
      by_cases h2 : k = n
      · subst h2
        rw [if_pos rfl, if_pos (by omega), Nat.sub_self, List.getD_cons_zero]
      · rw [if_neg h2, if_neg (by omega)]

theorem log_write_append (V : CheckConsts) (a b : List (Nat × Nat × String))
    (fps : FUNCTION_PARAMETER_STRUCT) :
    log_write V (a ++ b) fps = (log_write V a fps).bind (log_write V b) := by
  induction a generalizing fps with
  | nil => rfl
  | cons e es ih =>
    simp only [List.cons_append, log_write]
    cases msg_write V fps e with
    | none => rfl
    | some f => exact ih f

theorem logApply_nil (V : CheckConsts) (fps : FUNCTION_PARAMETER_STRUCT) :
    logApply V [] fps = fps := by
  simp [logApply, arrayWrite]

theorem logApply_append (V : CheckConsts) (a b : List (Nat × Nat × String))
    (fps : FUNCTION_PARAMETER_STRUCT) :
    logApply V (a ++ b) fps = logApply V b (logApply V a fps) := by
  have key : ∀ {α : Type} (l : List α) (n : Nat) (xs ys : List α) (z : α),
      arrayWrite l n (xs ++ ys) z = arrayWrite (arrayWrite l n xs z) (n + xs.length) ys z := by
    intro α l n xs ys z
    induction xs generalizing l n with
    | nil => rfl
    | cons x xs ih =>
      simp only [List.cons_append, arrayWrite, List.length_cons]
      have e1 : n + (xs.length + 1) = n + 1 + xs.length := by omega
      rw [e1]
      exact ih _ _
  simp only [logApply, List.map_append, key, List.length_map, List.length_append, Nat.add_assoc]

/-- Recording messages succeeds exactly when there is room for all of them. -/
theorem log_write_eq (V : CheckConsts) (es : List (Nat × Nat × String))
    (fps : FUNCTION_PARAMETER_STRUCT) (h : fps.msgcnt ≤ V.FPS_NB_MSG) :
    log_write V es fps =
      if fps.msgcnt + es.length ≤ V.FPS_NB_MSG then some (logApply V es fps) else none := by
  induction es generalizing fps with
  | nil =>
    simp only [log_write, List.length_nil, Nat.add_zero, if_pos h, logApply_nil]
  | cons e es ih =>
    simp only [log_write, msg_write, List.length_cons]
    by_cases h1 : fps.msgcnt < V.FPS_NB_MSG
    · rw [if_pos h1, Option.some_bind, ih _ (by simp only []; omega)]
      simp only []
      by_cases h2 : fps.msgcnt + 1 + es.length ≤ V.FPS_NB_MSG
      · rw [if_pos h2, if_pos (by omega)]
        have := logApply_append V [e] es fps
        simp only [List.singleton_append] at this
        rw [this]
        rfl
      · rw [if_neg h2, if_neg (by omega)]
    · rw [if_neg h1, if_neg (by omega)]
      rfl
theorem check_fail_nil (V : CheckConsts) (i : Nat) (s : FUNCTION_PARAMETER_STRUCT × Nat) :
    check_fail V i [] s = some s := rfl

/-- One group of checks in a chain: it succeeds exactly when there is room for its
messages. -/
theorem check_fail_bind {β : Type} (V : CheckConsts) (i : Nat) (m : List (Nat × String))
    (f : FUNCTION_PARAMETER_STRUCT) (e : Nat)
    (g : FUNCTION_PARAMETER_STRUCT × Nat → Option β) (R : Option β)
    (h : f.msgcnt ≤ V.FPS_NB_MSG)
    (h1 : f.msgcnt + m.length ≤ V.FPS_NB_MSG →
      g (logApply V (m.map fun x => (i, x)) f, if m = [] then e else 1) = R)
    (h2 : ¬ f.msgcnt + m.length ≤ V.FPS_NB_MSG → R = none) :
    (check_fail V i m (f, e)).bind g = R := by
  unfold check_fail
  rw [log_write_eq V _ _ h, List.length_map]
  by_cases hc : f.msgcnt + m.length ≤ V.FPS_NB_MSG
  · rw [if_pos hc]
    exact h1 hc
  · rw [if_neg hc, h2 hc]
    rfl

theorem List.modify_congr_at {α : Type} (l : List α) (i : Nat) (f g : α → α) (p : α)
    (hp : l[i]? = some p) (hfg : f p = g p) : l.modify f i = l.modify g i := by
  apply List.ext_getElem?
  intro k
  rw [List.getElem?_modify, List.getElem?_modify]
  by_cases hk : i = k
  · subst hk
    rw [hp]
    simp [hfg]
  · simp [hk]

theorem List.modify_eq_self_at {α : Type} (l : List α) (i : Nat) (f : α → α) (p : α)
    (hp : l[i]? = some p) (hf : f p = p) : l.modify f i = l := by
  apply List.ext_getElem?
  intro k
  rw [List.getElem?_modify]
  by_cases hk : i = k
  · subst hk
    rw [hp]
    simp [hf]
  · simp [hk]

/-- The check of one slot in closed form, when the keyword of the slot can be formatted
for the log: it returns exactly when there is room for the messages of the slot; it
records them and leaves the slot as `slotAfter` says. -/
theorem CheckParameter_eq (V : CheckConsts) (env : FPSEnv) (fps : FUNCTION_PARAMETER_STRUCT)
    (i : Nat) (p : FUNCTION_PARAMETER) (hp : fps.parray[i]? = some p)
    (h : fps.msgcnt ≤ V.FPS_NB_MSG) (hlog : logReturns V env p) :
    functionparameter_CheckParameter V env fps i =
      if fps.msgcnt + (slotMsgs V env p).length ≤ V.FPS_NB_MSG then
        some ((logApply V ((slotMsgs V env p).map fun x => (i, x)) fps).modify i
                (slotAfter V env), slotErr V env p)
      else none := by
  unfold functionparameter_CheckParameter
  rw [hp]
  simp only []
  by_cases ha : p.fpflag &&& V.FPFLAG_ACTIVE = 0
  · have hs : slotMsgs V env p = [] := by unfold slotMsgs; rw [if_pos (Or.inl ha)]
    have hq : slotAfter V env p = p := by unfold slotAfter; rw [if_pos (Or.inl ha)]
    rw [if_pos ha, hs, List.length_nil, Nat.add_zero, if_pos h, List.map_nil, logApply_nil]
    unfold FUNCTION_PARAMETER_STRUCT.modify
    rw [List.modify_eq_self_at _ _ _ p hp hq]
    unfold slotErr; rw [hs]; rfl
  · rw [if_neg ha]
    have hl : ¬ env.SNPRINTF_CHECK V.STRINGMAXLEN_FPS_LOGMSG p.keywordfull = none := by
      rcases hlog with hlog | hlog
      · exact absurd hlog ha
      · exact hlog
    rw [if_neg hl]
    by_cases hu : p.fpflag &&& V.FPFLAG_USED = 0
    · have hs : slotMsgs V env p = [] := by unfold slotMsgs; rw [if_pos (Or.inr hu)]
      have hq : slotAfter V env p = p := by unfold slotAfter; rw [if_pos (Or.inr hu)]
      rw [if_pos hu, hs, List.length_nil, Nat.add_zero, if_pos h, List.map_nil, logApply_nil]
      unfold FUNCTION_PARAMETER_STRUCT.modify
      rw [List.modify_eq_self_at _ _ _ p hp hq]
      unfold slotErr; rw [hs]; rfl
    · rw [if_neg hu]
      have hau : ¬ (p.fpflag &&& V.FPFLAG_ACTIVE = 0 ∨ p.fpflag &&& V.FPFLAG_USED = 0) := by
        rintro (h' | h')
        · exact ha h'
        · exact hu h'
      have hs : slotMsgs V env p = initMsgs V p
          ++ (if initMsgs V p = [] then minMsgs V env p else [])
          ++ (if initMsgs V p = [] ∧ minMsgs V env p = [] then maxMsgs V env p else [])
          ++ fileMsgs V env p ++ fpsnameMsgs V env p ++ streamMsgs V env p := by
        unfold slotMsgs; rw [if_neg hau]
      have hq : slotAfter V env p =
          { p with fpflag := if slotErr V env p = 1 then streamFlag V env p ||| V.FPFLAG_ERROR
                             else clearFlag (streamFlag V env p) V.FPFLAG_ERROR } := by
        unfold slotAfter; rw [if_neg hau]
      have hmap : ∀ (o : Option (FUNCTION_PARAMETER_STRUCT × Nat))
          (k : FUNCTION_PARAMETER_STRUCT × Nat → FUNCTION_PARAMETER_STRUCT × Nat),
          o.map k = o.bind fun x => some (k x) := by
        intro o k; cases o <;> rfl
      simp only [hmap]
      rw [hs]
      simp only [List.length_append]
      -- init
      apply check_fail_bind V i _ _ _ _ _ h
      swap
      · intro hc; rw [if_neg (by omega)]
      intro c1
      -- min
      have e2 : (if (if initMsgs V p = [] then 0 else 1) = 0 then
            check_fail V i (minMsgs V env p)
              (logApply V ((initMsgs V p).map fun x => (i, x)) fps,
                if initMsgs V p = [] then 0 else 1)
          else some (logApply V ((initMsgs V p).map fun x => (i, x)) fps,
                if initMsgs V p = [] then 0 else 1)) =
          check_fail V i (if initMsgs V p = [] then minMsgs V env p else [])
            (logApply V ((initMsgs V p).map fun x => (i, x)) fps,
              if initMsgs V p = [] then 0 else 1) := by
        by_cases h0 : initMsgs V p = []
        · simp only [h0, if_true]
        · simp only [h0, if_false, Nat.one_ne_zero]
          rfl
      simp only [] at e2 ⊢
      rw [e2]
      apply check_fail_bind V i _ _ _ _ _ (by simp only [logApply, List.length_map]; exact c1)
      swap
      · intro hc
        simp only [logApply, List.length_map] at hc
        rw [if_neg (by omega)]
      intro c2
      simp only [logApply, List.length_map] at c2
      -- max
      have e3 : ∀ (s : FUNCTION_PARAMETER_STRUCT),
          (if (if (if initMsgs V p = [] then minMsgs V env p else []) = [] then
                (if initMsgs V p = [] then 0 else 1) else 1) = 0 then
            check_fail V i (maxMsgs V env p)
              (s, if (if initMsgs V p = [] then minMsgs V env p else []) = [] then
                (if initMsgs V p = [] then 0 else 1) else 1)
          else some (s, if (if initMsgs V p = [] then minMsgs V env p else []) = [] then
                (if initMsgs V p = [] then 0 else 1) else 1)) =
          check_fail V i (if initMsgs V p = [] ∧ minMsgs V env p = [] then maxMsgs V env p
              else [])
            (s, if (if initMsgs V p = [] then minMsgs V env p else []) = [] then
                (if initMsgs V p = [] then 0 else 1) else 1) := by
        intro s
        by_cases h0 : initMsgs V p = []
        · by_cases h1 : minMsgs V env p = []
          · simp only [h0, h1, if_true, and_self]
          · simp only [h0, h1, if_true, if_false, Nat.one_ne_zero, and_false]
            rfl
        · simp only [h0, if_false, if_true, Nat.one_ne_zero, false_and]
          rfl
      simp only [] at e3 ⊢
      rw [e3]
      apply check_fail_bind V i _ _ _ _ _
        (by simp only [logApply, List.length_map]; omega)
      swap
      · intro hc
        simp only [logApply, List.length_map] at hc
        rw [if_neg (by omega)]
      intro c3
      simp only [logApply, List.length_map] at c3
      -- files
      apply check_fail_bind V i _ _ _ _ _
        (by simp only [logApply, List.length_map]; omega)
      swap
      · intro hc
        simp only [logApply, List.length_map] at hc
        rw [if_neg (by omega)]
      intro c4
      simp only [logApply, List.length_map] at c4
      -- child structure
      apply check_fail_bind V i _ _ _ _ _
        (by simp only [logApply, List.length_map]; omega)
      swap
      · intro hc
        simp only [logApply, List.length_map] at hc
        rw [if_neg (by omega)]
      intro c5
      simp only [logApply, List.length_map] at c5
      -- stream
      apply check_fail_bind V i _ _ _ _ _
        (by simp only [logApply, List.length_map]; omega)
      swap
      · intro hc
        simp only [logApply, List.length_map] at hc
        rw [if_neg (by omega)]
      intro c6
      simp only [logApply, List.length_map] at c6
      simp only [Nat.add_assoc] at c6 ⊢
      rw [if_pos c6]
      have herr : (if streamMsgs V env p = [] then
            if fpsnameMsgs V env p = [] then
              if fileMsgs V env p = [] then
                if (if initMsgs V p = [] ∧ minMsgs V env p = [] then maxMsgs V env p else [])
                    = [] then
                  if (if initMsgs V p = [] then minMsgs V env p else []) = [] then
                    (if initMsgs V p = [] then 0 else 1)
                  else 1
                else 1
              else 1
            else 1
          else 1) = slotErr V env p := by
        unfold slotErr
        rw [hs]
        simp only [List.append_eq_nil]
        split_ifs <;> simp_all
      rw [herr, ← logApply_append, ← logApply_append, ← logApply_append, ← logApply_append,
        ← logApply_append]
      simp only [List.map_append, List.append_assoc]
      unfold FUNCTION_PARAMETER_STRUCT.modify
      have hp2 : (logApply V
          (List.map (fun x => (i, x)) (initMsgs V p) ++
            (List.map (fun x => (i, x)) (if initMsgs V p = [] then minMsgs V env p else []) ++
              (List.map (fun x => (i, x))
                  (if initMsgs V p = [] ∧ minMsgs V env p = [] then maxMsgs V env p else []) ++
                (List.map (fun x => (i, x)) (fileMsgs V env p) ++
                  (List.map (fun x => (i, x)) (fpsnameMsgs V env p) ++
                    List.map (fun x => (i, x)) (streamMsgs V env p))))))
          fps).parray[i]? = some p := hp
      rw [List.modify_congr_at _ _ _ _ p hp2 hq.symm]
theorem List.drop_modify_succ {α : Type} (l : List α) (k : Nat) (f : α → α) :
    (l.modify f k).drop (k + 1) = l.drop (k + 1) := by
  apply List.ext_getElem?
  intro n
  rw [List.getElem?_drop, List.getElem?_drop, List.getElem?_modify]
  simp [show ¬ k = k + 1 + n by omega]

theorem List.take_modify_succ {α : Type} (l : List α) (k : Nat) (f : α → α) (p : α)
    (hp : l[k]? = some p) : (l.modify f k).take (k + 1) = l.take k ++ [f p] := by
  apply List.ext_getElem?
  intro n
  rw [List.getElem?_take, List.getElem?_modify]
  by_cases h1 : n < k
  · rw [if_pos (by omega), List.getElem?_append_left (by
      rw [List.length_take]
      have := (List.getElem?_eq_some.mp hp).1
      omega)]
    rw [List.getElem?_take, if_pos h1]
    simp [show ¬ k = n by omega]
  · by_cases h2 : n = k
    · subst h2
      have hk := (List.getElem?_eq_some.mp hp).1
      rw [if_pos (by omega), hp, List.getElem?_append_right (by rw [List.length_take]; omega)]
      simp [List.length_take, Nat.min_eq_left (Nat.le_of_lt hk)]
    · have hk := (List.getElem?_eq_some.mp hp).1
      rw [if_neg (by omega), List.getElem?_append_right (by rw [List.length_take]; omega)]
      rw [List.length_take, Nat.min_eq_left (Nat.le_of_lt hk)]
      rw [List.getElem?_eq_none]
      simp only [List.length_singleton]
      omega

theorem logApply_modify (V : CheckConsts) (es : List (Nat × Nat × String))
    (fps : FUNCTION_PARAMETER_STRUCT) (i : Nat) (g : FUNCTION_PARAMETER → FUNCTION_PARAMETER) :
    logApply V es (fps.modify i g) = (logApply V es fps).modify i g := rfl

/-- The check of a slot whose keyword cannot be formatted for the log does not
return. -/
theorem CheckParameter_log_none (V : CheckConsts) (env : FPSEnv) (fps : FUNCTION_PARAMETER_STRUCT)
    (i : Nat) (p : FUNCTION_PARAMETER) (hp : fps.parray[i]? = some p)
    (hlog : ¬ logReturns V env p) :
    functionparameter_CheckParameter V env fps i = none := by
  unfold functionparameter_CheckParameter
  rw [hp]
  simp only []
  have ha : ¬ p.fpflag &&& V.FPFLAG_ACTIVE = 0 := fun h => hlog (Or.inl h)
  have hl : env.SNPRINTF_CHECK V.STRINGMAXLEN_FPS_LOGMSG p.keywordfull = none := by
    by_contra h
    exact hlog (Or.inr h)
  rw [if_neg ha, if_pos hl]

/-- The loop over the slots in closed form. -/
theorem CheckParameter_loop_eq (V : CheckConsts) (env : FPSEnv) (ps : List FUNCTION_PARAMETER)
    (k : Nat) (fps : FUNCTION_PARAMETER_STRUCT) (e : Nat)
    (hps : fps.parray.drop k = ps) (h : fps.msgcnt ≤ V.FPS_NB_MSG) :
    CheckParameter_loop V env k ps.length fps e =
      if (∀ p ∈ ps, logReturns V env p) ∧
          fps.msgcnt + (passEntries V env k ps).length ≤ V.FPS_NB_MSG then
        some ({ logApply V (passEntries V env k ps) fps with
                  parray := fps.parray.take k ++ ps.map (slotAfter V env) },
              e + passErrcnt V env ps)
      else none := by
  induction ps generalizing k fps e with
  | nil =>
    have hc : (∀ p ∈ ([] : List FUNCTION_PARAMETER), logReturns V env p) ∧
        fps.msgcnt + (passEntries V env k []).length ≤ V.FPS_NB_MSG :=
      ⟨fun p hp => absurd hp (List.not_mem_nil p), by
        simp only [passEntries, List.length_nil, Nat.add_zero]; exact h⟩
    rw [if_pos hc]
    simp only [CheckParameter_loop, List.length_nil, passEntries,
      logApply_nil, List.map_nil, List.append_nil, passErrcnt, List.sum_nil, Nat.add_zero]
    have : fps.parray.take k = fps.parray := by
      have := List.take_append_drop k fps.parray
      rw [hps, List.append_nil] at this
      exact this
    rw [this]
  | cons p ps ih =>
    have hp : fps.parray[k]? = some p := by
      have := List.getElem?_drop (L := fps.parray) (i := k) (j := 0)
      rw [hps] at this
      simpa using this.symm
    have hdrop : fps.parray.drop (k + 1) = ps := by
      have := List.drop_drop 1 k fps.parray
      rw [hps] at this
      simpa [Nat.add_comm] using this.symm
    by_cases hl : logReturns V env p
    · simp only [CheckParameter_loop, List.length_cons, passEntries, List.length_append,
        List.length_map]
      rw [CheckParameter_eq V env fps k p hp h hl]
      by_cases c1 : fps.msgcnt + (slotMsgs V env p).length ≤ V.FPS_NB_MSG
      · rw [if_pos c1]
        simp only []
        rw [ih (k + 1) _ _ (by
            show (fps.parray.modify (slotAfter V env) k).drop (k + 1) = ps
            rw [List.drop_modify_succ, hdrop]) (by
            show fps.msgcnt + ((slotMsgs V env p).map fun x => (k, x)).length ≤ V.FPS_NB_MSG
            rw [List.length_map]; exact c1)]
        have hm : ((logApply V ((slotMsgs V env p).map fun x => (k, x)) fps).modify k
            (slotAfter V env)).msgcnt = fps.msgcnt + (slotMsgs V env p).length := by
          show fps.msgcnt + ((slotMsgs V env p).map fun x => (k, x)).length = _
          rw [List.length_map]
        rw [hm]
        by_cases c2 : (∀ q ∈ ps, logReturns V env q) ∧
            fps.msgcnt + (slotMsgs V env p).length + (passEntries V env (k + 1) ps).length
              ≤ V.FPS_NB_MSG
        · have c3 : (∀ q ∈ p :: ps, logReturns V env q) ∧
              fps.msgcnt + ((slotMsgs V env p).length + (passEntries V env (k + 1) ps).length)
                ≤ V.FPS_NB_MSG := by
            refine ⟨?_, by omega⟩
            intro q hq
            rcases List.mem_cons.mp hq with hq | hq
            · rw [hq]; exact hl
            · exact c2.1 q hq
          rw [if_pos c2, if_pos c3]
          have hpar : ((logApply V ((slotMsgs V env p).map fun x => (k, x)) fps).modify k
              (slotAfter V env)).parray.take (k + 1) ++ ps.map (slotAfter V env)
              = fps.parray.take k ++ (p :: ps).map (slotAfter V env) := by
            show (fps.parray.modify (slotAfter V env) k).take (k + 1) ++ _ = _
            rw [List.take_modify_succ _ _ _ p hp]
            simp
          rw [hpar, logApply_modify, logApply_append]
          have he : e + slotErr V env p + passErrcnt V env ps
              = e + passErrcnt V env (p :: ps) := by
            simp only [passErrcnt, List.map_cons, List.sum_cons]
            omega
          rw [he]
          rfl
        · have c3 : ¬ ((∀ q ∈ p :: ps, logReturns V env q) ∧
              fps.msgcnt + ((slotMsgs V env p).length + (passEntries V env (k + 1) ps).length)
                ≤ V.FPS_NB_MSG) := by
            rintro ⟨a1, a2⟩
            exact c2 ⟨fun q hq => a1 q (List.mem_cons_of_mem p hq), by omega⟩
          rw [if_neg c2, if_neg c3]
      · have c3 : ¬ ((∀ q ∈ p :: ps, logReturns V env q) ∧
            fps.msgcnt + ((slotMsgs V env p).length + (passEntries V env (k + 1) ps).length)
              ≤ V.FPS_NB_MSG) := by
          rintro ⟨-, a2⟩
          omega
        rw [if_neg c1, if_neg c3]
    · have c3 : ¬ ((∀ q ∈ p :: ps, logReturns V env q) ∧
          fps.msgcnt + (passEntries V env k (p :: ps)).length ≤ V.FPS_NB_MSG) := by
        rintro ⟨a1, -⟩
        exact hl (a1 p (List.mem_cons_self p ps))
      rw [if_neg c3]
      simp only [CheckParameter_loop, List.length_cons]
      rw [CheckParameter_log_none V env fps k p hp hl]

/-- The validator pass in closed form: it returns exactly when there is a message row,
the keywords of the active slots can be formatted for the log, and there is room for
the messages of the pass; it then leaves `passResult`. -/
theorem CheckParametersAll_eq (V : CheckConsts) (env : FPSEnv) (fps : FUNCTION_PARAMETER_STRUCT) :
    functionparameter_CheckParametersAll V env fps =
      if V.FPS_NB_MSG = 0 then none
      else if (∀ p ∈ fps.parray, logReturns V env p) ∧
          (passEntries V env 0 fps.parray).length ≤ V.FPS_NB_MSG then
        some (passResult V env fps)
      else none := by
  unfold functionparameter_CheckParametersAll
  by_cases h0 : V.FPS_NB_MSG = 0
  · rw [if_pos h0, if_pos h0]
  · rw [if_neg h0, if_neg h0]
    simp only []
    have := CheckParameter_loop_eq V env fps.parray 0
      { fps with message := arraySet fps.message 0 "" "", msgcnt := 0, conferrcnt := 0 } 0
      rfl (Nat.zero_le _)
    simp only [Nat.zero_add, List.take_zero, List.nil_append] at this
    unfold FUNCTION_PARAMETER_STRUCT.NBparamMAX
    simp only []
    rw [this]
    by_cases c : (∀ p ∈ fps.parray, logReturns V env p) ∧
        (passEntries V env 0 fps.parray).length ≤ V.FPS_NB_MSG
    · rw [if_pos c, if_pos c]
      simp only []
      unfold passResult passStatus
      simp only [List.map_map]
      rfl
    · rw [if_neg c, if_neg c]

/-! ## Flags after a validator pass -/

theorem or_and_other (f m a : Nat) (ha : a &&& m = 0) : (f ||| m) &&& a = f &&& a := by
  apply Nat.eq_of_testBit_eq
  intro i
  have h3 : (a &&& m).testBit i = false := by rw [ha]; exact Nat.zero_testBit i
  rw [Nat.testBit_and] at h3
  simp only [Nat.testBit_and, Nat.testBit_or]
  revert h3
  cases f.testBit i <;> cases m.testBit i <;> cases a.testBit i <;> simp

theorem and_comm_zero (a m : Nat) (h : a &&& m = 0) : m &&& a = 0 := by
  rw [Nat.land_comm]; exact h

/-- The flags that the validator tests, one by one, with what `WF` says of each. -/
theorem CheckConsts.WF.tested {V : CheckConsts} (hV : V.WF) (a : Nat)
    (ha : a ∈ V.testedFlags) :
    a < 2 ^ 64 ∧ a &&& V.FPFLAG_ERROR = 0 ∧ a &&& V.FPFLAG_WRITESTATUS = 0 :=
  hV.2.1 a ha

/-- The write status loop leaves every bit outside `WRITESTATUS`. -/
theorem write_status_other (V : CheckConsts) (hV : V.WF) (st : Nat) (q : FUNCTION_PARAMETER)
    (a : Nat) (ha2 : a < 2 ^ 64) (ha : a &&& V.FPFLAG_WRITESTATUS = 0) :
    (write_status V st q).fpflag &&& a = q.fpflag &&& a := by
  unfold write_status
  by_cases h : writeOK V st q = 0
  · rw [if_pos h]
    exact clearFlag_and_other _ _ _ hV.2.2.2.2.2.1 ha2 ha
  · rw [if_neg h]
    exact or_and_other _ _ _ ha

theorem write_status_fields (V : CheckConsts) (st : Nat) (q : FUNCTION_PARAMETER) :
    (write_status V st q).type = q.type ∧ (write_status V st q).val = q.val ∧
    (write_status V st q).cnt0 = q.cnt0 ∧ (write_status V st q).keywordfull = q.keywordfull := by
  unfold write_status
  split_ifs <;> exact ⟨rfl, rfl, rfl, rfl⟩

/-- The bit `WRITESTATUS` after the write status loop. -/
theorem write_status_bit (V : CheckConsts) (hV : V.WF) (st : Nat) (q : FUNCTION_PARAMETER) :
    (write_status V st q).fpflag &&& V.FPFLAG_WRITESTATUS ≠ 0 ↔ writeOK V st q ≠ 0 := by
  unfold write_status
  by_cases h : writeOK V st q = 0
  · rw [if_pos h]
    simp only [h, ne_eq, not_true_eq_false, iff_false, not_not]
    exact clearFlag_and_mask _ _ hV.2.2.2.2.2.1
  · rw [if_neg h]
    simp only [h, ne_eq, not_false_eq_true, iff_true]
    show (q.fpflag ||| V.FPFLAG_WRITESTATUS) &&& V.FPFLAG_WRITESTATUS ≠ 0
    rw [or_and_self_mask]
    exact hV.2.2.2.2.1

theorem slotAfter_fields (V : CheckConsts) (env : FPSEnv) (p : FUNCTION_PARAMETER) :
    (slotAfter V env p).type = p.type ∧ (slotAfter V env p).val = p.val ∧
    (slotAfter V env p).cnt0 = p.cnt0 ∧ (slotAfter V env p).keywordfull = p.keywordfull := by
  unfold slotAfter
  split_ifs <;> exact ⟨rfl, rfl, rfl, rfl⟩

/-- The bit `ERROR` of an active and used slot after its check: set exactly when the
check records a message. -/
theorem slotAfter_error (V : CheckConsts) (env : FPSEnv) (hV : V.WF) (p : FUNCTION_PARAMETER)
    (hact : p.fpflag &&& V.FPFLAG_ACTIVE ≠ 0) (hused : p.fpflag &&& V.FPFLAG_USED ≠ 0) :
    ((slotAfter V env p).fpflag &&& V.FPFLAG_ERROR ≠ 0 ↔ slotMsgs V env p ≠ []) := by
  have hau : ¬ (p.fpflag &&& V.FPFLAG_ACTIVE = 0 ∨ p.fpflag &&& V.FPFLAG_USED = 0) := by
    rintro (h' | h')
    · exact hact h'
    · exact hused h'
  unfold slotAfter slotErr
  rw [if_neg hau]
  by_cases hm : slotMsgs V env p = []
  · simp only [hm, if_true, Nat.zero_ne_one, if_false, ne_eq, not_true_eq_false, iff_false,
      not_not]
    exact clearFlag_and_mask _ _ hV.2.2.2.1
  · simp only [hm, if_false, if_true, ne_eq, not_false_eq_true, iff_true]
    rw [or_and_self_mask]
    exact hV.2.2.1

/-- The slots after a pass. -/
theorem passResult_parray (V : CheckConsts) (env : FPSEnv) (fps : FUNCTION_PARAMETER_STRUCT)
    (i : Nat) :
    (passResult V env fps).parray[i]? =
      (fps.parray[i]?).map fun p => write_status V (passStatus V env fps) (slotAfter V env p) := by
  show (fps.parray.map _)[i]? = _
  rw [List.getElem?_map]

/-- The message rows after a pass: row `k` below `msgcnt` holds entry `k` of the pass. -/
theorem passResult_log (V : CheckConsts) (env : FPSEnv) (fps : FUNCTION_PARAMETER_STRUCT)
    (k : Nat) (e : Nat × Nat × String) (he : (passEntries V env 0 fps.parray)[k]? = some e) :
    k < (passResult V env fps).msgcnt ∧
    (passResult V env fps).msgpindex.getD k 0 = e.1 ∧
    (passResult V env fps).msgcode.getD k 0 = e.2.1 ∧
    (passResult V env fps).message.getD k "" =
      strTake e.2.2 (V.FUNCTION_PARAMETER_STRUCT_MSG_SIZE - 1) := by
  have hk := (List.getElem?_eq_some.mp he).1
  refine ⟨?_, ?_, ?_, ?_⟩
  · show k < 0 + (passEntries V env 0 fps.parray).length
    omega
  · show (arrayWrite fps.msgpindex 0 ((passEntries V env 0 fps.parray).map fun e => e.1) 0).getD
      k 0 = _
    rw [arrayWrite_getD, if_pos (by rw [List.length_map]; omega), Nat.sub_zero,
      List.getD_eq_getElem?_getD, List.getElem?_map, he]
    rfl
  · show (arrayWrite fps.msgcode 0 ((passEntries V env 0 fps.parray).map fun e => e.2.1) 0).getD
      k 0 = _
    rw [arrayWrite_getD, if_pos (by rw [List.length_map]; omega), Nat.sub_zero,
      List.getD_eq_getElem?_getD, List.getElem?_map, he]
    rfl
  · show (arrayWrite (arraySet fps.message 0 "" "") 0
      ((passEntries V env 0 fps.parray).map fun e =>
        strTake e.2.2 (V.FUNCTION_PARAMETER_STRUCT_MSG_SIZE - 1)) "").getD k "" = _
    rw [arrayWrite_getD, if_pos (by rw [List.length_map]; omega), Nat.sub_zero,
      List.getD_eq_getElem?_getD, List.getElem?_map, he]
    rfl

theorem passResult_msgcnt (V : CheckConsts) (env : FPSEnv) (fps : FUNCTION_PARAMETER_STRUCT) :
    (passResult V env fps).msgcnt = (passEntries V env 0 fps.parray).length := by
  show 0 + (passEntries V env 0 fps.parray).length = _
  omega

/-- A message of a slot is an entry of the pass. -/
theorem passEntries_mem (V : CheckConsts) (env : FPSEnv) (ps : List FUNCTION_PARAMETER)
    (k j : Nat) (p : FUNCTION_PARAMETER) (m : Nat × String)
    (hp : ps[j]? = some p) (hm : m ∈ slotMsgs V env p) :
    (k + j, m) ∈ passEntries V env k ps := by
  induction ps generalizing k j with
  | nil => simp at hp
  | cons q qs ih =>
    simp only [passEntries, List.mem_append, List.mem_map]
    cases j with
    | zero =>
      simp only [List.getElem?_cons_zero, Option.some.injEq] at hp
      subst hp
      exact Or.inl ⟨m, hm, rfl⟩
    | succ j =>
      rw [List.getElem?_cons_succ] at hp
      right
      have := ih (k + 1) j hp
      have e : k + 1 + j = k + (j + 1) := by omega
      rw [e] at this
      exact this

/-- Every entry of the pass is a message of the slot whose index it carries. -/
theorem passEntries_of_mem (V : CheckConsts) (env : FPSEnv) (ps : List FUNCTION_PARAMETER)
    (k : Nat) (e : Nat × Nat × String) (he : e ∈ passEntries V env k ps) :
    ∃ j p, ps[j]? = some p ∧ e.1 = k + j ∧ e.2 ∈ slotMsgs V env p := by
  induction ps generalizing k with
  | nil => simp [passEntries] at he
  | cons q qs ih =>
    simp only [passEntries, List.mem_append, List.mem_map] at he
    rcases he with ⟨m, hm, rfl⟩ | he
    · exact ⟨0, q, List.getElem?_cons_zero, rfl, hm⟩
    · obtain ⟨j, p, hp, h1, h2⟩ := ih (k + 1) he
      exact ⟨j + 1, p, by rw [List.getElem?_cons_succ]; exact hp, by omega, h2⟩

/-- A pass that returns leaves `passResult`; its messages fit in the message arrays and
the keywords of the active slots can be formatted for the log. -/
theorem CheckParametersAll_some (V : CheckConsts) (env : FPSEnv)
    (fps fps1 : FUNCTION_PARAMETER_STRUCT)
    (h : functionparameter_CheckParametersAll V env fps = some fps1) :
    fps1 = passResult V env fps ∧ (passEntries V env 0 fps.parray).length ≤ V.FPS_NB_MSG ∧
      ∀ p ∈ fps.parray, logReturns V env p := by
  rw [CheckParametersAll_eq] at h
  by_cases h0 : V.FPS_NB_MSG = 0
  · rw [if_pos h0] at h; cases h
  · rw [if_neg h0] at h
    by_cases c : (∀ p ∈ fps.parray, logReturns V env p) ∧
        (passEntries V env 0 fps.parray).length ≤ V.FPS_NB_MSG
    · rw [if_pos c] at h
      injection h with h
      exact ⟨h.symm, c.2, c.1⟩
    · rw [if_neg c] at h; cases h

/-! ## Range checks -/

/-- The distinctness of the type codes that the range checks use. -/
theorem FPSConsts.WF.numericNe {C : FPSConsts} (hC : C.WF) :
    C.FPTYPE_INT64 ≠ C.FPTYPE_FLOAT64 ∧ C.FPTYPE_INT64 ≠ C.FPTYPE_FLOAT32 ∧
    C.FPTYPE_FLOAT64 ≠ C.FPTYPE_FLOAT32 ∧
    (∀ t, (t = C.FPTYPE_INT64 ∨ t = C.FPTYPE_FLOAT64 ∨ t = C.FPTYPE_FLOAT32) →
      t ≠ C.FPTYPE_FILENAME ∧ t ≠ C.FPTYPE_FITSFILENAME ∧ t ≠ C.FPTYPE_EXECFILENAME ∧
      t ≠ C.FPTYPE_FPSNAME) := by
  have h := hC.1
  simp only [List.nodup_cons, List.mem_cons, List.mem_singleton, not_or, List.not_mem_nil,
    not_false_eq_true, List.nodup_nil, and_true] at h
  obtain ⟨⟨a1, a2, -, -, a5, a6, a7, -, -, -, -, a12⟩, ⟨b1, -, -, b4, b5, b6, -, -, -, -, b11⟩,
    ⟨-, -, c3, c4, c5, -, -, -, -, c10⟩, -⟩ := h
  refine ⟨a1, a2, b1, ?_⟩
  rintro t (rfl | rfl | rfl)
  · exact ⟨a5, a6, a7, a12⟩
  · exact ⟨b4, b5, b6, b11⟩
  · exact ⟨c3, c4, c5, c10⟩

/-- The messages of an active, used and initialised numeric slot: one message for a
range violation, the minimum first, and none otherwise. -/
theorem slotMsgs_range (V : CheckConsts) (env : FPSEnv) (hV : V.WF) (p : FUNCTION_PARAMETER)
    (hact : p.fpflag &&& V.FPFLAG_ACTIVE ≠ 0) (hused : p.fpflag &&& V.FPFLAG_USED ≠ 0)
    (hinit : ¬ (p.fpflag &&& V.FPFLAG_CHECKINIT ≠ 0 ∧ p.cnt0 = 0))
    (hnum : p.type = V.FPTYPE_INT64 ∨ p.type = V.FPTYPE_FLOAT64 ∨ p.type = V.FPTYPE_FLOAT32) :
    slotMsgs V env p =
      if belowMin V p ∨ aboveMax V p then [(rangeCode V p, rangeText V env p)] else [] := by
  obtain ⟨n1, n2, n3, n4⟩ := hV.1.numericNe
  obtain ⟨f1, f2, f3, f4⟩ := n4 p.type hnum
  have hs : p.type &&& V.FPTYPE_STREAMNAME = 0 := by
    obtain ⟨-, -, -, -, -, -, -, -, -, -, -, -, -, -, s1, s2, s3, -⟩ := hV
    rcases hnum with h | h | h <;> rw [h]
    · exact s1
    · exact s2
    · exact s3
  have hau : ¬ (p.fpflag &&& V.FPFLAG_ACTIVE = 0 ∨ p.fpflag &&& V.FPFLAG_USED = 0) := by
    rintro (h' | h')
    · exact hact h'
    · exact hused h'
  have i0 : initMsgs V p = [] := by unfold initMsgs; rw [if_neg hinit]
  have i4 : fileMsgs V env p = [] := by
    unfold fileMsgs
    rw [if_neg (fun h => f1 h.1), if_neg (fun h => f2 h.1), if_neg (fun h => f3 h.1)]
    rfl
  have i5 : fpsnameMsgs V env p = [] := by
    unfold fpsnameMsgs
    rw [if_neg (fun h => f4 h.1)]
  have i6 : streamMsgs V env p = [] := by
    unfold streamMsgs
    rw [if_neg (fun h => h.1 hs)]
  unfold slotMsgs
  rw [if_neg hau, i0, i4, i5, i6]
  simp only [List.nil_append, List.append_nil, if_true, true_and]
  unfold minMsgs maxMsgs rangeCode rangeText belowMin aboveMax
  rcases hnum with h | h | h
  · simp only [h, n1, n2, false_and, and_false, if_false, List.append_nil, true_and, or_false,
      if_true]
    by_cases c1 : p.fpflag &&& V.FPFLAG_MINLIMIT ≠ 0 ∧ p.val.l0 < p.val.l1
    · simp [c1]
    · by_cases c2 : p.fpflag &&& V.FPFLAG_MAXLIMIT ≠ 0 ∧ p.val.l0 > p.val.l2
      · simp [c1, c2]
      · simp [c1, c2]
  · simp only [h, n1.symm, n3, false_and, and_false, if_false, List.append_nil, List.nil_append,
      true_and, or_false, false_or, if_true]
    by_cases c1 : p.fpflag &&& V.FPFLAG_MINLIMIT ≠ 0 ∧ p.val.f0 < p.val.f1
    · simp [c1]
    · by_cases c2 : p.fpflag &&& V.FPFLAG_MAXLIMIT ≠ 0 ∧ p.val.f0 > p.val.f2
      · simp [c1, c2]
      · simp [c1, c2]
  · simp only [h, n2.symm, n3.symm, false_and, and_false, if_false, List.append_nil,
      List.nil_append, true_and, or_false, false_or, if_true]
    by_cases c1 : p.fpflag &&& V.FPFLAG_MINLIMIT ≠ 0 ∧ p.val.s0 < p.val.s1
    · simp [c1]
    · by_cases c2 : p.fpflag &&& V.FPFLAG_MAXLIMIT ≠ 0 ∧ p.val.s0 > p.val.s2
      · simp [c1, c2]
      · simp [c1, c2]

/-- C13. After a validator pass, for every active, used and initialised parameter of
type int64, float64 or float32: if MINLIMIT is set and the value is below the minimum,
or MAXLIMIT is set and the value is above the maximum, the flag ERROR of the parameter
is set and a row of the message log carries the index of the parameter, the code of the
violation and the text that states the observed value and the violated limit; otherwise
the flag ERROR is clear. -/
theorem C13_range_check (V : CheckConsts) (env : FPSEnv) (hV : V.WF)
    (fps fps1 : FUNCTION_PARAMETER_STRUCT) (i : Nat) (p : FUNCTION_PARAMETER)
    (hpass : functionparameter_CheckParametersAll V env fps = some fps1)
    (hp : fps.parray[i]? = some p)
    (hact : p.fpflag &&& V.FPFLAG_ACTIVE ≠ 0) (hused : p.fpflag &&& V.FPFLAG_USED ≠ 0)
    (hinit : ¬ (p.fpflag &&& V.FPFLAG_CHECKINIT ≠ 0 ∧ p.cnt0 = 0))
    (hnum : p.type = V.FPTYPE_INT64 ∨ p.type = V.FPTYPE_FLOAT64 ∨ p.type = V.FPTYPE_FLOAT32) :
    ∃ p1, fps1.parray[i]? = some p1 ∧
      ((belowMin V p ∨ aboveMax V p) →
        p1.fpflag &&& V.FPFLAG_ERROR ≠ 0 ∧
        ∃ k, k < fps1.msgcnt ∧ fps1.msgpindex.getD k 0 = i ∧
          fps1.msgcode.getD k 0 = rangeCode V p ∧
          fps1.message.getD k "" =
            strTake (rangeText V env p) (V.FUNCTION_PARAMETER_STRUCT_MSG_SIZE - 1)) ∧
      (¬ (belowMin V p ∨ aboveMax V p) → p1.fpflag &&& V.FPFLAG_ERROR = 0) := by
  obtain ⟨rfl, -⟩ := CheckParametersAll_some V env fps fps1 hpass
  have hm := slotMsgs_range V env hV p hact hused hinit hnum
  have hE : (write_status V (passStatus V env fps) (slotAfter V env p)).fpflag &&& V.FPFLAG_ERROR
      = (slotAfter V env p).fpflag &&& V.FPFLAG_ERROR :=
    write_status_other V hV _ _ _ hV.2.2.2.1 hV.2.2.2.2.2.2.1
  refine ⟨write_status V (passStatus V env fps) (slotAfter V env p),
    by rw [passResult_parray, hp]; rfl, ?_, ?_⟩
  · intro hviol
    rw [if_pos hviol] at hm
    constructor
    · rw [hE]
      exact (slotAfter_error V env hV p hact hused).mpr (by rw [hm]; simp)
    · have hmem := passEntries_mem V env fps.parray 0 i p (rangeCode V p, rangeText V env p) hp
        (by rw [hm]; simp)
      rw [Nat.zero_add] at hmem
      obtain ⟨k, hk⟩ := List.getElem?_of_mem hmem
      obtain ⟨h1, h2, h3, h4⟩ := passResult_log V env fps k _ hk
      exact ⟨k, h1, h2, h3, h4⟩
  · intro hno
    rw [if_neg hno] at hm
    rw [hE]
    by_contra hne
    exact (slotAfter_error V env hV p hact hused).mp hne hm

/-- Witness for C13: the pass over `sampleCheckFPS`, whose parameter `fps.p` has the
value 15 above the maximum 10. -/
theorem C13_range_check_witness :
    ∃ p1, (passResult milkCheckConsts emptyFPSEnv sampleCheckFPS).parray[0]? = some p1 ∧
      p1.fpflag &&& milkCheckConsts.FPFLAG_ERROR ≠ 0 ∧
      ∃ k, k < (passResult milkCheckConsts emptyFPSEnv sampleCheckFPS).msgcnt ∧
        (passResult milkCheckConsts emptyFPSEnv sampleCheckFPS).msgpindex.getD k 0 = 0 ∧
        (passResult milkCheckConsts emptyFPSEnv sampleCheckFPS).message.getD k "" =
          "int64 value 15 above max 10" := by
  obtain ⟨p1, h1, h2, -⟩ := C13_range_check milkCheckConsts emptyFPSEnv (by decide)
    sampleCheckFPS (passResult milkCheckConsts emptyFPSEnv sampleCheckFPS) 0
    (testSlot "fps.p" milkCheckConsts.FPTYPE_INT64
        (milkCheckConsts.FPFLAG_ACTIVE ||| milkCheckConsts.FPFLAG_USED |||
          milkCheckConsts.FPFLAG_MAXLIMIT ||| milkCheckConsts.FPFLAG_WRITECONF) 15 0 10 1)
    (by decide) (by decide) (by decide) (by decide) (by decide) (by decide)
  obtain ⟨h3, k, h4, h5, -, h6⟩ := h2 (by decide)
  exact ⟨p1, h1, h3, k, h4, h5, h6.trans (by decide)⟩

/-! ## Scenario S3, "not initialized", status and write status -/

/-- When every slot but slot `i` is without ACTIVE or without USED, the entries of the
pass are the messages of slot `i`, and the error count is its `err`. -/
theorem passEntries_only (V : CheckConsts) (env : FPSEnv) (ps : List FUNCTION_PARAMETER)
    (k i : Nat) (p : FUNCTION_PARAMETER) (hp : ps[i]? = some p)
    (honly : ∀ j q, j ≠ i → ps[j]? = some q →
      q.fpflag &&& V.FPFLAG_ACTIVE = 0 ∨ q.fpflag &&& V.FPFLAG_USED = 0) :
    passEntries V env k ps = (slotMsgs V env p).map (fun m => (k + i, m)) ∧
    passErrcnt V env ps = slotErr V env p := by
  have hq0 : ∀ q, (q.fpflag &&& V.FPFLAG_ACTIVE = 0 ∨ q.fpflag &&& V.FPFLAG_USED = 0) →
      slotMsgs V env q = [] := by
    intro q h
    unfold slotMsgs
    rw [if_pos h]
  have hnil : ∀ (qs : List FUNCTION_PARAMETER) (k : Nat),
      (∀ q ∈ qs, q.fpflag &&& V.FPFLAG_ACTIVE = 0 ∨ q.fpflag &&& V.FPFLAG_USED = 0) →
      passEntries V env k qs = [] ∧ passErrcnt V env qs = 0 := by
    intro qs
    induction qs with
    | nil => intro k _; exact ⟨rfl, rfl⟩
    | cons q qs ih =>
      intro k h
      have h1 := hq0 q (h q (List.mem_cons_self q qs))
      obtain ⟨h2, h3⟩ := ih (k + 1) (fun x hx => h x (List.mem_cons_of_mem q hx))
      constructor
      · simp only [passEntries, h1, h2, List.map_nil, List.append_nil]
      · unfold passErrcnt at h3 ⊢
        simp only [List.map_cons, List.sum_cons, h3, slotErr, h1, if_true]
  induction ps generalizing k i with
  | nil => simp at hp
  | cons q qs ih =>
    cases i with
    | zero =>
      simp only [List.getElem?_cons_zero, Option.some.injEq] at hp
      subst hp
      obtain ⟨h2, h3⟩ := hnil qs (k + 1) (by
        intro x hx
        obtain ⟨j, hj⟩ := List.getElem?_of_mem hx
        exact honly (j + 1) x (by omega) (by rw [List.getElem?_cons_succ]; exact hj))
      constructor
      · simp only [passEntries, h2, List.append_nil, Nat.add_zero]
      · unfold passErrcnt at h3 ⊢
        simp only [List.map_cons, List.sum_cons, h3, Nat.add_zero]
    | succ i =>
      rw [List.getElem?_cons_succ] at hp
      have h1 := hq0 q (honly 0 q (by omega) List.getElem?_cons_zero)
      obtain ⟨h2, h3⟩ := ih (k + 1) i hp (by
        intro j x hj hx
        exact honly (j + 1) x (by omega) (by rw [List.getElem?_cons_succ]; exact hx))
      constructor
      · simp only [passEntries, h1, h2, List.map_nil, List.nil_append]
        have e : k + 1 + i = k + (i + 1) := by omega
        rw [e]
      · unfold passErrcnt at h3 ⊢
        simp only [List.map_cons, List.sum_cons, h3, slotErr, h1, if_true, Nat.zero_add]

/-- C14. Scenario S3 with the flag MAXLIMIT: for a structure whose only active and used
parameter `p` is an initialised int64 parameter with MAXLIMIT set, minimum 0, maximum
10 and value 15, a validator pass (the keywords of the active slots can be formatted
for the log) returns, records the one message `int64 value 15 above max 10` for `p`,
sets the flag ERROR on `p`, leaves `conferrcnt = 1` and clears the status bit CHECKOK. -/
theorem C14_range_scenario (V : CheckConsts) (env : FPSEnv) (hV : V.WF)
    (hsize : 28 < V.FUNCTION_PARAMETER_STRUCT_MSG_SIZE)
    (fps : FUNCTION_PARAMETER_STRUCT) (i : Nat) (p : FUNCTION_PARAMETER)
    (hkw : ∀ q ∈ fps.parray, logReturns V env q)
    (hp : fps.parray[i]? = some p)
    (honly : ∀ j q, j ≠ i → fps.parray[j]? = some q →
      q.fpflag &&& V.FPFLAG_ACTIVE = 0 ∨ q.fpflag &&& V.FPFLAG_USED = 0)
    (hact : p.fpflag &&& V.FPFLAG_ACTIVE ≠ 0) (hused : p.fpflag &&& V.FPFLAG_USED ≠ 0)
    (hinit : ¬ (p.fpflag &&& V.FPFLAG_CHECKINIT ≠ 0 ∧ p.cnt0 = 0))
    (htype : p.type = V.FPTYPE_INT64) (hmax : p.fpflag &&& V.FPFLAG_MAXLIMIT ≠ 0)
    (hl0 : p.val.l0 = 15) (hl1 : p.val.l1 = 0) (hl2 : p.val.l2 = 10) :
    ∃ fps1 p1, functionparameter_CheckParametersAll V env fps = some fps1 ∧
      fps1.msgcnt = 1 ∧ fps1.msgpindex.getD 0 0 = i ∧
      fps1.message.getD 0 "" = "int64 value 15 above max 10" ∧
      fps1.parray[i]? = some p1 ∧ p1.fpflag &&& V.FPFLAG_ERROR ≠ 0 ∧
      fps1.conferrcnt = 1 ∧
      fps1.status &&& V.FUNCTION_PARAMETER_STRUCT_STATUS_CHECKOK = 0 := by
  have hnb : 0 < V.FPS_NB_MSG := by
    obtain ⟨-, -, -, -, -, -, -, -, -, -, -, -, -, -, -, -, -, h⟩ := hV
    exact h
  have hbelow : ¬ belowMin V p := by
    unfold belowMin
    rintro ⟨-, h | h | h⟩
    · rw [hl0, hl1] at h
      exact absurd h.2 (by decide)
    · exact hV.1.numericNe.1 (htype.symm.trans h.1)
    · exact hV.1.numericNe.2.1 (htype.symm.trans h.1)
  have habove : aboveMax V p := by
    unfold aboveMax
    exact ⟨hmax, Or.inl ⟨htype, by rw [hl0, hl2]; decide⟩⟩
  have htext : rangeText V env p = "int64 value 15 above max 10" := by
    unfold rangeText
    rw [if_neg hbelow, if_pos htype, hl0, hl2]
    decide
  have hm := slotMsgs_range V env hV p hact hused hinit (Or.inl htype)
  rw [if_pos (Or.inr habove), htext] at hm
  obtain ⟨he, hc⟩ := passEntries_only V env fps.parray 0 i p hp honly
  rw [hm, Nat.zero_add] at he
  have hc1 : passErrcnt V env fps.parray = 1 := by
    rw [hc]; unfold slotErr; rw [hm]; rfl
  have hpass : functionparameter_CheckParametersAll V env fps = some (passResult V env fps) := by
    rw [CheckParametersAll_eq, if_neg (by omega), he, if_pos ⟨hkw, by simpa using hnb⟩]
  have hlog := passResult_log V env fps 0 (i, rangeCode V p, "int64 value 15 above max 10")
    (by rw [he]; rfl)
  have hst : strTake "int64 value 15 above max 10" (V.FUNCTION_PARAMETER_STRUCT_MSG_SIZE - 1)
      = "int64 value 15 above max 10" := by
    apply strTake_of_le
    have : ("int64 value 15 above max 10" : String).length = 27 := by decide
    omega
  refine ⟨passResult V env fps, write_status V (passStatus V env fps) (slotAfter V env p),
    hpass, ?_, hlog.2.1, ?_, ?_, ?_, hc1, ?_⟩
  · rw [passResult_msgcnt, he]; rfl
  · rw [hlog.2.2.2, hst]
  · rw [passResult_parray, hp]; rfl
  · rw [write_status_other V hV _ _ _ hV.2.2.2.1 hV.2.2.2.2.2.2.1]
    exact (slotAfter_error V env hV p hact hused).mpr (by rw [hm]; simp)
  · show passStatus V env fps &&& _ = 0
    unfold passStatus
    rw [hc1, if_neg Nat.one_ne_zero]
    obtain ⟨-, -, -, -, -, -, -, -, h9, -⟩ := hV
    exact clearFlag_and_mask _ _ h9

/-- Witness for C14: the structure of scenario S3 with the flags MINLIMIT and
MAXLIMIT. -/
theorem C14_range_scenario_witness :
    ∃ fps1 p1, functionparameter_CheckParametersAll milkCheckConsts emptyFPSEnv
        (S3FPS (milkCheckConsts.FPFLAG_MINLIMIT ||| milkCheckConsts.FPFLAG_MAXLIMIT)) = some fps1 ∧
      fps1.msgcnt = 1 ∧ fps1.msgpindex.getD 0 0 = 0 ∧
      fps1.message.getD 0 "" = "int64 value 15 above max 10" ∧
      fps1.parray[0]? = some p1 ∧ p1.fpflag &&& milkCheckConsts.FPFLAG_ERROR ≠ 0 ∧
      fps1.conferrcnt = 1 ∧
      fps1.status &&& milkCheckConsts.FUNCTION_PARAMETER_STRUCT_STATUS_CHECKOK = 0 :=
  C14_range_scenario milkCheckConsts emptyFPSEnv (by decide) (by decide)
    (S3FPS (milkCheckConsts.FPFLAG_MINLIMIT ||| milkCheckConsts.FPFLAG_MAXLIMIT)) 0
    (testSlot "fps.p" milkCheckConsts.FPTYPE_INT64
      (milkCheckConsts.FPFLAG_ACTIVE ||| milkCheckConsts.FPFLAG_USED |||
        (milkCheckConsts.FPFLAG_MINLIMIT ||| milkCheckConsts.FPFLAG_MAXLIMIT)) 15 0 10 1)
    (by decide) (by decide)
    (by
      intro j q hj h
      cases j with
      | zero => exact absurd rfl hj
      | succ j => simp [S3FPS, testFPS] at h)
    (by decide) (by decide) (by decide) (by decide) (by decide) (by decide) (by decide)
    (by decide)

/-- Counterexample for C14 as stated: with the flag MINLIMIT only, as the scenario
gives it, the maximum is not checked; the pass records no message, leaves the flag
ERROR of the parameter clear and `conferrcnt = 0`, and sets the status bit CHECKOK. -/
theorem C14_range_scenario_counterexample :
    (functionparameter_CheckParametersAll milkCheckConsts emptyFPSEnv
        (S3FPS milkCheckConsts.FPFLAG_MINLIMIT)).map
      (fun f => (f.msgcnt, f.conferrcnt,
        f.status &&& milkCheckConsts.FUNCTION_PARAMETER_STRUCT_STATUS_CHECKOK,
        f.parray.map fun p => p.fpflag &&& milkCheckConsts.FPFLAG_ERROR))
      = some (0, 0, milkCheckConsts.FUNCTION_PARAMETER_STRUCT_STATUS_CHECKOK, [0]) := by
  decide

/-- The error count of a pass is zero exactly when the pass has no entry. -/
theorem passErrcnt_eq_zero (V : CheckConsts) (env : FPSEnv) (ps : List FUNCTION_PARAMETER)
    (k : Nat) : passErrcnt V env ps = 0 ↔ passEntries V env k ps = [] := by
  induction ps generalizing k with
  | nil => exact ⟨fun _ => rfl, fun _ => rfl⟩
  | cons q qs ih =>
    unfold passErrcnt at ih ⊢
    simp only [List.map_cons, List.sum_cons, passEntries, List.append_eq_nil, List.map_eq_nil_iff,
      Nat.add_eq_zero_iff, ih (k + 1)]
    unfold slotErr
    by_cases h : slotMsgs V env q = []
    · simp [h]
    · simp [h]

/-- C16. After every validator pass that returns: the status bit CHECKOK is set exactly
when `conferrcnt == 0`; the bit CHECKED of the signal word is clear; `msgcnt` is the
number of messages of this pass and row `k` of the message log, for every `k < msgcnt`,
holds message `k` of this pass (slot index, code, text cut to the row size). The pass
returns whenever the keywords of the active slots can be formatted for the log and the
messages of the pass fit in the message arrays. -/
theorem C16_pass_status (V : CheckConsts) (env : FPSEnv) (hV : V.WF)
    (fps : FUNCTION_PARAMETER_STRUCT) :
    (∀ fps1, functionparameter_CheckParametersAll V env fps = some fps1 →
      (fps1.status &&& V.FUNCTION_PARAMETER_STRUCT_STATUS_CHECKOK ≠ 0 ↔ fps1.conferrcnt = 0) ∧
      fps1.signal &&& V.FUNCTION_PARAMETER_STRUCT_SIGNAL_CHECKED = 0 ∧
      fps1.msgcnt = (passEntries V env 0 fps.parray).length ∧
      fps1.msgcnt ≤ V.FPS_NB_MSG ∧
      ∀ k e, (passEntries V env 0 fps.parray)[k]? = some e →
        fps1.msgpindex.getD k 0 = e.1 ∧ fps1.msgcode.getD k 0 = e.2.1 ∧
        fps1.message.getD k "" = strTake e.2.2 (V.FUNCTION_PARAMETER_STRUCT_MSG_SIZE - 1)) ∧
    ((∀ p ∈ fps.parray, logReturns V env p) →
      (passEntries V env 0 fps.parray).length ≤ V.FPS_NB_MSG →
      ∃ fps1, functionparameter_CheckParametersAll V env fps = some fps1) := by
  obtain ⟨-, -, -, -, -, -, -, h8, h9, -, -, -, -, h14, -, -, -, h18⟩ := hV
  constructor
  · intro fps1 h
    obtain ⟨h1, h2, -⟩ := CheckParametersAll_some V env fps fps1 h
    subst h1
    refine ⟨?_, ?_, passResult_msgcnt V env fps, ?_, ?_⟩
    · show passStatus V env fps &&& _ ≠ 0 ↔ passErrcnt V env fps.parray = 0
      unfold passStatus
      by_cases hc : passErrcnt V env fps.parray = 0
      · rw [if_pos hc, or_and_self_mask]
        exact ⟨fun _ => hc, fun _ => h8⟩
      · rw [if_neg hc, clearFlag_and_mask _ _ h9]
        exact ⟨fun h => absurd rfl h, fun h => absurd h hc⟩
    · show clearFlag fps.signal _ &&& _ = 0
      exact clearFlag_and_mask _ _ h14
    · rw [passResult_msgcnt]; exact h2
    · intro k e he
      exact (passResult_log V env fps k e he).2
  · intro hkw h
    refine ⟨passResult V env fps, ?_⟩
    rw [CheckParametersAll_eq, if_neg (by omega), if_pos ⟨hkw, h⟩]

/-- Witness for C16: the pass over the sample structure. -/
theorem C16_pass_status_witness :
    (∀ fps1, functionparameter_CheckParametersAll milkCheckConsts emptyFPSEnv sampleCheckFPS
        = some fps1 →
      (fps1.status &&& milkCheckConsts.FUNCTION_PARAMETER_STRUCT_STATUS_CHECKOK ≠ 0 ↔
        fps1.conferrcnt = 0) ∧
      fps1.signal &&& milkCheckConsts.FUNCTION_PARAMETER_STRUCT_SIGNAL_CHECKED = 0 ∧
      fps1.msgcnt = (passEntries milkCheckConsts emptyFPSEnv 0 sampleCheckFPS.parray).length ∧
      fps1.msgcnt ≤ milkCheckConsts.FPS_NB_MSG ∧
      ∀ k e, (passEntries milkCheckConsts emptyFPSEnv 0 sampleCheckFPS.parray)[k]? = some e →
        fps1.msgpindex.getD k 0 = e.1 ∧ fps1.msgcode.getD k 0 = e.2.1 ∧
        fps1.message.getD k "" =
          strTake e.2.2 (milkCheckConsts.FUNCTION_PARAMETER_STRUCT_MSG_SIZE - 1)) ∧
    (∃ fps1, functionparameter_CheckParametersAll milkCheckConsts emptyFPSEnv sampleCheckFPS
        = some fps1) :=
  ⟨(C16_pass_status milkCheckConsts emptyFPSEnv (by decide) sampleCheckFPS).1,
    (C16_pass_status milkCheckConsts emptyFPSEnv (by decide) sampleCheckFPS).2
      (by decide) (by decide)⟩

/-- C17. After every validator pass that returns, for every parameter of the structure:
the flag WRITESTATUS is set exactly when WRITERUN is set, if the status has RUN;
otherwise when WRITECONF is set, if the status has CONF; otherwise when WRITE is set.
The pass does not change the status bits RUN and CONF. -/
theorem C17_write_status (V : CheckConsts) (env : FPSEnv) (hV : V.WF)
    (fps fps1 : FUNCTION_PARAMETER_STRUCT) (i : Nat) (p : FUNCTION_PARAMETER)
    (hpass : functionparameter_CheckParametersAll V env fps = some fps1)
    (hp : fps.parray[i]? = some p) :
    ∃ p1, fps1.parray[i]? = some p1 ∧
      fps1.status &&& V.FUNCTION_PARAMETER_STRUCT_STATUS_RUN
        = fps.status &&& V.FUNCTION_PARAMETER_STRUCT_STATUS_RUN ∧
      fps1.status &&& V.FUNCTION_PARAMETER_STRUCT_STATUS_CONF
        = fps.status &&& V.FUNCTION_PARAMETER_STRUCT_STATUS_CONF ∧
      (p1.fpflag &&& V.FPFLAG_WRITESTATUS ≠ 0 ↔
        if fps1.status &&& V.FUNCTION_PARAMETER_STRUCT_STATUS_RUN ≠ 0 then
          p1.fpflag &&& V.FPFLAG_WRITERUN ≠ 0
        else if fps1.status &&& V.FUNCTION_PARAMETER_STRUCT_STATUS_CONF ≠ 0 then
          p1.fpflag &&& V.FPFLAG_WRITECONF ≠ 0
        else p1.fpflag &&& V.FPFLAG_WRITE ≠ 0) := by
  obtain ⟨h1, -⟩ := CheckParametersAll_some V env fps fps1 hpass
  subst h1
  have hVc := hV
  obtain ⟨-, -, -, -, -, -, -, -, h9, h10, h11, h12, h13, -⟩ := hVc
  have hW : ∀ a ∈ V.testedFlags, ∀ st q, (write_status V st q).fpflag &&& a = q.fpflag &&& a := by
    intro a ha st q
    obtain ⟨a1, -, a3⟩ := hV.tested a ha
    exact write_status_other V hV _ _ a a1 a3
  have hst : ∀ a, a < 2 ^ 64 → a &&& V.FUNCTION_PARAMETER_STRUCT_STATUS_CHECKOK = 0 →
      passStatus V env fps &&& a = fps.status &&& a := by
    intro a a1 a2
    unfold passStatus
    split
    · exact or_and_other _ _ _ a2
    · exact clearFlag_and_other _ _ _ h9 a1 a2
  have mW : V.FPFLAG_WRITE ∈ V.testedFlags := by simp [CheckConsts.testedFlags]
  have mC : V.FPFLAG_WRITECONF ∈ V.testedFlags := by simp [CheckConsts.testedFlags]
  have mR : V.FPFLAG_WRITERUN ∈ V.testedFlags := by simp [CheckConsts.testedFlags]
  refine ⟨write_status V (passStatus V env fps) (slotAfter V env p), ?_,
    hst _ h11 h13, hst _ h10 h12, ?_⟩
  · rw [passResult_parray, hp]; rfl
  · rw [write_status_bit V hV, hW _ mW, hW _ mC, hW _ mR]
    show writeOK V (passStatus V env fps) (slotAfter V env p) ≠ 0 ↔
      if passStatus V env fps &&& _ ≠ 0 then _ else if passStatus V env fps &&& _ ≠ 0 then _ else _
    unfold writeOK
    dsimp only
    by_cases r : passStatus V env fps &&& V.FUNCTION_PARAMETER_STRUCT_STATUS_RUN ≠ 0
    · rw [if_pos r, if_pos r]
      by_cases w : (slotAfter V env p).fpflag &&& V.FPFLAG_WRITERUN ≠ 0
      · rw [if_pos w]; exact ⟨fun _ => w, fun _ => Nat.one_ne_zero⟩
      · rw [if_neg w]; exact ⟨fun h => absurd rfl h, fun h => absurd h w⟩
    · rw [if_neg r, if_neg r]
      by_cases c : passStatus V env fps &&& V.FUNCTION_PARAMETER_STRUCT_STATUS_CONF ≠ 0
      · rw [if_pos c, if_pos c]
        by_cases w : (slotAfter V env p).fpflag &&& V.FPFLAG_WRITECONF ≠ 0
        · rw [if_pos w]; exact ⟨fun _ => w, fun _ => Nat.one_ne_zero⟩
        · rw [if_neg w]; exact ⟨fun h => absurd rfl h, fun h => absurd h w⟩
      · rw [if_neg c, if_neg c]
        by_cases w : (slotAfter V env p).fpflag &&& V.FPFLAG_WRITE ≠ 0
        · rw [if_pos w]; exact ⟨fun _ => w, fun _ => Nat.one_ne_zero⟩
        · rw [if_neg w]; exact ⟨fun h => absurd rfl h, fun h => absurd h w⟩

/-- Witness for C17: the first parameter of the sample structure, whose status has both
CONF and RUN. -/
theorem C17_write_status_witness :
    ∃ p1, (passResult milkCheckConsts emptyFPSEnv sampleCheckFPS).parray[0]? = some p1 ∧
      (p1.fpflag &&& milkCheckConsts.FPFLAG_WRITESTATUS ≠ 0 ↔
        p1.fpflag &&& milkCheckConsts.FPFLAG_WRITERUN ≠ 0) := by
  obtain ⟨p1, h1, h2, -, h7⟩ := C17_write_status milkCheckConsts emptyFPSEnv
    (by decide) sampleCheckFPS (passResult milkCheckConsts emptyFPSEnv sampleCheckFPS) 0
    (testSlot "fps.p" milkCheckConsts.FPTYPE_INT64
        (milkCheckConsts.FPFLAG_ACTIVE ||| milkCheckConsts.FPFLAG_USED |||
          milkCheckConsts.FPFLAG_MAXLIMIT ||| milkCheckConsts.FPFLAG_WRITECONF) 15 0 10 1)
    (by decide) (by decide)
  have hrun : (passResult milkCheckConsts emptyFPSEnv sampleCheckFPS).status &&&
      milkCheckConsts.FUNCTION_PARAMETER_STRUCT_STATUS_RUN ≠ 0 := by
    rw [h2]; decide
  rw [if_pos hrun] at h7
  exact ⟨p1, h1, h7⟩

/-- Counterexample for C17 as stated: the status has CONF and RUN, the parameter has
WRITECONF and not WRITERUN; after the pass the flag WRITESTATUS is clear, although
WRITECONF is set while the status has CONF. -/
theorem C17_write_status_counterexample :
    (functionparameter_CheckParametersAll milkCheckConsts emptyFPSEnv sampleCheckFPS).map
      (fun f => (f.status &&& milkCheckConsts.FUNCTION_PARAMETER_STRUCT_STATUS_CONF,
        f.status &&& milkCheckConsts.FUNCTION_PARAMETER_STRUCT_STATUS_RUN,
        (f.parray.take 1).map fun p =>
          (p.fpflag &&& milkCheckConsts.FPFLAG_WRITECONF,
           p.fpflag &&& milkCheckConsts.FPFLAG_WRITERUN,
           p.fpflag &&& milkCheckConsts.FPFLAG_WRITESTATUS)))
      = some (milkCheckConsts.FUNCTION_PARAMETER_STRUCT_STATUS_CONF,
          milkCheckConsts.FUNCTION_PARAMETER_STRUCT_STATUS_RUN,
          [(milkCheckConsts.FPFLAG_WRITECONF, 0, 0)]) := by
  decide

/-! ## The check "not initialized" and the bound of the message log -/

/-- The first message of an active, used slot with CHECKINIT that was never written. -/
theorem slotMsgs_notinit (V : CheckConsts) (env : FPSEnv) (p : FUNCTION_PARAMETER)
    (hact : p.fpflag &&& V.FPFLAG_ACTIVE ≠ 0) (hused : p.fpflag &&& V.FPFLAG_USED ≠ 0)
    (hinit : p.fpflag &&& V.FPFLAG_CHECKINIT ≠ 0) (hcnt : p.cnt0 = 0) :
    ∃ rest, slotMsgs V env p =
      (V.FPS_MSG_FLAG_NOTINITIALIZED ||| V.FPS_MSG_FLAG_ERROR, "Not initialized") :: rest := by
  unfold slotMsgs
  rw [if_neg (by rintro (h | h); exact hact h; exact hused h)]
  have h1 : initMsgs V p =
      [(V.FPS_MSG_FLAG_NOTINITIALIZED ||| V.FPS_MSG_FLAG_ERROR, "Not initialized")] := by
    unfold initMsgs
    rw [if_pos ⟨hinit, hcnt⟩]
  rw [h1]
  simp only [List.append_assoc, List.singleton_append, List.cons_append]
  exact ⟨_, rfl⟩

/-- The error count of a pass is at least the value `err` of each slot. -/
theorem slotErr_le_passErrcnt (V : CheckConsts) (env : FPSEnv) (ps : List FUNCTION_PARAMETER)
    (i : Nat) (p : FUNCTION_PARAMETER) (hp : ps[i]? = some p) :
    slotErr V env p ≤ passErrcnt V env ps := by
  unfold passErrcnt
  apply List.single_le_sum (fun _ _ => Nat.zero_le _)
  exact List.mem_map_of_mem _ (List.mem_iff_getElem?.mpr ⟨i, hp⟩)

/-- C15. A validator pass that returns checks every parameter with ACTIVE and USED: for
every slot with ACTIVE, USED and CHECKINIT set and `update_counter == 0`, the pass
records a message `Not initialized` for that slot, with the code NOTINITIALIZED | ERROR,
sets the flag ERROR of the slot, and counts the slot in `conferrcnt`, which is the
number of slots whose check returns an error. Every row of the message log belongs to
a slot that has ACTIVE and USED set. -/
theorem C15_not_initialized (V : CheckConsts) (env : FPSEnv) (hV : V.WF)
    (fps fps1 : FUNCTION_PARAMETER_STRUCT) (i : Nat) (p : FUNCTION_PARAMETER)
    (hpass : functionparameter_CheckParametersAll V env fps = some fps1)
    (hp : fps.parray[i]? = some p)
    (hact : p.fpflag &&& V.FPFLAG_ACTIVE ≠ 0) (hused : p.fpflag &&& V.FPFLAG_USED ≠ 0)
    (hinit : p.fpflag &&& V.FPFLAG_CHECKINIT ≠ 0) (hcnt : p.cnt0 = 0) :
    (∃ p1, fps1.parray[i]? = some p1 ∧ p1.fpflag &&& V.FPFLAG_ERROR ≠ 0) ∧
    (∃ k, k < fps1.msgcnt ∧ fps1.msgpindex.getD k 0 = i ∧
      fps1.msgcode.getD k 0 = V.FPS_MSG_FLAG_NOTINITIALIZED ||| V.FPS_MSG_FLAG_ERROR ∧
      fps1.message.getD k "" =
        strTake "Not initialized" (V.FUNCTION_PARAMETER_STRUCT_MSG_SIZE - 1)) ∧
    (fps1.conferrcnt = (fps.parray.map (slotErr V env)).sum ∧ slotErr V env p = 1 ∧
      0 < fps1.conferrcnt) ∧
    (∀ k, k < fps1.msgcnt → ∃ j q, fps.parray[j]? = some q ∧ fps1.msgpindex.getD k 0 = j ∧
      q.fpflag &&& V.FPFLAG_ACTIVE ≠ 0 ∧ q.fpflag &&& V.FPFLAG_USED ≠ 0) := by
  obtain ⟨h1, -⟩ := CheckParametersAll_some V env fps fps1 hpass
  subst h1
  obtain ⟨rest, hm⟩ := slotMsgs_notinit V env p hact hused hinit hcnt
  have herr : slotErr V env p = 1 := by
    unfold slotErr; rw [hm]; rfl
  refine ⟨⟨write_status V (passStatus V env fps) (slotAfter V env p), ?_, ?_⟩, ?_,
    ⟨rfl, herr, ?_⟩, ?_⟩
  · rw [passResult_parray, hp]; rfl
  · rw [write_status_other V hV _ _ _ hV.2.2.2.1 hV.2.2.2.2.2.2.1]
    exact (slotAfter_error V env hV p hact hused).mpr (by rw [hm]; simp)
  · have hmem := passEntries_mem V env fps.parray 0 i p
      (V.FPS_MSG_FLAG_NOTINITIALIZED ||| V.FPS_MSG_FLAG_ERROR, "Not initialized") hp
      (by rw [hm]; exact List.mem_cons_self _ _)
    obtain ⟨k, hk⟩ := List.getElem?_of_mem hmem
    obtain ⟨a, b, c, d⟩ := passResult_log V env fps k _ hk
    exact ⟨k, a, by rw [b, Nat.zero_add], c, d⟩
  · show 0 < passErrcnt V env fps.parray
    have := slotErr_le_passErrcnt V env fps.parray i p hp
    omega
  · intro k hk
    rw [passResult_msgcnt] at hk
    have hk2 : (passEntries V env 0 fps.parray)[k]? = some ((passEntries V env 0 fps.parray)[k]) :=
      List.getElem?_eq_getElem hk
    obtain ⟨j, q, hq, hj, hmq⟩ := passEntries_of_mem V env fps.parray 0 _
      (List.getElem_mem hk)
    refine ⟨j, q, hq, ?_, ?_⟩
    · rw [(passResult_log V env fps k _ hk2).2.1, hj, Nat.zero_add]
    · unfold slotMsgs at hmq
      by_cases hc : q.fpflag &&& V.FPFLAG_ACTIVE = 0 ∨ q.fpflag &&& V.FPFLAG_USED = 0
      · rw [if_pos hc] at hmq
        exact absurd hmq (List.not_mem_nil _)
      · exact ⟨fun h => hc (Or.inl h), fun h => hc (Or.inr h)⟩

/-- Witness for C15: the second parameter of the sample structure. -/
theorem C15_not_initialized_witness :
    (∃ p1, (passResult milkCheckConsts emptyFPSEnv sampleCheckFPS).parray[1]? = some p1 ∧
      p1.fpflag &&& milkCheckConsts.FPFLAG_ERROR ≠ 0) ∧
    (∃ k, k < (passResult milkCheckConsts emptyFPSEnv sampleCheckFPS).msgcnt ∧
      (passResult milkCheckConsts emptyFPSEnv sampleCheckFPS).msgpindex.getD k 0 = 1 ∧
      (passResult milkCheckConsts emptyFPSEnv sampleCheckFPS).message.getD k "" =
        "Not initialized") := by
  obtain ⟨h1, ⟨k, h2, h3, -, h4⟩, -⟩ := C15_not_initialized milkCheckConsts emptyFPSEnv
    (by decide) sampleCheckFPS (passResult milkCheckConsts emptyFPSEnv sampleCheckFPS) 1
    (testSlot "fps.q" milkCheckConsts.FPTYPE_INT64
        (milkCheckConsts.FPFLAG_ACTIVE ||| milkCheckConsts.FPFLAG_USED |||
          milkCheckConsts.FPFLAG_CHECKINIT) 0 0 0 0)
    (by decide) (by decide) (by decide) (by decide) (by decide) (by decide)
  exact ⟨h1, k, h2, h3, h4.trans (by decide)⟩

/-- Counterexample for C15 as stated: a slot with ACTIVE and CHECKINIT that was never
written, without the flag USED. The pass records no message, leaves the flag ERROR of
the slot clear and `conferrcnt = 0`. -/
theorem C15_not_initialized_counterexample :
    (functionparameter_CheckParametersAll milkCheckConsts emptyFPSEnv
        (testFPS 0 [testSlot "fps.a" milkCheckConsts.FPTYPE_INT64
          (milkCheckConsts.FPFLAG_ACTIVE ||| milkCheckConsts.FPFLAG_CHECKINIT) 0 0 0 0])).map
      (fun f => (f.msgcnt, f.conferrcnt,
        f.parray.map fun p => p.fpflag &&& milkCheckConsts.FPFLAG_ERROR))
      = some (0, 0, [0]) := by
  decide

/-- The check of a slot with ACTIVE, USED and CHECKINIT that was never written, when the
message arrays are full (`msgcnt` is the number of rows): the message is written
past the last row. -/
theorem CheckParameter_full (V : CheckConsts) (env : FPSEnv) (fps : FUNCTION_PARAMETER_STRUCT)
    (i : Nat) (p : FUNCTION_PARAMETER) (hp : fps.parray[i]? = some p)
    (hact : p.fpflag &&& V.FPFLAG_ACTIVE ≠ 0) (hused : p.fpflag &&& V.FPFLAG_USED ≠ 0)
    (hinit : p.fpflag &&& V.FPFLAG_CHECKINIT ≠ 0) (hcnt : p.cnt0 = 0)
    (hfull : fps.msgcnt = V.FPS_NB_MSG) :
    functionparameter_CheckParameter V env fps i = none := by
  obtain ⟨rest, hm⟩ := slotMsgs_notinit V env p hact hused hinit hcnt
  by_cases hl : logReturns V env p
  · rw [CheckParameter_eq V env fps i p hp (by omega) hl, hm, if_neg]
    simp only [List.length_cons]
    omega
  · exact CheckParameter_log_none V env fps i p hp hl

/-- C19. With room for two messages and three parameters that fail the check "not
initialized": the first two checks fill the message arrays (`msgcnt = 2`, the number
of rows), the third check writes its message into row 2, past the last row, and so does
the pass; the keywords of the three parameters can be formatted for the log. -/
theorem C19_message_log_overrun :
    ((functionparameter_CheckParameter smallCheckConsts emptyFPSEnv uninitFPS 0).bind
        (fun r => functionparameter_CheckParameter smallCheckConsts emptyFPSEnv r.1 1)).map
      (fun r => (r.1.msgcnt, r.1.msgpindex, r.1.message)) =
      some (2, [0, 1], ["Not initialized", "Not initialized"]) ∧
    smallCheckConsts.FPS_NB_MSG = 2 ∧
    ((functionparameter_CheckParameter smallCheckConsts emptyFPSEnv uninitFPS 0).bind
        (fun r => functionparameter_CheckParameter smallCheckConsts emptyFPSEnv r.1 1)).bind
      (fun r => msg_write smallCheckConsts r.1
        (2, smallCheckConsts.FPS_MSG_FLAG_NOTINITIALIZED ||| smallCheckConsts.FPS_MSG_FLAG_ERROR,
          "Not initialized")) = none ∧
    ((functionparameter_CheckParameter smallCheckConsts emptyFPSEnv uninitFPS 0).bind
        (fun r => functionparameter_CheckParameter smallCheckConsts emptyFPSEnv r.1 1)).bind
      (fun r => functionparameter_CheckParameter smallCheckConsts emptyFPSEnv r.1 2) = none ∧
    functionparameter_CheckParametersAll smallCheckConsts emptyFPSEnv uninitFPS = none ∧
    uninitFPS.parray.length = 3 ∧
    ∀ p ∈ uninitFPS.parray, logReturns smallCheckConsts emptyFPSEnv p := by
  refine ⟨by decide, rfl, by decide, by decide, by decide, by decide, by decide⟩

/-! ## Two passes in a row -/

/-- The messages of a slot depend on its type, values and update counter, on the flags
that the checks test, and on the answer of the stream loader. -/
theorem slotMsgs_congr (V : CheckConsts) (env : FPSEnv) (p q : FUNCTION_PARAMETER)
    (hflag : ∀ s f, (env.LoadMemStream s f).fpflag = f)
    (ht : q.type = p.type) (hv : q.val = p.val) (hc : q.cnt0 = p.cnt0)
    (hf : ∀ a ∈ V.testedFlags, q.fpflag &&& a = p.fpflag &&& a)
    (hl : (env.LoadMemStream p.val.string0 q.fpflag).imLOC =
      (env.LoadMemStream p.val.string0 p.fpflag).imLOC) :
    slotMsgs V env q = slotMsgs V env p := by
  have f1 := hf V.FPFLAG_ACTIVE (by simp [CheckConsts.testedFlags])
  have f2 := hf V.FPFLAG_USED (by simp [CheckConsts.testedFlags])
  have f3 := hf V.FPFLAG_CHECKINIT (by simp [CheckConsts.testedFlags])
  have f4 := hf V.FPFLAG_MINLIMIT (by simp [CheckConsts.testedFlags])
  have f5 := hf V.FPFLAG_MAXLIMIT (by simp [CheckConsts.testedFlags])
  have f6 := hf V.FPFLAG_FILE_RUN_REQUIRED (by simp [CheckConsts.testedFlags])
  have f7 := hf V.FPFLAG_FPS_RUN_REQUIRED (by simp [CheckConsts.testedFlags])
  have f8 := hf V.FPFLAG_STREAM_RUN_REQUIRED (by simp [CheckConsts.testedFlags])
  have e1 : initMsgs V q = initMsgs V p := by
    unfold initMsgs; simp only [f3, hc]
  have e2 : minMsgs V env q = minMsgs V env p := by
    unfold minMsgs; simp only [f4, ht, hv]
  have e3 : maxMsgs V env q = maxMsgs V env p := by
    unfold maxMsgs; simp only [f5, ht, hv]
  have e4 : fileMsgs V env q = fileMsgs V env p := by
    unfold fileMsgs; simp only [f6, ht, hv]
  have e5 : fpsnameMsgs V env q = fpsnameMsgs V env p := by
    unfold fpsnameMsgs; simp only [f7, ht, hv]
  have e6 : streamMsgs V env q = streamMsgs V env p := by
    unfold streamMsgs; simp only [hflag, f8, ht, hv, hl]
  unfold slotMsgs
  simp only [f1, f2, e1, e2, e3, e4, e5, e6]

/-- The slot that a pass leaves has the messages of the slot before the pass, when the
stream loader leaves the flag word as it is and its answer does not depend on the
flags ERROR and WRITESTATUS. -/
theorem slotMsgs_after (V : CheckConsts) (env : FPSEnv) (hV : V.WF)
    (hflag : ∀ s f, (env.LoadMemStream s f).fpflag = f)
    (hloc : ∀ s f m, m = V.FPFLAG_ERROR ∨ m = V.FPFLAG_WRITESTATUS →
      (env.LoadMemStream s (f ||| m)).imLOC = (env.LoadMemStream s f).imLOC ∧
      (env.LoadMemStream s (clearFlag f m)).imLOC = (env.LoadMemStream s f).imLOC)
    (st : Nat) (p : FUNCTION_PARAMETER) :
    slotMsgs V env (write_status V st (slotAfter V env p)) = slotMsgs V env p ∧
    ∀ a ∈ V.testedFlags, (write_status V st (slotAfter V env p)).fpflag &&& a = p.fpflag &&& a := by
  have hVc := hV
  obtain ⟨-, -, -, h4, -, h6, -⟩ := hVc
  have hsf : streamFlag V env p = p.fpflag := by
    unfold streamFlag
    split
    · exact hflag _ _
    · rfl
  have hA : (∀ a ∈ V.testedFlags, (slotAfter V env p).fpflag &&& a = p.fpflag &&& a) ∧
      (env.LoadMemStream p.val.string0 (slotAfter V env p).fpflag).imLOC =
        (env.LoadMemStream p.val.string0 p.fpflag).imLOC := by
    unfold slotAfter
    split
    · exact ⟨fun _ _ => rfl, rfl⟩
    · show (∀ a ∈ V.testedFlags, (if slotErr V env p = 1 then _ else _) &&& a = _) ∧
        (env.LoadMemStream p.val.string0 (if slotErr V env p = 1 then _ else _)).imLOC = _
      rw [hsf]
      split
      · exact ⟨fun a ha => or_and_other _ _ _ (hV.tested a ha).2.1,
          (hloc _ _ _ (Or.inl rfl)).1⟩
      · exact ⟨fun a ha => clearFlag_and_other _ _ _ h4 (hV.tested a ha).1 (hV.tested a ha).2.1,
          (hloc _ _ _ (Or.inl rfl)).2⟩
  have hB : (∀ a ∈ V.testedFlags,
        (write_status V st (slotAfter V env p)).fpflag &&& a = p.fpflag &&& a) ∧
      (env.LoadMemStream p.val.string0 (write_status V st (slotAfter V env p)).fpflag).imLOC =
        (env.LoadMemStream p.val.string0 p.fpflag).imLOC := by
    constructor
    · intro a ha
      rw [write_status_other V hV _ _ a (hV.tested a ha).1 (hV.tested a ha).2.2]
      exact hA.1 a ha
    · rw [← hA.2]
      unfold write_status
      split
      · exact (hloc _ _ _ (Or.inr rfl)).2
      · exact (hloc _ _ _ (Or.inr rfl)).1
  obtain ⟨w1, w2, w3, -⟩ := write_status_fields V st (slotAfter V env p)
  obtain ⟨s1, s2, s3, -⟩ := slotAfter_fields V env p
  exact ⟨slotMsgs_congr V env p _ hflag (w1.trans s1) (w2.trans s2) (w3.trans s3) hB.1 hB.2,
    hB.1⟩

/-- The entries and the error count of a pass depend on the messages of the slots. -/
theorem passEntries_congr (V : CheckConsts) (env : FPSEnv) (f : FUNCTION_PARAMETER → FUNCTION_PARAMETER)
    (hf : ∀ p, slotMsgs V env (f p) = slotMsgs V env p) (ps : List FUNCTION_PARAMETER) (k : Nat) :
    passEntries V env k (ps.map f) = passEntries V env k ps ∧
    passErrcnt V env (ps.map f) = passErrcnt V env ps := by
  induction ps generalizing k with
  | nil => exact ⟨rfl, rfl⟩
  | cons q qs ih =>
    obtain ⟨h1, h2⟩ := ih (k + 1)
    constructor
    · simp only [List.map_cons, passEntries, hf, h1]
    · unfold passErrcnt at h2 ⊢
      simp only [List.map_cons, List.sum_cons, h2, slotErr, hf]

/-- C18. Validator idempotence. With the answers of the probes held fixed (the
environment `env`), a stream loader that leaves the flag word as it is and whose answer
does not depend on the flags ERROR and WRITESTATUS: when a pass returns, a second pass
right after it returns too, with the same `msgcnt`, the same `conferrcnt` and the same
flag WRITESTATUS on every parameter. -/
theorem C18_validator_idempotent (V : CheckConsts) (env : FPSEnv) (hV : V.WF)
    (hflag : ∀ s f, (env.LoadMemStream s f).fpflag = f)
    (hloc : ∀ s f m, m = V.FPFLAG_ERROR ∨ m = V.FPFLAG_WRITESTATUS →
      (env.LoadMemStream s (f ||| m)).imLOC = (env.LoadMemStream s f).imLOC ∧
      (env.LoadMemStream s (clearFlag f m)).imLOC = (env.LoadMemStream s f).imLOC)
    (fps fps1 : FUNCTION_PARAMETER_STRUCT)
    (hpass : functionparameter_CheckParametersAll V env fps = some fps1) :
    ∃ fps2, functionparameter_CheckParametersAll V env fps1 = some fps2 ∧
      fps2.msgcnt = fps1.msgcnt ∧ fps2.conferrcnt = fps1.conferrcnt ∧
      fps2.parray.length = fps1.parray.length ∧
      ∀ (i : Nat) (p1 p2 : FUNCTION_PARAMETER),
        fps1.parray[i]? = some p1 → fps2.parray[i]? = some p2 →
        p2.fpflag &&& V.FPFLAG_WRITESTATUS = p1.fpflag &&& V.FPFLAG_WRITESTATUS := by
  obtain ⟨h1, h2, hkw⟩ := CheckParametersAll_some V env fps fps1 hpass
  subst h1
  have hVc := hV
  obtain ⟨-, -, -, -, h5, h6, -, -, h9, h10, h11, h12, h13, -, -, -, -, h18⟩ := hVc
  have hpar : (passResult V env fps).parray =
      fps.parray.map fun p => write_status V (passStatus V env fps) (slotAfter V env p) := rfl
  obtain ⟨he, hc⟩ := passEntries_congr V env
    (fun p => write_status V (passStatus V env fps) (slotAfter V env p))
    (fun p => (slotMsgs_after V env hV hflag hloc _ p).1) fps.parray 0
  rw [← hpar] at he hc
  have hpass2 : functionparameter_CheckParametersAll V env (passResult V env fps) =
      some (passResult V env (passResult V env fps)) := by
    have hkw2 : ∀ q ∈ (passResult V env fps).parray, logReturns V env q := by
      intro q hq
      rw [hpar] at hq
      obtain ⟨p, hpm, hpq⟩ := List.mem_map.mp hq
      have hk : q.keywordfull = p.keywordfull := by
        rw [← hpq]
        exact (write_status_fields V _ _).2.2.2.trans (slotAfter_fields V env p).2.2.2
      have hf : q.fpflag &&& V.FPFLAG_ACTIVE = p.fpflag &&& V.FPFLAG_ACTIVE := by
        rw [← hpq]
        exact (slotMsgs_after V env hV hflag hloc _ p).2 _
          (by simp [CheckConsts.testedFlags])
      unfold logReturns
      rw [hk, hf]
      exact hkw p hpm
    rw [CheckParametersAll_eq, if_neg (by omega), he, if_pos ⟨hkw2, h2⟩]
  have hst : ∀ a, a < 2 ^ 64 → a &&& V.FUNCTION_PARAMETER_STRUCT_STATUS_CHECKOK = 0 →
      ∀ g, passStatus V env g &&& a = g.status &&& a := by
    intro a a1 a2 g
    unfold passStatus
    split
    · exact or_and_other _ _ _ a2
    · exact clearFlag_and_other _ _ _ h9 a1 a2
  have hstatus : (passResult V env fps).status = passStatus V env fps := rfl
  have hW : ∀ q q2 : FUNCTION_PARAMETER, ∀ s s2 : Nat,
      (∀ a ∈ V.testedFlags, q2.fpflag &&& a = q.fpflag &&& a) →
      s2 &&& V.FUNCTION_PARAMETER_STRUCT_STATUS_CONF = s &&& V.FUNCTION_PARAMETER_STRUCT_STATUS_CONF →
      s2 &&& V.FUNCTION_PARAMETER_STRUCT_STATUS_RUN = s &&& V.FUNCTION_PARAMETER_STRUCT_STATUS_RUN →
      writeOK V s2 q2 = writeOK V s q := by
    intro q q2 s s2 hq c r
    unfold writeOK
    simp only [hq _ (show V.FPFLAG_WRITE ∈ V.testedFlags by simp [CheckConsts.testedFlags]),
      hq _ (show V.FPFLAG_WRITECONF ∈ V.testedFlags by simp [CheckConsts.testedFlags]),
      hq _ (show V.FPFLAG_WRITERUN ∈ V.testedFlags by simp [CheckConsts.testedFlags]), c, r]
  have hbit : ∀ s (q : FUNCTION_PARAMETER), (write_status V s q).fpflag &&& V.FPFLAG_WRITESTATUS =
      if writeOK V s q = 0 then 0 else V.FPFLAG_WRITESTATUS := by
    intro s q
    unfold write_status
    split
    · exact clearFlag_and_mask _ _ h6
    · exact or_and_self_mask _ _
  refine ⟨passResult V env (passResult V env fps), hpass2, ?_, ?_, ?_, ?_⟩
  · rw [passResult_msgcnt, passResult_msgcnt, he]
  · show passErrcnt V env (passResult V env fps).parray = passErrcnt V env fps.parray
    exact hc
  · show (List.map _ (passResult V env fps).parray).length = _
    rw [List.length_map]
  · intro i p1 p2 e1 e2
    rw [passResult_parray, e1] at e2
    simp only [Option.map_some', Option.some.injEq] at e2
    subst e2
    rw [passResult_parray] at e1
    cases hp : fps.parray[i]? with
    | none => rw [hp] at e1; simp at e1
    | some p =>
      rw [hp] at e1
      simp only [Option.map_some', Option.some.injEq] at e1
      subst e1
      rw [hbit, hbit]
      have hq := (slotMsgs_after V env hV hflag hloc (passStatus V env fps) p).2
      have hq2 := (slotMsgs_after V env hV hflag hloc (passStatus V env (passResult V env fps))
        (write_status V (passStatus V env fps) (slotAfter V env p))).2
      have hk : ∀ a ∈ V.testedFlags,
          (slotAfter V env (write_status V (passStatus V env fps) (slotAfter V env p))).fpflag &&& a
            = (slotAfter V env p).fpflag &&& a := by
        intro a ha
        have a1 := (hV.tested a ha).1
        have a3 := (hV.tested a ha).2.2
        have x1 := hq2 a ha
        rw [write_status_other V hV _ _ a a1 a3] at x1
        have x2 := hq a ha
        rw [write_status_other V hV _ _ a a1 a3] at x2
        rw [x1, hq a ha, x2]
      rw [hW (slotAfter V env p) _ (passStatus V env fps) _ hk
        ((hst _ h10 h12 _).trans (by rw [hstatus]))
        ((hst _ h11 h13 _).trans (by rw [hstatus]))]

/-- Witness for C18: two passes over the sample structure. -/
theorem C18_validator_idempotent_witness :
    ∃ fps2, functionparameter_CheckParametersAll milkCheckConsts emptyFPSEnv
        (passResult milkCheckConsts emptyFPSEnv sampleCheckFPS) = some fps2 ∧
      fps2.msgcnt = 2 ∧ fps2.conferrcnt = 2 := by
  obtain ⟨fps2, h1, h2, h3, -⟩ := C18_validator_idempotent milkCheckConsts emptyFPSEnv
    (by decide) (fun _ _ => rfl) (fun _ _ _ _ => ⟨rfl, rfl⟩) sampleCheckFPS
    (passResult milkCheckConsts emptyFPSEnv sampleCheckFPS) (by decide)
  exact ⟨fps2, h1, h2.trans (by decide), h3.trans (by decide)⟩

/-! ## The update counter -/

/-- C11. The stand-alone setter `function_parameter_SetValue_int64` writes the current
value of a parameter and leaves its update counter as it is: called with the keyword
`s0.s1.s2.s3.s4.s5.s6.s7.s8.fps9.x` and the value 7 on the structure `fps9`, whose
parameter of that keyword has the value 0 and the counter 1, it returns with the
value 7 and the counter 1. -/
theorem C11_SetValue_int64_keeps_counter :
    deepFPS.parray.map (fun p => (p.keywordfull, p.val.l0, p.cnt0))
      = [("s0.s1.s2.s3.s4.s5.s6.s7.s8.fps9.x", 0, 1)] ∧
    (function_parameter_SetValue_int64 milkFPSConsts deepShm (List.replicate 20 "")
        "s0.s1.s2.s3.s4.s5.s6.s7.s8.fps9.x" 7).map
      (fun r => (r.1, r.2.parray.map fun p => (p.keywordfull, p.val.l0, p.cnt0)))
      = some ("fps9", [("s0.s1.s2.s3.s4.s5.s6.s7.s8.fps9.x", 7, 1)]) := by
  refine ⟨by decide, by decide⟩

/-! ## The commands `setval` and `getval` -/

/-- C12. The command `setval` writes the parameter that `functionparameter_GetParamIndex`
finds for the entry name, which need not be the parameter that the keyword tree
resolves. The structure `fps` has the int64 parameters `fps.delayus` in slot 0 and
`fps.delay` in slot 1, both with the value 0 and the update counter 1. The command
`setval fps.delay 5` completes with CMDOK; it leaves the value 5 and the counter 2
in slot 0, and the value 0 and the counter 1 in slot 1. The command `getval fps.delay`
that follows completes with CMDOK and reports the values `0 0 0 0` for `fps.delay`. -/
theorem C12_setval_getval_other_slot :
    (delayCTRL.fps.map fun f => f.parray.map fun p => (p.keywordfull, p.val.l0, p.cnt0))
      = [[("fps.delayus", 0, 1), ("fps.delay", 0, 1)]] ∧
    (functionparameter_FPSprocess_cmdline milkCTRLConsts stdCTRLEnv zeroLocals
        "setval fps.delay 5" delayCTRL 0).map
      (fun r => r.2.1 &&& milkCTRLConsts.FPSTASK_STATUS_CMDOK)
      = some milkCTRLConsts.FPSTASK_STATUS_CMDOK ∧
    (functionparameter_FPSprocess_cmdline milkCTRLConsts stdCTRLEnv zeroLocals
        "setval fps.delay 5" delayCTRL 0).map
      (fun r => r.1.fps.map fun f => f.parray.map fun p => (p.keywordfull, p.val.l0, p.cnt0))
      = some [[("fps.delayus", 5, 2), ("fps.delay", 0, 1)]] ∧
    ((functionparameter_FPSprocess_cmdline milkCTRLConsts stdCTRLEnv zeroLocals
        "setval fps.delay 5" delayCTRL 0).bind fun r =>
      functionparameter_FPSprocess_cmdline milkCTRLConsts stdCTRLEnv zeroLocals
        "getval fps.delay" r.1 0).map
      (fun r => r.2.1 &&& milkCTRLConsts.FPSTASK_STATUS_CMDOK)
      = some milkCTRLConsts.FPSTASK_STATUS_CMDOK ∧
    ((functionparameter_FPSprocess_cmdline milkCTRLConsts stdCTRLEnv zeroLocals
        "setval fps.delay 5" delayCTRL 0).bind fun r =>
      functionparameter_FPSprocess_cmdline milkCTRLConsts stdCTRLEnv zeroLocals
        "getval fps.delay" r.1 0).map
      (fun r => r.1.outlog.filter fun e => e.1 = "GETVAL")
      = some [("GETVAL", padRight "fps.delay" 40 ++ " INT64      0 0 0 0")] := by
  refine ⟨by decide, by decide, by decide, by decide, by decide⟩

/-! ## The scan of one queue -/

/-- The result of the loop that finds the task to execute: with no task found so far
(`cmdindexExec` is `none`), the result is `none` exactly when no task of the queue has
an `inputindex` below the start value, and otherwise it is the first task of the
queue among those with the smallest `inputindex`. -/
theorem scan_queue_spec (T : CTRLConsts) (qi : Nat) (ts : List FPSCTRL_TASK_ENTRY) :
    ∀ (k imin : Nat) (r : Option Nat),
      (scan_queue T qi ts k imin r = r ∧
        ∀ (j : Nat) (t1 : FPSCTRL_TASK_ENTRY),
          ts[j]? = some t1 → inQueue T qi t1 → imin ≤ t1.inputindex) ∨
      (∃ (i : Nat) (t : FPSCTRL_TASK_ENTRY),
        ts[i]? = some t ∧ scan_queue T qi ts k imin r = some (k + i) ∧
        inQueue T qi t ∧ t.inputindex < imin ∧
        ∀ (j : Nat) (t1 : FPSCTRL_TASK_ENTRY), ts[j]? = some t1 → inQueue T qi t1 →
          t.inputindex ≤ t1.inputindex ∧ (t1.inputindex = t.inputindex → i ≤ j)) := by
  induction ts with
  | nil =>
    intro k imin r
    left
    exact ⟨rfl, fun j t1 h => by simp at h⟩
  | cons a ts ih =>
    intro k imin r
    by_cases hc : a.status &&& T.FPSTASK_STATUS_ACTIVE ≠ 0 ∧ a.queue = qi ∧ a.inputindex < imin
    · have e : scan_queue T qi (a :: ts) k imin r =
          scan_queue T qi ts (k + 1) a.inputindex (some k) := by
        simp only [scan_queue, if_pos hc]
      right
      rcases ih (k + 1) a.inputindex (some k) with ⟨h1, h2⟩ | ⟨i, t, h1, h2, h3, h4, h5⟩
      · refine ⟨0, a, List.getElem?_cons_zero, by rw [e, h1]; rfl, ⟨hc.1, hc.2.1⟩, hc.2.2, ?_⟩
        intro j t1 hj hq
        cases j with
        | zero =>
          simp only [List.getElem?_cons_zero, Option.some.injEq] at hj
          subst hj
          exact ⟨le_refl _, fun _ => le_refl _⟩
        | succ j =>
          rw [List.getElem?_cons_succ] at hj
          exact ⟨h2 j t1 hj hq, fun _ => Nat.zero_le _⟩
      · refine ⟨i + 1, t, by rw [List.getElem?_cons_succ]; exact h1,
          by rw [e, h2]; congr 1; omega, h3, by omega, ?_⟩
        intro j t1 hj hq
        cases j with
        | zero =>
          simp only [List.getElem?_cons_zero, Option.some.injEq] at hj
          subst hj
          exact ⟨by omega, fun h => by omega⟩
        | succ j =>
          rw [List.getElem?_cons_succ] at hj
          have := h5 j t1 hj hq
          exact ⟨this.1, fun h => by have := this.2 h; omega⟩
    · have e : scan_queue T qi (a :: ts) k imin r = scan_queue T qi ts (k + 1) imin r := by
        simp only [scan_queue, if_neg hc]
      have ha : inQueue T qi a → imin ≤ a.inputindex := by
        intro hq
        by_contra hlt
        exact hc ⟨hq.1, hq.2, by omega⟩
      rcases ih (k + 1) imin r with ⟨h1, h2⟩ | ⟨i, t, h1, h2, h3, h4, h5⟩
      · left
        refine ⟨by rw [e, h1], ?_⟩
        intro j t1 hj hq
        cases j with
        | zero =>
          simp only [List.getElem?_cons_zero, Option.some.injEq] at hj
          subst hj
          exact ha hq
        | succ j =>
          rw [List.getElem?_cons_succ] at hj
          exact h2 j t1 hj hq
      · right
        refine ⟨i + 1, t, by rw [List.getElem?_cons_succ]; exact h1,
          by rw [e, h2]; congr 1; omega, h3, h4, ?_⟩
        intro j t1 hj hq
        cases j with
        | zero =>
          simp only [List.getElem?_cons_zero, Option.some.injEq] at hj
          subst hj
          have := ha hq
          exact ⟨by omega, fun h => by omega⟩
        | succ j =>
          rw [List.getElem?_cons_succ] at hj
          have := h5 j t1 hj hq
          exact ⟨this.1, fun h => by have := this.2 h; omega⟩

/-- The scan of a queue from the start: `none` when the queue has no head, and the
head of the queue otherwise. -/
theorem scan_queue_head (T : CTRLConsts) (qi : Nat) (tasks : List FPSCTRL_TASK_ENTRY) :
    (scan_queue T qi tasks 0 T.UINT_MAX none = none ∧ ∀ c, ¬ queueHead T tasks qi c) ∨
    (∃ c, scan_queue T qi tasks 0 T.UINT_MAX none = some c ∧ queueHead T tasks qi c) := by
  rcases scan_queue_spec T qi tasks 0 T.UINT_MAX none with ⟨h1, h2⟩ | ⟨i, t, h1, h2, h3, h4, h5⟩
  · left
    refine ⟨h1, ?_⟩
    rintro c ⟨t, ht, hq, hlt, -⟩
    have := h2 c t ht hq
    omega
  · right
    exact ⟨i, by rw [h2, Nat.zero_add], t, h1, h3, h4, h5⟩

/-- A queue has at most one head. -/
theorem queueHead_unique (T : CTRLConsts) (tasks : List FPSCTRL_TASK_ENTRY) (q c c1 : Nat)
    (h : queueHead T tasks q c) (h1 : queueHead T tasks q c1) : c = c1 := by
  obtain ⟨t, ht, hq, -, hmin⟩ := h
  obtain ⟨t1, ht1, hq1, -, hmin1⟩ := h1
  have a := hmin c1 t1 ht1 hq1
  have b := hmin1 c t ht hq
  have e : t1.inputindex = t.inputindex := by omega
  have := a.2 e
  have := b.2 e.symm
  omega

/-! ## Completions -/

/-- The facts on the status bits of a task. -/
theorem CTRLConsts.WF.taskBits {T : CTRLConsts} (hT : T.WF) :
    T.FPSTASK_STATUS_ACTIVE < 2 ^ 64 ∧ T.FPSTASK_STATUS_RUNNING < 2 ^ 64 ∧
    T.FPSTASK_STATUS_RUNNING &&& T.FPSTASK_STATUS_ACTIVE = 0 ∧
    T.FPSTASK_STATUS_ACTIVE ≠ 0 ∧ T.FPSTASK_STATUS_RUNNING ≠ 0 := by
  obtain ⟨-, h2, h3, -⟩ := hT
  have hA := h3 T.FPSTASK_STATUS_ACTIVE (by simp [CTRLConsts.taskStatusBits])
  have hR := h3 T.FPSTASK_STATUS_RUNNING (by simp [CTRLConsts.taskStatusBits])
  simp only [CTRLConsts.taskStatusBits, List.pairwise_cons] at h2
  have h := h2.1 T.FPSTASK_STATUS_RUNNING (by simp)
  refine ⟨hA.2, hR.2, ?_, hA.1, hR.1⟩
  rw [Nat.land_comm]; exact h

/-- A completed task that differs from the task it comes from has neither the bit
ACTIVE nor the bit RUNNING; the other fields but the completion time are those of the
task it comes from. -/
theorem completedFrom_fields (T : CTRLConsts) (hT : T.WF) (t0 t1 : FPSCTRL_TASK_ENTRY)
    (h : completedFrom T t0 t1) :
    t1.queue = t0.queue ∧ t1.inputindex = t0.inputindex ∧ t1.flag = t0.flag ∧
    t1.fpsindex = t0.fpsindex ∧ t1.cmdstring = t0.cmdstring ∧
    (t1 = t0 ∨ (t1.status &&& T.FPSTASK_STATUS_ACTIVE = 0 ∧
      t1.status &&& T.FPSTASK_STATUS_RUNNING = 0 ∧
      t0.status &&& T.FPSTASK_STATUS_ACTIVE ≠ 0 ∧ t0.status &&& T.FPSTASK_STATUS_RUNNING ≠ 0)) := by
  obtain ⟨hA, hR, hRA, -, -⟩ := hT.taskBits
  rcases h with h | ⟨a, r, ct, h⟩
  · subst h
    exact ⟨rfl, rfl, rfl, rfl, rfl, Or.inl rfl⟩
  · subst h
    refine ⟨rfl, rfl, rfl, rfl, rfl, Or.inr ⟨clearFlag_and_mask _ _ hA, ?_, a, r⟩⟩
    show clearFlag (clearFlag t0.status T.FPSTASK_STATUS_RUNNING) T.FPSTASK_STATUS_ACTIVE
      &&& T.FPSTASK_STATUS_RUNNING = 0
    rw [clearFlag_and_other _ _ _ hA hR hRA]
    exact clearFlag_and_mask _ _ hR

/-- A task in a queue after completions was the same task before. -/
theorem completedFrom_inQueue (T : CTRLConsts) (hT : T.WF) (q : Nat)
    (t0 t1 : FPSCTRL_TASK_ENTRY) (h : completedFrom T t0 t1) (hq : inQueue T q t1) : t1 = t0 := by
  obtain ⟨-, -, -, -, -, h6⟩ := completedFrom_fields T hT t0 t1 h
  rcases h6 with h6 | h6
  · exact h6
  · exact absurd h6.1 hq.1

theorem completedFrom_trans (T : CTRLConsts) (hT : T.WF) (t0 t1 t2 : FPSCTRL_TASK_ENTRY)
    (h1 : completedFrom T t0 t1) (h2 : completedFrom T t1 t2) : completedFrom T t0 t2 := by
  rcases h2 with h2 | ⟨a, b, c⟩
  · subst h2; exact h1
  · obtain ⟨-, -, -, -, -, h6⟩ := completedFrom_fields T hT t0 t1 h1
    rcases h6 with h6 | h6
    · subst h6; exact Or.inr ⟨a, b, c⟩
    · exact absurd h6.1 a

theorem completionsOn_refl (T : CTRLConsts) (P : Nat → Prop) (tasks : List FPSCTRL_TASK_ENTRY) :
    completionsOn T P tasks tasks :=
  ⟨rfl, fun _ t0 h => ⟨t0, h, Or.inl rfl, fun _ => rfl⟩⟩

theorem completionsOn_trans (T : CTRLConsts) (hT : T.WF) (P : Nat → Prop)
    (l0 l1 l2 : List FPSCTRL_TASK_ENTRY)
    (h1 : completionsOn T P l0 l1) (h2 : completionsOn T P l1 l2) : completionsOn T P l0 l2 := by
  refine ⟨h2.1.trans h1.1, ?_⟩
  intro j t0 h
  obtain ⟨t1, a1, a2, a3⟩ := h1.2 j t0 h
  obtain ⟨t2, b1, b2, b3⟩ := h2.2 j t1 a1
  refine ⟨t2, b1, completedFrom_trans T hT t0 t1 t2 a2 b2, ?_⟩
  intro hne
  have e := a3 hne
  subst e
  exact b3 hne

theorem completionsOn_mono (T : CTRLConsts) (P Q : Nat → Prop) (hPQ : ∀ q, P q → Q q)
    (l0 l1 : List FPSCTRL_TASK_ENTRY) (h : completionsOn T P l0 l1) : completionsOn T Q l0 l1 :=
  ⟨h.1, fun j t0 hj => by
    obtain ⟨t1, a, b, c⟩ := h.2 j t0 hj
    exact ⟨t1, a, b, fun hq => c (fun hp => hq (hPQ _ hp))⟩⟩

/-- A task after completions comes from a task before them, at the same index. -/
theorem completionsOn_inv (T : CTRLConsts) (P : Nat → Prop) (l0 l1 : List FPSCTRL_TASK_ENTRY)
    (h : completionsOn T P l0 l1) (j : Nat) (t1 : FPSCTRL_TASK_ENTRY) (hj : l1[j]? = some t1) :
    ∃ t0, l0[j]? = some t0 ∧ completedFrom T t0 t1 ∧ (¬ P t0.queue → t1 = t0) := by
  have hlt : j < l0.length := by
    rw [← h.1]
    exact (List.getElem?_eq_some_iff.mp hj).1
  obtain ⟨t, a, b, c⟩ := h.2 j (l0[j]) (List.getElem?_eq_getElem hlt)
  rw [hj] at a
  simp only [Option.some.injEq] at a
  subst a
  exact ⟨l0[j], List.getElem?_eq_getElem hlt, b, c⟩

/-- Replacing an element that satisfies `p` by one that does not lowers the count
by one. -/
theorem List.countP_set_lt {α : Type} (p : α → Bool) (l : List α) (c : Nat) (a b : α)
    (h : l[c]? = some a) (ha : p a = true) (hb : p b = false) :
    (l.set c b).countP p + 1 = l.countP p := by
  induction l generalizing c with
  | nil => simp at h
  | cons x xs ih =>
    cases c with
    | zero =>
      simp only [List.getElem?_cons_zero, Option.some.injEq] at h
      subst h
      simp [List.countP_cons, ha, hb]
    | succ c =>
      rw [List.getElem?_cons_succ] at h
      have := ih c h
      simp only [List.set_cons_succ, List.countP_cons]
      omega

/-- The head of a queue depends on the tasks of the queue only. -/
theorem queueHead_congr (T : CTRLConsts) (q : Nat) (l0 l1 : List FPSCTRL_TASK_ENTRY)
    (h01 : ∀ (j : Nat) (t : FPSCTRL_TASK_ENTRY), l0[j]? = some t → inQueue T q t → l1[j]? = some t)
    (h10 : ∀ (j : Nat) (t : FPSCTRL_TASK_ENTRY), l1[j]? = some t → inQueue T q t → l0[j]? = some t)
    (c : Nat) (h : queueHead T l0 q c) : queueHead T l1 q c := by
  obtain ⟨t, ht, hq, hlt, hmin⟩ := h
  exact ⟨t, h01 c t ht hq, hq, hlt, fun j t1 hj hq1 => hmin j t1 (h10 j t1 hj hq1) hq1⟩

/-- Completions leave the tasks of a queue without completions as they are. -/
theorem completionsOn_other (T : CTRLConsts) (hT : T.WF) (P : Nat → Prop) (q1 : Nat)
    (hne : ¬ P q1) (l0 l1 : List FPSCTRL_TASK_ENTRY) (h : completionsOn T P l0 l1) :
    (∀ (j : Nat) (t : FPSCTRL_TASK_ENTRY), l0[j]? = some t → t.queue = q1 → l1[j]? = some t) ∧
    (∀ (j : Nat) (t : FPSCTRL_TASK_ENTRY), l1[j]? = some t → t.queue = q1 → l0[j]? = some t) := by
  constructor
  · intro j t hj hq
    obtain ⟨t1, a, -, c⟩ := h.2 j t hj
    rw [a, c (by rw [hq]; exact hne)]
  · intro j t hj hq
    obtain ⟨t0, a, b, c⟩ := completionsOn_inv T P l0 l1 h j t hj
    have hq0 : t0.queue = q1 := by
      rw [← (completedFrom_fields T hT _ _ b).1]; exact hq
    rw [a, c (by rw [hq0]; exact hne)]

/-- What the scan of a queue leaves depends on the tasks of the queue only. -/
theorem queueResult_congr (T : CTRLConsts) (q : Nat) (r : Int) (l0 l1 : List FPSCTRL_TASK_ENTRY)
    (h01 : ∀ (j : Nat) (t : FPSCTRL_TASK_ENTRY), l0[j]? = some t → t.queue = q → l1[j]? = some t)
    (h10 : ∀ (j : Nat) (t : FPSCTRL_TASK_ENTRY), l1[j]? = some t → t.queue = q → l0[j]? = some t)
    (h : queueResult T l0 q r) : queueResult T l1 q r := by
  have a : ∀ c, queueHead T l0 q c → queueHead T l1 q c := fun c =>
    queueHead_congr T q l0 l1 (fun j t hj hq => h01 j t hj hq.2) (fun j t hj hq => h10 j t hj hq.2) c
  have b : ∀ c, queueHead T l1 q c → queueHead T l0 q c := fun c =>
    queueHead_congr T q l1 l0 (fun j t hj hq => h10 j t hj hq.2) (fun j t hj hq => h01 j t hj hq.2) c
  have hq : ∀ c t, queueHead T l0 q c → l0[c]? = some t → l1[c]? = some t := by
    intro c t hh ht
    obtain ⟨t1, e1, e2, -⟩ := hh
    rw [ht] at e1
    simp only [Option.some.injEq] at e1
    subst e1
    exact h01 c t ht e2.2
  rcases h with ⟨h1, h2⟩ | ⟨h1, c, t, h2, h3, h4⟩ | ⟨c, h1, h2, t, h3, h4⟩
  · exact Or.inl ⟨h1, fun c hc => h2 c (b c hc)⟩
  · exact Or.inr (Or.inl ⟨h1, c, t, a c h2, hq c t h2 h3, h4⟩)
  · exact Or.inr (Or.inr ⟨c, h1, a c h2, t, hq c t h2 h3, h4⟩)

/-! ## The scan loop of one queue returns -/

/-- The scan loop of queue `qi` returns when it may run once more than there are tasks in
the queue and the gates of the running tasks can be read. The tasks after the loop
are the tasks before it, some of the running tasks of the queue completed, and
`queue_nexttask[qi]` is as `queueResult` describes. -/
theorem queue_scan_spec (T : CTRLConsts) (env : CTRLEnv) (fps : List FUNCTION_PARAMETER_STRUCT)
    (hT : T.WF) (qi : Nat) :
    ∀ (n : Nat) (tasks : List FPSCTRL_TASK_ENTRY) (clock : Nat),
      tasks.countP (fun t => decide (inQueue T qi t)) < n →
      (∀ t ∈ tasks, t.status &&& T.FPSTASK_STATUS_RUNNING ≠ 0 → task_completed T fps t ≠ none) →
      ∃ tasks1 clock1 r, queue_scan T env fps qi n tasks clock = some (tasks1, clock1, r) ∧
        completionsOn T (fun q => q = qi) tasks tasks1 ∧ queueResult T tasks1 qi r := by
  intro n
  induction n with
  | zero => intro tasks clock h; omega
  | succ n ih =>
    intro tasks clock hcnt hgate
    rcases scan_queue_head T qi tasks with ⟨h1, h2⟩ | ⟨c, h1, h2⟩
    · refine ⟨tasks, clock, -1, ?_, completionsOn_refl T _ tasks, Or.inl ⟨rfl, h2⟩⟩
      simp only [queue_scan, h1]
    · obtain ⟨t, ht, hq, hlt, hmin⟩ := h2
      have hhead : queueHead T tasks qi c := ⟨t, ht, hq, hlt, hmin⟩
      by_cases hrun : t.status &&& T.FPSTASK_STATUS_RUNNING = 0
      · refine ⟨tasks, clock, (c : Int), ?_, completionsOn_refl T _ tasks,
          Or.inr (Or.inr ⟨c, rfl, hhead, t, ht, hrun⟩)⟩
        simp only [queue_scan, h1, ht, if_pos hrun]
      · have hmem : t ∈ tasks := List.mem_iff_getElem?.mpr ⟨c, ht⟩
        have hg := hgate t hmem hrun
        cases hcomp : task_completed T fps t with
        | none => exact absurd hcomp hg
        | some b =>
          cases b with
          | false =>
            refine ⟨tasks, clock, -2, ?_, completionsOn_refl T _ tasks,
              Or.inr (Or.inl ⟨rfl, c, t, hhead, ht, hrun⟩)⟩
            simp only [queue_scan, h1, ht, if_neg hrun, hcomp]
          | true =>
            obtain ⟨hA, hR, hRA, -, -⟩ := hT.taskBits
            let t1 : FPSCTRL_TASK_ENTRY :=
              { t with status := clearFlag (clearFlag t.status T.FPSTASK_STATUS_RUNNING)
                                   T.FPSTASK_STATUS_ACTIVE
                       completiontime := env.clock_gettime clock }
            have hcf : completedFrom T t t1 := Or.inr ⟨hq.1, hrun, env.clock_gettime clock, rfl⟩
            obtain ⟨-, -, -, -, -, h6⟩ := completedFrom_fields T hT t t1 hcf
            have h6b : t1.status &&& T.FPSTASK_STATUS_ACTIVE = 0 ∧
                t1.status &&& T.FPSTASK_STATUS_RUNNING = 0 := by
              rcases h6 with h6 | h6
              · exact ⟨clearFlag_and_mask _ _ hA, by
                  show clearFlag (clearFlag t.status T.FPSTASK_STATUS_RUNNING)
                    T.FPSTASK_STATUS_ACTIVE &&& T.FPSTASK_STATUS_RUNNING = 0
                  rw [clearFlag_and_other _ _ _ hA hR hRA]
                  exact clearFlag_and_mask _ _ hR⟩
              · exact ⟨h6.1, h6.2.1⟩
            have hcnt1 : (tasks.set c t1).countP (fun t => decide (inQueue T qi t)) < n := by
              have := List.countP_set_lt (fun t => decide (inQueue T qi t)) tasks c t t1 ht
                (decide_eq_true hq) (decide_eq_false (fun h => h.1 h6b.1))
              omega
            have hgate1 : ∀ x ∈ tasks.set c t1, x.status &&& T.FPSTASK_STATUS_RUNNING ≠ 0 →
                task_completed T fps x ≠ none := by
              intro x hx hxr
              rcases List.mem_or_eq_of_mem_set hx with hx | hx
              · exact hgate x hx hxr
              · subst hx; exact absurd h6b.2 hxr
            obtain ⟨tasks2, clock2, r, e1, e2, e3⟩ := ih (tasks.set c t1) (clock + 1) hcnt1 hgate1
            have hstep : completionsOn T (fun q => q = qi) tasks (tasks.set c t1) := by
              refine ⟨List.length_set _ _ _, ?_⟩
              intro j t0 hj
              by_cases hjc : c = j
              · subst hjc
                rw [ht] at hj
                simp only [Option.some.injEq] at hj
                subst hj
                refine ⟨t1, ?_, hcf, fun hne => absurd hq.2 hne⟩
                exact List.getElem?_set_self (List.getElem?_eq_some_iff.mp ht).1
              · exact ⟨t0, by rw [List.getElem?_set_ne hjc]; exact hj, Or.inl rfl, fun _ => rfl⟩
            refine ⟨tasks2, clock2, r, ?_, completionsOn_trans T hT _ _ _ _ hstep e2, e3⟩
            simp only [queue_scan, h1, ht, if_neg hrun, hcomp]
            exact e1

/-! ## The scan of all queues and the choice of the task -/

/-- The first loop over the queues returns when the gates of the running tasks can be
read. The tasks after it are the tasks before it, some of the running tasks of the
queues scanned completed, and each element of `queue_nexttask` is as `queueResult`
describes for the task list after the loop. -/
theorem queues_scan_spec (T : CTRLConsts) (env : CTRLEnv) (fps : List FUNCTION_PARAMETER_STRUCT)
    (hT : T.WF) :
    ∀ (n qi : Nat) (tasks : List FPSCTRL_TASK_ENTRY) (clock : Nat),
      (∀ t ∈ tasks, t.status &&& T.FPSTASK_STATUS_RUNNING ≠ 0 → task_completed T fps t ≠ none) →
      ∃ tasks1 clock1 qn, queues_scan T env fps n qi tasks clock = some (tasks1, clock1, qn) ∧
        qn.length = n ∧ completionsOn T (fun q => qi ≤ q) tasks tasks1 ∧
        ∀ (i : Nat) (r : Int), qn[i]? = some r → queueResult T tasks1 (qi + i) r := by
  intro n
  induction n with
  | zero =>
    intro qi tasks clock _
    exact ⟨tasks, clock, [], rfl, rfl, completionsOn_refl T _ tasks, fun i r h => by simp at h⟩
  | succ n ih =>
    intro qi tasks clock hgate
    obtain ⟨tasksA, clockA, r, e1, e2, e3⟩ := queue_scan_spec T env fps hT qi
      (tasks.length + 1) tasks clock
      (Nat.lt_succ_of_le (List.countP_le_length _)) hgate
    have hgateA : ∀ t ∈ tasksA, t.status &&& T.FPSTASK_STATUS_RUNNING ≠ 0 →
        task_completed T fps t ≠ none := by
      intro t ht hr
      obtain ⟨j, hj⟩ := List.mem_iff_getElem?.mp ht
      obtain ⟨t0, a, b, -⟩ := completionsOn_inv T _ tasks tasksA e2 j t hj
      obtain ⟨-, -, -, -, -, h6⟩ := completedFrom_fields T hT t0 t b
      rcases h6 with h6 | h6
      · subst h6
        exact hgate t (List.mem_iff_getElem?.mpr ⟨j, a⟩) hr
      · exact absurd h6.2.1 hr
    obtain ⟨tasks1, clock1, qn, f1, f2, f3, f4⟩ := ih (qi + 1) tasksA clockA hgateA
    refine ⟨tasks1, clock1, r :: qn, ?_, by simp [f2], ?_, ?_⟩
    · simp only [queues_scan, e1, f1, Option.map_some']
    · exact completionsOn_trans T hT _ _ _ _
        (completionsOn_mono T _ _ (fun q hq => by omega) _ _ e2)
        (completionsOn_mono T _ _ (fun q hq => by omega) _ _ f3)
    · intro i x hi
      cases i with
      | zero =>
        simp only [List.getElem?_cons_zero, Option.some.injEq] at hi
        subst hi
        obtain ⟨g1, g2⟩ := completionsOn_other T hT (fun q => qi + 1 ≤ q) qi (by omega) _ _ f3
        exact queueResult_congr T qi _ tasksA tasks1 g1 g2 e3
      | succ i =>
        rw [List.getElem?_cons_succ] at hi
        have := f4 i x hi
        have e : qi + 1 + i = qi + (i + 1) := by omega
        rw [e] at this
        exact this

/-- The result of the second loop over the queues: either no pair has a task index and
a priority above the start priority, and the result is the start value; or the result
is the first pair among those with a task index and the highest priority, which is
above the start priority. -/
theorem select_loop_spec (xs : List (Int × Int)) :
    ∀ (r : Int × Int),
      (select_loop xs r = r ∧
        ∀ (j : Nat) (y : Int × Int), xs[j]? = some y → y.1 ≠ -1 → y.1 ≠ -2 → y.2 ≤ r.1) ∨
      (∃ (i : Nat) (x : Int × Int), xs[i]? = some x ∧ x.1 ≠ -1 ∧ x.1 ≠ -2 ∧ r.1 < x.2 ∧
        select_loop xs r = (x.2, x.1) ∧
        ∀ (j : Nat) (y : Int × Int), xs[j]? = some y → y.1 ≠ -1 → y.1 ≠ -2 →
          y.2 ≤ x.2 ∧ (j < i → y.2 < x.2)) := by
  induction xs with
  | nil =>
    intro r
    exact Or.inl ⟨rfl, fun j y h => by simp at h⟩
  | cons a xs ih =>
    intro r
    by_cases hc : a.1 ≠ -1 ∧ a.1 ≠ -2 ∧ a.2 > r.1
    · have e : select_loop (a :: xs) r = select_loop xs (a.2, a.1) := by
        simp only [select_loop, if_pos hc]
      right
      rcases ih (a.2, a.1) with ⟨h1, h2⟩ | ⟨i, x, h1, h2, h3, h4, h5, h6⟩
      · refine ⟨0, a, List.getElem?_cons_zero, hc.1, hc.2.1, hc.2.2, by rw [e, h1], ?_⟩
        intro j y hj y1 y2
        cases j with
        | zero =>
          simp only [List.getElem?_cons_zero, Option.some.injEq] at hj
          subst hj
          exact ⟨le_refl _, fun h => absurd h (Nat.lt_irrefl 0)⟩
        | succ j =>
          rw [List.getElem?_cons_succ] at hj
          exact ⟨h2 j y hj y1 y2, fun h => absurd h (Nat.not_lt_zero _)⟩
      · refine ⟨i + 1, x, by rw [List.getElem?_cons_succ]; exact h1, h2, h3, ?_, by rw [e, h5], ?_⟩
        · have : a.2 < x.2 := h4
          have := hc.2.2
          omega
        · intro j y hj y1 y2
          cases j with
          | zero =>
            simp only [List.getElem?_cons_zero, Option.some.injEq] at hj
            rw [← hj]
            have : a.2 < x.2 := h4
            exact ⟨by omega, fun _ => this⟩
          | succ j =>
            rw [List.getElem?_cons_succ] at hj
            have := h6 j y hj y1 y2
            exact ⟨this.1, fun h => this.2 (by omega)⟩
    · have e : select_loop (a :: xs) r = select_loop xs r := by
        simp only [select_loop, if_neg hc]
      have ha : a.1 ≠ -1 → a.1 ≠ -2 → a.2 ≤ r.1 := by
        intro a1 a2
        by_contra h
        exact hc ⟨a1, a2, by omega⟩
      rcases ih r with ⟨h1, h2⟩ | ⟨i, x, h1, h2, h3, h4, h5, h6⟩
      · left
        refine ⟨by rw [e, h1], ?_⟩
        intro j y hj y1 y2
        cases j with
        | zero =>
          simp only [List.getElem?_cons_zero, Option.some.injEq] at hj
          rw [← hj] at y1 y2 ⊢
          exact ha y1 y2
        | succ j =>
          rw [List.getElem?_cons_succ] at hj
          exact h2 j y hj y1 y2
      · right
        refine ⟨i + 1, x, by rw [List.getElem?_cons_succ]; exact h1, h2, h3, h4, by rw [e, h5], ?_⟩
        intro j y hj y1 y2
        cases j with
        | zero =>
          simp only [List.getElem?_cons_zero, Option.some.injEq] at hj
          rw [← hj] at y1 y2 ⊢
          have := ha y1 y2
          exact ⟨by omega, fun _ => by omega⟩
        | succ j =>
          rw [List.getElem?_cons_succ] at hj
          have := h6 j y hj y1 y2
          exact ⟨this.1, fun h => this.2 (by omega)⟩

/-! ## One tick of the scheduler -/

/-- The gates of a running task can be read when its structure is connected. -/
theorem task_completed_some (T : CTRLConsts) (fps : List FUNCTION_PARAMETER_STRUCT)
    (t : FPSCTRL_TASK_ENTRY)
    (h : t.flag &&& T.FPSTASK_FLAG_WAITONRUN ≠ 0 ∨ t.flag &&& T.FPSTASK_FLAG_WAITONCONF ≠ 0 →
      getFPS fps t.fpsindex ≠ none) :
    task_completed T fps t ≠ none := by
  unfold task_completed
  by_cases h1 : t.flag &&& T.FPSTASK_FLAG_WAITONRUN ≠ 0
  · obtain ⟨f, hf⟩ := Option.ne_none_iff_exists'.mp (h (Or.inl h1))
    by_cases h2 : t.flag &&& T.FPSTASK_FLAG_WAITONCONF ≠ 0
    · simp [h1, h2, hf]
    · simp [h1, h2, hf]
  · by_cases h2 : t.flag &&& T.FPSTASK_FLAG_WAITONCONF ≠ 0
    · obtain ⟨f, hf⟩ := Option.ne_none_iff_exists'.mp (h (Or.inr h2))
      simp [h1, h2, hf]
    · simp [h1, h2]

/-- An element of `queue_nexttask` is the index of a task exactly when that task is the
candidate of the queue. -/
theorem queueResult_candidate (T : CTRLConsts) (tasks : List FPSCTRL_TASK_ENTRY) (q : Nat)
    (r : Int) (h : queueResult T tasks q r) :
    (r ≠ -1 ∧ r ≠ -2 → ∃ c : Nat, r = (c : Int) ∧ queueCandidate T tasks q c) ∧
    (∀ c, queueCandidate T tasks q c → r = (c : Int)) := by
  rcases h with ⟨h1, h2⟩ | ⟨h1, c, t, h2, h3, h4⟩ | ⟨c, h1, h2⟩
  · exact ⟨fun h => absurd h1 h.1, fun c hc => absurd hc.1 (h2 c)⟩
  · refine ⟨fun h => absurd h1 h.2, ?_⟩
    rintro c1 ⟨hh, t1, e1, e2⟩
    have := queueHead_unique T tasks q c c1 h2 hh
    subst this
    rw [h3] at e1
    simp only [Option.some.injEq] at e1
    subst e1
    exact absurd e2 h4
  · refine ⟨fun _ => ⟨c, h1, h2⟩, ?_⟩
    intro c1 hc1
    have := queueHead_unique T tasks q c c1 h2.1 hc1.1
    subst this
    exact h1

/-- One tick of the scheduler: the task list after the first loop, the choice of the
task among the candidates of the queues, and the dispatch. -/
theorem scheduler_tick_spec (T : CTRLConsts) (env : CTRLEnv) (loc : CMDLINE_LOCALS)
    (tasks : List FPSCTRL_TASK_ENTRY) (s : CTRLState) (hT : T.WF)
    (hlen : tasks.length = T.NB_FPSCTRL_TASK_MAX)
    (hqlen : s.fpsctrlqueuelist.length = T.NB_FPSCTRL_TASKQUEUE_MAX)
    (hgate : ∀ t ∈ tasks, t.status &&& T.FPSTASK_STATUS_RUNNING ≠ 0 →
      t.flag &&& T.FPSTASK_FLAG_WAITONRUN ≠ 0 ∨ t.flag &&& T.FPSTASK_FLAG_WAITONCONF ≠ 0 →
      getFPS s.fps t.fpsindex ≠ none) :
    ∃ tasks1 clock1,
      completionsOn T (fun _ => True) tasks tasks1 ∧
      ((∀ (q c : Nat) (p : Int), q < T.NB_FPSCTRL_TASKQUEUE_MAX → queueCandidate T tasks1 q c →
          queuePriority s q = some p → p ≤ 0) →
        function_parameter_process_fpsCMDarray T env loc tasks s =
          some (tasks1, { s with clock := clock1 }, 0)) ∧
      (∀ (q c : Nat) (p : Int), q < T.NB_FPSCTRL_TASKQUEUE_MAX → queueCandidate T tasks1 q c →
          queuePriority s q = some p → 0 < p →
          (∀ (q1 c1 : Nat) (p1 : Int), q1 < T.NB_FPSCTRL_TASKQUEUE_MAX →
            queueCandidate T tasks1 q1 c1 → queuePriority s q1 = some p1 →
            p1 ≤ p ∧ (q1 < q → p1 < p)) →
        ∃ t, tasks1[c]? = some t ∧
          function_parameter_process_fpsCMDarray T env loc tasks s =
            (functionparameter_FPSprocess_cmdline T env loc t.cmdstring
                { s with clock := clock1 } 0).map fun r =>
              (tasks1.set c (dispatched T t r.2.1 r.2.2 (env.clock_gettime r.1.clock)),
                { r.1 with clock := r.1.clock + 1 }, 1)) ∧
      (∀ (tasks2 : List FPSCTRL_TASK_ENTRY) (s2 : CTRLState) (n : Nat),
        function_parameter_process_fpsCMDarray T env loc tasks s = some (tasks2, s2, n) →
        n ≤ 1 ∧ ∃ c : Nat, ∀ j : Nat, j ≠ c → tasks2[j]? = tasks1[j]?) := by
  obtain ⟨tasks1, clock1, qn, hscan, hqn, hcomp, hres⟩ :=
    queues_scan_spec T env s.fps hT T.NB_FPSCTRL_TASKQUEUE_MAX 0 tasks s.clock
      (fun t ht hr => task_completed_some T s.fps t (hgate t ht hr))
  have hguard : ¬ (tasks.length ≠ T.NB_FPSCTRL_TASK_MAX
      ∨ s.fpsctrlqueuelist.length ≠ T.NB_FPSCTRL_TASKQUEUE_MAX) := by
    rintro (h | h)
    · exact h hlen
    · exact h hqlen
  -- the pairs of the second loop
  have hxs : ∀ (i : Nat) (x : Int × Int),
      (qn.zip (s.fpsctrlqueuelist.map fun q => q.priority))[i]? = some x →
      i < T.NB_FPSCTRL_TASKQUEUE_MAX ∧ queueResult T tasks1 i x.1 ∧
        queuePriority s i = some x.2 := by
    intro i x hx
    obtain ⟨a, b⟩ := List.getElem?_zip_eq_some.mp hx
    have hi : i < T.NB_FPSCTRL_TASKQUEUE_MAX := by
      rw [← hqn]; exact (List.getElem?_eq_some_iff.mp a).1
    have := hres i x.1 a
    rw [Nat.zero_add] at this
    refine ⟨hi, this, ?_⟩
    unfold queuePriority
    rw [List.getElem?_map] at b
    exact b
  have hxs2 : ∀ (q c : Nat) (p : Int), q < T.NB_FPSCTRL_TASKQUEUE_MAX →
      queueCandidate T tasks1 q c → queuePriority s q = some p →
      (qn.zip (s.fpsctrlqueuelist.map fun q => q.priority))[q]? = some ((c : Int), p) := by
    intro q c p hq hc hp
    have hlt : q < qn.length := by rw [hqn]; exact hq
    have a : qn[q]? = some (qn[q]) := List.getElem?_eq_getElem hlt
    have hr := hres q _ a
    rw [Nat.zero_add] at hr
    have e := (queueResult_candidate T tasks1 q _ hr).2 c hc
    rw [e] at a
    apply List.getElem?_zip_eq_some.mpr
    refine ⟨a, ?_⟩
    unfold queuePriority at hp
    rw [List.getElem?_map]
    exact hp
  have hunfold : function_parameter_process_fpsCMDarray T env loc tasks s =
      (if (select_loop (qn.zip (s.fpsctrlqueuelist.map fun q => q.priority)) (-1, -1)).2 ≠ -1 ∧
          (select_loop (qn.zip (s.fpsctrlqueuelist.map fun q => q.priority)) (-1, -1)).1 > 0 then
        match tasks1[(select_loop (qn.zip (s.fpsctrlqueuelist.map fun q => q.priority))
            (-1, -1)).2.toNat]? with
        | none => none
        | some t =>
          match functionparameter_FPSprocess_cmdline T env loc t.cmdstring
              { s with clock := clock1 } 0 with
          | none => none
          | some r =>
            some (tasks1.set (select_loop (qn.zip (s.fpsctrlqueuelist.map fun q => q.priority))
                      (-1, -1)).2.toNat
                    { t with fpsindex := r.2.2
                             status := t.status ||| r.2.1 ||| T.FPSTASK_STATUS_RUNNING
                             activationtime := env.clock_gettime r.1.clock },
                  { r.1 with clock := r.1.clock + 1 }, 1)
      else some (tasks1, { s with clock := clock1 }, 0)) := by
    unfold function_parameter_process_fpsCMDarray
    rw [if_neg hguard]
    simp only [hscan]
  refine ⟨tasks1, clock1, completionsOn_mono T _ _ (fun _ _ => trivial) _ _ hcomp, ?_, ?_, ?_⟩
  · intro hA
    rw [hunfold]
    rcases select_loop_spec (qn.zip (s.fpsctrlqueuelist.map fun q => q.priority)) (-1, -1)
      with ⟨h1, -⟩ | ⟨i, x, h1, h2, h3, h4, h5, -⟩
    · rw [h1, if_neg]
      rintro ⟨h, -⟩
      exact h rfl
    · obtain ⟨hi, hr, hp⟩ := hxs i x h1
      obtain ⟨c, hc1, hc2⟩ := (queueResult_candidate T tasks1 i x.1 hr).1 ⟨h2, h3⟩
      have := hA i c x.2 hi hc2 hp
      rw [h5, if_neg]
      rintro ⟨-, h⟩
      have h' : x.2 > 0 := h
      omega
  · intro q c p hq hc hp hpos hmax
    obtain ⟨hh, t, ht, hnr⟩ := hc
    have hc : queueCandidate T tasks1 q c := ⟨hh, t, ht, hnr⟩
    refine ⟨t, ht, ?_⟩
    have hq2 := hxs2 q c p hq hc hp
    rw [hunfold]
    rcases select_loop_spec (qn.zip (s.fpsctrlqueuelist.map fun q => q.priority)) (-1, -1)
      with ⟨-, h2⟩ | ⟨i, x, h1, h2, h3, h4, h5, h6⟩
    · have := h2 q ((c : Int), p) hq2 (by show (c : Int) ≠ -1; omega)
        (by show (c : Int) ≠ -2; omega)
      have h' : p ≤ -1 := this
      omega
    · obtain ⟨hi, hr, hpi⟩ := hxs i x h1
      obtain ⟨c1, hc1, hc2⟩ := (queueResult_candidate T tasks1 i x.1 hr).1 ⟨h2, h3⟩
      have a := h6 q ((c : Int), p) hq2 (by show (c : Int) ≠ -1; omega)
        (by show (c : Int) ≠ -2; omega)
      have b := hmax i c1 x.2 hi hc2 hpi
      have a1 : p ≤ x.2 := a.1
      have a2 : q < i → p < x.2 := a.2
      have hiq : i = q := by
        by_contra hne
        rcases Nat.lt_or_gt_of_ne hne with h | h
        · have := b.2 h; omega
        · have := a2 h; omega
      subst hiq
      rw [hq2] at h1
      simp only [Option.some.injEq] at h1
      subst h1
      rw [h5]
      have hcond : ((c : Int) ≠ -1 ∧ p > 0) := ⟨by omega, hpos⟩
      simp only [hcond, ne_eq, not_false_eq_true, and_self, if_true, Int.toNat_ofNat, ht]
      cases functionparameter_FPSprocess_cmdline T env loc t.cmdstring
          { s with clock := clock1 } 0 with
      | none => rfl
      | some r => rfl
  · intro tasks2 s2 n h
    rw [hunfold] at h
    split at h
    · split at h
      · exact absurd h (by simp)
      · split at h
        · exact absurd h (by simp)
        · simp only [Option.some.injEq, Prod.mk.injEq] at h
          obtain ⟨h1, -, h3⟩ := h
          refine ⟨by omega,
            (select_loop (qn.zip (s.fpsctrlqueuelist.map fun q => q.priority)) (-1, -1)).2.toNat,
            fun j hj => ?_⟩
          rw [← h1, List.getElem?_set_ne (Ne.symm hj)]
    · simp only [Option.some.injEq, Prod.mk.injEq] at h
      obtain ⟨h1, -, h3⟩ := h
      exact ⟨by omega, 0, fun j _ => by rw [h1]⟩

/-! ## Scenario S4 -/

/-- Two ticks of the scheduler when the only active tasks are a task `a` in queue 1 and
a task `b` in queue 2, no task is running, and the priorities of the queues 0, 1 and 2
are 10, 20 and 5. The first tick hands the command of `a` to the interpreter. When the
interpreter returns, has left the queue list as it was, and the structure of `a` is
connected if `a` has a wait flag, the next tick hands the command of `b` to the
interpreter, and leaves `a` as the first tick has left it, or completed. -/
theorem S4_two_ticks (T : CTRLConsts) (env : CTRLEnv) (loc : CMDLINE_LOCALS)
    (tasks : List FPSCTRL_TASK_ENTRY) (s : CTRLState) (hT : T.WF)
    (hlen : tasks.length = T.NB_FPSCTRL_TASK_MAX)
    (hqlen : s.fpsctrlqueuelist.length = T.NB_FPSCTRL_TASKQUEUE_MAX)
    (ia ib : Nat) (a b : FPSCTRL_TASK_ENTRY)
    (ha : tasks[ia]? = some a) (hb : tasks[ib]? = some b)
    (haq : inQueue T 1 a) (hbq : inQueue T 2 b)
    (hai : a.inputindex < T.UINT_MAX) (hbi : b.inputindex < T.UINT_MAX)
    (honly : ∀ (j : Nat) (t : FPSCTRL_TASK_ENTRY), tasks[j]? = some t →
      t.status &&& T.FPSTASK_STATUS_ACTIVE ≠ 0 → j = ia ∨ j = ib)
    (hrun : ∀ t ∈ tasks, t.status &&& T.FPSTASK_STATUS_RUNNING = 0)
    (hp0 : queuePriority s 0 = some 10) (hp1 : queuePriority s 1 = some 20)
    (hp2 : queuePriority s 2 = some 5) :
    ∃ clock1,
      function_parameter_process_fpsCMDarray T env loc tasks s =
        (functionparameter_FPSprocess_cmdline T env loc a.cmdstring
            { s with clock := clock1 } 0).map (fun r =>
          (tasks.set ia (dispatched T a r.2.1 r.2.2 (env.clock_gettime r.1.clock)),
            { r.1 with clock := r.1.clock + 1 }, 1)) ∧
      ∀ (r : CTRLState × Nat × Int) (loc2 : CMDLINE_LOCALS),
        functionparameter_FPSprocess_cmdline T env loc a.cmdstring
            { s with clock := clock1 } 0 = some r →
        r.1.fpsctrlqueuelist = s.fpsctrlqueuelist →
        (a.flag &&& T.FPSTASK_FLAG_WAITONRUN ≠ 0 ∨ a.flag &&& T.FPSTASK_FLAG_WAITONCONF ≠ 0 →
          getFPS r.1.fps r.2.2 ≠ none) →
        ∃ (tasks3 : List FPSCTRL_TASK_ENTRY) (clock3 : Nat) (a3 : FPSCTRL_TASK_ENTRY),
          tasks3[ia]? = some a3 ∧
          completedFrom T (dispatched T a r.2.1 r.2.2 (env.clock_gettime r.1.clock)) a3 ∧
          function_parameter_process_fpsCMDarray T env loc2
              (tasks.set ia (dispatched T a r.2.1 r.2.2 (env.clock_gettime r.1.clock)))
              { r.1 with clock := r.1.clock + 1 } =
            (functionparameter_FPSprocess_cmdline T env loc2 b.cmdstring
                { r.1 with clock := clock3 } 0).map (fun r2 =>
              (tasks3.set ib (dispatched T b r2.2.1 r2.2.2 (env.clock_gettime r2.1.clock)),
                { r2.1 with clock := r2.1.clock + 1 }, 1)) := by
  obtain ⟨-, -, -, -, hR0⟩ := hT.taskBits
  have _ := hp0
  have hab : ia ≠ ib := by
    intro h
    subst h
    rw [ha] at hb
    simp only [Option.some.injEq] at hb
    subst hb
    have := haq.2.symm.trans hbq.2
    omega
  have hialt : ia < tasks.length := (List.getElem?_eq_some_iff.mp ha).1
  have hmema : a ∈ tasks := List.mem_iff_getElem?.mpr ⟨ia, ha⟩
  have hmemb : b ∈ tasks := List.mem_iff_getElem?.mpr ⟨ib, hb⟩
  have hq1 : (1 : Nat) < T.NB_FPSCTRL_TASKQUEUE_MAX := by
    rw [← hqlen]
    unfold queuePriority at hp1
    cases h : s.fpsctrlqueuelist[1]? with
    | none => rw [h] at hp1; simp at hp1
    | some x => exact (List.getElem?_eq_some_iff.mp h).1
  have hq2 : (2 : Nat) < T.NB_FPSCTRL_TASKQUEUE_MAX := by
    rw [← hqlen]
    unfold queuePriority at hp2
    cases h : s.fpsctrlqueuelist[2]? with
    | none => rw [h] at hp2; simp at hp2
    | some x => exact (List.getElem?_eq_some_iff.mp h).1
  -- the first tick
  obtain ⟨tasks1, clock1, hcomp, -, hB, -⟩ := scheduler_tick_spec T env loc tasks s hT hlen hqlen
    (fun t ht hr => absurd (hrun t ht) hr)
  have htasks1 : tasks1 = tasks := by
    apply List.ext_getElem?
    intro j
    cases hj : tasks[j]? with
    | none =>
      rw [List.getElem?_eq_none_iff] at hj ⊢
      rw [hcomp.1]; exact hj
    | some t0 =>
      obtain ⟨t1, e1, e2, -⟩ := hcomp.2 j t0 hj
      rcases e2 with e2 | ⟨-, e2, -⟩
      · rw [e1, e2]
      · exact absurd (hrun t0 (List.mem_iff_getElem?.mpr ⟨j, hj⟩)) e2
  subst htasks1
  have hheadA : queueHead T tasks1 1 ia := by
    refine ⟨a, ha, haq, hai, ?_⟩
    intro j t1 hj hq
    rcases honly j t1 hj hq.1 with h | h
    · subst h
      rw [ha] at hj
      simp only [Option.some.injEq] at hj
      subst hj
      exact ⟨le_refl _, fun _ => le_refl _⟩
    · subst h
      rw [hb] at hj
      simp only [Option.some.injEq] at hj
      subst hj
      have := hq.2.symm.trans hbq.2
      omega
  have hcandA : queueCandidate T tasks1 1 ia := ⟨hheadA, a, ha, hrun a hmema⟩
  have hcands : ∀ (q1 c1 : Nat), queueCandidate T tasks1 q1 c1 →
      (q1 = 1 ∧ c1 = ia) ∨ (q1 = 2 ∧ c1 = ib) := by
    rintro q1 c1 ⟨⟨t, ht, hq, -, -⟩, -⟩
    rcases honly c1 t ht hq.1 with h | h
    · subst h
      rw [ha] at ht
      simp only [Option.some.injEq] at ht
      subst ht
      exact Or.inl ⟨hq.2.symm.trans haq.2, rfl⟩
    · subst h
      rw [hb] at ht
      simp only [Option.some.injEq] at ht
      subst ht
      exact Or.inr ⟨hq.2.symm.trans hbq.2, rfl⟩
  obtain ⟨t, ht, htick1⟩ := hB 1 ia 20 hq1 hcandA hp1 (by decide) (by
    intro q1 c1 p1 _ hc hp
    rcases hcands q1 c1 hc with h | h
    · obtain ⟨h1, -⟩ := h
      subst h1
      rw [hp1] at hp
      simp only [Option.some.injEq] at hp
      subst hp
      exact ⟨le_refl _, fun h => absurd h (Nat.lt_irrefl _)⟩
    · obtain ⟨h1, -⟩ := h
      subst h1
      rw [hp2] at hp
      simp only [Option.some.injEq] at hp
      subst hp
      exact ⟨by decide, fun h => absurd h (by decide)⟩)
  rw [ha] at ht
  simp only [Option.some.injEq] at ht
  subst ht
  refine ⟨clock1, htick1, ?_⟩
  -- the second tick
  intro r loc2 hr hq hconn
  have hlen2 : (tasks1.set ia (dispatched T a r.2.1 r.2.2 (env.clock_gettime r.1.clock))).length
      = T.NB_FPSCTRL_TASK_MAX := by
    rw [List.length_set]; exact hlen
  have hRun2 : (dispatched T a r.2.1 r.2.2 (env.clock_gettime r.1.clock)).status &&&
      T.FPSTASK_STATUS_RUNNING ≠ 0 := by
    show (a.status ||| r.2.1 ||| T.FPSTASK_STATUS_RUNNING) &&& T.FPSTASK_STATUS_RUNNING ≠ 0
    rw [or_and_self_mask]
    exact hR0
  have hget2 : ∀ (j : Nat) (t0 : FPSCTRL_TASK_ENTRY),
      (tasks1.set ia (dispatched T a r.2.1 r.2.2 (env.clock_gettime r.1.clock)))[j]? = some t0 →
      (j = ia ∧ t0 = dispatched T a r.2.1 r.2.2 (env.clock_gettime r.1.clock)) ∨
      (j ≠ ia ∧ tasks1[j]? = some t0) := by
    intro j t0 hj
    by_cases hji : ia = j
    · subst hji
      rw [List.getElem?_set_self hialt] at hj
      simp only [Option.some.injEq] at hj
      exact Or.inl ⟨rfl, hj.symm⟩
    · rw [List.getElem?_set_ne hji] at hj
      exact Or.inr ⟨Ne.symm hji, hj⟩
  obtain ⟨tasks3, clock3, hcomp3, -, hB3, -⟩ := scheduler_tick_spec T env loc2
    (tasks1.set ia (dispatched T a r.2.1 r.2.2 (env.clock_gettime r.1.clock)))
    { r.1 with clock := r.1.clock + 1 } hT hlen2 (by show r.1.fpsctrlqueuelist.length = _; rw [hq]; exact hqlen)
    (by
      intro t ht hr hf
      obtain ⟨j, hj⟩ := List.mem_iff_getElem?.mp ht
      rcases hget2 j t hj with ⟨-, h⟩ | ⟨-, h⟩
      · subst h
        exact hconn hf
      · exact absurd (hrun t (List.mem_iff_getElem?.mpr ⟨j, h⟩)) hr)
  have hb2 : (tasks1.set ia (dispatched T a r.2.1 r.2.2 (env.clock_gettime r.1.clock)))[ib]?
      = some b := by
    rw [List.getElem?_set_ne hab]; exact hb
  have hb3 : tasks3[ib]? = some b := by
    obtain ⟨t1, e1, e2, -⟩ := hcomp3.2 ib b hb2
    rcases e2 with e2 | ⟨-, e2, -⟩
    · rw [e1, e2]
    · exact absurd (hrun b hmemb) e2
  -- the active tasks after the first loop of the second tick
  have hact3 : ∀ (j : Nat) (t : FPSCTRL_TASK_ENTRY), tasks3[j]? = some t →
      t.status &&& T.FPSTASK_STATUS_ACTIVE ≠ 0 →
      (j = ia ∧ t = dispatched T a r.2.1 r.2.2 (env.clock_gettime r.1.clock)) ∨
      (j = ib ∧ t = b) := by
    intro j t hj hact
    obtain ⟨t0, e1, e2, -⟩ := completionsOn_inv T _ _ _ hcomp3 j t hj
    have e3 : t = t0 := completedFrom_inQueue T hT t.queue t0 t e2 ⟨hact, rfl⟩
    subst e3
    rcases hget2 j t e1 with ⟨h1, h2⟩ | ⟨h1, h2⟩
    · exact Or.inl ⟨h1, h2⟩
    · rcases honly j t h2 hact with h | h
      · exact absurd h h1
      · subst h
        rw [hb] at h2
        simp only [Option.some.injEq] at h2
        exact Or.inr ⟨rfl, h2.symm⟩
  have hheadB : queueHead T tasks3 2 ib := by
    refine ⟨b, hb3, hbq, hbi, ?_⟩
    intro j t1 hj hq1
    rcases hact3 j t1 hj hq1.1 with ⟨-, h⟩ | ⟨h1, h2⟩
    · subst h
      have : (1 : Nat) = 2 := haq.2.symm.trans hq1.2
      omega
    · subst h1 h2
      exact ⟨le_refl _, fun _ => le_refl _⟩
  have hcandB : queueCandidate T tasks3 2 ib := ⟨hheadB, b, hb3, hrun b hmemb⟩
  have hcands3 : ∀ (q1 c1 : Nat), queueCandidate T tasks3 q1 c1 → q1 = 2 ∧ c1 = ib := by
    rintro q1 c1 ⟨⟨t, ht, hq1, -, -⟩, t2, ht2, hnr⟩
    rw [ht] at ht2
    simp only [Option.some.injEq] at ht2
    subst ht2
    rcases hact3 c1 t ht hq1.1 with ⟨-, h⟩ | ⟨h1, h2⟩
    · subst h
      exact absurd hnr hRun2
    · subst h1 h2
      exact ⟨hq1.2.symm.trans hbq.2, rfl⟩
  have hp2b : queuePriority { r.1 with clock := r.1.clock + 1 } 2 = some 5 := by
    unfold queuePriority at hp2 ⊢
    show (r.1.fpsctrlqueuelist[2]?).map _ = _
    rw [hq]; exact hp2
  obtain ⟨t, ht, htick2⟩ := hB3 2 ib 5 hq2 hcandB hp2b (by decide) (by
    intro q1 c1 p1 _ hc hp
    obtain ⟨h1, -⟩ := hcands3 q1 c1 hc
    subst h1
    rw [hp2b] at hp
    simp only [Option.some.injEq] at hp
    subst hp
    exact ⟨le_refl _, fun h => absurd h (Nat.lt_irrefl _)⟩)
  rw [hb3] at ht
  simp only [Option.some.injEq] at ht
  subst ht
  have hia2 : (tasks1.set ia (dispatched T a r.2.1 r.2.2 (env.clock_gettime r.1.clock)))[ia]?
      = some (dispatched T a r.2.1 r.2.2 (env.clock_gettime r.1.clock)) :=
    List.getElem?_set_self hialt
  obtain ⟨a3, e1, e2, -⟩ := hcomp3.2 ia _ hia2
  exact ⟨tasks3, clock3, a3, e1, e2, htick2⟩

/-- C20. One tick of the scheduler (`function_parameter_process_fpsCMDarray`), for a task
list of `NB_FPSCTRL_TASK_MAX` entries and a queue list of `NB_FPSCTRL_TASKQUEUE_MAX`
entries. First part: when the structure of every running task with a wait flag is
connected, the first loop returns a task list `tasks1`, which is the task list at entry
with some running tasks completed. The candidate of a queue is its active task with
the smallest `inputindex` below `UINT_MAX`, the first such in the task list, provided
that it is not running. If no queue with a candidate has a priority above 0, the tick
dispatches nothing and returns 0. If queue `q` with candidate `c` has a priority above
0, no queue with a candidate has a higher priority, and every queue with a candidate
and a smaller index has a lower priority, then the tick hands the command of task `c`
to the interpreter; when the interpreter returns, the tick returns 1, and the task list
is `tasks1` with the value returned stored in the field `fpsindex` of task `c`, and the
status bits of the interpreter and the bit RUNNING added to its status. A tick changes
at most one entry of `tasks1` and returns at most 1. Second part, scenario S4: when
the only active tasks are a task `a` in queue 1 and a task `b` in queue 2, no task is
running, and the priorities of the queues 0, 1 and 2 are 10, 20 and 5, the first tick
hands the command of `a` to the interpreter; when the interpreter returns, has left
the queue list as it was, and the structure of `a` is connected if `a` has a wait
flag, the next tick hands the command of `b` to the interpreter. -/
theorem C20_scheduler_tick (T : CTRLConsts) (env : CTRLEnv) (hT : T.WF) :
    (∀ (loc : CMDLINE_LOCALS) (tasks : List FPSCTRL_TASK_ENTRY) (s : CTRLState),
      tasks.length = T.NB_FPSCTRL_TASK_MAX →
      s.fpsctrlqueuelist.length = T.NB_FPSCTRL_TASKQUEUE_MAX →
      (∀ t ∈ tasks, t.status &&& T.FPSTASK_STATUS_RUNNING ≠ 0 →
        t.flag &&& T.FPSTASK_FLAG_WAITONRUN ≠ 0 ∨ t.flag &&& T.FPSTASK_FLAG_WAITONCONF ≠ 0 →
        getFPS s.fps t.fpsindex ≠ none) →
      ∃ tasks1 clock1,
        completionsOn T (fun _ => True) tasks tasks1 ∧
        ((∀ (q c : Nat) (p : Int), q < T.NB_FPSCTRL_TASKQUEUE_MAX →
            queueCandidate T tasks1 q c → queuePriority s q = some p → p ≤ 0) →
          function_parameter_process_fpsCMDarray T env loc tasks s =
            some (tasks1, { s with clock := clock1 }, 0)) ∧
        (∀ (q c : Nat) (p : Int), q < T.NB_FPSCTRL_TASKQUEUE_MAX →
            queueCandidate T tasks1 q c → queuePriority s q = some p → 0 < p →
            (∀ (q1 c1 : Nat) (p1 : Int), q1 < T.NB_FPSCTRL_TASKQUEUE_MAX →
              queueCandidate T tasks1 q1 c1 → queuePriority s q1 = some p1 →
              p1 ≤ p ∧ (q1 < q → p1 < p)) →
          ∃ t, tasks1[c]? = some t ∧
            function_parameter_process_fpsCMDarray T env loc tasks s =
              (functionparameter_FPSprocess_cmdline T env loc t.cmdstring
                  { s with clock := clock1 } 0).map fun r =>
                (tasks1.set c (dispatched T t r.2.1 r.2.2 (env.clock_gettime r.1.clock)),
                  { r.1 with clock := r.1.clock + 1 }, 1)) ∧
        (∀ (tasks2 : List FPSCTRL_TASK_ENTRY) (s2 : CTRLState) (n : Nat),
          function_parameter_process_fpsCMDarray T env loc tasks s = some (tasks2, s2, n) →
          n ≤ 1 ∧ ∃ c : Nat, ∀ j : Nat, j ≠ c → tasks2[j]? = tasks1[j]?)) ∧
    (∀ (loc : CMDLINE_LOCALS) (tasks : List FPSCTRL_TASK_ENTRY) (s : CTRLState)
        (ia ib : Nat) (a b : FPSCTRL_TASK_ENTRY),
      tasks.length = T.NB_FPSCTRL_TASK_MAX →
      s.fpsctrlqueuelist.length = T.NB_FPSCTRL_TASKQUEUE_MAX →
      tasks[ia]? = some a → tasks[ib]? = some b →
      inQueue T 1 a → inQueue T 2 b →
      a.inputindex < T.UINT_MAX → b.inputindex < T.UINT_MAX →
      (∀ (j : Nat) (t : FPSCTRL_TASK_ENTRY), tasks[j]? = some t →
        t.status &&& T.FPSTASK_STATUS_ACTIVE ≠ 0 → j = ia ∨ j = ib) →
      (∀ t ∈ tasks, t.status &&& T.FPSTASK_STATUS_RUNNING = 0) →
      queuePriority s 0 = some 10 → queuePriority s 1 = some 20 →
      queuePriority s 2 = some 5 →
      ∃ clock1,
        function_parameter_process_fpsCMDarray T env loc tasks s =
          (functionparameter_FPSprocess_cmdline T env loc a.cmdstring
              { s with clock := clock1 } 0).map (fun r =>
            (tasks.set ia (dispatched T a r.2.1 r.2.2 (env.clock_gettime r.1.clock)),
              { r.1 with clock := r.1.clock + 1 }, 1)) ∧
        ∀ (r : CTRLState × Nat × Int) (loc2 : CMDLINE_LOCALS),
          functionparameter_FPSprocess_cmdline T env loc a.cmdstring
              { s with clock := clock1 } 0 = some r →
          r.1.fpsctrlqueuelist = s.fpsctrlqueuelist →
          (a.flag &&& T.FPSTASK_FLAG_WAITONRUN ≠ 0 ∨ a.flag &&& T.FPSTASK_FLAG_WAITONCONF ≠ 0 →
            getFPS r.1.fps r.2.2 ≠ none) →
          ∃ (tasks3 : List FPSCTRL_TASK_ENTRY) (clock3 : Nat) (a3 : FPSCTRL_TASK_ENTRY),
            tasks3[ia]? = some a3 ∧
            completedFrom T (dispatched T a r.2.1 r.2.2 (env.clock_gettime r.1.clock)) a3 ∧
            function_parameter_process_fpsCMDarray T env loc2
                (tasks.set ia (dispatched T a r.2.1 r.2.2 (env.clock_gettime r.1.clock)))
                { r.1 with clock := r.1.clock + 1 } =
              (functionparameter_FPSprocess_cmdline T env loc2 b.cmdstring
                  { r.1 with clock := clock3 } 0).map (fun r2 =>
                (tasks3.set ib (dispatched T b r2.2.1 r2.2.2 (env.clock_gettime r2.1.clock)),
                  { r2.1 with clock := r2.1.clock + 1 }, 1))) :=
  ⟨fun loc tasks s hlen hqlen hgate => scheduler_tick_spec T env loc tasks s hT hlen hqlen hgate,
   fun loc tasks s ia ib a b hlen hqlen ha hb haq hbq hai hbi honly hrun hp0 hp1 hp2 =>
     S4_two_ticks T env loc tasks s hT hlen hqlen ia ib a b ha hb haq hbq hai hbi honly hrun
       hp0 hp1 hp2⟩

/-- Witness for C20: scenario S4 with a task list of four entries and three queues; the
task of queue 1 is `setval fps.delayus 7` and the task of queue 2 is
`getval fps.delayus`. The first tick hands the command of the task of queue 1 to the
interpreter. Evaluated, the two ticks leave the status words 0x902 (SHOW, RECEIVED,
CMDOK: completed) and 0x907 (ACTIVE, SHOW, RUNNING, RECEIVED, CMDOK) in the two
tasks, and each of them returns 1. -/
theorem C20_scheduler_tick_witness :
    (∃ clock1,
      function_parameter_process_fpsCMDarray smallCTRLConsts stdCTRLEnv zeroLocals S4tasks S4state =
        (functionparameter_FPSprocess_cmdline smallCTRLConsts stdCTRLEnv zeroLocals
            "setval fps.delayus 7" { S4state with clock := clock1 } 0).map (fun r =>
          (S4tasks.set 0 (dispatched smallCTRLConsts (newTask "setval fps.delayus 7" 0 1)
              r.2.1 r.2.2 (stdCTRLEnv.clock_gettime r.1.clock)),
            { r.1 with clock := r.1.clock + 1 }, 1))) ∧
    (function_parameter_process_fpsCMDarray smallCTRLConsts stdCTRLEnv zeroLocals S4tasks
        S4state).map (fun r => (r.1.map (fun t => t.status), r.2.2))
      = some ([0x907, 0x003, 0, 0], 1) ∧
    ((function_parameter_process_fpsCMDarray smallCTRLConsts stdCTRLEnv zeroLocals S4tasks
        S4state).bind fun r0 =>
      function_parameter_process_fpsCMDarray smallCTRLConsts stdCTRLEnv zeroLocals r0.1
        r0.2.1).map (fun r => (r.1.map (fun t => t.status), r.2.2))
      = some ([0x902, 0x907, 0, 0], 1) := by
  refine ⟨?_, by decide, by decide⟩
  obtain ⟨clock1, h, -⟩ := (C20_scheduler_tick smallCTRLConsts stdCTRLEnv (by decide)).2
    zeroLocals S4tasks S4state 0 1 (newTask "setval fps.delayus 7" 0 1)
    (newTask "getval fps.delayus" 1 2) (by decide) (by decide) (by decide) (by decide)
    (by decide) (by decide) (by decide) (by decide)
    (by
      intro j t hj hact
      rcases j with _ | _ | _ | _ | j
      · exact Or.inl rfl
      · exact Or.inr rfl
      · simp only [S4tasks, List.getElem?_cons_succ, List.getElem?_cons_zero,
          Option.some.injEq] at hj
        subst hj
        exact absurd rfl hact
      · simp only [S4tasks, List.getElem?_cons_succ, List.getElem?_cons_zero,
          Option.some.injEq] at hj
        subst hj
        exact absurd rfl hact
      · simp [S4tasks] at hj)
    (by decide) (by decide) (by decide) (by decide)
  exact ⟨clock1, h⟩

/-! ## The slot chosen by `functionparameter_GetParamIndex` -/

/-- Writing slot `i` with `modify` leaves the header and the other slots. -/
theorem sameButSlot_modify (fps : FUNCTION_PARAMETER_STRUCT) (i : Nat)
    (f : FUNCTION_PARAMETER → FUNCTION_PARAMETER) (p : FUNCTION_PARAMETER)
    (hp : fps.parray[i]? = some p) :
    sameButSlot fps (fps.modify i f) i ∧ (fps.modify i f).parray[i]? = some (f p) := by
  refine ⟨⟨rfl, ?_, ?_⟩, ?_⟩
  · simp [FUNCTION_PARAMETER_STRUCT.modify]
  · intro j hj
    rw [FUNCTION_PARAMETER_STRUCT.parray_modify]
    cases fps.parray[j]? with
    | none => rfl
    | some q => simp [Ne.symm hj]
  · rw [FUNCTION_PARAMETER_STRUCT.parray_modify, hp]
    simp

/-- The search of `functionparameter_GetParamIndex` finds a slot exactly when an active
slot has a full keyword that contains the name. -/
theorem GetParamIndex_scan_isSome (C : FPSConsts) (paramname : String)
    (l : List FUNCTION_PARAMETER) (i0 : Nat) :
    (∃ k, GetParamIndex_scan C paramname l i0 = some k) ↔
      ∃ p ∈ l, p.active C ∧ strstr p.keywordfull paramname := by
  induction l generalizing i0 with
  | nil => simp [GetParamIndex_scan]
  | cons x xs ih =>
    simp only [GetParamIndex_scan]
    by_cases hx : x.active C ∧ strstr x.keywordfull paramname
    · rw [if_pos hx]
      exact ⟨fun _ => ⟨x, List.mem_cons_self x xs, hx⟩, fun _ => ⟨i0, rfl⟩⟩
    · rw [if_neg hx, ih (i0 + 1)]
      constructor
      · rintro ⟨p, hp, h⟩
        exact ⟨p, List.mem_cons_of_mem x hp, h⟩
      · rintro ⟨p, hp, h⟩
        rcases List.mem_cons.mp hp with e | e
        · rw [e] at h; exact absurd h hx
        · exact ⟨p, e, h⟩

/-- C27. Whenever `functionparameter_GetParamIndex` returns an index `i`, slot `i` is
active, its full keyword contains the name, and no active slot with a lower index has a
full keyword that contains the name; it returns an index exactly when some active slot
has a full keyword that contains the name. Each of the setters and getters then reads
and writes slot `i` and no other slot, and none of them returns when the search does
not. -/
theorem C27_GetParamIndex_accessors (C : FPSConsts) (fps : FUNCTION_PARAMETER_STRUCT)
    (paramname : String) :
    (∀ i, functionparameter_GetParamIndex C fps paramname = some i →
      ∃ p, fps.parray[i]? = some p ∧ p.active C ∧ strstr p.keywordfull paramname ∧
        ∀ j q, j < i → fps.parray[j]? = some q → q.active C →
          ¬ strstr q.keywordfull paramname) ∧
    ((∃ i, functionparameter_GetParamIndex C fps paramname = some i) ↔
      ∃ p ∈ fps.parray, p.active C ∧ strstr p.keywordfull paramname) ∧
    (∀ i p, functionparameter_GetParamIndex C fps paramname = some i →
      fps.parray[i]? = some p →
      (∀ v, ∃ fps1, functionparameter_SetParamValue_INT64 C fps paramname v = some fps1 ∧
        sameButSlot fps fps1 i ∧
        fps1.parray[i]? = some { p with val := { p.val with l0 := v }, cnt0 := p.cnt0 + 1 }) ∧
      (∀ v, ∃ fps1, functionparameter_SetParamValue_FLOAT64 C fps paramname v = some fps1 ∧
        sameButSlot fps fps1 i ∧
        fps1.parray[i]? = some { p with val := { p.val with f0 := v }, cnt0 := p.cnt0 + 1 }) ∧
      (∀ v, ∃ fps1, functionparameter_SetParamValue_FLOAT32 C fps paramname v = some fps1 ∧
        sameButSlot fps fps1 i ∧
        fps1.parray[i]? = some { p with val := { p.val with s0 := v }, cnt0 := p.cnt0 + 1 }) ∧
      (∀ v, ∃ fps1, functionparameter_SetParamValue_STRING C fps paramname v = some fps1 ∧
        sameButSlot fps fps1 i ∧
        fps1.parray[i]? = some
          { p with val := { p.val with
                            string0 := strTake v C.FUNCTION_PARAMETER_STRMAXLEN },
                   cnt0 := p.cnt0 + 1 }) ∧
      (∀ v, ∃ fps1, functionparameter_SetParamValue_ONOFF C fps paramname v = some fps1 ∧
        sameButSlot fps fps1 i ∧
        fps1.parray[i]? = some
          (if v = 1 then
            { p with fpflag := p.fpflag ||| C.FPFLAG_ONOFF, val := { p.val with l0 := 1 },
                     cnt0 := p.cnt0 + 1 }
           else
            { p with fpflag := clearFlag p.fpflag C.FPFLAG_ONOFF,
                     val := { p.val with l0 := 0 }, cnt0 := p.cnt0 + 1 })) ∧
      (∃ fps1, functionparameter_GetParamValue_INT64 C fps paramname = some (fps1, p.val.l0) ∧
        sameButSlot fps fps1 i ∧
        fps1.parray[i]? = some { p with val := { p.val with l3 := p.val.l0 } }) ∧
      (∃ fps1, functionparameter_GetParamValue_FLOAT64 C fps paramname
          = some (fps1, p.val.f0) ∧
        sameButSlot fps fps1 i ∧
        fps1.parray[i]? = some { p with val := { p.val with f3 := p.val.f0 } }) ∧
      (∃ fps1, functionparameter_GetParamValue_FLOAT32 C fps paramname
          = some (fps1, p.val.s0) ∧
        sameButSlot fps fps1 i ∧
        fps1.parray[i]? = some { p with val := { p.val with s3 := p.val.s0 } }) ∧
      functionparameter_GetParamValue_ONOFF C fps paramname
        = some (fps, if p.fpflag &&& C.FPFLAG_ONOFF ≠ 0 then 1 else 0)) ∧
    (functionparameter_GetParamIndex C fps paramname = none →
      (∀ v, functionparameter_SetParamValue_INT64 C fps paramname v = none) ∧
      (∀ v, functionparameter_SetParamValue_FLOAT64 C fps paramname v = none) ∧
      (∀ v, functionparameter_SetParamValue_FLOAT32 C fps paramname v = none) ∧
      (∀ v, functionparameter_SetParamValue_STRING C fps paramname v = none) ∧
      (∀ v, functionparameter_SetParamValue_ONOFF C fps paramname v = none) ∧
      functionparameter_GetParamValue_INT64 C fps paramname = none ∧
      functionparameter_GetParamValue_FLOAT64 C fps paramname = none ∧
      functionparameter_GetParamValue_FLOAT32 C fps paramname = none ∧
      functionparameter_GetParamValue_ONOFF C fps paramname = none) := by
  refine ⟨?_, ?_, ?_, ?_⟩
  · intro i hi
    obtain ⟨-, ⟨p, hp, ha, hs⟩, hmin⟩ := GetParamIndex_scan_some C paramname fps.parray 0 i hi
    exact ⟨p, hp, ha, hs, fun j q hj hq hqa hqs => hmin j q hj hq ⟨hqa, hqs⟩⟩
  · exact GetParamIndex_scan_isSome C paramname fps.parray 0
  · intro i p hi hp
    refine ⟨?_, ?_, ?_, ?_, ?_, ?_, ?_, ?_, ?_⟩
    · intro v
      obtain ⟨a, b⟩ := sameButSlot_modify fps i
        (fun p => { p with val := { p.val with l0 := v }, cnt0 := p.cnt0 + 1 }) p hp
      exact ⟨_, by simp only [functionparameter_SetParamValue_INT64, hi, Option.map_some'], a, b⟩
    · intro v
      obtain ⟨a, b⟩ := sameButSlot_modify fps i
        (fun p => { p with val := { p.val with f0 := v }, cnt0 := p.cnt0 + 1 }) p hp
      exact ⟨_, by simp only [functionparameter_SetParamValue_FLOAT64, hi, Option.map_some'],
        a, b⟩
    · intro v
      obtain ⟨a, b⟩ := sameButSlot_modify fps i
        (fun p => { p with val := { p.val with s0 := v }, cnt0 := p.cnt0 + 1 }) p hp
      exact ⟨_, by simp only [functionparameter_SetParamValue_FLOAT32, hi, Option.map_some'],
        a, b⟩
    · intro v
      obtain ⟨a, b⟩ := sameButSlot_modify fps i
        (fun p => { p with val := { p.val with
                                    string0 := strTake v C.FUNCTION_PARAMETER_STRMAXLEN },
                           cnt0 := p.cnt0 + 1 }) p hp
      exact ⟨_, by simp only [functionparameter_SetParamValue_STRING, hi, Option.map_some'],
        a, b⟩
    · intro v
      obtain ⟨a, b⟩ := sameButSlot_modify fps i
        (fun p => if v = 1 then
            { p with fpflag := p.fpflag ||| C.FPFLAG_ONOFF, val := { p.val with l0 := 1 },
                     cnt0 := p.cnt0 + 1 }
           else
            { p with fpflag := clearFlag p.fpflag C.FPFLAG_ONOFF,
                     val := { p.val with l0 := 0 }, cnt0 := p.cnt0 + 1 }) p hp
      exact ⟨_, by simp only [functionparameter_SetParamValue_ONOFF, hi, Option.map_some'],
        a, b⟩
    · obtain ⟨a, b⟩ := sameButSlot_modify fps i
        (fun p => { p with val := { p.val with l3 := p.val.l0 } }) p hp
      exact ⟨_, by simp only [functionparameter_GetParamValue_INT64, hi, hp, Option.map_some'],
        a, b⟩
    · obtain ⟨a, b⟩ := sameButSlot_modify fps i
        (fun p => { p with val := { p.val with f3 := p.val.f0 } }) p hp
      exact ⟨_, by simp only [functionparameter_GetParamValue_FLOAT64, hi, hp, Option.map_some'],
        a, b⟩
    · obtain ⟨a, b⟩ := sameButSlot_modify fps i
        (fun p => { p with val := { p.val with s3 := p.val.s0 } }) p hp
      exact ⟨_, by simp only [functionparameter_GetParamValue_FLOAT32, hi, hp, Option.map_some'],
        a, b⟩
    · simp only [functionparameter_GetParamValue_ONOFF, hi, hp, Option.map_some']
  · intro h
    refine ⟨?_, ?_, ?_, ?_, ?_, ?_, ?_, ?_, ?_⟩
    · intro v; simp only [functionparameter_SetParamValue_INT64, h, Option.map_none']
    · intro v; simp only [functionparameter_SetParamValue_FLOAT64, h, Option.map_none']
    · intro v; simp only [functionparameter_SetParamValue_FLOAT32, h, Option.map_none']
    · intro v; simp only [functionparameter_SetParamValue_STRING, h, Option.map_none']
    · intro v; simp only [functionparameter_SetParamValue_ONOFF, h, Option.map_none']
    · simp only [functionparameter_GetParamValue_INT64, h]
    · simp only [functionparameter_GetParamValue_FLOAT64, h]
    · simp only [functionparameter_GetParamValue_FLOAT32, h]
    · simp only [functionparameter_GetParamValue_ONOFF, h]

/-- Witness for C27: in the structure with the parameters `fps.delayus` (slot 0) and
`fps.delay` (slot 1), the name `fps.delay` is found in slot 0, whose full keyword
contains it; the int64 setter writes slot 0 and the getter reads it. -/
theorem C27_GetParamIndex_accessors_witness :
    functionparameter_GetParamIndex milkFPSConsts delayFPS2 "fps.delay" = some 0 ∧
    (∃ fps1, functionparameter_SetParamValue_INT64 milkFPSConsts delayFPS2 "fps.delay" 7
        = some fps1 ∧ sameButSlot delayFPS2 fps1 0 ∧
      fps1.parray[0]? = some
        (testSlot "fps.delayus" milkCheckConsts.FPTYPE_INT64 milkCheckConsts.FPFLAG_ACTIVE
          7 0 0 2)) ∧
    functionparameter_GetParamValue_ONOFF milkFPSConsts delayFPS2 "fps.delay"
      = some (delayFPS2, 0) :=
  ⟨by decide,
    ((C27_GetParamIndex_accessors milkFPSConsts delayFPS2 "fps.delay").2.2.1 0
      (testSlot "fps.delayus" milkCheckConsts.FPTYPE_INT64 milkCheckConsts.FPFLAG_ACTIVE
        0 0 0 1) (by decide) (by decide)).1 7,
    ((C27_GetParamIndex_accessors milkFPSConsts delayFPS2 "fps.delay").2.2.1 0
      (testSlot "fps.delayus" milkCheckConsts.FPTYPE_INT64 milkCheckConsts.FPFLAG_ACTIVE
        0 0 0 1) (by decide) (by decide)).2.2.2.2.2.2.2.2⟩

/-! ## The end of the command interpreter -/

/-- The status word that the end of the interpreter leaves: CMDFAIL is added when
`cmdOK == 0`, CMDOK when `cmdOK == 1`, CMDNOTFOUND when `cmdFOUND == 0`. The connected
structures, the queue list and the number of calls of `usleep` are not written. -/
theorem cmd_status_bits (T : CTRLConsts) (env : CTRLEnv) (FPScmdline : String) (w : CMDWORDS)
    (v : CMDVARS) (taskstatus : Nat) (s1 : CTRLState) (st : Nat)
    (h : cmd_status T env FPScmdline w v taskstatus = some (s1, st)) :
    st = ((taskstatus ||| (if v.cmdOK = 0 then T.FPSTASK_STATUS_CMDFAIL else 0))
            ||| (if v.cmdOK = 1 then T.FPSTASK_STATUS_CMDOK else 0))
          ||| (if v.cmdFOUND = 0 then T.FPSTASK_STATUS_CMDNOTFOUND else 0) ∧
    s1.fps = v.s.fps ∧ s1.fpsctrlqueuelist = v.s.fpsctrlqueuelist ∧ s1.sleeps = v.s.sleeps := by
  unfold cmd_status at h
  simp only [Option.bind_eq_some] at h
  obtain ⟨r1, ⟨r0, h0, h1⟩, h2⟩ := h
  have e0 : r0.2 = taskstatus ||| (if v.cmdOK = 0 then T.FPSTASK_STATUS_CMDFAIL else 0) ∧
      r0.1.fps = v.s.fps ∧ r0.1.fpsctrlqueuelist = v.s.fpsctrlqueuelist ∧
      r0.1.sleeps = v.s.sleeps := by
    by_cases c : v.cmdOK = 0
    · rw [if_pos c] at h0 ⊢
      simp only [Option.map_eq_some'] at h0
      obtain ⟨m, -, hm⟩ := h0
      rw [← hm]
      exact ⟨rfl, rfl, rfl, rfl⟩
    · rw [if_neg c] at h0 ⊢
      injection h0 with h0
      rw [← h0]
      exact ⟨(Nat.or_zero _).symm, rfl, rfl, rfl⟩
  have e1 : r1.2 = r0.2 ||| (if v.cmdOK = 1 then T.FPSTASK_STATUS_CMDOK else 0) ∧
      r1.1.fps = r0.1.fps ∧ r1.1.fpsctrlqueuelist = r0.1.fpsctrlqueuelist ∧
      r1.1.sleeps = r0.1.sleeps := by
    by_cases c : v.cmdOK = 1
    · rw [if_pos c] at h1 ⊢
      simp only [Option.map_eq_some'] at h1
      obtain ⟨m, -, hm⟩ := h1
      rw [← hm]
      exact ⟨rfl, rfl, rfl, rfl⟩
    · rw [if_neg c] at h1 ⊢
      injection h1 with h1
      rw [← h1]
      exact ⟨(Nat.or_zero _).symm, rfl, rfl, rfl⟩
  have e2 : st = r1.2 ||| (if v.cmdFOUND = 0 then T.FPSTASK_STATUS_CMDNOTFOUND else 0) ∧
      s1.fps = r1.1.fps ∧ s1.fpsctrlqueuelist = r1.1.fpsctrlqueuelist ∧
      s1.sleeps = r1.1.sleeps := by
    by_cases c : v.cmdFOUND = 0
    · rw [if_pos c] at h2 ⊢
      simp only [Option.map_eq_some'] at h2
      obtain ⟨m, -, hm⟩ := h2
      injection hm with a b
      rw [← a, ← b]
      exact ⟨rfl, rfl, rfl, rfl⟩
    · rw [if_neg c] at h2 ⊢
      injection h2 with h2
      rw [h2]
      exact ⟨(Nat.or_zero _).symm, rfl, rfl, rfl⟩
  refine ⟨?_, ?_, ?_, ?_⟩
  · rw [e2.1, e1.1, e0.1]
  · rw [e2.2.1, e1.2.1, e0.2.1]
  · rw [e2.2.2.1, e1.2.2.1, e0.2.2.1]
  · rw [e2.2.2.2, e1.2.2.2, e0.2.2.2]

/-- The bits of the status word of a task that the interpreter writes share no bit
with each other nor with the bits ACTIVE, SHOW and RUNNING, and none is zero. -/
theorem CTRLConsts.WF.cmdBits {T : CTRLConsts} (hT : T.WF) :
    (T.FPSTASK_STATUS_RECEIVED &&& T.FPSTASK_STATUS_CMDNOTFOUND = 0 ∧
      T.FPSTASK_STATUS_RECEIVED &&& T.FPSTASK_STATUS_CMDFAIL = 0 ∧
      T.FPSTASK_STATUS_RECEIVED &&& T.FPSTASK_STATUS_CMDOK = 0 ∧
      T.FPSTASK_STATUS_CMDNOTFOUND &&& T.FPSTASK_STATUS_CMDFAIL = 0 ∧
      T.FPSTASK_STATUS_CMDNOTFOUND &&& T.FPSTASK_STATUS_CMDOK = 0 ∧
      T.FPSTASK_STATUS_CMDFAIL &&& T.FPSTASK_STATUS_CMDOK = 0) ∧
    (T.FPSTASK_STATUS_CMDNOTFOUND ≠ 0 ∧ T.FPSTASK_STATUS_CMDFAIL ≠ 0 ∧
      T.FPSTASK_STATUS_CMDOK ≠ 0 ∧ T.FPSTASK_STATUS_RECEIVED ≠ 0 ∧
      T.FPSTASK_STATUS_SHOW ≠ 0) ∧
    (∀ a, a = T.FPSTASK_STATUS_ACTIVE ∨ a = T.FPSTASK_STATUS_SHOW ∨
        a = T.FPSTASK_STATUS_RUNNING →
      a &&& T.FPSTASK_STATUS_RECEIVED = 0 ∧ a &&& T.FPSTASK_STATUS_CMDNOTFOUND = 0 ∧
      a &&& T.FPSTASK_STATUS_CMDFAIL = 0 ∧ a &&& T.FPSTASK_STATUS_CMDOK = 0) ∧
    (T.FPSTASK_STATUS_ACTIVE &&& T.FPSTASK_STATUS_SHOW = 0 ∧
      T.FPSTASK_STATUS_SHOW &&& T.FPSTASK_STATUS_RUNNING = 0 ∧
      T.FPSTASK_STATUS_SHOW < 2 ^ 64) := by
  obtain ⟨-, h2, h3, -⟩ := hT
  simp only [CTRLConsts.taskStatusBits, List.pairwise_cons, List.mem_cons, List.mem_singleton,
    List.not_mem_nil, or_false, forall_eq_or_imp, forall_eq, IsEmpty.forall_iff,
    implies_true, List.Pairwise.nil, and_true] at h2 h3
  obtain ⟨⟨a1, a2, a3, a4, a5, a6⟩, ⟨b2, b3, b4, b5, b6⟩, ⟨c3, c4, c5, c6⟩, ⟨d4, d5, d6⟩,
    ⟨e5, e6⟩, f6⟩ := h2
  obtain ⟨-, g2, -, g4, g5, g6, g7⟩ := h3
  refine ⟨⟨d4, d5, d6, e5, e6, f6⟩, ⟨g5.1, g6.1, g7.1, g4.1, g2.1⟩, ?_, a1, b2, g2.2⟩
  rintro a (h | h | h)
  · rw [h]; exact ⟨a3, a4, a5, a6⟩
  · rw [h]; exact ⟨b3, b4, b5, b6⟩
  · rw [h]; exact ⟨c3, c4, c5, c6⟩

/-- A test of a mask on a word made of four parts. -/
theorem or4_and (a b c d m : Nat) :
    (((a ||| b) ||| c) ||| d) &&& m = (((a &&& m) ||| (b &&& m)) ||| (c &&& m)) ||| (d &&& m) := by
  apply Nat.eq_of_testBit_eq
  intro i
  simp only [Nat.testBit_and, Nat.testBit_or]
  cases a.testBit i <;> cases b.testBit i <;> cases c.testBit i <;> cases d.testBit i <;>
    cases m.testBit i <;> rfl

/-- A word that holds a mask other than zero is not zero. -/
theorem or_ne_zero_right (x m : Nat) (hm : m ≠ 0) : x ||| m ≠ 0 := by
  intro h
  apply hm
  apply Nat.eq_of_testBit_eq
  intro i
  have h1 : (x ||| m).testBit i = false := by rw [h]; exact Nat.zero_testBit i
  rw [Nat.testBit_or] at h1
  rw [Nat.zero_testBit]
  revert h1
  cases x.testBit i <;> cases m.testBit i <;> simp

/-- The tests of the bits CMDFAIL, CMDOK and CMDNOTFOUND on the status word that the end
of the interpreter leaves, when the word at entry has none of them. -/
theorem cmd_status_tests (T : CTRLConsts) (hT : T.WF) (ts cmdOK cmdFOUND : Nat)
    (h1 : ts &&& T.FPSTASK_STATUS_CMDOK = 0) (h2 : ts &&& T.FPSTASK_STATUS_CMDFAIL = 0)
    (h3 : ts &&& T.FPSTASK_STATUS_CMDNOTFOUND = 0) :
    ((((ts ||| (if cmdOK = 0 then T.FPSTASK_STATUS_CMDFAIL else 0))
            ||| (if cmdOK = 1 then T.FPSTASK_STATUS_CMDOK else 0))
          ||| (if cmdFOUND = 0 then T.FPSTASK_STATUS_CMDNOTFOUND else 0))
        &&& T.FPSTASK_STATUS_CMDFAIL ≠ 0 ↔ cmdOK = 0) ∧
    ((((ts ||| (if cmdOK = 0 then T.FPSTASK_STATUS_CMDFAIL else 0))
            ||| (if cmdOK = 1 then T.FPSTASK_STATUS_CMDOK else 0))
          ||| (if cmdFOUND = 0 then T.FPSTASK_STATUS_CMDNOTFOUND else 0))
        &&& T.FPSTASK_STATUS_CMDOK ≠ 0 ↔ cmdOK = 1) ∧
    ((((ts ||| (if cmdOK = 0 then T.FPSTASK_STATUS_CMDFAIL else 0))
            ||| (if cmdOK = 1 then T.FPSTASK_STATUS_CMDOK else 0))
          ||| (if cmdFOUND = 0 then T.FPSTASK_STATUS_CMDNOTFOUND else 0))
        &&& T.FPSTASK_STATUS_CMDNOTFOUND ≠ 0 ↔ cmdFOUND = 0) := by
  obtain ⟨⟨-, -, -, d4, d5, d6⟩, ⟨n1, n2, n3, -, -⟩, -, -⟩ := hT.cmdBits
  have d4s := and_comm_zero _ _ d4
  have d5s := and_comm_zero _ _ d5
  have d6s := and_comm_zero _ _ d6
  refine ⟨?_, ?_, ?_⟩
  · rw [or4_and, h2]
    by_cases c0 : cmdOK = 0
    · have c1 : ¬ cmdOK = 1 := by omega
      rw [if_pos c0, if_neg c1]
      by_cases cf : cmdFOUND = 0
      · rw [if_pos cf, d4]
        simp only [Nat.and_self, Nat.zero_or, Nat.or_zero, Nat.zero_and]
        exact ⟨fun _ => c0, fun _ => n2⟩
      · rw [if_neg cf]
        simp only [Nat.and_self, Nat.zero_or, Nat.or_zero, Nat.zero_and]
        exact ⟨fun _ => c0, fun _ => n2⟩
    · rw [if_neg c0]
      by_cases c1 : cmdOK = 1
      · rw [if_pos c1, d6s]
        by_cases cf : cmdFOUND = 0
        · rw [if_pos cf, d4]
          simp only [Nat.zero_or, Nat.or_zero, Nat.zero_and]
          exact ⟨fun h => absurd rfl h, fun h => absurd h c0⟩
        · rw [if_neg cf]
          simp only [Nat.zero_or, Nat.or_zero, Nat.zero_and]
          exact ⟨fun h => absurd rfl h, fun h => absurd h c0⟩
      · rw [if_neg c1]
        by_cases cf : cmdFOUND = 0
        · rw [if_pos cf, d4]
          simp only [Nat.zero_or, Nat.or_zero, Nat.zero_and]
          exact ⟨fun h => absurd rfl h, fun h => absurd h c0⟩
        · rw [if_neg cf]
          simp only [Nat.zero_or, Nat.or_zero, Nat.zero_and]
          exact ⟨fun h => absurd rfl h, fun h => absurd h c0⟩
  · rw [or4_and, h1]
    by_cases c1 : cmdOK = 1
    · have c0 : ¬ cmdOK = 0 := by omega
      rw [if_pos c1, if_neg c0]
      by_cases cf : cmdFOUND = 0
      · rw [if_pos cf, d5]
        simp only [Nat.and_self, Nat.zero_or, Nat.or_zero, Nat.zero_and]
        exact ⟨fun _ => c1, fun _ => n3⟩
      · rw [if_neg cf]
        simp only [Nat.and_self, Nat.zero_or, Nat.or_zero, Nat.zero_and]
        exact ⟨fun _ => c1, fun _ => n3⟩
    · rw [if_neg c1]
      by_cases c0 : cmdOK = 0
      · rw [if_pos c0, d6]
        by_cases cf : cmdFOUND = 0
        · rw [if_pos cf, d5]
          simp only [Nat.zero_or, Nat.or_zero, Nat.zero_and]
          exact ⟨fun h => absurd rfl h, fun h => absurd h c1⟩
        · rw [if_neg cf]
          simp only [Nat.zero_or, Nat.or_zero, Nat.zero_and]
          exact ⟨fun h => absurd rfl h, fun h => absurd h c1⟩
      · rw [if_neg c0]
        by_cases cf : cmdFOUND = 0
        · rw [if_pos cf, d5]
          simp only [Nat.zero_or, Nat.or_zero, Nat.zero_and]
          exact ⟨fun h => absurd rfl h, fun h => absurd h c1⟩
        · rw [if_neg cf]
          simp only [Nat.zero_or, Nat.or_zero, Nat.zero_and]
          exact ⟨fun h => absurd rfl h, fun h => absurd h c1⟩
  · rw [or4_and, h3]
    by_cases cf : cmdFOUND = 0
    · rw [if_pos cf]
      have hx : ∀ x : Nat, x ||| T.FPSTASK_STATUS_CMDNOTFOUND &&& T.FPSTASK_STATUS_CMDNOTFOUND
          ≠ 0 := by
        intro x
        rw [Nat.and_self]
        exact or_ne_zero_right _ _ n1
      exact ⟨fun _ => cf, fun _ => hx _⟩
    · rw [if_neg cf]
      by_cases c0 : cmdOK = 0
      · have c1 : ¬ cmdOK = 1 := by omega
        rw [if_pos c0, if_neg c1, d4s]
        simp only [Nat.zero_or, Nat.or_zero, Nat.zero_and]
        exact ⟨fun h => absurd rfl h, fun h => absurd h cf⟩
      · rw [if_neg c0]
        by_cases c1 : cmdOK = 1
        · rw [if_pos c1, d5s]
          simp only [Nat.zero_or, Nat.or_zero, Nat.zero_and]
          exact ⟨fun h => absurd rfl h, fun h => absurd h cf⟩
        · rw [if_neg c1]
          simp only [Nat.zero_or, Nat.or_zero, Nat.zero_and]
          exact ⟨fun h => absurd rfl h, fun h => absurd h cf⟩

/-! ## The command blocks: a block runs for its command word only -/

theorem cmd_exit_skip (w : CMDWORDS) (v : CMDVARS)
    (h : v.cmdFOUND ≠ 0 ∨ w.FPScommand ≠ "exit") : cmd_exit w v = v := by
  unfold cmd_exit
  rw [if_neg]
  rintro ⟨a, b⟩
  rcases h with h | h
  · exact h a
  · exact h b

theorem cmd_cntinc_skip (env : CTRLEnv) (w : CMDWORDS) (v : CMDVARS)
    (h : v.cmdFOUND ≠ 0 ∨ w.FPScommand ≠ "cntinc") : cmd_cntinc env w v = v := by
  unfold cmd_cntinc
  rw [if_neg]
  rintro ⟨a, b⟩
  rcases h with h | h
  · exact h a
  · exact h b

theorem cmd_logsymlink_skip (env : CTRLEnv) (w : CMDWORDS) (v : CMDVARS)
    (h : v.cmdFOUND ≠ 0 ∨ w.FPScommand ≠ "logsymlink") : cmd_logsymlink env w v = v := by
  unfold cmd_logsymlink
  rw [if_neg]
  rintro ⟨a, b⟩
  rcases h with h | h
  · exact h a
  · exact h b

theorem cmd_queueprio_skip (T : CTRLConsts) (env : CTRLEnv) (w : CMDWORDS) (v : CMDVARS)
    (h : v.cmdFOUND ≠ 0 ∨ w.FPScommand ≠ "queueprio") : cmd_queueprio T env w v = some v := by
  unfold cmd_queueprio
  rw [if_neg]
  rintro ⟨a, b⟩
  rcases h with h | h
  · exact h a
  · exact h b

theorem entry_cmd_skip (w : CMDWORDS) (name errtext : String)
    (act : CTRLState → Int → Option CTRLState) (keyw : String)
    (logtext : CTRLState → Int → FUNCTION_PARAMETER_STRUCT → String) (v : CMDVARS)
    (h : v.cmdFOUND ≠ 0 ∨ w.FPScommand ≠ name) :
    entry_cmd w name errtext act keyw logtext v = some v := by
  unfold entry_cmd
  rw [if_neg]
  rintro ⟨a, b⟩
  rcases h with h | h
  · exact h a
  · exact h b

theorem cmd_confwupdate_skip (T : CTRLConsts) (env : CTRLEnv) (w : CMDWORDS) (v : CMDVARS)
    (h : v.cmdFOUND ≠ 0 ∨ w.FPScommand ≠ "confwupdate") :
    cmd_confwupdate T env w v = some v := by
  unfold cmd_confwupdate
  rw [if_neg]
  rintro ⟨a, b⟩
  rcases h with h | h
  · exact h a
  · exact h b

theorem cmd_runwait_skip (T : CTRLConsts) (env : CTRLEnv) (w : CMDWORDS) (v : CMDVARS)
    (h : v.cmdFOUND ≠ 0 ∨ w.FPScommand ≠ "runwait") : cmd_runwait T env w v = some v := by
  unfold cmd_runwait
  rw [if_neg]
  rintro ⟨a, b⟩
  rcases h with h | h
  · exact h a
  · exact h b

theorem cmd_setval_skip (T : CTRLConsts) (env : CTRLEnv) (w : CMDWORDS) (v : CMDVARS)
    (h : v.cmdFOUND ≠ 0 ∨ w.FPScommand ≠ "setval") : cmd_setval T env w v = some v := by
  unfold cmd_setval
  rw [if_neg]
  rintro ⟨a, b⟩
  rcases h with h | h
  · exact h a
  · exact h b

theorem cmd_getval_skip (T : CTRLConsts) (env : CTRLEnv) (w : CMDWORDS) (v : CMDVARS)
    (h : v.cmdFOUND ≠ 0 ∨ (w.FPScommand ≠ "getval" ∧ w.FPScommand ≠ "fwrval")) :
    cmd_getval T env w v = some v := by
  unfold cmd_getval
  rw [if_neg]
  rintro ⟨a, b⟩
  rcases h with h | h
  · exact h a
  · rcases b with b | b
    · exact h.1 b
    · exact h.2 b

/-! ## The command blocks: `cmdFOUND` and `cmdOK` -/

/-- A block that has recognised the command and has set `cmdOK` to 0 or 1 leaves the
variables decided. -/
theorem CMDVARS.decided_found (v : CMDVARS) (h1 : v.cmdFOUND = 1)
    (h2 : v.cmdOK = 0 ∨ v.cmdOK = 1) : v.decided := Or.inr ⟨h1, h2⟩

theorem entry_cmd_decided (w : CMDWORDS) (name errtext : String)
    (act : CTRLState → Int → Option CTRLState) (keyw : String)
    (logtext : CTRLState → Int → FUNCTION_PARAMETER_STRUCT → String) (v v1 : CMDVARS)
    (h : entry_cmd w name errtext act keyw logtext v = some v1) (hd : v.decided) :
    v1.decided := by
  unfold entry_cmd at h
  by_cases c : v.cmdFOUND = 0 ∧ w.FPScommand = name
  · rw [if_pos c] at h
    by_cases n : w.nbword ≠ 2
    · rw [if_pos n] at h
      injection h with h
      rw [← h]
      exact Or.inr ⟨rfl, Or.inl rfl⟩
    · rw [if_neg n] at h
      cases ha : act v.s v.fpsindex with
      | none => rw [ha] at h; cases h
      | some s1 =>
        rw [ha] at h
        simp only [] at h
        cases hf : getFPS s1.fps v.fpsindex with
        | none => rw [hf] at h; cases h
        | some f =>
          rw [hf] at h
          injection h with h
          rw [← h]
          exact Or.inr ⟨rfl, Or.inr rfl⟩
  · rw [if_neg c] at h
    injection h with h
    rw [← h]
    exact hd

theorem cmd_confwupdate_decided (T : CTRLConsts) (env : CTRLEnv) (w : CMDWORDS)
    (v v1 : CMDVARS) (h : cmd_confwupdate T env w v = some v1) (hd : v.decided) :
    v1.decided := by
  unfold cmd_confwupdate at h
  by_cases c : v.cmdFOUND = 0 ∧ w.FPScommand = "confwupdate"
  · rw [if_pos c] at h
    by_cases n : w.nbword ≠ 2
    · rw [if_pos n] at h
      injection h with h
      rw [← h]
      exact Or.inr ⟨rfl, Or.inl rfl⟩
    · rw [if_neg n] at h
      simp only [Option.map_eq_some'] at h
      obtain ⟨s1, -, h⟩ := h
      rw [← h]
      exact Or.inr ⟨rfl, Or.inr rfl⟩
  · rw [if_neg c] at h
    injection h with h
    rw [← h]
    exact hd

theorem cmd_runwait_decided (T : CTRLConsts) (env : CTRLEnv) (w : CMDWORDS)
    (v v1 : CMDVARS) (h : cmd_runwait T env w v = some v1) (hd : v.decided) :
    v1.decided := by
  unfold cmd_runwait at h
  by_cases c : v.cmdFOUND = 0 ∧ w.FPScommand = "runwait"
  · rw [if_pos c] at h
    by_cases n : w.nbword ≠ 2
    · rw [if_pos n] at h
      injection h with h
      rw [← h]
      exact Or.inr ⟨rfl, Or.inl rfl⟩
    · rw [if_neg n] at h
      cases ha : wait_loop env
          (fun f => decide (f.status &&& T.FUNCTION_PARAMETER_STRUCT_STATUS_CMDRUN ≠ 0))
          v.fpsindex 100000 v.s 0 with
      | none => rw [ha] at h; cases h
      | some r =>
        rw [ha] at h
        simp only [] at h
        cases hf : getFPS r.1.fps v.fpsindex with
        | none => rw [hf] at h; cases h
        | some f =>
          rw [hf] at h
          injection h with h
          rw [← h]
          exact Or.inr ⟨rfl, Or.inr rfl⟩
  · rw [if_neg c] at h
    injection h with h
    rw [← h]
    exact hd

theorem cmd_setval_decided (T : CTRLConsts) (env : CTRLEnv) (w : CMDWORDS)
    (v v1 : CMDVARS) (h : cmd_setval T env w v = some v1) (hd : v.decided)
    (hn : w.FPScommand = "setval" → w.nbword = 3) :
    v1.decided := by
  unfold cmd_setval at h
  by_cases c : v.cmdFOUND = 0 ∧ w.FPScommand = "setval"
  · rw [if_pos c] at h
    have n : ¬ w.nbword ≠ 3 := fun n => n (hn c.2)
    rw [if_neg n] at h
    cases hf : getFPS v.s.fps v.fpsindex with
    | none => rw [hf] at h; cases h
    | some f =>
      rw [hf] at h
      simp only [] at h
      cases hp : getParam f v.pindex with
      | none => rw [hp] at h; cases h
      | some p =>
        rw [hp] at h
        simp only [] at h
        cases hs : setval_switch T env w.FPSarg0 w.FPSarg1 f p.type with
        | none => rw [hs] at h; cases h
        | some r =>
          rw [hs] at h
          simp only [] at h
          by_cases u : r.2.2 = 1
          · rw [if_pos u] at h
            injection h with h
            rw [← h]
            exact Or.inr ⟨rfl, Or.inr rfl⟩
          · rw [if_neg u] at h
            injection h with h
            rw [← h]
            exact Or.inr ⟨rfl, Or.inl rfl⟩
  · rw [if_neg c] at h
    injection h with h
    rw [← h]
    exact hd

theorem cmd_getval_decided (T : CTRLConsts) (env : CTRLEnv) (w : CMDWORDS)
    (v v1 : CMDVARS) (h : cmd_getval T env w v = some v1) (hd : v.decided) :
    v1.decided := by
  unfold cmd_getval at h
  by_cases c : v.cmdFOUND = 0 ∧ (w.FPScommand = "getval" ∨ w.FPScommand = "fwrval")
  · rw [if_pos c] at h
    by_cases n1 : w.FPScommand = "getval" ∧ w.nbword ≠ 2
    · rw [if_pos n1] at h
      injection h with h
      rw [← h]
      exact Or.inr ⟨rfl, Or.inl rfl⟩
    · rw [if_neg n1] at h
      by_cases n2 : w.FPScommand = "fwrval" ∧ w.nbword ≠ 3
      · rw [if_pos n2] at h
        injection h with h
        rw [← h]
        exact Or.inr ⟨rfl, Or.inl rfl⟩
      · rw [if_neg n2] at h
        cases hf : getFPS v.s.fps v.fpsindex with
        | none => rw [hf] at h; cases h
        | some f =>
          rw [hf] at h
          simp only [] at h
          cases hp : getParam f v.pindex with
          | none => rw [hp] at h; cases h
          | some p =>
            rw [hp] at h
            simp only [] at h
            cases hs : functionparameter_PrintParameter_ValueString T env p v.msgstring
                T.STRINGMAXLEN_FPS_LOGMSG with
            | none => rw [hs] at h; cases h
            | some r =>
              rw [hs] at h
              simp only [] at h
              by_cases u : r.2 = T.RETURN_SUCCESS
              · rw [if_pos u] at h
                by_cases g : w.FPScommand = "getval"
                · rw [if_pos g] at h
                  injection h with h
                  rw [← h]
                  exact Or.inr ⟨rfl, Or.inr rfl⟩
                · rw [if_neg g] at h
                  by_cases o : env.fopen_append w.FPSarg1 = false
                  · rw [if_pos o] at h; cases h
                  · rw [if_neg o] at h
                    simp only [Option.map_eq_some'] at h
                    obtain ⟨m, -, h⟩ := h
                    rw [← h]
                    exact Or.inr ⟨rfl, Or.inr rfl⟩
              · rw [if_neg u] at h
                injection h with h
                rw [← h]
                exact Or.inr ⟨rfl, Or.inl rfl⟩
  · rw [if_neg c] at h
    injection h with h
    rw [← h]
    exact hd

/-- The blocks of the entry commands leave `cmdFOUND` and `cmdOK` decided, when the line
is not a `setval` with a number of words other than 3. -/
theorem entry_cmds_decided (T : CTRLConsts) (env : CTRLEnv) (w : CMDWORDS)
    (v v1 : CMDVARS) (h : entry_cmds T env w v = some v1) (hd : v.decided)
    (hn : w.FPScommand = "setval" → w.nbword = 3) :
    v1.decided := by
  unfold entry_cmds at h
  by_cases c : v.kwnindex ≠ -1
  · rw [if_pos c] at h
    simp only [Option.bind_eq_some] at h
    obtain ⟨u9, ⟨u8, ⟨u7, ⟨u6, ⟨u5, ⟨u4, ⟨u3, ⟨u2, ⟨u1, h1, h2⟩, h3⟩, h4⟩, h5⟩, h6⟩, h7⟩, h8⟩,
      h9⟩, h10⟩ := h
    have d1 := entry_cmd_decided _ _ _ _ _ _ _ _ h1 hd
    have d2 := entry_cmd_decided _ _ _ _ _ _ _ _ h2 d1
    have d3 := entry_cmd_decided _ _ _ _ _ _ _ _ h3 d2
    have d4 := cmd_confwupdate_decided _ _ _ _ _ h4 d3
    have d5 := entry_cmd_decided _ _ _ _ _ _ _ _ h5 d4
    have d6 := cmd_runwait_decided _ _ _ _ _ h6 d5
    have d7 := entry_cmd_decided _ _ _ _ _ _ _ _ h7 d6
    have d8 := entry_cmd_decided _ _ _ _ _ _ _ _ h8 d7
    have d9 := cmd_setval_decided _ _ _ _ _ h9 d8 hn
    exact cmd_getval_decided _ _ _ _ _ h10 d9
  · rw [if_neg c] at h
    injection h with h
    rw [← h]
    exact hd

/-! ## Exactly one of CMDOK, CMDFAIL and CMDNOTFOUND -/

/-- The resolution of an entry name that is in the keyword tree: `cmdFOUND` and `cmdOK`
keep their values and `kwnindex` is the index of a node. -/
theorem resolve_entry_found (T : CTRLConsts) (w : CMDWORDS) (v v1 : CMDVARS)
    (h : resolve_entry T w v = some v1) (hf : v.cmdFOUND = 0) (hr : entryResolves v.s w) :
    v1.cmdFOUND = 0 ∧ v1.cmdOK = v.cmdOK ∧ v1.kwnindex ≠ -1 ∧ v1.s.fps = v.s.fps ∧
    ∃ (k : Nat) (node : KEYWORD_TREE_NODE),
      kwn_scan v.s.keywnode w.FPSarg0 v.s.fpsCTRLvar.NBkwn.toNat 0 = some (k : Int) ∧
      v.s.keywnode[k]? = some node ∧ v1.fpsindex = node.fpsindex ∧
      v1.pindex = node.pindex := by
  obtain ⟨hn, k, hk⟩ := hr
  unfold resolve_entry at h
  rw [if_pos hf] at h
  by_cases c : T.FUNCTION_PARAMETER_STRMAXLEN ≤ w.FPSarg1.length
  · rw [if_pos c] at h; cases h
  · rw [if_neg c, if_pos hn, hk] at h
    simp only [] at h
    have hk1 : (k : Int) ≠ -1 := by omega
    rw [if_pos hk1] at h
    simp only [Int.toNat_ofNat] at h
    cases hnode : v.s.keywnode[k]? with
    | none => rw [hnode] at h; cases h
    | some node =>
      rw [hnode] at h
      injection h with h
      rw [← h]
      exact ⟨hf, rfl, hk1, rfl, k, node, hk, hnode, rfl, rfl⟩

/-- The interpreter on a line that is not empty and whose copy does not start with the
comment character: the blocks run on the words of the line and the end of the
interpreter makes the status word. -/
theorem FPSprocess_cmdline_some (T : CTRLConsts) (env : CTRLEnv) (loc : CMDLINE_LOCALS)
    (FPScmdline : String) (s : CTRLState) (taskstatus : Nat) (inputcmd : String)
    (w : CMDWORDS) (s1 : CTRLState) (st : Nat) (r : Int)
    (hne : FPScmdline.length ≠ 0)
    (hin : env.SNPRINTF_CHECK T.STRINGMAXLEN_FPS_CMDLINE FPScmdline = some inputcmd)
    (hc : inputcmd.data.head? ≠ some (Char.ofNat 35))
    (hw : cmdline_words T env loc inputcmd = some w)
    (h : functionparameter_FPSprocess_cmdline T env loc FPScmdline s taskstatus
      = some (s1, st, r)) :
    ∃ v : CMDVARS,
      ((cmd_queueprio T env w
          (cmd_logsymlink env w (cmd_cntinc env w (cmd_exit w
            { s := functionparameter_outlog "CMDRCV" ("[" ++ inputcmd ++ "]") s
              cmdOK := 2
              cmdFOUND := if w.nbword = 0 then 1 else 0
              kwnindex := -1
              fpsindex := loc.fpsindex
              pindex := loc.pindex
              msgstring := loc.msgstring })))).bind
        (resolve_entry T w)).bind (entry_cmds T env w) = some v ∧
      cmd_status T env FPScmdline w v (taskstatus ||| T.FPSTASK_STATUS_RECEIVED)
        = some (s1, st) ∧ r = v.fpsindex := by
  unfold functionparameter_FPSprocess_cmdline at h
  rw [if_neg hne, hin] at h
  simp only [] at h
  rw [if_neg hc, hw] at h
  simp only [] at h
  split at h
  · cases h
  · rename_i v hv
    simp only [Option.map_eq_some'] at h
    obtain ⟨x, hx, hxe⟩ := h
    injection hxe with a b
    injection b with b c
    refine ⟨v, hv, ?_, c.symm⟩
    rw [hx, ← a, ← b]

/-- C25. For a command line that is not empty and whose copy in the buffer `inputcmd`
does not start with the comment character, and a status word that has none of the bits
CMDOK, CMDFAIL and CMDNOTFOUND at entry: when `functionparameter_FPSprocess_cmdline`
returns, the status word never has both CMDOK and CMDFAIL; and it has exactly one of the
bits CMDOK, CMDFAIL and CMDNOTFOUND when the entry name (the second word) resolves in
the keyword tree, the command word is none of `exit`, `cntinc`, `logsymlink` and
`queueprio`, and the line is not a `setval` with a number of words other than 3. -/
theorem C25_exactly_one_status_bit (T : CTRLConsts) (env : CTRLEnv) (hT : T.WF)
    (loc : CMDLINE_LOCALS) (FPScmdline : String) (s : CTRLState) (taskstatus : Nat)
    (inputcmd : String) (w : CMDWORDS) (s1 : CTRLState) (st : Nat) (r : Int)
    (hne : FPScmdline.length ≠ 0)
    (hin : env.SNPRINTF_CHECK T.STRINGMAXLEN_FPS_CMDLINE FPScmdline = some inputcmd)
    (hc : inputcmd.data.head? ≠ some (Char.ofNat 35))
    (hw : cmdline_words T env loc inputcmd = some w)
    (hts : taskstatus &&& T.FPSTASK_STATUS_CMDOK = 0 ∧
      taskstatus &&& T.FPSTASK_STATUS_CMDFAIL = 0 ∧
      taskstatus &&& T.FPSTASK_STATUS_CMDNOTFOUND = 0)
    (h : functionparameter_FPSprocess_cmdline T env loc FPScmdline s taskstatus
      = some (s1, st, r)) :
    ¬ (st &&& T.FPSTASK_STATUS_CMDOK ≠ 0 ∧ st &&& T.FPSTASK_STATUS_CMDFAIL ≠ 0) ∧
    (entryResolves s w →
      w.FPScommand ∉ ["exit", "cntinc", "logsymlink", "queueprio"] →
      (w.FPScommand = "setval" → w.nbword = 3) →
      cmdBitCount T st = 1) := by
  obtain ⟨v, hv, hst, -⟩ := FPSprocess_cmdline_some T env loc FPScmdline s taskstatus inputcmd
    w s1 st r hne hin hc hw h
  obtain ⟨hbits, -⟩ := cmd_status_bits T env FPScmdline w v _ s1 st hst
  obtain ⟨⟨-, r2, r3, -, -, -⟩, -, -, -⟩ := hT.cmdBits
  obtain ⟨t1, t2, t3⟩ := cmd_status_tests T hT (taskstatus ||| T.FPSTASK_STATUS_RECEIVED)
    v.cmdOK v.cmdFOUND
    (by rw [or_and_other _ _ _ (and_comm_zero _ _ r3)]; exact hts.1)
    (by rw [or_and_other _ _ _ (and_comm_zero _ _ r2)]; exact hts.2.1)
    (by
      obtain ⟨⟨r1, -⟩, -⟩ := hT.cmdBits
      rw [or_and_other _ _ _ (and_comm_zero _ _ r1)]; exact hts.2.2)
  rw [← hbits] at t1 t2 t3
  refine ⟨?_, ?_⟩
  · rintro ⟨a, b⟩
    have := t2.mp a
    have := t1.mp b
    omega
  · intro hres hcmd hset
    simp only [List.mem_cons, List.mem_singleton, List.not_mem_nil, or_false, not_or] at hcmd
    obtain ⟨c1, c2, c3, c4⟩ := hcmd
    rw [cmd_exit_skip _ _ (Or.inr c1), cmd_cntinc_skip _ _ _ (Or.inr c2),
      cmd_logsymlink_skip _ _ _ (Or.inr c3), cmd_queueprio_skip _ _ _ _ (Or.inr c4)] at hv
    simp only [Option.bind_eq_some, Option.some_bind] at hv
    obtain ⟨v1, hv1, hv2⟩ := hv
    have hnb : ¬ w.nbword = 0 := by
      have := hres.1
      omega
    obtain ⟨f1, f2, -, -, -⟩ := resolve_entry_found T w _ v1 hv1 (if_neg hnb) hres
    have hd := entry_cmds_decided T env w v1 v hv2 (Or.inl ⟨f1, f2⟩) hset
    unfold cmdBitCount
    rcases hd with ⟨d1, d2⟩ | ⟨d1, d2 | d2⟩
    · have e1 : ¬ st &&& T.FPSTASK_STATUS_CMDOK ≠ 0 := fun x => by have := t2.mp x; omega
      have e2 : ¬ st &&& T.FPSTASK_STATUS_CMDFAIL ≠ 0 := fun x => by have := t1.mp x; omega
      have e3 : st &&& T.FPSTASK_STATUS_CMDNOTFOUND ≠ 0 := t3.mpr d1
      simp [List.filter, e1, e2, e3]
    · have e1 : ¬ st &&& T.FPSTASK_STATUS_CMDOK ≠ 0 := fun x => by have := t2.mp x; omega
      have e2 : st &&& T.FPSTASK_STATUS_CMDFAIL ≠ 0 := t1.mpr d2
      have e3 : ¬ st &&& T.FPSTASK_STATUS_CMDNOTFOUND ≠ 0 := fun x => by
        have := t3.mp x; omega
      simp [List.filter, e1, e2, e3]
    · have e1 : st &&& T.FPSTASK_STATUS_CMDOK ≠ 0 := t2.mpr d2
      have e2 : ¬ st &&& T.FPSTASK_STATUS_CMDFAIL ≠ 0 := fun x => by have := t1.mp x; omega
      have e3 : ¬ st &&& T.FPSTASK_STATUS_CMDNOTFOUND ≠ 0 := fun x => by
        have := t3.mp x; omega
      simp [List.filter, e1, e2, e3]

/-- Witness for C25: the line `getval fps.delayus` on the control state of the structure
with the parameters `fps.delayus` and `fps.delay`; the interpreter returns the status
word 0x900 (RECEIVED and CMDOK). -/
theorem C25_exactly_one_status_bit_witness :
    ∃ st, (functionparameter_FPSprocess_cmdline milkCTRLConsts stdCTRLEnv zeroLocals
        "getval fps.delayus" delayCTRL 0).map (fun r => r.2.1) = some st ∧ st = 0x900 ∧
      ¬ (st &&& milkCTRLConsts.FPSTASK_STATUS_CMDOK ≠ 0 ∧
          st &&& milkCTRLConsts.FPSTASK_STATUS_CMDFAIL ≠ 0) ∧
      cmdBitCount milkCTRLConsts st = 1 := by
  cases h : functionparameter_FPSprocess_cmdline milkCTRLConsts stdCTRLEnv zeroLocals
      "getval fps.delayus" delayCTRL 0 with
  | none => exact absurd h (by decide)
  | some x =>
    obtain ⟨s1, st, r⟩ := x
    have hc := C25_exactly_one_status_bit milkCTRLConsts stdCTRLEnv (by decide) zeroLocals
      "getval fps.delayus" delayCTRL 0 "getval fps.delayus"
      { nbword := 2, FPScommand := "getval", FPSarg0 := "fps.delayus", FPSarg1 := "(null)" }
      s1 st r (by decide) (by decide) (by decide) (by decide) (by decide) h
    have hst : (functionparameter_FPSprocess_cmdline milkCTRLConsts stdCTRLEnv zeroLocals
        "getval fps.delayus" delayCTRL 0).map (fun r => r.2.1) = some 0x900 := by decide
    rw [h] at hst
    simp only [Option.map_some', Option.some.injEq] at hst
    exact ⟨st, rfl, hst, hc.1, hc.2 ⟨by decide, 2, by decide⟩ (by decide) (by decide)⟩

/-- Counterexample for C25 as stated, on the same control state: a line of two blanks
and the line `exit` leave none of the three bits; the line `foo`, whose entry name
cannot resolve, leaves CMDFAIL and CMDNOTFOUND; the line `setval fps.delayus`, with
two words, leaves none of the three bits. -/
theorem C25_status_bit_counterexample :
    (functionparameter_FPSprocess_cmdline milkCTRLConsts stdCTRLEnv zeroLocals
        "  " delayCTRL 0).map (fun r => (r.2.1, cmdBitCount milkCTRLConsts r.2.1))
      = some (0x100, 0) ∧
    (functionparameter_FPSprocess_cmdline milkCTRLConsts stdCTRLEnv zeroLocals
        "exit" delayCTRL 0).map (fun r => (r.2.1, cmdBitCount milkCTRLConsts r.2.1))
      = some (0x100, 0) ∧
    (functionparameter_FPSprocess_cmdline milkCTRLConsts stdCTRLEnv zeroLocals
        "foo" delayCTRL 0).map (fun r => (r.2.1, cmdBitCount milkCTRLConsts r.2.1))
      = some (0x700, 2) ∧
    (functionparameter_FPSprocess_cmdline milkCTRLConsts stdCTRLEnv zeroLocals
        "setval fps.delayus" delayCTRL 0).map
        (fun r => (r.2.1, cmdBitCount milkCTRLConsts r.2.1))
      = some (0x100, 0) := by
  refine ⟨by decide, by decide, by decide, by decide⟩

/-! ## The command `runstart` -/

/-- Writing back the element that a list holds leaves the list. -/
theorem List.set_same {α : Type} (l : List α) (n : Nat) (a : α) (h : l[n]? = some a) :
    l.set n a = l := by
  apply List.ext_getElem?
  intro k
  by_cases hk : n = k
  · subst hk
    rw [List.getElem?_set_self (List.getElem?_eq_some_iff.mp h).1, h]
  · rw [List.getElem?_set_ne hk]

/-- Reading the structure that has just been written. -/
theorem getFPS_set_self (fps : List FUNCTION_PARAMETER_STRUCT) (i : Int)
    (f y : FUNCTION_PARAMETER_STRUCT) (h : getFPS fps i = some f) :
    getFPS (fps.set i.toNat y) i = some y := by
  unfold getFPS at h ⊢
  by_cases c : 0 ≤ i
  · rw [if_pos c] at h ⊢
    exact List.getElem?_set_self (List.getElem?_eq_some_iff.mp h).1
  · rw [if_neg c] at h; cases h

/-- The element of the array of structures behind a valid index. -/
theorem getFPS_some (fps : List FUNCTION_PARAMETER_STRUCT) (i : Int)
    (f : FUNCTION_PARAMETER_STRUCT) (h : getFPS fps i = some f) :
    0 ≤ i ∧ fps[i.toNat]? = some f := by
  unfold getFPS at h
  by_cases c : 0 ≤ i
  · rw [if_pos c] at h; exact ⟨c, h⟩
  · rw [if_neg c] at h; cases h

/-- `functionparameter_RUNstart` on a connected structure. -/
theorem RUNstart_eq (T : CTRLConsts) (fps : List FUNCTION_PARAMETER_STRUCT) (i : Int)
    (f : FUNCTION_PARAMETER_STRUCT) (h : getFPS fps i = some f) :
    functionparameter_RUNstart T fps i = some (fps.set i.toNat
      (if f.status &&& T.FUNCTION_PARAMETER_STRUCT_STATUS_CHECKOK ≠ 0 then
        { f with status := f.status ||| T.FUNCTION_PARAMETER_STRUCT_STATUS_CMDRUN,
                 signal := f.signal ||| T.FUNCTION_PARAMETER_STRUCT_SIGNAL_UPDATE }
       else f)) := by
  unfold functionparameter_RUNstart setFPS
  rw [h]
  rfl

/-- The third word of a command line of two words or more fits its buffer. -/
theorem cmdline_words_arg1 (T : CTRLConsts) (env : CTRLEnv) (loc : CMDLINE_LOCALS)
    (inputcmd : String) (w : CMDWORDS) (h : cmdline_words T env loc inputcmd = some w)
    (hn : 2 ≤ w.nbword) (hm : 1 < T.FUNCTION_PARAMETER_STRMAXLEN) :
    w.FPSarg1.length < T.FUNCTION_PARAMETER_STRMAXLEN := by
  have h1 : ∀ x : String, (cutNL x).length ≤ x.length := by
    intro x
    show (List.takeWhile _ x.data).length ≤ x.data.length
    exact (List.takeWhile_sublist _).length_le
  have h2 : ∀ (x : String) (n : Nat), (strTake x n).length ≤ n := by
    intro x n
    show (List.take n x.data).length ≤ n
    exact List.length_take_le n _
  have key : ∀ (toks : List String) (FPScommand : String),
      (if 1 < inputcmd.length ∧ 100 ≤ FPScommand.length then none
       else if 1 ≤ toks.length ∧
          T.FUNCTION_PARAMETER_KEYWORD_STRMAXLEN * T.FUNCTION_PARAMETER_KEYWORD_MAXLEVEL
            ≤ ((toks[1]?).getD env.fmt_null).length then none
       else
        some ({ nbword := toks.length
                FPScommand := FPScommand
                FPSarg0 := if 1 ≤ toks.length then cutNL ((toks[1]?).getD env.fmt_null)
                           else loc.FPSarg0
                FPSarg1 := if 2 ≤ toks.length then
                             cutNL (strTake ((toks[2]?).getD env.fmt_null)
                               (T.FUNCTION_PARAMETER_STRMAXLEN - 1))
                           else loc.FPSarg1 } : CMDWORDS)) = some w →
      w.FPSarg1.length < T.FUNCTION_PARAMETER_STRMAXLEN := by
    intro toks FPScommand hh
    by_cases c1 : 1 < inputcmd.length ∧ 100 ≤ FPScommand.length
    · rw [if_pos c1] at hh; cases hh
    · rw [if_neg c1] at hh
      by_cases c2 : 1 ≤ toks.length ∧
          T.FUNCTION_PARAMETER_KEYWORD_STRMAXLEN * T.FUNCTION_PARAMETER_KEYWORD_MAXLEVEL
            ≤ ((toks[1]?).getD env.fmt_null).length
      · rw [if_pos c2] at hh; cases hh
      · rw [if_neg c2] at hh
        injection hh with hh
        rw [← hh] at hn ⊢
        have hn2 : 2 ≤ toks.length := hn
        show (if 2 ≤ toks.length then
                cutNL (strTake ((toks[2]?).getD env.fmt_null)
                  (T.FUNCTION_PARAMETER_STRMAXLEN - 1))
              else loc.FPSarg1).length < _
        rw [if_pos hn2]
        have a1 := h1 (strTake ((toks[2]?).getD env.fmt_null)
          (T.FUNCTION_PARAMETER_STRMAXLEN - 1))
        have a2 := h2 ((toks[2]?).getD env.fmt_null) (T.FUNCTION_PARAMETER_STRMAXLEN - 1)
        omega
  exact key _ _ h

/-- The resolution of an entry name that is in the keyword tree. -/
theorem resolve_entry_eq (T : CTRLConsts) (w : CMDWORDS) (v : CMDVARS) (k : Nat)
    (node : KEYWORD_TREE_NODE) (hf : v.cmdFOUND = 0)
    (hlen : w.FPSarg1.length < T.FUNCTION_PARAMETER_STRMAXLEN) (hn : 1 < w.nbword)
    (hk : kwn_scan v.s.keywnode w.FPSarg0 v.s.fpsCTRLvar.NBkwn.toNat 0 = some (k : Int))
    (hnode : v.s.keywnode[k]? = some node) :
    resolve_entry T w v =
      some { v with kwnindex := (k : Int), fpsindex := node.fpsindex, pindex := node.pindex,
                    s := functionparameter_outlog "INFO"
                           ("FPS ENTRY FOUND : " ++ padRight w.FPSarg0 40 ++ "  "
                             ++ fmt_ld node.fpsindex ++ " " ++ fmt_ld node.pindex) v.s } := by
  unfold resolve_entry
  have hk1 : (k : Int) ≠ -1 := by omega
  rw [if_pos hf, if_neg (by omega), if_pos hn, hk]
  simp only []
  rw [if_pos hk1]
  simp only [Int.toNat_ofNat]
  rw [hnode]

/-- The block of an entry command with two words, when its action returns. -/
theorem entry_cmd_eq (w : CMDWORDS) (name errtext : String)
    (act : CTRLState → Int → Option CTRLState) (keyw : String)
    (logtext : CTRLState → Int → FUNCTION_PARAMETER_STRUCT → String) (v : CMDVARS)
    (s1 : CTRLState) (f : FUNCTION_PARAMETER_STRUCT)
    (hf : v.cmdFOUND = 0) (hc : w.FPScommand = name) (hn : w.nbword = 2)
    (ha : act v.s v.fpsindex = some s1) (hg : getFPS s1.fps v.fpsindex = some f) :
    entry_cmd w name errtext act keyw logtext v =
      some { v with cmdFOUND := 1, cmdOK := 1,
                    s := functionparameter_outlog keyw (logtext s1 v.fpsindex f) s1 } := by
  unfold entry_cmd
  rw [if_pos ⟨hf, hc⟩, if_neg (by omega), ha]
  simp only []
  rw [hg]

/-- The interpreter on a line `runstart <entry>` whose entry name is in the keyword
tree and whose structure is connected: the result in closed form. -/
theorem runstart_cmdline_eq (T : CTRLConsts) (env : CTRLEnv) (hT : T.WF)
    (loc : CMDLINE_LOCALS) (FPScmdline : String) (s : CTRLState) (taskstatus : Nat)
    (inputcmd : String) (w : CMDWORDS) (k : Nat) (node : KEYWORD_TREE_NODE)
    (f : FUNCTION_PARAMETER_STRUCT) (m : String)
    (hne : FPScmdline.length ≠ 0)
    (hin : env.SNPRINTF_CHECK T.STRINGMAXLEN_FPS_CMDLINE FPScmdline = some inputcmd)
    (hc : inputcmd.data.head? ≠ some (Char.ofNat 35))
    (hw : cmdline_words T env loc inputcmd = some w)
    (hcmd : w.FPScommand = "runstart") (hn : w.nbword = 2)
    (hk : kwn_scan s.keywnode w.FPSarg0 s.fpsCTRLvar.NBkwn.toNat 0 = some (k : Int))
    (hnode : s.keywnode[k]? = some node)
    (hf : getFPS s.fps node.fpsindex = some f)
    (hm : env.SNPRINTF_CHECK T.STRINGMAXLEN_FPS_LOGMSG
      (String.singleton (Char.ofNat 34) ++ FPScmdline ++ String.singleton (Char.ofNat 34))
      = some m) :
    ∃ s1, functionparameter_FPSprocess_cmdline T env loc FPScmdline s taskstatus
        = some (s1, (taskstatus ||| T.FPSTASK_STATUS_RECEIVED) ||| T.FPSTASK_STATUS_CMDOK,
            node.fpsindex) ∧
      functionparameter_RUNstart T s.fps node.fpsindex = some s1.fps := by
  have hlen := cmdline_words_arg1 T env loc inputcmd w hw (by omega) hT.2.2.2.2.2.2.2.2.2.2.2.2.2.1
  have hnb : ¬ w.nbword = 0 := by omega
  have e1 : w.FPScommand ≠ "exit" := by rw [hcmd]; decide
  have e2 : w.FPScommand ≠ "cntinc" := by rw [hcmd]; decide
  have e3 : w.FPScommand ≠ "logsymlink" := by rw [hcmd]; decide
  have e4 : w.FPScommand ≠ "queueprio" := by rw [hcmd]; decide
  have e5 : w.FPScommand ≠ "confstart" := by rw [hcmd]; decide
  have e6 : w.FPScommand ≠ "confstop" := by rw [hcmd]; decide
  have e7 : w.FPScommand ≠ "confupdate" := by rw [hcmd]; decide
  have e8 : w.FPScommand ≠ "confwupdate" := by rw [hcmd]; decide
  have hrun := RUNstart_eq T s.fps node.fpsindex f hf
  unfold functionparameter_FPSprocess_cmdline
  rw [if_neg hne, hin]
  simp only []
  rw [if_neg hc, hw]
  simp only []
  rw [cmd_exit_skip _ _ (Or.inr e1), cmd_cntinc_skip _ _ _ (Or.inr e2),
    cmd_logsymlink_skip _ _ _ (Or.inr e3), cmd_queueprio_skip _ _ _ _ (Or.inr e4),
    Option.some_bind,
    resolve_entry_eq T w _ k node (if_neg hnb) hlen (by omega) hk hnode,
    Option.some_bind]
  unfold entry_cmds
  rw [if_pos (by show (k : Int) ≠ -1; omega),
    entry_cmd_skip _ _ _ _ _ _ _ (Or.inr e5), Option.some_bind,
    entry_cmd_skip _ _ _ _ _ _ _ (Or.inr e6), Option.some_bind,
    entry_cmd_skip _ _ _ _ _ _ _ (Or.inr e7), Option.some_bind,
    cmd_confwupdate_skip _ _ _ _ (Or.inr e8), Option.some_bind,
    entry_cmd_eq w "runstart" _ _ _ _ _ _ _ (if_neg hnb) hcmd hn
      (by show (functionparameter_RUNstart T s.fps node.fpsindex).map _ = _
          rw [hrun]; rfl)
      (getFPS_set_self s.fps node.fpsindex f _ hf),
    Option.some_bind,
    cmd_runwait_skip _ _ _ _ (Or.inl Nat.one_ne_zero), Option.some_bind,
    entry_cmd_skip _ _ _ _ _ _ _ (Or.inl Nat.one_ne_zero), Option.some_bind,
    entry_cmd_skip _ _ _ _ _ _ _ (Or.inl Nat.one_ne_zero), Option.some_bind,
    cmd_setval_skip _ _ _ _ (Or.inl Nat.one_ne_zero), Option.some_bind,
    cmd_getval_skip _ _ _ _ (Or.inl Nat.one_ne_zero)]
  simp only []
  unfold cmd_status
  simp only [Nat.one_ne_zero, if_false, if_true, Option.some_bind, hm, Option.map_some']
  exact ⟨_, rfl, hrun⟩

/-- C28. `functionparameter_RUNstart` on a connected structure returns and writes that
structure only. When the status bit CHECKOK is set, it sets the status bit CMDRUN and
the signal bit UPDATE and leaves every other bit of the two words, the parameters and
the other fields. When CHECKOK is clear, the structure is left as it is. The command
line `runstart <entry>`, with an entry name that is in the keyword tree and a connected
structure, makes the interpreter return the status bit CMDOK in both cases, and the
structures are left as they are when CHECKOK is clear. -/
theorem C28_RUNstart_frame (T : CTRLConsts) (env : CTRLEnv) (hT : T.WF) :
    (∀ (fps : List FUNCTION_PARAMETER_STRUCT) (i : Int) (f : FUNCTION_PARAMETER_STRUCT),
      getFPS fps i = some f →
      ∃ l f1, functionparameter_RUNstart T fps i = some l ∧ l.length = fps.length ∧
        (∀ j, j ≠ i.toNat → l[j]? = fps[j]?) ∧ l[i.toNat]? = some f1 ∧
        { f1 with status := f.status, signal := f.signal } = f ∧
        (f.status &&& T.FUNCTION_PARAMETER_STRUCT_STATUS_CHECKOK ≠ 0 →
          f1.status = f.status ||| T.FUNCTION_PARAMETER_STRUCT_STATUS_CMDRUN ∧
          f1.signal = f.signal ||| T.FUNCTION_PARAMETER_STRUCT_SIGNAL_UPDATE ∧
          f1.status &&& T.FUNCTION_PARAMETER_STRUCT_STATUS_CMDRUN
            = T.FUNCTION_PARAMETER_STRUCT_STATUS_CMDRUN ∧
          f1.signal &&& T.FUNCTION_PARAMETER_STRUCT_SIGNAL_UPDATE
            = T.FUNCTION_PARAMETER_STRUCT_SIGNAL_UPDATE ∧
          (∀ a, a &&& T.FUNCTION_PARAMETER_STRUCT_STATUS_CMDRUN = 0 →
            f1.status &&& a = f.status &&& a) ∧
          (∀ a, a &&& T.FUNCTION_PARAMETER_STRUCT_SIGNAL_UPDATE = 0 →
            f1.signal &&& a = f.signal &&& a)) ∧
        (f.status &&& T.FUNCTION_PARAMETER_STRUCT_STATUS_CHECKOK = 0 → f1 = f ∧ l = fps)) ∧
    (∀ (loc : CMDLINE_LOCALS) (FPScmdline : String) (s : CTRLState) (taskstatus : Nat)
        (inputcmd : String) (w : CMDWORDS) (k : Nat) (node : KEYWORD_TREE_NODE)
        (f : FUNCTION_PARAMETER_STRUCT) (m : String),
      FPScmdline.length ≠ 0 →
      env.SNPRINTF_CHECK T.STRINGMAXLEN_FPS_CMDLINE FPScmdline = some inputcmd →
      inputcmd.data.head? ≠ some (Char.ofNat 35) →
      cmdline_words T env loc inputcmd = some w →
      w.FPScommand = "runstart" → w.nbword = 2 →
      kwn_scan s.keywnode w.FPSarg0 s.fpsCTRLvar.NBkwn.toNat 0 = some (k : Int) →
      s.keywnode[k]? = some node →
      getFPS s.fps node.fpsindex = some f →
      env.SNPRINTF_CHECK T.STRINGMAXLEN_FPS_LOGMSG
        (String.singleton (Char.ofNat 34) ++ FPScmdline ++ String.singleton (Char.ofNat 34))
        = some m →
      ∃ s1 st, functionparameter_FPSprocess_cmdline T env loc FPScmdline s taskstatus
          = some (s1, st, node.fpsindex) ∧
        st &&& T.FPSTASK_STATUS_CMDOK ≠ 0 ∧
        functionparameter_RUNstart T s.fps node.fpsindex = some s1.fps ∧
        (f.status &&& T.FUNCTION_PARAMETER_STRUCT_STATUS_CHECKOK = 0 → s1.fps = s.fps)) := by
  have part1 : ∀ (fps : List FUNCTION_PARAMETER_STRUCT) (i : Int)
      (f : FUNCTION_PARAMETER_STRUCT), getFPS fps i = some f →
      f.status &&& T.FUNCTION_PARAMETER_STRUCT_STATUS_CHECKOK = 0 →
      functionparameter_RUNstart T fps i = some fps := by
    intro fps i f hf h0
    rw [RUNstart_eq T fps i f hf, if_neg (fun h => h h0),
      List.set_same _ _ _ (getFPS_some fps i f hf).2]
  refine ⟨?_, ?_⟩
  · intro fps i f hf
    obtain ⟨hi, hfi⟩ := getFPS_some fps i f hf
    have hlt : i.toNat < fps.length := (List.getElem?_eq_some_iff.mp hfi).1
    refine ⟨_, _, RUNstart_eq T fps i f hf, List.length_set _ _ _,
      fun j hj => List.getElem?_set_ne (Ne.symm hj), List.getElem?_set_self hlt, ?_, ?_, ?_⟩
    · split <;> rfl
    · intro h
      rw [if_pos h]
      exact ⟨rfl, rfl, or_and_self_mask _ _, or_and_self_mask _ _,
        fun a ha => or_and_other _ _ _ ha, fun a ha => or_and_other _ _ _ ha⟩
    · intro h
      rw [if_neg (fun x => x h)]
      exact ⟨rfl, List.set_same _ _ _ hfi⟩
  · intro loc FPScmdline s taskstatus inputcmd w k node f m hne hin hc hw hcmd hn hk hnode
      hf hm
    obtain ⟨s1, e1, e2⟩ := runstart_cmdline_eq T env hT loc FPScmdline s taskstatus inputcmd
      w k node f m hne hin hc hw hcmd hn hk hnode hf hm
    refine ⟨s1, _, e1, ?_, e2, ?_⟩
    · rw [or_and_self_mask]
      exact hT.cmdBits.2.1.2.2.1
    · intro h0
      have := part1 s.fps node.fpsindex f hf h0
      rw [e2] at this
      injection this

/-- Witness for C28: the line `runstart fps.delayus` on the control state of a structure
whose status word is 0 leaves the structures as they are and returns the status word
0x900 (RECEIVED and CMDOK); on a structure with the status bit CHECKOK,
`functionparameter_RUNstart` adds the status bit CMDRUN and the signal bit UPDATE. -/
theorem C28_RUNstart_frame_witness :
    (∃ s1 st, functionparameter_FPSprocess_cmdline milkCTRLConsts stdCTRLEnv zeroLocals
        "runstart fps.delayus" delayCTRL 0 = some (s1, st, 0) ∧
      st &&& milkCTRLConsts.FPSTASK_STATUS_CMDOK ≠ 0 ∧ s1.fps = delayCTRL.fps) ∧
    (functionparameter_FPSprocess_cmdline milkCTRLConsts stdCTRLEnv zeroLocals
        "runstart fps.delayus" delayCTRL 0).map (fun r => r.2.1) = some 0x900 ∧
    (∃ l f1, functionparameter_RUNstart milkCTRLConsts
        [testFPS milkCTRLConsts.FUNCTION_PARAMETER_STRUCT_STATUS_CHECKOK []] 0 = some l ∧
      l[0]? = some f1 ∧
      f1.status = milkCTRLConsts.FUNCTION_PARAMETER_STRUCT_STATUS_CHECKOK |||
        milkCTRLConsts.FUNCTION_PARAMETER_STRUCT_STATUS_CMDRUN ∧
      f1.signal = milkCTRLConsts.FUNCTION_PARAMETER_STRUCT_SIGNAL_UPDATE) := by
  refine ⟨?_, by decide, ?_⟩
  · obtain ⟨s1, st, h1, h2, -, h4⟩ :=
      (C28_RUNstart_frame milkCTRLConsts stdCTRLEnv (by decide)).2 zeroLocals
        "runstart fps.delayus" delayCTRL 0 "runstart fps.delayus"
        { nbword := 2, FPScommand := "runstart", FPSarg0 := "fps.delayus",
          FPSarg1 := "(null)" }
        2 ⟨"fps.delayus", 0, 0⟩ delayFPS2
        (String.singleton (Char.ofNat 34) ++ "runstart fps.delayus" ++
          String.singleton (Char.ofNat 34))
        (by decide) (by decide) (by decide) (by decide) (by decide) (by decide) (by decide)
        (by decide) (by decide) (by decide)
    exact ⟨s1, st, h1, h2, h4 (by decide)⟩
  · obtain ⟨l, f1, h1, -, -, h4, -, h6, -⟩ :=
      (C28_RUNstart_frame milkCTRLConsts stdCTRLEnv (by decide)).1
        [testFPS milkCTRLConsts.FUNCTION_PARAMETER_STRUCT_STATUS_CHECKOK []] 0
        (testFPS milkCTRLConsts.FUNCTION_PARAMETER_STRUCT_STATUS_CHECKOK []) (by decide)
    obtain ⟨a, b, -⟩ := h6 (by decide)
    exact ⟨l, f1, h1, h4, a, b⟩

/-! ## The waiting commands -/

/-- A valid index into the array of structures. -/
theorem getFPS_ne_none (fps : List FUNCTION_PARAMETER_STRUCT) (i : Int) :
    getFPS fps i ≠ none ↔ 0 ≤ i ∧ i.toNat < fps.length := by
  unfold getFPS
  by_cases c : 0 ≤ i
  · rw [if_pos c]
    constructor
    · intro h
      obtain ⟨f, hf⟩ := Option.ne_none_iff_exists'.mp h
      exact ⟨c, (List.getElem?_eq_some_iff.mp hf).1⟩
    · rintro ⟨-, h⟩
      rw [List.getElem?_eq_getElem h]
      exact Option.some_ne_none _
  · rw [if_neg c]
    exact ⟨fun h => absurd rfl h, fun h => absurd h.1 c⟩

/-- The waiting loop returns: it calls `usleep` once for each increment of `timercnt`,
at most `n` times, when the other processes leave the number of structures. -/
theorem wait_loop_spec (env : CTRLEnv) (cond : FUNCTION_PARAMETER_STRUCT → Bool)
    (fpsindex : Int) (henv : ∀ k l, (env.usleep k l).length = l.length) :
    ∀ (n : Nat) (s : CTRLState) (timercnt : Nat),
      getFPS s.fps fpsindex ≠ none →
      ∃ s1 t1, wait_loop env cond fpsindex n s timercnt = some (s1, t1) ∧
        timercnt ≤ t1 ∧ t1 ≤ timercnt + n ∧ s1.sleeps = s.sleeps + (t1 - timercnt) ∧
        s1.fps.length = s.fps.length ∧ s1.outlog = s.outlog ∧ s1.clock = s.clock := by
  intro n
  induction n with
  | zero =>
    intro s timercnt hv
    obtain ⟨f, hf⟩ := Option.ne_none_iff_exists'.mp hv
    refine ⟨s, timercnt, ?_, Nat.le_refl _, Nat.le_refl _, by omega, rfl, rfl, rfl⟩
    simp only [wait_loop, hf, Option.map_some']
  | succ n ih =>
    intro s timercnt hv
    obtain ⟨f, hf⟩ := Option.ne_none_iff_exists'.mp hv
    by_cases c : cond f = true
    · have hv1 : getFPS (s.usleep env).fps fpsindex ≠ none := by
        rw [getFPS_ne_none] at hv ⊢
        show 0 ≤ fpsindex ∧ fpsindex.toNat < (env.usleep s.sleeps s.fps).length
        rw [henv]
        exact hv
      obtain ⟨s1, t1, e1, e2, e3, e4, e5, e6, e7⟩ := ih (s.usleep env) (timercnt + 1) hv1
      refine ⟨s1, t1, ?_, by omega, by omega, ?_, ?_, e6, e7⟩
      · simp only [wait_loop, hf, c, if_true]
        exact e1
      · rw [e4]
        show s.sleeps + 1 + (t1 - (timercnt + 1)) = _
        omega
      · rw [e5]
        exact henv _ _
    · refine ⟨s, timercnt, ?_, Nat.le_refl _, by omega, by omega, rfl, rfl, rfl⟩
      simp only [wait_loop, hf, c, if_false]
      rfl

/-- The waiting loop when no other process acts and the condition holds: it calls
`usleep` `n` times. -/
theorem wait_loop_stuck (env : CTRLEnv) (cond : FUNCTION_PARAMETER_STRUCT → Bool)
    (fpsindex : Int) (henv : ∀ k l, env.usleep k l = l) (f : FUNCTION_PARAMETER_STRUCT)
    (hc : cond f = true) :
    ∀ (n : Nat) (s : CTRLState) (timercnt : Nat),
      getFPS s.fps fpsindex = some f →
      wait_loop env cond fpsindex n s timercnt
        = some ({ s with sleeps := s.sleeps + n }, timercnt + n) := by
  intro n
  induction n with
  | zero =>
    intro s timercnt hf
    simp only [wait_loop, hf, Option.map_some']
    rfl
  | succ n ih =>
    intro s timercnt hf
    have hu : s.usleep env = { s with sleeps := s.sleeps + 1 } := by
      show ({ s with fps := env.usleep s.sleeps s.fps, sleeps := s.sleeps + 1 } : CTRLState) = _
      rw [henv]
    simp only [wait_loop, hf, hc, if_true]
    rw [hu, ih { s with sleeps := s.sleeps + 1 } (timercnt + 1) hf]
    have e1 : s.sleeps + 1 + n = s.sleeps + (n + 1) := by omega
    have e2 : timercnt + 1 + n = timercnt + (n + 1) := by omega
    show some (({ s with sleeps := s.sleeps + 1 + n } : CTRLState), timercnt + 1 + n) = _
    rw [e1, e2]

/-- The loop of the command `confwupdate` returns within `10001 - timercnt` iterations:
each iteration calls `usleep` once for each increment of `timercnt`, and the loop ends
when `timercnt` has passed 10000. -/
theorem confwupdate_loop_spec (T : CTRLConsts) (env : CTRLEnv) (fpsindex : Int)
    (henv : ∀ k l, (env.usleep k l).length = l.length) :
    ∀ (n : Nat) (s : CTRLState) (timercnt looptrycnt : Nat),
      timercnt ≤ 10000 → 10001 ≤ n + timercnt → getFPS s.fps fpsindex ≠ none →
      ∃ s1, confwupdate_loop T env fpsindex n s timercnt looptrycnt = some s1 ∧
        s.sleeps < s1.sleeps ∧ s1.sleeps + timercnt ≤ s.sleeps + 10001 ∧
        s1.fps.length = s.fps.length := by
  intro n
  induction n with
  | zero => intro s timercnt looptrycnt h1 h2; omega
  | succ n ih =>
    intro s timercnt looptrycnt h1 h2 hv
    obtain ⟨f, hf⟩ := Option.ne_none_iff_exists'.mp hv
    obtain ⟨hi, hfi⟩ := getFPS_some s.fps fpsindex f hf
    have hset : setFPS s.fps fpsindex (fun f =>
        { f with signal := f.signal ||| T.FUNCTION_PARAMETER_STRUCT_SIGNAL_CHECKED
                             ||| T.FUNCTION_PARAMETER_STRUCT_SIGNAL_UPDATE })
        = some (s.fps.set fpsindex.toNat
          { f with signal := f.signal ||| T.FUNCTION_PARAMETER_STRUCT_SIGNAL_CHECKED
                               ||| T.FUNCTION_PARAMETER_STRUCT_SIGNAL_UPDATE }) := by
      unfold setFPS
      rw [hf]
      rfl
    have hv1 : getFPS ({ s with fps := (s.fps.set fpsindex.toNat
          { f with signal := f.signal ||| T.FUNCTION_PARAMETER_STRUCT_SIGNAL_CHECKED
                               ||| T.FUNCTION_PARAMETER_STRUCT_SIGNAL_UPDATE }) } : CTRLState).fps
        fpsindex ≠ none := by
      rw [getFPS_set_self s.fps fpsindex f _ hf]
      exact Option.some_ne_none _
    obtain ⟨s2, t2, e1, e2, e3, e4, e5, -, -⟩ := wait_loop_spec env
      (fun f => decide (f.signal &&& T.FUNCTION_PARAMETER_STRUCT_SIGNAL_CHECKED ≠ 0))
      fpsindex henv (10000 - timercnt) _ timercnt hv1
    have hlen2 : s2.fps.length = s.fps.length := by
      rw [e5]
      exact List.length_set _ _ _
    have hv3 : getFPS (s2.usleep env).fps fpsindex ≠ none := by
      rw [getFPS_ne_none] at hv ⊢
      show 0 ≤ fpsindex ∧ fpsindex.toNat < (env.usleep s2.sleeps s2.fps).length
      rw [henv, hlen2]
      exact hv
    obtain ⟨f3, hf3⟩ := Option.ne_none_iff_exists'.mp hv3
    have hs2 : s2.sleeps = s.sleeps + (t2 - timercnt) := e4
    simp only [confwupdate_loop, hset, e1, hf3]
    by_cases c : f3.conferrcnt = 0 ∨ 10000 < t2 + 1
    · rw [if_pos c]
      refine ⟨_, rfl, ?_, ?_, ?_⟩
      · show s.sleeps < s2.sleeps + 1
        omega
      · show s2.sleeps + 1 + timercnt ≤ s.sleeps + 10001
        omega
      · show (env.usleep s2.sleeps s2.fps).length = s.fps.length
        rw [henv, hlen2]
    · rw [if_neg c]
      have c2 : t2 + 1 ≤ 10000 := by
        by_contra hcon
        exact c (Or.inr (by omega))
      obtain ⟨s4, g1, g2, g3, g4⟩ := ih
        (functionparameter_outlog "CONFWUPDATE"
          ("[" ++ fmt_ld looptrycnt ++ "] waited " ++ fmt_ld (100 * (t2 + 1))
            ++ " us on FPS " ++ fmt_ld fpsindex ++ " " ++ f3.name ++ ". conferrcnt = "
            ++ fmt_ld f3.conferrcnt) (s2.usleep env))
        (t2 + 1) (looptrycnt + 1) c2 (by omega) hv3
      refine ⟨s4, g1, ?_, ?_, ?_⟩
      · have : s2.sleeps + 1 < s4.sleeps := g2
        omega
      · have : s4.sleeps + (t2 + 1) ≤ s2.sleeps + 1 + 10001 := g3
        omega
      · rw [g4]
        show (env.usleep s2.sleeps s2.fps).length = s.fps.length
        rw [henv, hlen2]

/-- A word that has received a mask other than zero holds a bit of the mask. -/
theorem or_or_and_ne_zero (a c u : Nat) (hc : c ≠ 0) : ((a ||| c) ||| u) &&& c ≠ 0 := by
  intro h
  apply hc
  apply Nat.eq_of_testBit_eq
  intro i
  have h1 : (((a ||| c) ||| u) &&& c).testBit i = false := by rw [h]; exact Nat.zero_testBit i
  rw [Nat.testBit_and, Nat.testBit_or, Nat.testBit_or] at h1
  rw [Nat.zero_testBit]
  revert h1
  cases a.testBit i <;> cases c.testBit i <;> cases u.testBit i <;> simp

/-- The loop of the command `confwupdate` when no other process acts: the signal bit
CHECKED, which the loop sets, stays set, the inner loop calls `usleep` 10000 times, and
the loop ends after one more call. -/
theorem confwupdate_loop_stuck (T : CTRLConsts) (env : CTRLEnv) (fpsindex : Int)
    (henv : ∀ k l, env.usleep k l = l)
    (hC : T.FUNCTION_PARAMETER_STRUCT_SIGNAL_CHECKED ≠ 0)
    (n : Nat) (s : CTRLState) (looptrycnt : Nat) (hv : getFPS s.fps fpsindex ≠ none) :
    ∃ s1, confwupdate_loop T env fpsindex (n + 1) s 0 looptrycnt = some s1 ∧
      s1.sleeps = s.sleeps + 10001 := by
  obtain ⟨f, hf⟩ := Option.ne_none_iff_exists'.mp hv
  have hset : setFPS s.fps fpsindex (fun f =>
      { f with signal := f.signal ||| T.FUNCTION_PARAMETER_STRUCT_SIGNAL_CHECKED
                           ||| T.FUNCTION_PARAMETER_STRUCT_SIGNAL_UPDATE })
      = some (s.fps.set fpsindex.toNat
        { f with signal := f.signal ||| T.FUNCTION_PARAMETER_STRUCT_SIGNAL_CHECKED
                             ||| T.FUNCTION_PARAMETER_STRUCT_SIGNAL_UPDATE }) := by
    unfold setFPS
    rw [hf]
    rfl
  have hg := getFPS_set_self s.fps fpsindex f
    { f with signal := f.signal ||| T.FUNCTION_PARAMETER_STRUCT_SIGNAL_CHECKED
                         ||| T.FUNCTION_PARAMETER_STRUCT_SIGNAL_UPDATE } hf
  have hw := wait_loop_stuck env
    (fun f => decide (f.signal &&& T.FUNCTION_PARAMETER_STRUCT_SIGNAL_CHECKED ≠ 0))
    fpsindex henv _
    (decide_eq_true (or_or_and_ne_zero f.signal _ _ hC)) 10000
    { s with fps := (s.fps.set fpsindex.toNat
        { f with signal := f.signal ||| T.FUNCTION_PARAMETER_STRUCT_SIGNAL_CHECKED
                             ||| T.FUNCTION_PARAMETER_STRUCT_SIGNAL_UPDATE }) } 0 hg
  simp only [confwupdate_loop, hset, Nat.sub_zero, hw, CTRLState.usleep, henv, hg,
    Nat.zero_add]
  rw [if_pos (Or.inr (by omega))]
  exact ⟨_, rfl, rfl⟩

/-- The interpreter on a line `confwupdate <entry>` whose entry name is in the keyword
tree: the loop of the command runs on a state with the structures and the number of
calls of `usleep` of the state at entry, and the status bit CMDOK is returned. -/
theorem confwupdate_cmdline_eq (T : CTRLConsts) (env : CTRLEnv) (hT : T.WF)
    (loc : CMDLINE_LOCALS) (FPScmdline : String) (s : CTRLState) (taskstatus : Nat)
    (inputcmd : String) (w : CMDWORDS) (k : Nat) (node : KEYWORD_TREE_NODE) (m : String)
    (hne : FPScmdline.length ≠ 0)
    (hin : env.SNPRINTF_CHECK T.STRINGMAXLEN_FPS_CMDLINE FPScmdline = some inputcmd)
    (hc : inputcmd.data.head? ≠ some (Char.ofNat 35))
    (hw : cmdline_words T env loc inputcmd = some w)
    (hcmd : w.FPScommand = "confwupdate") (hn : w.nbword = 2)
    (hk : kwn_scan s.keywnode w.FPSarg0 s.fpsCTRLvar.NBkwn.toNat 0 = some (k : Int))
    (hnode : s.keywnode[k]? = some node)
    (hm : env.SNPRINTF_CHECK T.STRINGMAXLEN_FPS_LOGMSG
      (String.singleton (Char.ofNat 34) ++ FPScmdline ++ String.singleton (Char.ofNat 34))
      = some m) :
    ∃ sR : CTRLState, sR.fps = s.fps ∧ sR.sleeps = s.sleeps ∧
      functionparameter_FPSprocess_cmdline T env loc FPScmdline s taskstatus =
        (confwupdate_loop T env node.fpsindex 10001 sR 0 0).map fun sL =>
          (functionparameter_outlog "CMDOK" m sL,
            (taskstatus ||| T.FPSTASK_STATUS_RECEIVED) ||| T.FPSTASK_STATUS_CMDOK,
            node.fpsindex) := by
  have hlen := cmdline_words_arg1 T env loc inputcmd w hw (by omega) hT.2.2.2.2.2.2.2.2.2.2.2.2.2.1
  have hnb : ¬ w.nbword = 0 := by omega
  have e1 : w.FPScommand ≠ "exit" := by rw [hcmd]; decide
  have e2 : w.FPScommand ≠ "cntinc" := by rw [hcmd]; decide
  have e3 : w.FPScommand ≠ "logsymlink" := by rw [hcmd]; decide
  have e4 : w.FPScommand ≠ "queueprio" := by rw [hcmd]; decide
  have e5 : w.FPScommand ≠ "confstart" := by rw [hcmd]; decide
  have e6 : w.FPScommand ≠ "confstop" := by rw [hcmd]; decide
  have e7 : w.FPScommand ≠ "confupdate" := by rw [hcmd]; decide
  refine ⟨functionparameter_outlog "INFO"
    ("FPS ENTRY FOUND : " ++ padRight w.FPSarg0 40 ++ "  "
      ++ fmt_ld node.fpsindex ++ " " ++ fmt_ld node.pindex)
    (functionparameter_outlog "CMDRCV" ("[" ++ inputcmd ++ "]") s), rfl, rfl, ?_⟩
  unfold functionparameter_FPSprocess_cmdline
  rw [if_neg hne, hin]
  simp only []
  rw [if_neg hc, hw]
  simp only []
  rw [cmd_exit_skip _ _ (Or.inr e1), cmd_cntinc_skip _ _ _ (Or.inr e2),
    cmd_logsymlink_skip _ _ _ (Or.inr e3), cmd_queueprio_skip _ _ _ _ (Or.inr e4),
    Option.some_bind,
    resolve_entry_eq T w _ k node (if_neg hnb) hlen (by omega) hk hnode,
    Option.some_bind]
  unfold entry_cmds
  rw [if_pos (by show (k : Int) ≠ -1; omega),
    entry_cmd_skip _ _ _ _ _ _ _ (Or.inr e5), Option.some_bind,
    entry_cmd_skip _ _ _ _ _ _ _ (Or.inr e6), Option.some_bind,
    entry_cmd_skip _ _ _ _ _ _ _ (Or.inr e7), Option.some_bind]
  unfold cmd_confwupdate
  rw [if_pos ⟨if_neg hnb, hcmd⟩, if_neg (fun h => h hn)]
  simp only []
  cases hl : confwupdate_loop T env node.fpsindex 10001
      (functionparameter_outlog "INFO"
        ("FPS ENTRY FOUND : " ++ padRight w.FPSarg0 40 ++ "  "
          ++ fmt_ld node.fpsindex ++ " " ++ fmt_ld node.pindex)
        (functionparameter_outlog "CMDRCV" ("[" ++ inputcmd ++ "]") s)) 0 0 with
  | none => rfl
  | some sL =>
    simp only [Option.map_some', Option.some_bind]
    rw [entry_cmd_skip _ _ _ _ _ _ _ (Or.inl Nat.one_ne_zero), Option.some_bind,
      cmd_runwait_skip _ _ _ _ (Or.inl Nat.one_ne_zero), Option.some_bind,
      entry_cmd_skip _ _ _ _ _ _ _ (Or.inl Nat.one_ne_zero), Option.some_bind,
      entry_cmd_skip _ _ _ _ _ _ _ (Or.inl Nat.one_ne_zero), Option.some_bind,
      cmd_setval_skip _ _ _ _ (Or.inl Nat.one_ne_zero), Option.some_bind,
      cmd_getval_skip _ _ _ _ (Or.inl Nat.one_ne_zero)]
    simp only []
    unfold cmd_status
    simp only [Nat.one_ne_zero, if_false, if_true, Option.some_bind, hm, Option.map_some']

/-- The interpreter on a line `runwait <entry>` whose entry name is in the keyword
tree: the waiting loop runs on a state with the structures and the number of calls of
`usleep` of the state at entry, and the status bit CMDOK is returned. -/
theorem runwait_cmdline_eq (T : CTRLConsts) (env : CTRLEnv) (hT : T.WF)
    (loc : CMDLINE_LOCALS) (FPScmdline : String) (s : CTRLState) (taskstatus : Nat)
    (inputcmd : String) (w : CMDWORDS) (k : Nat) (node : KEYWORD_TREE_NODE) (m : String)
    (hne : FPScmdline.length ≠ 0)
    (hin : env.SNPRINTF_CHECK T.STRINGMAXLEN_FPS_CMDLINE FPScmdline = some inputcmd)
    (hc : inputcmd.data.head? ≠ some (Char.ofNat 35))
    (hw : cmdline_words T env loc inputcmd = some w)
    (hcmd : w.FPScommand = "runwait") (hn : w.nbword = 2)
    (hk : kwn_scan s.keywnode w.FPSarg0 s.fpsCTRLvar.NBkwn.toNat 0 = some (k : Int))
    (hnode : s.keywnode[k]? = some node)
    (hm : env.SNPRINTF_CHECK T.STRINGMAXLEN_FPS_LOGMSG
      (String.singleton (Char.ofNat 34) ++ FPScmdline ++ String.singleton (Char.ofNat 34))
      = some m) :
    ∃ sR : CTRLState, sR.fps = s.fps ∧ sR.sleeps = s.sleeps ∧
      functionparameter_FPSprocess_cmdline T env loc FPScmdline s taskstatus =
        (wait_loop env
          (fun f => decide (f.status &&& T.FUNCTION_PARAMETER_STRUCT_STATUS_CMDRUN ≠ 0))
          node.fpsindex 100000 sR 0).bind fun x =>
          (getFPS x.1.fps node.fpsindex).map fun f =>
            (functionparameter_outlog "CMDOK" m
              (functionparameter_outlog "RUNWAIT"
                ("waited " ++ fmt_ld (10000 * x.2) ++ " us on FPS "
                  ++ fmt_ld node.fpsindex ++ " " ++ f.name) x.1),
              (taskstatus ||| T.FPSTASK_STATUS_RECEIVED) ||| T.FPSTASK_STATUS_CMDOK,
              node.fpsindex) := by
  have hlen := cmdline_words_arg1 T env loc inputcmd w hw (by omega) hT.2.2.2.2.2.2.2.2.2.2.2.2.2.1
  have hnb : ¬ w.nbword = 0 := by omega
  have e1 : w.FPScommand ≠ "exit" := by rw [hcmd]; decide
  have e2 : w.FPScommand ≠ "cntinc" := by rw [hcmd]; decide
  have e3 : w.FPScommand ≠ "logsymlink" := by rw [hcmd]; decide
  have e4 : w.FPScommand ≠ "queueprio" := by rw [hcmd]; decide
  have e5 : w.FPScommand ≠ "confstart" := by rw [hcmd]; decide
  have e6 : w.FPScommand ≠ "confstop" := by rw [hcmd]; decide
  have e7 : w.FPScommand ≠ "confupdate" := by rw [hcmd]; decide
  have e8 : w.FPScommand ≠ "confwupdate" := by rw [hcmd]; decide
  have e9 : w.FPScommand ≠ "runstart" := by rw [hcmd]; decide
  refine ⟨functionparameter_outlog "INFO"
    ("FPS ENTRY FOUND : " ++ padRight w.FPSarg0 40 ++ "  "
      ++ fmt_ld node.fpsindex ++ " " ++ fmt_ld node.pindex)
    (functionparameter_outlog "CMDRCV" ("[" ++ inputcmd ++ "]") s), rfl, rfl, ?_⟩
  unfold functionparameter_FPSprocess_cmdline
  rw [if_neg hne, hin]
  simp only []
  rw [if_neg hc, hw]
  simp only []
  rw [cmd_exit_skip _ _ (Or.inr e1), cmd_cntinc_skip _ _ _ (Or.inr e2),
    cmd_logsymlink_skip _ _ _ (Or.inr e3), cmd_queueprio_skip _ _ _ _ (Or.inr e4),
    Option.some_bind,
    resolve_entry_eq T w _ k node (if_neg hnb) hlen (by omega) hk hnode,
    Option.some_bind]
  unfold entry_cmds
  rw [if_pos (by show (k : Int) ≠ -1; omega),
    entry_cmd_skip _ _ _ _ _ _ _ (Or.inr e5), Option.some_bind,
    entry_cmd_skip _ _ _ _ _ _ _ (Or.inr e6), Option.some_bind,
    entry_cmd_skip _ _ _ _ _ _ _ (Or.inr e7), Option.some_bind,
    cmd_confwupdate_skip _ _ _ _ (Or.inr e8), Option.some_bind,
    entry_cmd_skip _ _ _ _ _ _ _ (Or.inr e9), Option.some_bind]
  unfold cmd_runwait
  rw [if_pos ⟨if_neg hnb, hcmd⟩, if_neg (fun h => h hn)]
  simp only []
  cases hl : wait_loop env
      (fun f => decide (f.status &&& T.FUNCTION_PARAMETER_STRUCT_STATUS_CMDRUN ≠ 0))
      node.fpsindex 100000
      (functionparameter_outlog "INFO"
        ("FPS ENTRY FOUND : " ++ padRight w.FPSarg0 40 ++ "  "
          ++ fmt_ld node.fpsindex ++ " " ++ fmt_ld node.pindex)
        (functionparameter_outlog "CMDRCV" ("[" ++ inputcmd ++ "]") s)) 0 with
  | none => rfl
  | some x =>
    simp only [Option.some_bind]
    cases hg : getFPS x.1.fps node.fpsindex with
    | none => rfl
    | some f =>
      simp only [Option.map_some', Option.some_bind]
      rw [entry_cmd_skip _ _ _ _ _ _ _ (Or.inl Nat.one_ne_zero), Option.some_bind,
        entry_cmd_skip _ _ _ _ _ _ _ (Or.inl Nat.one_ne_zero), Option.some_bind,
        cmd_setval_skip _ _ _ _ (Or.inl Nat.one_ne_zero), Option.some_bind,
        cmd_getval_skip _ _ _ _ (Or.inl Nat.one_ne_zero)]
      simp only []
      unfold cmd_status
      simp only [Nat.one_ne_zero, if_false, if_true, Option.some_bind, hm, Option.map_some']

/-- C26. The two waiting commands on a line whose entry name is in the keyword tree and
whose structure is connected, whatever the other processes do to the structures during
the calls of `usleep` (they leave the number of structures): the interpreter returns.
For `confwupdate`, each wait is a call `usleep(100)`; there is at least one call and
there are at most 10001 calls, and exactly 10001 calls when no other process acts, since
the signal bit CHECKED that the command sets is then never cleared. For `runwait`, each
wait is a call `usleep(10000)` and there are at most 100000 calls. -/
theorem C26_waiting_commands (T : CTRLConsts) (env : CTRLEnv) (hT : T.WF)
    (henv : ∀ k l, (env.usleep k l).length = l.length)
    (loc : CMDLINE_LOCALS) (FPScmdline : String) (s : CTRLState) (taskstatus : Nat)
    (inputcmd : String) (w : CMDWORDS) (k : Nat) (node : KEYWORD_TREE_NODE) (m : String)
    (hne : FPScmdline.length ≠ 0)
    (hin : env.SNPRINTF_CHECK T.STRINGMAXLEN_FPS_CMDLINE FPScmdline = some inputcmd)
    (hc : inputcmd.data.head? ≠ some (Char.ofNat 35))
    (hw : cmdline_words T env loc inputcmd = some w) (hn : w.nbword = 2)
    (hk : kwn_scan s.keywnode w.FPSarg0 s.fpsCTRLvar.NBkwn.toNat 0 = some (k : Int))
    (hnode : s.keywnode[k]? = some node)
    (hv : getFPS s.fps node.fpsindex ≠ none)
    (hm : env.SNPRINTF_CHECK T.STRINGMAXLEN_FPS_LOGMSG
      (String.singleton (Char.ofNat 34) ++ FPScmdline ++ String.singleton (Char.ofNat 34))
      = some m) :
    (w.FPScommand = "confwupdate" →
      ∃ s1 st, functionparameter_FPSprocess_cmdline T env loc FPScmdline s taskstatus
          = some (s1, st, node.fpsindex) ∧
        s.sleeps < s1.sleeps ∧ s1.sleeps ≤ s.sleeps + 10001 ∧
        ((∀ k l, env.usleep k l = l) → T.FUNCTION_PARAMETER_STRUCT_SIGNAL_CHECKED ≠ 0 →
          s1.sleeps = s.sleeps + 10001)) ∧
    (w.FPScommand = "runwait" →
      ∃ s1 st, functionparameter_FPSprocess_cmdline T env loc FPScmdline s taskstatus
          = some (s1, st, node.fpsindex) ∧
        s1.sleeps ≤ s.sleeps + 100000) := by
  refine ⟨?_, ?_⟩
  · intro hcmd
    obtain ⟨sR, r1, r2, r3⟩ := confwupdate_cmdline_eq T env hT loc FPScmdline s taskstatus
      inputcmd w k node m hne hin hc hw hcmd hn hk hnode hm
    have hvR : getFPS sR.fps node.fpsindex ≠ none := by rw [r1]; exact hv
    obtain ⟨sL, l1, l2, l3, -⟩ := confwupdate_loop_spec T env node.fpsindex henv 10001 sR 0 0
      (by omega) (by omega) hvR
    refine ⟨functionparameter_outlog "CMDOK" m sL,
      (taskstatus ||| T.FPSTASK_STATUS_RECEIVED) ||| T.FPSTASK_STATUS_CMDOK, ?_, ?_, ?_, ?_⟩
    · rw [r3, l1]; rfl
    · show s.sleeps < sL.sleeps
      omega
    · show sL.sleeps ≤ s.sleeps + 10001
      omega
    · intro hid hC
      obtain ⟨sL2, k1, k2⟩ := confwupdate_loop_stuck T env node.fpsindex hid hC 10000 sR 0 hvR
      rw [l1] at k1
      injection k1 with k1
      show sL.sleeps = s.sleeps + 10001
      rw [k1, k2, r2]
  · intro hcmd
    obtain ⟨sR, r1, r2, r3⟩ := runwait_cmdline_eq T env hT loc FPScmdline s taskstatus
      inputcmd w k node m hne hin hc hw hcmd hn hk hnode hm
    have hvR : getFPS sR.fps node.fpsindex ≠ none := by rw [r1]; exact hv
    obtain ⟨sW, t1, l1, l2, l3, l4, l5, -, -⟩ := wait_loop_spec env
      (fun f => decide (f.status &&& T.FUNCTION_PARAMETER_STRUCT_STATUS_CMDRUN ≠ 0))
      node.fpsindex henv 100000 sR 0 hvR
    have hvW : getFPS sW.fps node.fpsindex ≠ none := by
      rw [getFPS_ne_none] at hvR ⊢
      rw [l5]
      exact hvR
    obtain ⟨f, hf⟩ := Option.ne_none_iff_exists'.mp hvW
    refine ⟨functionparameter_outlog "CMDOK" m
        (functionparameter_outlog "RUNWAIT"
          ("waited " ++ fmt_ld (10000 * t1) ++ " us on FPS "
            ++ fmt_ld node.fpsindex ++ " " ++ f.name) sW),
      (taskstatus ||| T.FPSTASK_STATUS_RECEIVED) ||| T.FPSTASK_STATUS_CMDOK, ?_, ?_⟩
    · rw [r3, l1]
      simp only [Option.some_bind, hf, Option.map_some']
    · show sW.sleeps ≤ s.sleeps + 100000
      omega

/-- Witness for C26: on the control state of the structure with the parameters
`fps.delayus` and `fps.delay`, where no other process acts, the line
`confwupdate fps.delayus` makes 10001 calls of `usleep(100)`, which is 1.0001 s, and
the line `runwait fps.delayus` returns. -/
theorem C26_waiting_commands_witness :
    (∃ s1 st, functionparameter_FPSprocess_cmdline milkCTRLConsts stdCTRLEnv zeroLocals
        "confwupdate fps.delayus" delayCTRL 0 = some (s1, st, 0) ∧
      s1.sleeps = 10001) ∧
    (∃ s1 st, functionparameter_FPSprocess_cmdline milkCTRLConsts stdCTRLEnv zeroLocals
        "runwait fps.delayus" delayCTRL 0 = some (s1, st, 0) ∧
      s1.sleeps ≤ 100000) := by
  refine ⟨?_, ?_⟩
  · obtain ⟨s1, st, h1, -, -, h4⟩ :=
      (C26_waiting_commands milkCTRLConsts stdCTRLEnv (by decide) (fun _ _ => rfl) zeroLocals
        "confwupdate fps.delayus" delayCTRL 0 "confwupdate fps.delayus"
        { nbword := 2, FPScommand := "confwupdate", FPSarg0 := "fps.delayus",
          FPSarg1 := "(null)" }
        2 ⟨"fps.delayus", 0, 0⟩
        (String.singleton (Char.ofNat 34) ++ "confwupdate fps.delayus" ++
          String.singleton (Char.ofNat 34))
        (by decide) (by decide) (by decide) (by decide) (by decide) (by decide) (by decide)
        (by decide) (by decide)).1 (by decide)
    exact ⟨s1, st, h1, (h4 (fun _ _ => rfl) (by decide)).trans (by decide)⟩
  · obtain ⟨s1, st, h1, h2⟩ :=
      (C26_waiting_commands milkCTRLConsts stdCTRLEnv (by decide) (fun _ _ => rfl) zeroLocals
        "runwait fps.delayus" delayCTRL 0 "runwait fps.delayus"
        { nbword := 2, FPScommand := "runwait", FPSarg0 := "fps.delayus",
          FPSarg1 := "(null)" }
        2 ⟨"fps.delayus", 0, 0⟩
        (String.singleton (Char.ofNat 34) ++ "runwait fps.delayus" ++
          String.singleton (Char.ofNat 34))
        (by decide) (by decide) (by decide) (by decide) (by decide) (by decide) (by decide)
        (by decide) (by decide)).2 (by decide)
    exact ⟨s1, st, h1, h2⟩

/-! ## What a tick that returns has done -/

/-- The task that the scan loop leaves when it completes the task `t`. -/
theorem completed_task_bits (T : CTRLConsts) (hT : T.WF) (t : FPSCTRL_TASK_ENTRY)
    (ct : Int × Int) :
    ({ t with status := clearFlag (clearFlag t.status T.FPSTASK_STATUS_RUNNING)
                          T.FPSTASK_STATUS_ACTIVE
              completiontime := ct } : FPSCTRL_TASK_ENTRY).status
        &&& T.FPSTASK_STATUS_ACTIVE = 0 ∧
    ({ t with status := clearFlag (clearFlag t.status T.FPSTASK_STATUS_RUNNING)
                          T.FPSTASK_STATUS_ACTIVE
              completiontime := ct } : FPSCTRL_TASK_ENTRY).status
        &&& T.FPSTASK_STATUS_RUNNING = 0 := by
  obtain ⟨hA, hR, hRA, -, -⟩ := hT.taskBits
  refine ⟨clearFlag_and_mask _ _ hA, ?_⟩
  show clearFlag (clearFlag t.status T.FPSTASK_STATUS_RUNNING) T.FPSTASK_STATUS_ACTIVE
    &&& T.FPSTASK_STATUS_RUNNING = 0
  rw [clearFlag_and_other _ _ _ hA hR hRA]
  exact clearFlag_and_mask _ _ hR

/-- Replacing the task at index `c` by the same task completed is a completion in its
queue. -/
theorem completionsOn_set (T : CTRLConsts) (tasks : List FPSCTRL_TASK_ENTRY) (c : Nat)
    (t : FPSCTRL_TASK_ENTRY) (ct : Int × Int) (ht : tasks[c]? = some t)
    (ha : t.status &&& T.FPSTASK_STATUS_ACTIVE ≠ 0)
    (hr : t.status &&& T.FPSTASK_STATUS_RUNNING ≠ 0) :
    completionsOn T (fun q => q = t.queue) tasks
      (tasks.set c
        { t with status := clearFlag (clearFlag t.status T.FPSTASK_STATUS_RUNNING)
                             T.FPSTASK_STATUS_ACTIVE
                 completiontime := ct }) := by
  refine ⟨List.length_set _ _ _, ?_⟩
  intro j t0 hj
  by_cases hjc : c = j
  · subst hjc
    rw [ht] at hj
    simp only [Option.some.injEq] at hj
    subst hj
    refine ⟨_, List.getElem?_set_self (List.getElem?_eq_some_iff.mp ht).1,
      Or.inr ⟨ha, hr, ct, rfl⟩, fun hne => absurd rfl hne⟩
  · exact ⟨t0, by rw [List.getElem?_set_ne hjc]; exact hj, Or.inl rfl, fun _ => rfl⟩

/-- One pass of the scan loop of queue `qi` whose head is running and has to wait: the
loop ends, nothing is written, and `queue_nexttask[qi]` is `QUEUE_WAIT`. -/
theorem queue_scan_blocked (T : CTRLConsts) (env : CTRLEnv)
    (fps : List FUNCTION_PARAMETER_STRUCT) (qi n : Nat) (tasks : List FPSCTRL_TASK_ENTRY)
    (clock c : Nat) (t : FPSCTRL_TASK_ENTRY) (hh : queueHead T tasks qi c)
    (ht : tasks[c]? = some t) (hr : t.status &&& T.FPSTASK_STATUS_RUNNING ≠ 0)
    (hg : task_completed T fps t = some false) :
    queue_scan T env fps qi (n + 1) tasks clock = some (tasks, clock, -2) := by
  rcases scan_queue_head T qi tasks with ⟨-, h2⟩ | ⟨c1, h1, h2⟩
  · exact absurd hh (h2 c)
  · have := queueHead_unique T tasks qi c c1 hh h2
    subst this
    simp only [queue_scan, h1, ht, if_neg hr, hg]

/-- One pass of the scan loop of queue `qi` whose head is running and has not to wait:
the head is completed and the queue is scanned again. -/
theorem queue_scan_open (T : CTRLConsts) (env : CTRLEnv)
    (fps : List FUNCTION_PARAMETER_STRUCT) (qi n : Nat) (tasks : List FPSCTRL_TASK_ENTRY)
    (clock c : Nat) (t : FPSCTRL_TASK_ENTRY) (hh : queueHead T tasks qi c)
    (ht : tasks[c]? = some t) (hr : t.status &&& T.FPSTASK_STATUS_RUNNING ≠ 0)
    (hg : task_completed T fps t = some true) :
    queue_scan T env fps qi (n + 1) tasks clock =
      queue_scan T env fps qi n
        (tasks.set c
          { t with status := clearFlag (clearFlag t.status T.FPSTASK_STATUS_RUNNING)
                               T.FPSTASK_STATUS_ACTIVE
                   completiontime := env.clock_gettime clock })
        (clock + 1) := by
  rcases scan_queue_head T qi tasks with ⟨-, h2⟩ | ⟨c1, h1, h2⟩
  · exact absurd hh (h2 c)
  · have := queueHead_unique T tasks qi c c1 hh h2
    subst this
    simp only [queue_scan, h1, ht, if_neg hr, hg]

/-- The scan loop of queue `qi`, when it returns: the tasks after the loop are the
tasks before it, some of the running tasks of the queue completed, and
`queue_nexttask[qi]` is as `queueResult` describes. -/
theorem queue_scan_some (T : CTRLConsts) (env : CTRLEnv) (fps : List FUNCTION_PARAMETER_STRUCT)
    (hT : T.WF) (qi : Nat) :
    ∀ (n : Nat) (tasks : List FPSCTRL_TASK_ENTRY) (clock : Nat)
      (tasks1 : List FPSCTRL_TASK_ENTRY) (clock1 : Nat) (r : Int),
      queue_scan T env fps qi n tasks clock = some (tasks1, clock1, r) →
      completionsOn T (fun q => q = qi) tasks tasks1 ∧ queueResult T tasks1 qi r := by
  intro n
  induction n with
  | zero => intro tasks clock tasks1 clock1 r h; simp [queue_scan] at h
  | succ n ih =>
    intro tasks clock tasks1 clock1 r h
    rcases scan_queue_head T qi tasks with ⟨h1, h2⟩ | ⟨c, h1, h2⟩
    · simp only [queue_scan, h1, Option.some.injEq, Prod.mk.injEq] at h
      obtain ⟨a, -, b⟩ := h
      subst a; subst b
      exact ⟨completionsOn_refl T _ tasks, Or.inl ⟨rfl, h2⟩⟩
    · obtain ⟨t, ht, hq, hlt, hmin⟩ := h2
      have hhead : queueHead T tasks qi c := ⟨t, ht, hq, hlt, hmin⟩
      by_cases hrun : t.status &&& T.FPSTASK_STATUS_RUNNING = 0
      · simp only [queue_scan, h1, ht, if_pos hrun, Option.some.injEq, Prod.mk.injEq] at h
        obtain ⟨a, -, b⟩ := h
        subst a; subst b
        exact ⟨completionsOn_refl T _ tasks, Or.inr (Or.inr ⟨c, rfl, hhead, t, ht, hrun⟩)⟩
      · cases hcomp : task_completed T fps t with
        | none => simp [queue_scan, h1, ht, if_neg hrun, hcomp] at h
        | some b =>
          cases b with
          | false =>
            rw [queue_scan_blocked T env fps qi n tasks clock c t hhead ht hrun hcomp] at h
            simp only [Option.some.injEq, Prod.mk.injEq] at h
            obtain ⟨a, -, b⟩ := h
            subst a; subst b
            exact ⟨completionsOn_refl T _ tasks, Or.inr (Or.inl ⟨rfl, c, t, hhead, ht, hrun⟩)⟩
          | true =>
            rw [queue_scan_open T env fps qi n tasks clock c t hhead ht hrun hcomp] at h
            obtain ⟨e2, e3⟩ := ih _ _ _ _ _ h
            have hstep := completionsOn_mono T _ (fun q => q = qi)
              (fun q (h : q = t.queue) => h.trans hq.2) _ _
              (completionsOn_set T tasks c t (env.clock_gettime clock) ht hq.1 hrun)
            exact ⟨completionsOn_trans T hT _ _ _ _ hstep e2, e3⟩

/-- The first loop over the queues, when it returns: the tasks after it are the tasks
before it, some of the running tasks of the queues scanned completed, and each element
of `queue_nexttask` is as `queueResult` describes for the task list after the loop. -/
theorem queues_scan_some (T : CTRLConsts) (env : CTRLEnv) (fps : List FUNCTION_PARAMETER_STRUCT)
    (hT : T.WF) :
    ∀ (n qi : Nat) (tasks : List FPSCTRL_TASK_ENTRY) (clock : Nat)
      (tasks1 : List FPSCTRL_TASK_ENTRY) (clock1 : Nat) (qn : List Int),
      queues_scan T env fps n qi tasks clock = some (tasks1, clock1, qn) →
      qn.length = n ∧ completionsOn T (fun q => qi ≤ q) tasks tasks1 ∧
      ∀ (i : Nat) (r : Int), qn[i]? = some r → queueResult T tasks1 (qi + i) r := by
  intro n
  induction n with
  | zero =>
    intro qi tasks clock tasks1 clock1 qn h
    simp only [queues_scan, Option.some.injEq, Prod.mk.injEq] at h
    obtain ⟨a, -, b⟩ := h
    subst a; subst b
    exact ⟨rfl, completionsOn_refl T _ tasks, fun i r h => by simp at h⟩
  | succ n ih =>
    intro qi tasks clock tasks1 clock1 qn h
    simp only [queues_scan] at h
    cases hA : queue_scan T env fps qi (tasks.length + 1) tasks clock with
    | none => rw [hA] at h; cases h
    | some x =>
      obtain ⟨tasksA, clockA, r⟩ := x
      rw [hA] at h
      simp only [Option.map_eq_some'] at h
      obtain ⟨y, hy, hye⟩ := h
      obtain ⟨tasksB, clockB, qnB⟩ := y
      simp only [Prod.mk.injEq] at hye
      obtain ⟨a, -, b⟩ := hye
      subst a; subst b
      obtain ⟨e2, e3⟩ := queue_scan_some T env fps hT qi _ _ _ _ _ _ hA
      obtain ⟨f2, f3, f4⟩ := ih (qi + 1) tasksA clockA tasksB clockB qnB hy
      refine ⟨by simp [f2], ?_, ?_⟩
      · exact completionsOn_trans T hT _ _ _ _
          (completionsOn_mono T _ _ (fun q hq => by omega) _ _ e2)
          (completionsOn_mono T _ _ (fun q hq => by omega) _ _ f3)
      · intro i x hi
        cases i with
        | zero =>
          simp only [List.getElem?_cons_zero, Option.some.injEq] at hi
          subst hi
          obtain ⟨g1, g2⟩ := completionsOn_other T hT (fun q => qi + 1 ≤ q) qi (by omega) _ _ f3
          exact queueResult_congr T qi _ tasksA tasksB g1 g2 e3
        | succ i =>
          rw [List.getElem?_cons_succ] at hi
          have := f4 i x hi
          have e : qi + 1 + i = qi + (i + 1) := by omega
          rw [e] at this
          exact this

/-- The scan loop of queue `qi` never needs more passes than one more than the number
of active tasks of the queue: with more passes allowed the result is the same. -/
theorem queue_scan_fuel (T : CTRLConsts) (env : CTRLEnv) (fps : List FUNCTION_PARAMETER_STRUCT)
    (hT : T.WF) (qi : Nat) :
    ∀ (n : Nat) (tasks : List FPSCTRL_TASK_ENTRY) (clock k : Nat),
      tasks.countP (fun t => decide (inQueue T qi t)) < n →
      queue_scan T env fps qi (n + k) tasks clock = queue_scan T env fps qi n tasks clock := by
  intro n
  induction n with
  | zero => intro tasks clock k h; omega
  | succ n ih =>
    intro tasks clock k hcnt
    have e : n + 1 + k = (n + k) + 1 := by omega
    rw [e]
    rcases scan_queue_head T qi tasks with ⟨h1, -⟩ | ⟨c, h1, h2⟩
    · simp only [queue_scan, h1]
    · obtain ⟨t, ht, hq, hlt, hmin⟩ := h2
      have hhead : queueHead T tasks qi c := ⟨t, ht, hq, hlt, hmin⟩
      by_cases hrun : t.status &&& T.FPSTASK_STATUS_RUNNING = 0
      · simp only [queue_scan, h1, ht, if_pos hrun]
      · cases hcomp : task_completed T fps t with
        | none => simp only [queue_scan, h1, ht, if_neg hrun, hcomp]
        | some b =>
          cases b with
          | false =>
            rw [queue_scan_blocked T env fps qi _ tasks clock c t hhead ht hrun hcomp,
              queue_scan_blocked T env fps qi _ tasks clock c t hhead ht hrun hcomp]
          | true =>
            rw [queue_scan_open T env fps qi _ tasks clock c t hhead ht hrun hcomp,
              queue_scan_open T env fps qi _ tasks clock c t hhead ht hrun hcomp]
            apply ih
            have hb := (completed_task_bits T hT t (env.clock_gettime clock)).1
            have := List.countP_set_lt (fun t => decide (inQueue T qi t)) tasks c t
              { t with status := clearFlag (clearFlag t.status T.FPSTASK_STATUS_RUNNING)
                                   T.FPSTASK_STATUS_ACTIVE
                       completiontime := env.clock_gettime clock } ht
              (decide_eq_true hq) (decide_eq_false (fun h => h.1 hb))
            omega

/-- The scan of queue `q` inside the first loop over the queues: it runs on a task list
in which only queues before `q` have had completions, and the queues after `q` leave
what it has written. -/
theorem queues_scan_at (T : CTRLConsts) (env : CTRLEnv) (fps : List FUNCTION_PARAMETER_STRUCT)
    (hT : T.WF) :
    ∀ (n qi : Nat) (tasks : List FPSCTRL_TASK_ENTRY) (clock : Nat)
      (tasks1 : List FPSCTRL_TASK_ENTRY) (clock1 : Nat) (qn : List Int),
      queues_scan T env fps n qi tasks clock = some (tasks1, clock1, qn) →
      ∀ q, qi ≤ q → q < qi + n →
      ∃ (tasksA : List FPSCTRL_TASK_ENTRY) (clockA : Nat) (tasksB : List FPSCTRL_TASK_ENTRY)
          (clockB : Nat) (r : Int),
        completionsOn T (fun x => x < q) tasks tasksA ∧
        queue_scan T env fps q (tasksA.length + 1) tasksA clockA = some (tasksB, clockB, r) ∧
        qn[q - qi]? = some r ∧ completionsOn T (fun x => q < x) tasksB tasks1 := by
  intro n
  induction n with
  | zero => intro qi tasks clock tasks1 clock1 qn _ q h1 h2; omega
  | succ n ih =>
    intro qi tasks clock tasks1 clock1 qn h q h1 h2
    simp only [queues_scan] at h
    cases hA : queue_scan T env fps qi (tasks.length + 1) tasks clock with
    | none => rw [hA] at h; cases h
    | some x =>
      obtain ⟨tasksA, clockA, r⟩ := x
      rw [hA] at h
      simp only [Option.map_eq_some'] at h
      obtain ⟨y, hy, hye⟩ := h
      obtain ⟨tasksB, clockB, qnB⟩ := y
      simp only [Prod.mk.injEq] at hye
      obtain ⟨a, -, b⟩ := hye
      subst a; subst b
      by_cases hq : q = qi
      · subst hq
        obtain ⟨-, f3, -⟩ := queues_scan_some T env fps hT _ _ _ _ _ _ _ hy
        refine ⟨tasks, clock, tasksA, clockA, r, completionsOn_refl T _ tasks, hA, ?_,
          completionsOn_mono T _ _ (fun x hx => by omega) _ _ f3⟩
        simp
      · obtain ⟨e2, -⟩ := queue_scan_some T env fps hT qi _ _ _ _ _ _ hA
        obtain ⟨tA, cA, tB, cB, r1, g1, g2, g3, g4⟩ := ih (qi + 1) tasksA clockA tasksB clockB
          qnB hy q (by omega) (by omega)
        refine ⟨tA, cA, tB, cB, r1, ?_, g2, ?_, g4⟩
        · exact completionsOn_trans T hT _ _ _ _
            (completionsOn_mono T _ _ (fun x hx => by omega) _ _ e2) g1
        · have e : q - qi = (q - (qi + 1)) + 1 := by omega
          rw [e, List.getElem?_cons_succ]
          exact g3

/-- The second part of a tick, after a first loop that has returned: either nothing is
dispatched and the tick returns 0, or the command of the candidate of a queue is handed
to the interpreter, and the tick returns 1 when the interpreter returns. -/
theorem tick_cases (T : CTRLConsts) (env : CTRLEnv) (loc : CMDLINE_LOCALS)
    (tasks : List FPSCTRL_TASK_ENTRY) (s : CTRLState) (hT : T.WF)
    (hlen : tasks.length = T.NB_FPSCTRL_TASK_MAX)
    (hqlen : s.fpsctrlqueuelist.length = T.NB_FPSCTRL_TASKQUEUE_MAX)
    (tasks1 : List FPSCTRL_TASK_ENTRY) (clock1 : Nat) (qn : List Int)
    (hscan : queues_scan T env s.fps T.NB_FPSCTRL_TASKQUEUE_MAX 0 tasks s.clock
      = some (tasks1, clock1, qn)) :
    function_parameter_process_fpsCMDarray T env loc tasks s
        = some (tasks1, { s with clock := clock1 }, 0) ∨
    ∃ (q c : Nat) (t : FPSCTRL_TASK_ENTRY), q < T.NB_FPSCTRL_TASKQUEUE_MAX ∧
      qn[q]? = some (c : Int) ∧ queueCandidate T tasks1 q c ∧ tasks1[c]? = some t ∧
      function_parameter_process_fpsCMDarray T env loc tasks s =
        (functionparameter_FPSprocess_cmdline T env loc t.cmdstring
            { s with clock := clock1 } 0).map fun r =>
          (tasks1.set c (dispatched T t r.2.1 r.2.2 (env.clock_gettime r.1.clock)),
            { r.1 with clock := r.1.clock + 1 }, 1) := by
  obtain ⟨hqn, -, hres⟩ := queues_scan_some T env s.fps hT _ _ _ _ _ _ _ hscan
  have hguard : ¬ (tasks.length ≠ T.NB_FPSCTRL_TASK_MAX
      ∨ s.fpsctrlqueuelist.length ≠ T.NB_FPSCTRL_TASKQUEUE_MAX) := by
    rintro (h | h)
    · exact h hlen
    · exact h hqlen
  have hunfold : function_parameter_process_fpsCMDarray T env loc tasks s =
      (if (select_loop (qn.zip (s.fpsctrlqueuelist.map fun q => q.priority)) (-1, -1)).2 ≠ -1 ∧
          (select_loop (qn.zip (s.fpsctrlqueuelist.map fun q => q.priority)) (-1, -1)).1 > 0 then
        match tasks1[(select_loop (qn.zip (s.fpsctrlqueuelist.map fun q => q.priority))
            (-1, -1)).2.toNat]? with
        | none => none
        | some t =>
          match functionparameter_FPSprocess_cmdline T env loc t.cmdstring
              { s with clock := clock1 } 0 with
          | none => none
          | some r =>
            some (tasks1.set (select_loop (qn.zip (s.fpsctrlqueuelist.map fun q => q.priority))
                      (-1, -1)).2.toNat
                    { t with fpsindex := r.2.2
                             status := t.status ||| r.2.1 ||| T.FPSTASK_STATUS_RUNNING
                             activationtime := env.clock_gettime r.1.clock },
                  { r.1 with clock := r.1.clock + 1 }, 1)
      else some (tasks1, { s with clock := clock1 }, 0)) := by
    unfold function_parameter_process_fpsCMDarray
    rw [if_neg hguard]
    simp only [hscan]
    try rfl
  rw [hunfold]
  by_cases hsel : (select_loop (qn.zip (s.fpsctrlqueuelist.map fun q => q.priority))
      (-1, -1)).2 ≠ -1 ∧
      (select_loop (qn.zip (s.fpsctrlqueuelist.map fun q => q.priority)) (-1, -1)).1 > 0
  · right
    rw [if_pos hsel]
    rcases select_loop_spec (qn.zip (s.fpsctrlqueuelist.map fun q => q.priority)) (-1, -1)
      with ⟨h1, -⟩ | ⟨i, x, h1, h2, h3, -, h5, -⟩
    · rw [h1] at hsel
      exact absurd rfl hsel.1
    · obtain ⟨a, -⟩ := List.getElem?_zip_eq_some.mp h1
      have hi : i < T.NB_FPSCTRL_TASKQUEUE_MAX := by
        rw [← hqn]; exact (List.getElem?_eq_some_iff.mp a).1
      have hr := hres i x.1 a
      rw [Nat.zero_add] at hr
      obtain ⟨c, hc1, hc2⟩ := (queueResult_candidate T tasks1 i x.1 hr).1 ⟨h2, h3⟩
      obtain ⟨hh, t, ht, hnr⟩ := hc2
      refine ⟨i, c, t, hi, by rw [a, hc1], ⟨hh, t, ht, hnr⟩, ht, ?_⟩
      rw [h5]
      simp only [hc1, Int.toNat_ofNat, ht]
      cases functionparameter_FPSprocess_cmdline T env loc t.cmdstring
          { s with clock := clock1 } 0 with
      | none => rfl
      | some r => rfl
  · left
    rw [if_neg hsel]

/-- A tick that returns: the first loop has returned a task list `tasks1`, which is the
task list at entry with some running tasks completed, and either this is the task list
after the tick, or the candidate of a queue has been dispatched on top of it. -/
theorem tick_some (T : CTRLConsts) (env : CTRLEnv) (loc : CMDLINE_LOCALS)
    (tasks : List FPSCTRL_TASK_ENTRY) (s : CTRLState) (hT : T.WF)
    (tasks2 : List FPSCTRL_TASK_ENTRY) (s2 : CTRLState) (n : Nat)
    (h : function_parameter_process_fpsCMDarray T env loc tasks s = some (tasks2, s2, n)) :
    ∃ (tasks1 : List FPSCTRL_TASK_ENTRY) (clock1 : Nat) (qn : List Int),
      tasks.length = T.NB_FPSCTRL_TASK_MAX ∧
      s.fpsctrlqueuelist.length = T.NB_FPSCTRL_TASKQUEUE_MAX ∧
      queues_scan T env s.fps T.NB_FPSCTRL_TASKQUEUE_MAX 0 tasks s.clock
        = some (tasks1, clock1, qn) ∧
      completionsOn T (fun _ => True) tasks tasks1 ∧
      ((tasks2 = tasks1 ∧ n = 0) ∨
        ∃ (q c : Nat) (t : FPSCTRL_TASK_ENTRY) (r : CTRLState × Nat × Int),
          q < T.NB_FPSCTRL_TASKQUEUE_MAX ∧ qn[q]? = some (c : Int) ∧
          queueCandidate T tasks1 q c ∧ tasks1[c]? = some t ∧
          functionparameter_FPSprocess_cmdline T env loc t.cmdstring
            { s with clock := clock1 } 0 = some r ∧
          tasks2 = tasks1.set c (dispatched T t r.2.1 r.2.2 (env.clock_gettime r.1.clock)) ∧
          n = 1) := by
  have hguard : ¬ (tasks.length ≠ T.NB_FPSCTRL_TASK_MAX
      ∨ s.fpsctrlqueuelist.length ≠ T.NB_FPSCTRL_TASKQUEUE_MAX) := by
    intro hg
    unfold function_parameter_process_fpsCMDarray at h
    rw [if_pos hg] at h
    cases h
  have hlen : tasks.length = T.NB_FPSCTRL_TASK_MAX := by
    by_contra hc
    exact hguard (Or.inl hc)
  have hqlen : s.fpsctrlqueuelist.length = T.NB_FPSCTRL_TASKQUEUE_MAX := by
    by_contra hc
    exact hguard (Or.inr hc)
  cases hscan : queues_scan T env s.fps T.NB_FPSCTRL_TASKQUEUE_MAX 0 tasks s.clock with
  | none =>
    unfold function_parameter_process_fpsCMDarray at h
    rw [if_neg hguard] at h
    simp only [hscan] at h
    try cases h
  | some x =>
    obtain ⟨tasks1, clock1, qn⟩ := x
    obtain ⟨-, hcomp, -⟩ := queues_scan_some T env s.fps hT _ _ _ _ _ _ _ hscan
    refine ⟨tasks1, clock1, qn, hlen, hqlen, rfl,
      completionsOn_mono T _ _ (fun _ _ => trivial) _ _ hcomp, ?_⟩
    rcases tick_cases T env loc tasks s hT hlen hqlen tasks1 clock1 qn hscan with
      e | ⟨q, c, t, hq, hqc, hcand, ht, e⟩
    · rw [e] at h
      simp only [Option.some.injEq, Prod.mk.injEq] at h
      exact Or.inl ⟨h.1.symm, h.2.2.symm⟩
    · rw [e] at h
      simp only [Option.map_eq_some'] at h
      obtain ⟨r, hr, hre⟩ := h
      simp only [Prod.mk.injEq] at hre
      exact Or.inr ⟨q, c, t, r, hq, hqc, hcand, ht, hr, hre.1.symm, hre.2.2.symm⟩

/-- No step of a tick sets the status bit ACTIVE: a task that is active after a tick
was active before it, with the same queue and the same `inputindex`. -/
theorem tick_active (T : CTRLConsts) (env : CTRLEnv) (loc : CMDLINE_LOCALS)
    (tasks : List FPSCTRL_TASK_ENTRY) (s : CTRLState) (hT : T.WF)
    (tasks2 : List FPSCTRL_TASK_ENTRY) (s2 : CTRLState) (n : Nat)
    (h : function_parameter_process_fpsCMDarray T env loc tasks s = some (tasks2, s2, n))
    (j : Nat) (t2 : FPSCTRL_TASK_ENTRY) (hj : tasks2[j]? = some t2)
    (ha : t2.status &&& T.FPSTASK_STATUS_ACTIVE ≠ 0) :
    ∃ t, tasks[j]? = some t ∧ t.status &&& T.FPSTASK_STATUS_ACTIVE ≠ 0 ∧
      t.queue = t2.queue ∧ t.inputindex = t2.inputindex := by
  obtain ⟨tasks1, clock1, qn, -, -, -, hcomp, hcase⟩ := tick_some T env loc tasks s hT tasks2 s2 n h
  have key : ∀ t1, tasks1[j]? = some t1 → t1.status &&& T.FPSTASK_STATUS_ACTIVE ≠ 0 →
      tasks[j]? = some t1 := by
    intro t1 h1 a1
    obtain ⟨t0, e0, e1, -⟩ := completionsOn_inv T _ tasks tasks1 hcomp j t1 h1
    have := completedFrom_inQueue T hT t1.queue t0 t1 e1 ⟨a1, rfl⟩
    rw [e0, this]
  rcases hcase with ⟨e, -⟩ | ⟨q, c, t, r, -, -, hcand, ht, -, e, -⟩
  · rw [e] at hj
    exact ⟨t2, key t2 hj ha, ha, rfl, rfl⟩
  · rw [e] at hj
    by_cases hjc : c = j
    · subst hjc
      rw [List.getElem?_set_self (List.getElem?_eq_some_iff.mp ht).1] at hj
      simp only [Option.some.injEq] at hj
      obtain ⟨t', ht', hq', -⟩ := hcand.1
      rw [ht] at ht'
      simp only [Option.some.injEq] at ht'
      subst ht'
      refine ⟨t, key t ht hq'.1, hq'.1, ?_, ?_⟩
      · rw [← hj]; rfl
      · rw [← hj]; rfl
    · rw [List.getElem?_set_ne hjc] at hj
      exact ⟨t2, key t2 hj ha, ha, rfl, rfl⟩

/-- C29. The rescan loop of a queue in `function_parameter_process_fpsCMDarray` needs at
most one more pass than the number of active tasks of the queue at its start: allowing
more passes does not change its result, and with that many passes it returns whenever
the gates of the running tasks can be read. A pass that is followed by another pass has
completed the head of the queue, which takes the status bit ACTIVE from it; and no step
of a tick sets ACTIVE. A tick returns when the structure of every running task with a
wait flag is connected and the interpreter returns on the commands of the tasks. -/
theorem C29_tick_terminates (T : CTRLConsts) (env : CTRLEnv) (hT : T.WF) :
    (∀ (fps : List FUNCTION_PARAMETER_STRUCT) (qi : Nat) (tasks : List FPSCTRL_TASK_ENTRY)
        (clock k : Nat),
      queue_scan T env fps qi (tasks.countP (fun t => decide (inQueue T qi t)) + 1 + k)
          tasks clock =
        queue_scan T env fps qi (tasks.countP (fun t => decide (inQueue T qi t)) + 1)
          tasks clock) ∧
    (∀ (fps : List FUNCTION_PARAMETER_STRUCT) (qi : Nat) (tasks : List FPSCTRL_TASK_ENTRY)
        (clock : Nat),
      (∀ t ∈ tasks, t.status &&& T.FPSTASK_STATUS_RUNNING ≠ 0 →
        task_completed T fps t ≠ none) →
      ∃ tasks1 clock1 r,
        queue_scan T env fps qi (tasks.countP (fun t => decide (inQueue T qi t)) + 1)
          tasks clock = some (tasks1, clock1, r)) ∧
    (∀ (fps : List FUNCTION_PARAMETER_STRUCT) (qi n : Nat) (tasks : List FPSCTRL_TASK_ENTRY)
        (clock c : Nat) (t : FPSCTRL_TASK_ENTRY),
      queueHead T tasks qi c → tasks[c]? = some t →
      t.status &&& T.FPSTASK_STATUS_RUNNING ≠ 0 → task_completed T fps t = some true →
      ∃ t1, t1.status &&& T.FPSTASK_STATUS_ACTIVE = 0 ∧
        (tasks.set c t1).countP (fun t => decide (inQueue T qi t)) + 1
          = tasks.countP (fun t => decide (inQueue T qi t)) ∧
        queue_scan T env fps qi (n + 1) tasks clock =
          queue_scan T env fps qi n (tasks.set c t1) (clock + 1)) ∧
    (∀ (loc : CMDLINE_LOCALS) (tasks : List FPSCTRL_TASK_ENTRY) (s : CTRLState)
        (tasks2 : List FPSCTRL_TASK_ENTRY) (s2 : CTRLState) (n : Nat),
      function_parameter_process_fpsCMDarray T env loc tasks s = some (tasks2, s2, n) →
      ∀ (j : Nat) (t2 : FPSCTRL_TASK_ENTRY), tasks2[j]? = some t2 →
        t2.status &&& T.FPSTASK_STATUS_ACTIVE ≠ 0 →
        ∃ t, tasks[j]? = some t ∧ t.status &&& T.FPSTASK_STATUS_ACTIVE ≠ 0) ∧
    (∀ (loc : CMDLINE_LOCALS) (tasks : List FPSCTRL_TASK_ENTRY) (s : CTRLState),
      tasks.length = T.NB_FPSCTRL_TASK_MAX →
      s.fpsctrlqueuelist.length = T.NB_FPSCTRL_TASKQUEUE_MAX →
      (∀ t ∈ tasks, t.status &&& T.FPSTASK_STATUS_RUNNING ≠ 0 →
        t.flag &&& T.FPSTASK_FLAG_WAITONRUN ≠ 0 ∨ t.flag &&& T.FPSTASK_FLAG_WAITONCONF ≠ 0 →
        getFPS s.fps t.fpsindex ≠ none) →
      (∀ t ∈ tasks, ∀ clock1 : Nat,
        functionparameter_FPSprocess_cmdline T env loc t.cmdstring
          { s with clock := clock1 } 0 ≠ none) →
      ∃ tasks2 s2 n, function_parameter_process_fpsCMDarray T env loc tasks s
        = some (tasks2, s2, n)) := by
  refine ⟨?_, ?_, ?_, ?_, ?_⟩
  · intro fps qi tasks clock k
    exact queue_scan_fuel T env fps hT qi _ tasks clock k (Nat.lt_succ_self _)
  · intro fps qi tasks clock hg
    obtain ⟨tasks1, clock1, r, e, -⟩ := queue_scan_spec T env fps hT qi _ tasks clock
      (Nat.lt_succ_self _) hg
    exact ⟨tasks1, clock1, r, e⟩
  · intro fps qi n tasks clock c t hh ht hr hg
    have hb := (completed_task_bits T hT t (env.clock_gettime clock)).1
    have hh0 := hh
    obtain ⟨t', ht', hq', -⟩ := hh
    have hq : inQueue T qi t := by
      rw [ht] at ht'
      simp only [Option.some.injEq] at ht'
      rw [ht']
      exact hq'
    exact ⟨_, hb,
      List.countP_set_lt (fun t => decide (inQueue T qi t)) tasks c t _ ht
        (decide_eq_true hq) (decide_eq_false (fun h => h.1 hb)),
      queue_scan_open T env fps qi n tasks clock c t hh0 ht hr hg⟩
  · intro loc tasks s tasks2 s2 n h j t2 hj ha
    obtain ⟨t, a, b, -⟩ := tick_active T env loc tasks s hT tasks2 s2 n h j t2 hj ha
    exact ⟨t, a, b⟩
  · intro loc tasks s hlen hqlen hgate hI
    obtain ⟨tasks1, clock1, qn, hscan, -, hcomp, -⟩ :=
      queues_scan_spec T env s.fps hT T.NB_FPSCTRL_TASKQUEUE_MAX 0 tasks s.clock
        (fun t ht hr => task_completed_some T s.fps t (hgate t ht hr))
    rcases tick_cases T env loc tasks s hT hlen hqlen tasks1 clock1 qn hscan with
      e | ⟨q, c, t, hq, hqc, hcand, ht, e⟩
    · exact ⟨_, _, _, e⟩
    · obtain ⟨t0, e0, e1, -⟩ := completionsOn_inv T _ tasks tasks1 hcomp c t ht
      have hcmd := (completedFrom_fields T hT t0 t e1).2.2.2.2.1
      have hmem : t0 ∈ tasks := List.mem_iff_getElem?.mpr ⟨c, e0⟩
      have hne := hI t0 hmem clock1
      rw [← hcmd] at hne
      obtain ⟨r, hr⟩ := Option.ne_none_iff_exists'.mp hne
      rw [hr] at e
      exact ⟨_, _, _, e⟩

/-- Witness for C29: queue 1 of the task list of scenario S4 has one active task; the
rescan loop returns within two passes, with the index 0 of that task as its result,
and more passes give the same result. -/
theorem C29_tick_terminates_witness :
    (∃ tasks1 clock1 r,
      queue_scan smallCTRLConsts stdCTRLEnv delayCTRL.fps 1
        (S4tasks.countP (fun t => decide (inQueue smallCTRLConsts 1 t)) + 1) S4tasks 0
        = some (tasks1, clock1, r)) ∧
    S4tasks.countP (fun t => decide (inQueue smallCTRLConsts 1 t)) = 1 ∧
    queue_scan smallCTRLConsts stdCTRLEnv delayCTRL.fps 1 2 S4tasks 0 = some (S4tasks, 0, 0) ∧
    queue_scan smallCTRLConsts stdCTRLEnv delayCTRL.fps 1
        (S4tasks.countP (fun t => decide (inQueue smallCTRLConsts 1 t)) + 1 + 3) S4tasks 0
      = queue_scan smallCTRLConsts stdCTRLEnv delayCTRL.fps 1
        (S4tasks.countP (fun t => decide (inQueue smallCTRLConsts 1 t)) + 1) S4tasks 0 :=
  ⟨(C29_tick_terminates smallCTRLConsts stdCTRLEnv (by decide)).2.1 delayCTRL.fps 1 S4tasks 0
      (by decide),
    by decide, by decide,
    (C29_tick_terminates smallCTRLConsts stdCTRLEnv (by decide)).1 delayCTRL.fps 1 S4tasks 0 3⟩

/-- The gate of a running task that has the flag WAITONCONF only: the scheduler reads
the status word of the structure, with the constant of the signal bit CHECKED. -/
theorem task_completed_waitonconf (T : CTRLConsts) (fps : List FUNCTION_PARAMETER_STRUCT)
    (t : FPSCTRL_TASK_ENTRY) (f : FUNCTION_PARAMETER_STRUCT)
    (h1 : t.flag &&& T.FPSTASK_FLAG_WAITONRUN = 0)
    (h2 : t.flag &&& T.FPSTASK_FLAG_WAITONCONF ≠ 0) (hf : getFPS fps t.fpsindex = some f) :
    task_completed T fps t
      = some (decide (f.status &&& T.FUNCTION_PARAMETER_STRUCT_SIGNAL_CHECKED = 0)) := by
  unfold task_completed
  simp only [h1, h2, hf, ne_eq, not_true_eq_false, not_false_eq_true, if_true, if_false,
    Option.map_some', Option.some_bind, Bool.false_or]
  by_cases c : f.status &&& T.FUNCTION_PARAMETER_STRUCT_SIGNAL_CHECKED = 0
  · simp [c]
  · simp [c]

/-- C23. A task `confupdate fps.delayus` with the flag WAITONCONF, in a task list of
four entries. The first tick dispatches it: the command sets the signal bit CHECKED
of the structure, whose status word is 0, and the task is running (status 0x907). The
next tick completes the task (status 0x902) although the signal bit CHECKED is still
set. When instead the signal bit CHECKED is cleared and the status word holds the
bit of the same value, the next tick leaves the task running. -/
theorem C23_gate_on_conf_reads_status :
    (function_parameter_process_fpsCMDarray smallCTRLConsts stdCTRLEnv zeroLocals
        (gateTasks "confupdate fps.delayus" smallCTRLConsts.FPSTASK_FLAG_WAITONCONF)
        delayCTRL).map
      (fun r => (r.1.map (fun t => t.status),
        r.2.1.fps.map (fun f =>
          (f.signal &&& smallCTRLConsts.FUNCTION_PARAMETER_STRUCT_SIGNAL_CHECKED, f.status)),
        r.2.2))
      = some ([0x907, 0, 0, 0], [(0x8, 0)], 1) ∧
    ((function_parameter_process_fpsCMDarray smallCTRLConsts stdCTRLEnv zeroLocals
        (gateTasks "confupdate fps.delayus" smallCTRLConsts.FPSTASK_FLAG_WAITONCONF)
        delayCTRL).bind fun r0 =>
      function_parameter_process_fpsCMDarray smallCTRLConsts stdCTRLEnv zeroLocals r0.1
        r0.2.1).map
      (fun r => (r.1.map (fun t => t.status),
        r.2.1.fps.map (fun f =>
          f.signal &&& smallCTRLConsts.FUNCTION_PARAMETER_STRUCT_SIGNAL_CHECKED),
        r.2.2))
      = some ([0x902, 0, 0, 0], [0x8], 0) ∧
    ((function_parameter_process_fpsCMDarray smallCTRLConsts stdCTRLEnv zeroLocals
        (gateTasks "confupdate fps.delayus" smallCTRLConsts.FPSTASK_FLAG_WAITONCONF)
        delayCTRL).bind fun r0 =>
      function_parameter_process_fpsCMDarray smallCTRLConsts stdCTRLEnv zeroLocals r0.1
        { r0.2.1 with fps := r0.2.1.fps.map fun f =>
            { f with
              signal := clearFlag f.signal
                smallCTRLConsts.FUNCTION_PARAMETER_STRUCT_SIGNAL_CHECKED
              status := smallCTRLConsts.FUNCTION_PARAMETER_STRUCT_SIGNAL_CHECKED } }).map
      (fun r => (r.1.map (fun t => t.status),
        r.2.1.fps.map (fun f =>
          f.signal &&& smallCTRLConsts.FUNCTION_PARAMETER_STRUCT_SIGNAL_CHECKED),
        r.2.2))
      = some ([0x907, 0, 0, 0], [0], 0) := by
  refine ⟨by decide, by decide, by decide⟩

/-! ## The gate on run -/

/-- The gate of a running task with the flag WAITONRUN whose structure has the status
bit CMDRUN: the task has to wait. -/
theorem task_completed_waitonrun (T : CTRLConsts) (fps : List FUNCTION_PARAMETER_STRUCT)
    (t : FPSCTRL_TASK_ENTRY) (f : FUNCTION_PARAMETER_STRUCT)
    (h1 : t.flag &&& T.FPSTASK_FLAG_WAITONRUN ≠ 0) (hf : getFPS fps t.fpsindex = some f)
    (h2 : f.status &&& T.FUNCTION_PARAMETER_STRUCT_STATUS_CMDRUN ≠ 0) :
    task_completed T fps t = some false := by
  unfold task_completed
  by_cases c : t.flag &&& T.FPSTASK_FLAG_WAITONCONF ≠ 0
  · simp [h1, c, hf, h2]
  · simp [h1, c, hf, h2]

/-- The scan of the queue of a task `t` that is the head of its queue at the start of
the first loop: it runs on a task list with the same tasks in that queue, and the
queues scanned after it leave the tasks of that queue as the scan has left them. -/
theorem queues_scan_head (T : CTRLConsts) (env : CTRLEnv) (fps : List FUNCTION_PARAMETER_STRUCT)
    (hT : T.WF) (n : Nat) (tasks : List FPSCTRL_TASK_ENTRY) (clock : Nat)
    (tasks1 : List FPSCTRL_TASK_ENTRY) (clock1 : Nat) (qn : List Int)
    (h : queues_scan T env fps n 0 tasks clock = some (tasks1, clock1, qn))
    (c : Nat) (t : FPSCTRL_TASK_ENTRY) (ht : tasks[c]? = some t)
    (hh : queueHead T tasks t.queue c) (hq : t.queue < n) :
    ∃ (tasksA : List FPSCTRL_TASK_ENTRY) (clockA : Nat) (tasksB : List FPSCTRL_TASK_ENTRY)
        (clockB : Nat) (r : Int),
      tasksA[c]? = some t ∧ queueHead T tasksA t.queue c ∧
      (∀ (j : Nat) (u : FPSCTRL_TASK_ENTRY), tasks[j]? = some u → u.queue = t.queue →
        tasksA[j]? = some u) ∧
      queue_scan T env fps t.queue (tasksA.length + 1) tasksA clockA
        = some (tasksB, clockB, r) ∧
      qn[t.queue]? = some r ∧
      (∀ (j : Nat) (u : FPSCTRL_TASK_ENTRY), tasksB[j]? = some u → u.queue = t.queue →
        tasks1[j]? = some u) ∧
      (∀ (j : Nat) (u : FPSCTRL_TASK_ENTRY), tasks1[j]? = some u → u.queue = t.queue →
        tasksB[j]? = some u) := by
  obtain ⟨tasksA, clockA, tasksB, clockB, r, g1, g2, g3, g4⟩ :=
    queues_scan_at T env fps hT n 0 tasks clock tasks1 clock1 qn h t.queue (Nat.zero_le _)
      (by omega)
  obtain ⟨a1, a2⟩ := completionsOn_other T hT (fun x => x < t.queue) t.queue
    (Nat.lt_irrefl _) _ _ g1
  obtain ⟨b1, b2⟩ := completionsOn_other T hT (fun x => t.queue < x) t.queue
    (Nat.lt_irrefl _) _ _ g4
  refine ⟨tasksA, clockA, tasksB, clockB, r, a1 c t ht rfl, ?_, a1, g2, ?_, b1, b2⟩
  · exact queueHead_congr T t.queue tasks tasksA (fun j u hj hu => a1 j u hj hu.2)
      (fun j u hj hu => a2 j u hj hu.2) c hh
  · rw [Nat.sub_zero] at g3
    exact g3

/-- C22. Gate on run, for a running task `t` with the flag WAITONRUN that is the head of
its queue (the active task of the queue with the smallest `inputindex`), in a tick on a
task list and a queue list of the sizes of the control loop, where the structure of
every running task with a wait flag is connected. While the structure of `t` has the
status bit CMDRUN, the tick leaves `t` and every other task of its queue as they are,
and what it dispatches, if anything, is a task of another queue. When CMDRUN is clear
and `task_completed` is 1, the first loop of the tick takes the status bits RUNNING and
ACTIVE from `t`, stamps its completion time, scans the queue again, and leaves in
`queue_nexttask` what the scan of the remaining tasks of the queue gives: the index
of the next head of the queue when it is not running. -/
theorem C22_gate_on_run (T : CTRLConsts) (env : CTRLEnv) (hT : T.WF) (loc : CMDLINE_LOCALS)
    (tasks : List FPSCTRL_TASK_ENTRY) (s : CTRLState) (c : Nat) (t : FPSCTRL_TASK_ENTRY)
    (f : FUNCTION_PARAMETER_STRUCT)
    (hlen : tasks.length = T.NB_FPSCTRL_TASK_MAX)
    (hqlen : s.fpsctrlqueuelist.length = T.NB_FPSCTRL_TASKQUEUE_MAX)
    (hgate : ∀ t ∈ tasks, t.status &&& T.FPSTASK_STATUS_RUNNING ≠ 0 →
      t.flag &&& T.FPSTASK_FLAG_WAITONRUN ≠ 0 ∨ t.flag &&& T.FPSTASK_FLAG_WAITONCONF ≠ 0 →
      getFPS s.fps t.fpsindex ≠ none)
    (ht : tasks[c]? = some t) (hhead : queueHead T tasks t.queue c)
    (hq : t.queue < T.NB_FPSCTRL_TASKQUEUE_MAX)
    (hrun : t.status &&& T.FPSTASK_STATUS_RUNNING ≠ 0)
    (hw : t.flag &&& T.FPSTASK_FLAG_WAITONRUN ≠ 0)
    (hf : getFPS s.fps t.fpsindex = some f) :
    (f.status &&& T.FUNCTION_PARAMETER_STRUCT_STATUS_CMDRUN ≠ 0 →
      ∃ (tasks1 : List FPSCTRL_TASK_ENTRY) (clock1 : Nat),
        (∀ (j : Nat) (u : FPSCTRL_TASK_ENTRY), tasks[j]? = some u → u.queue = t.queue →
          tasks1[j]? = some u) ∧
        (function_parameter_process_fpsCMDarray T env loc tasks s
            = some (tasks1, { s with clock := clock1 }, 0) ∨
          ∃ (c1 : Nat) (t1 : FPSCTRL_TASK_ENTRY), tasks1[c1]? = some t1 ∧
            t1.queue ≠ t.queue ∧
            function_parameter_process_fpsCMDarray T env loc tasks s =
              (functionparameter_FPSprocess_cmdline T env loc t1.cmdstring
                  { s with clock := clock1 } 0).map fun r =>
                (tasks1.set c1 (dispatched T t1 r.2.1 r.2.2 (env.clock_gettime r.1.clock)),
                  { r.1 with clock := r.1.clock + 1 }, 1))) ∧
    (f.status &&& T.FUNCTION_PARAMETER_STRUCT_STATUS_CMDRUN = 0 →
      task_completed T s.fps t = some true →
      ∃ (tasks1 : List FPSCTRL_TASK_ENTRY) (clock1 : Nat) (qn : List Int) (ct : Int × Int)
          (r : Int),
        queues_scan T env s.fps T.NB_FPSCTRL_TASKQUEUE_MAX 0 tasks s.clock
          = some (tasks1, clock1, qn) ∧
        tasks1[c]? = some
          { t with status := clearFlag (clearFlag t.status T.FPSTASK_STATUS_RUNNING)
                               T.FPSTASK_STATUS_ACTIVE
                   completiontime := ct } ∧
        qn[t.queue]? = some r ∧ queueResult T tasks1 t.queue r ∧
        (function_parameter_process_fpsCMDarray T env loc tasks s
            = some (tasks1, { s with clock := clock1 }, 0) ∨
          ∃ (c1 : Nat) (t1 : FPSCTRL_TASK_ENTRY), c1 ≠ c ∧ tasks1[c1]? = some t1 ∧
            function_parameter_process_fpsCMDarray T env loc tasks s =
              (functionparameter_FPSprocess_cmdline T env loc t1.cmdstring
                  { s with clock := clock1 } 0).map fun r =>
                (tasks1.set c1 (dispatched T t1 r.2.1 r.2.2 (env.clock_gettime r.1.clock)),
                  { r.1 with clock := r.1.clock + 1 }, 1))) := by
  obtain ⟨tasks1, clock1, qn, hscan, -, -, -⟩ :=
    queues_scan_spec T env s.fps hT T.NB_FPSCTRL_TASKQUEUE_MAX 0 tasks s.clock
      (fun t ht hr => task_completed_some T s.fps t (hgate t ht hr))
  obtain ⟨tasksA, clockA, tasksB, clockB, r, hA, hhA, hsame, hqs, hr, hB1, hB2⟩ :=
    queues_scan_head T env s.fps hT _ tasks s.clock tasks1 clock1 qn hscan c t ht hhead hq
  have hcases := tick_cases T env loc tasks s hT hlen hqlen tasks1 clock1 qn hscan
  refine ⟨?_, ?_⟩
  · intro hcmd
    have hg := task_completed_waitonrun T s.fps t f hw hf hcmd
    rw [queue_scan_blocked T env s.fps t.queue _ tasksA clockA c t hhA hA hrun hg] at hqs
    simp only [Option.some.injEq, Prod.mk.injEq] at hqs
    obtain ⟨e1, -, e3⟩ := hqs
    subst e1
    refine ⟨tasks1, clock1, fun j u hj hu => hB1 j u (hsame j u hj hu) hu, ?_⟩
    rcases hcases with e | ⟨q1, c1, t1, hq1, hqc, hcand, ht1, e⟩
    · exact Or.inl e
    · refine Or.inr ⟨c1, t1, ht1, ?_, e⟩
      intro heq
      obtain ⟨t', ht', hq', -⟩ := hcand.1
      rw [ht1] at ht'
      simp only [Option.some.injEq] at ht'
      subst ht'
      have : q1 = t.queue := by rw [← hq'.2, heq]
      subst this
      rw [hr] at hqc
      simp only [Option.some.injEq] at hqc
      omega
  · intro _ hg
    rw [queue_scan_open T env s.fps t.queue _ tasksA clockA c t hhA hA hrun hg] at hqs
    obtain ⟨k1, k2⟩ := queue_scan_some T env s.fps hT t.queue _ _ _ _ _ _ hqs
    have hbits := completed_task_bits T hT t (env.clock_gettime clockA)
    have hset : (tasksA.set c
        { t with status := clearFlag (clearFlag t.status T.FPSTASK_STATUS_RUNNING)
                             T.FPSTASK_STATUS_ACTIVE
                 completiontime := env.clock_gettime clockA })[c]? = some
        { t with status := clearFlag (clearFlag t.status T.FPSTASK_STATUS_RUNNING)
                             T.FPSTASK_STATUS_ACTIVE
                 completiontime := env.clock_gettime clockA } :=
      List.getElem?_set_self (List.getElem?_eq_some_iff.mp hA).1
    obtain ⟨tB, m1, m2, -⟩ := k1.2 c _ hset
    have hm : tB = { t with status := clearFlag (clearFlag t.status T.FPSTASK_STATUS_RUNNING)
                                         T.FPSTASK_STATUS_ACTIVE
                            completiontime := env.clock_gettime clockA } := by
      rcases m2 with m2 | ⟨m2, -⟩
      · exact m2
      · exact absurd hbits.1 m2
    rw [hm] at m1
    have h1c := hB1 c _ m1 rfl
    have hres : queueResult T tasks1 t.queue r :=
      queueResult_congr T t.queue r tasksB tasks1 hB1 hB2 k2
    refine ⟨tasks1, clock1, qn, env.clock_gettime clockA, r, hscan, h1c, hr, hres, ?_⟩
    rcases hcases with e | ⟨q1, c1, t1, hq1, hqc, hcand, ht1, e⟩
    · exact Or.inl e
    · refine Or.inr ⟨c1, t1, ?_, ht1, e⟩
      intro heq
      subst heq
      obtain ⟨t', ht', hq', -⟩ := hcand.1
      rw [h1c] at ht'
      simp only [Option.some.injEq] at ht'
      rw [← ht'] at hq'
      exact hq'.1 hbits.1

/-- The index that the scan of a queue finds is the head of the queue. -/
theorem queueHead_of_scan (T : CTRLConsts) (qi : Nat) (tasks : List FPSCTRL_TASK_ENTRY)
    (c : Nat) (h : scan_queue T qi tasks 0 T.UINT_MAX none = some c) :
    queueHead T tasks qi c := by
  rcases scan_queue_head T qi tasks with ⟨h1, -⟩ | ⟨c1, h1, h2⟩
  · rw [h1] at h; cases h
  · rw [h1] at h
    injection h with h
    rw [← h]
    exact h2

/-- Witness for C22: scenario S5 with queue 2 of a queue list of three entries. While
the structure has the status bit CMDRUN (0x20), the tick leaves the two tasks of queue
2 as they are and returns 0. When CMDRUN is clear, the tick completes the running
task (status 0x902), finds the next task of the queue as its candidate
(`queue_nexttask[2] = 1`), dispatches it (status 0x907) and returns 1. -/
theorem C22_gate_on_run_witness :
    (∃ (tasks1 : List FPSCTRL_TASK_ENTRY) (clock1 : Nat),
      tasks1[0]? = S5tasks[0]? ∧ tasks1[1]? = S5tasks[1]? ∧
      function_parameter_process_fpsCMDarray smallCTRLConsts stdCTRLEnv zeroLocals S5tasks
        (S5state 0x20) = some (tasks1, { S5state 0x20 with clock := clock1 }, 0)) ∧
    (∃ (tasks1 : List FPSCTRL_TASK_ENTRY) (clock1 : Nat) (qn : List Int),
      queues_scan smallCTRLConsts stdCTRLEnv (S5state 0).fps 3 0 S5tasks 0
        = some (tasks1, clock1, qn) ∧
      tasks1.map (fun t => t.status) = [0x902, 0x003, 0, 0] ∧ qn[2]? = some 1) ∧
    (function_parameter_process_fpsCMDarray smallCTRLConsts stdCTRLEnv zeroLocals S5tasks
        (S5state 0)).map (fun r => (r.1.map (fun t => t.status), r.2.2))
      = some ([0x902, 0x907, 0, 0], 1) := by
  have h := C22_gate_on_run smallCTRLConsts stdCTRLEnv (by decide) zeroLocals S5tasks
    (S5state 0x20) 0
    { newTask "runstart fps.delayus" 0 2 with
      status := 0x907, flag := milkCTRLConsts.FPSTASK_FLAG_WAITONRUN }
    { delayFPS2 with status := 0x20 }
    (by decide) (by decide) (by decide) (by decide)
    (queueHead_of_scan smallCTRLConsts 2 S5tasks 0 (by decide)) (by decide) (by decide)
    (by decide) (by decide)
  refine ⟨?_, ?_, by decide⟩
  · obtain ⟨tasks1, clock1, h1, h2⟩ := h.1 (by decide)
    have e0 := h1 0 _ (by decide : S5tasks[0]? = some _) rfl
    have e1 := h1 1 (newTask "getval fps.delayus" 1 2) (by decide) rfl
    refine ⟨tasks1, clock1, e0, e1, ?_⟩
    rcases h2 with h2 | ⟨c1, t1, -, -, h2⟩
    · exact h2
    · exfalso
      have hev : (function_parameter_process_fpsCMDarray smallCTRLConsts stdCTRLEnv zeroLocals
          S5tasks (S5state 0x20)).map (fun r => r.2.2) = some 0 := by decide
      rw [h2] at hev
      cases hx : functionparameter_FPSprocess_cmdline smallCTRLConsts stdCTRLEnv zeroLocals
          t1.cmdstring { S5state 0x20 with clock := clock1 } 0 with
      | none => rw [hx] at hev; cases hev
      | some r => rw [hx] at hev; simp at hev
  · exact ⟨[{ newTask "runstart fps.delayus" 0 2 with
        status := 0x902, flag := milkCTRLConsts.FPSTASK_FLAG_WAITONRUN,
        completiontime := (0, 0) }, newTask "getval fps.delayus" 1 2,
      FPSCTRL_TASK_ENTRY.zero, FPSCTRL_TASK_ENTRY.zero], 1, [-1, -1, 1],
      by decide, by decide, by decide⟩

/-! ## The reader of the command FIFO -/

/-- The facts on the status bit SHOW. -/
theorem CTRLConsts.WF.showBits {T : CTRLConsts} (hT : T.WF) :
    T.FPSTASK_STATUS_SHOW < 2 ^ 64 ∧ T.FPSTASK_STATUS_SHOW ≠ 0 ∧
    T.FPSTASK_STATUS_SHOW &&& T.FPSTASK_STATUS_ACTIVE = 0 ∧
    T.FPSTASK_STATUS_SHOW &&& T.FPSTASK_STATUS_RUNNING = 0 := by
  obtain ⟨-, h2, h3, -⟩ := hT
  have hS := h3 T.FPSTASK_STATUS_SHOW (by simp [CTRLConsts.taskStatusBits])
  simp only [CTRLConsts.taskStatusBits, List.pairwise_cons] at h2
  have h := h2.1 T.FPSTASK_STATUS_SHOW (by simp)
  have h' := h2.2.1 T.FPSTASK_STATUS_RUNNING (by simp)
  refine ⟨hS.2, hS.1, ?_, h'⟩
  rw [Nat.land_comm]; exact h

theorem or_and (a b m : Nat) : (a ||| b) &&& m = (a &&& m) ||| (b &&& m) := by
  apply Nat.eq_of_testBit_eq
  intro i
  simp only [Nat.testBit_and, Nat.testBit_or]
  cases a.testBit i <;> cases b.testBit i <;> cases m.testBit i <;> rfl

/-- A bit of a word stays when other bits are added. -/
theorem or_and_ne_zero (x y m : Nat) (h : x &&& m ≠ 0) : (x ||| y) &&& m ≠ 0 := by
  intro h0
  apply h
  apply Nat.eq_of_testBit_eq
  intro i
  have h1 : ((x ||| y) &&& m).testBit i = false := by rw [h0]; exact Nat.zero_testBit i
  rw [Nat.testBit_and, Nat.testBit_or] at h1
  rw [Nat.zero_testBit, Nat.testBit_and]
  revert h1
  cases x.testBit i <;> cases y.testBit i <;> cases m.testBit i <;> simp

/-- The status word that the reader gives to a new task: it is not zero, it has the
bits ACTIVE and SHOW and it has not the bit RUNNING. -/
theorem new_status_bits (T : CTRLConsts) (hT : T.WF) :
    T.FPSTASK_STATUS_ACTIVE ||| T.FPSTASK_STATUS_SHOW ≠ 0 ∧
    (T.FPSTASK_STATUS_ACTIVE ||| T.FPSTASK_STATUS_SHOW) &&& T.FPSTASK_STATUS_SHOW ≠ 0 ∧
    (T.FPSTASK_STATUS_ACTIVE ||| T.FPSTASK_STATUS_SHOW) &&& T.FPSTASK_STATUS_ACTIVE ≠ 0 ∧
    (T.FPSTASK_STATUS_ACTIVE ||| T.FPSTASK_STATUS_SHOW) &&& T.FPSTASK_STATUS_RUNNING = 0 := by
  obtain ⟨hA, hR, hRA, hA0, hR0⟩ := hT.taskBits
  obtain ⟨hS, hS0, hSA, hSR⟩ := hT.showBits
  have hAR : T.FPSTASK_STATUS_ACTIVE &&& T.FPSTASK_STATUS_RUNNING = 0 := by
    rw [Nat.land_comm]; exact hRA
  refine ⟨or_ne_zero_right _ _ hS0, ?_, ?_, ?_⟩
  · rw [Nat.lor_comm]
    exact or_and_ne_zero _ _ _ (by rw [Nat.and_self]; exact hS0)
  · exact or_and_ne_zero _ _ _ (by rw [Nat.and_self]; exact hA0)
  · rw [or_and, hAR, hSR]; rfl

/-- The free entry that the reader finds has the status 0. -/
theorem task_free_slot_some (ts : List FPSCTRL_TASK_ENTRY) (k i : Nat)
    (h : task_free_slot ts k = some i) :
    k ≤ i ∧ ∃ t, ts[i - k]? = some t ∧ t.status = 0 := by
  induction ts generalizing k with
  | nil => simp [task_free_slot] at h
  | cons t ts ih =>
    unfold task_free_slot at h
    split at h
    · rename_i h0
      injection h with h
      subst h
      exact ⟨le_refl _, t, by simp, h0⟩
    · obtain ⟨a, u, b, c⟩ := ih (k + 1) h
      refine ⟨by omega, u, ?_, c⟩
      have e : i - k = (i - (k + 1)) + 1 := by omega
      rw [e, List.getElem?_cons_succ]
      exact b

/-- The reader finds no free entry when no entry of the task list has the status 0,
and only then. -/
theorem task_free_slot_none (ts : List FPSCTRL_TASK_ENTRY) (k : Nat) :
    task_free_slot ts k = none ↔ freeCount ts = 0 := by
  induction ts generalizing k with
  | nil => simp [task_free_slot, freeCount]
  | cons t ts ih =>
    unfold task_free_slot
    by_cases h0 : t.status = 0
    · simp [h0, freeCount, List.countP_cons]
    · have := ih (k + 1)
      simp only [freeCount] at this
      simp [h0, freeCount, List.countP_cons, this]

/-- The reader stops with the exit "task list full" at a line, whatever the line is,
when no entry of the task list has the status 0, and only then. -/
theorem fifo_line_full (T : CTRLConsts) (env : CTRLEnv) (loc : FIFO_LOCALS) (buff : List Char)
    (v : FIFO_VARS) :
    fifo_line T env loc buff v = .error .full ↔ freeCount v.fpsctrltasklist = 0 := by
  rw [← task_free_slot_none v.fpsctrltasklist 0]
  unfold fifo_line
  cases task_free_slot v.fpsctrltasklist 0 with
  | none => simp
  | some i =>
    simp only [reduceCtorEq, iff_false]
    split_ifs <;>
      first
      | exact fun h => by cases h
      | (cases v.fpsctrltasklist[i]? <;> exact fun h => by cases h)
/-- What the kind of a line says of the tests of the reader on the line. -/
theorem fifo_kind_spec (buff : List Char) :
    (fifo_kind buff = .disregarded → fifo_disregards buff) ∧
    (fifo_kind buff ≠ .disregarded → ¬ fifo_disregards buff) ∧
    (fifo_kind buff = .taskcntzero ↔
      ¬ fifo_disregards buff ∧ startsWith (fifo_cmdline buff) "taskcntzero") ∧
    (fifo_kind buff = .setqindex →
      ¬ startsWith (fifo_cmdline buff) "taskcntzero" ∧
      startsWith (fifo_cmdline buff) "setqindex") ∧
    (fifo_kind buff = .setqprio →
      ¬ startsWith (fifo_cmdline buff) "taskcntzero" ∧
      ¬ startsWith (fifo_cmdline buff) "setqindex" ∧
      startsWith (fifo_cmdline buff) "setqprio") ∧
    (fifo_kind buff = .waitonrunON →
      ¬ startsWith (fifo_cmdline buff) "taskcntzero" ∧
      ¬ startsWith (fifo_cmdline buff) "setqindex" ∧
      ¬ startsWith (fifo_cmdline buff) "setqprio" ∧
      startsWith (fifo_cmdline buff) "waitonrunON") ∧
    (fifo_kind buff = .waitonrunOFF →
      ¬ startsWith (fifo_cmdline buff) "taskcntzero" ∧
      ¬ startsWith (fifo_cmdline buff) "setqindex" ∧
      ¬ startsWith (fifo_cmdline buff) "setqprio" ∧
      ¬ startsWith (fifo_cmdline buff) "waitonrunON" ∧
      startsWith (fifo_cmdline buff) "waitonrunOFF") ∧
    (fifo_kind buff = .waitonconfON →
      ¬ startsWith (fifo_cmdline buff) "taskcntzero" ∧
      ¬ startsWith (fifo_cmdline buff) "setqindex" ∧
      ¬ startsWith (fifo_cmdline buff) "setqprio" ∧
      ¬ startsWith (fifo_cmdline buff) "waitonrunON" ∧
      ¬ startsWith (fifo_cmdline buff) "waitonrunOFF" ∧
      startsWith (fifo_cmdline buff) "waitonconfON") ∧
    (fifo_kind buff = .waitonconfOFF →
      ¬ startsWith (fifo_cmdline buff) "taskcntzero" ∧
      ¬ startsWith (fifo_cmdline buff) "setqindex" ∧
      ¬ startsWith (fifo_cmdline buff) "setqprio" ∧
      ¬ startsWith (fifo_cmdline buff) "waitonrunON" ∧
      ¬ startsWith (fifo_cmdline buff) "waitonrunOFF" ∧
      ¬ startsWith (fifo_cmdline buff) "waitonconfON" ∧
      startsWith (fifo_cmdline buff) "waitonconfOFF") ∧
    (fifo_kind buff = .command ↔
      ¬ fifo_disregards buff ∧
      ¬ startsWith (fifo_cmdline buff) "taskcntzero" ∧
      ¬ startsWith (fifo_cmdline buff) "setqindex" ∧
      ¬ startsWith (fifo_cmdline buff) "setqprio" ∧
      ¬ startsWith (fifo_cmdline buff) "waitonrunON" ∧
      ¬ startsWith (fifo_cmdline buff) "waitonrunOFF" ∧
      ¬ startsWith (fifo_cmdline buff) "waitonconfON" ∧
      ¬ startsWith (fifo_cmdline buff) "waitonconfOFF") := by
  unfold fifo_kind
  split_ifs <;> simp [*]
/-- What a line that the reader has processed leaves: the structures and the length of
the queue list are as they were; and either the task list, `cmdcnt` and the clock are as
they were and the line is not a command, in which case `cmdinputcnt` is as it was unless
the line is the directive `taskcntzero` and the queue is as it was unless the line is
the directive `setqindex`; or the line is a command, and one entry of the task list that
had the status 0 holds the new task, `cmdcnt` and `cmdinputcnt` have advanced by one. -/
theorem fifo_line_ok (T : CTRLConsts) (env : CTRLEnv) (loc : FIFO_LOCALS) (buff : List Char)
    (v v1 : FIFO_VARS) (h : fifo_line T env loc buff v = .ok v1) :
    v1.s.fps = v.s.fps ∧ v1.s.fpsctrlqueuelist.length = v.s.fpsctrlqueuelist.length ∧
    ((v1.fpsctrltasklist = v.fpsctrltasklist ∧ v1.cmdcnt = v.cmdcnt ∧
        v1.s.clock = v.s.clock ∧ fifo_kind buff ≠ .command ∧
        (fifo_kind buff ≠ .taskcntzero → v1.statics.cmdinputcnt = v.statics.cmdinputcnt) ∧
        (fifo_kind buff ≠ .setqindex → v1.statics.queue = v.statics.queue)) ∨
      (∃ (i : Nat) (t : FPSCTRL_TASK_ENTRY), fifo_kind buff = .command ∧
        v.fpsctrltasklist[i]? = some t ∧ t.status = 0 ∧
        v1.fpsctrltasklist = v.fpsctrltasklist.set i
          (fifo_entry T env v.statics v.s.clock (fifo_cmdline buff) t) ∧
        v1.cmdcnt = v.cmdcnt + 1 ∧
        v1.statics = { v.statics with
          cmdinputcnt := (v.statics.cmdinputcnt + 1) % 2 ^ 16 })) := by
  obtain ⟨k0, k0n, k1, k2, k3, k4, k5, k6, k7, k8⟩ := fifo_kind_spec buff
  unfold fifo_line at h
  cases hfree : task_free_slot v.fpsctrltasklist 0 with
  | none => rw [hfree] at h; cases h
  | some i =>
    rw [hfree] at h
    simp only [] at h
    obtain ⟨-, t0, ht0, hst0⟩ := task_free_slot_some _ _ _ hfree
    rw [Nat.sub_zero] at ht0
    by_cases hd : fifo_disregards buff
    · rw [if_pos hd] at h
      injection h with h
      subst h
      have hk : fifo_kind buff = .disregarded := by
        by_contra hc
        exact k0n hc hd
      exact ⟨rfl, rfl, Or.inl ⟨rfl, rfl, rfl, by rw [hk]; decide, fun _ => rfl, fun _ => rfl⟩⟩
    rw [if_neg hd] at h
    by_cases h1 : startsWith (fifo_cmdline buff) "taskcntzero"
    · rw [if_pos h1] at h
      injection h with h
      subst h
      have hk : fifo_kind buff = .taskcntzero := k1.mpr ⟨hd, h1⟩
      exact ⟨rfl, rfl, Or.inl ⟨rfl, rfl, rfl, by rw [hk]; decide,
        fun hc => absurd hk hc, fun _ => rfl⟩⟩
    rw [if_neg h1] at h
    have hnc : ∀ p : Prop, p → (fifo_kind buff = .command → ¬ p) → fifo_kind buff ≠ .command :=
      fun p hp hc hk => hc hk hp
    by_cases h2 : startsWith (fifo_cmdline buff) "setqindex"
    · rw [if_pos h2] at h
      have hk : fifo_kind buff ≠ .command := hnc _ h2 (fun hk => (k8.mp hk).2.2.1)
      split_ifs at h with c1 c2
      · injection h with h
        subst h
        exact ⟨rfl, rfl, Or.inl ⟨rfl, rfl, rfl, hk, fun _ => rfl,
          fun hc => absurd (by
            unfold fifo_kind
            rw [if_neg hd, if_neg h1, if_pos h2]) hc⟩⟩
      · injection h with h
        subst h
        exact ⟨rfl, rfl, Or.inl ⟨rfl, rfl, rfl, hk, fun _ => rfl, fun _ => rfl⟩⟩
    rw [if_neg h2] at h
    by_cases h3 : startsWith (fifo_cmdline buff) "setqprio"
    · rw [if_pos h3] at h
      have hk : fifo_kind buff ≠ .command := hnc _ h3 (fun hk => (k8.mp hk).2.2.2.1)
      split_ifs at h with c1 c2
      all_goals
        injection h with h
        subst h
        exact ⟨rfl, by simp, Or.inl ⟨rfl, rfl, rfl, hk, fun _ => rfl, fun _ => rfl⟩⟩
    rw [if_neg h3] at h
    by_cases h4 : startsWith (fifo_cmdline buff) "waitonrunON"
    · rw [if_pos h4] at h
      have hk : fifo_kind buff ≠ .command := hnc _ h4 (fun hk => (k8.mp hk).2.2.2.2.1)
      injection h with h
      subst h
      exact ⟨rfl, rfl, Or.inl ⟨rfl, rfl, rfl, hk, fun _ => rfl, fun _ => rfl⟩⟩
    rw [if_neg h4] at h
    by_cases h5 : startsWith (fifo_cmdline buff) "waitonrunOFF"
    · rw [if_pos h5] at h
      have hk : fifo_kind buff ≠ .command := hnc _ h5 (fun hk => (k8.mp hk).2.2.2.2.2.1)
      injection h with h
      subst h
      exact ⟨rfl, rfl, Or.inl ⟨rfl, rfl, rfl, hk, fun _ => rfl, fun _ => rfl⟩⟩
    rw [if_neg h5] at h
    by_cases h6 : startsWith (fifo_cmdline buff) "waitonconfON"
    · rw [if_pos h6] at h
      have hk : fifo_kind buff ≠ .command := hnc _ h6 (fun hk => (k8.mp hk).2.2.2.2.2.2.1)
      injection h with h
      subst h
      exact ⟨rfl, rfl, Or.inl ⟨rfl, rfl, rfl, hk, fun _ => rfl, fun _ => rfl⟩⟩
    rw [if_neg h6] at h
    by_cases h7 : startsWith (fifo_cmdline buff) "waitonconfOFF"
    · rw [if_pos h7] at h
      have hk : fifo_kind buff ≠ .command := hnc _ h7 (fun hk => (k8.mp hk).2.2.2.2.2.2.2)
      injection h with h
      subst h
      exact ⟨rfl, rfl, Or.inl ⟨rfl, rfl, rfl, hk, fun _ => rfl, fun _ => rfl⟩⟩
    rw [if_neg h7] at h
    have hk : fifo_kind buff = .command := k8.mpr ⟨hd, h1, h2, h3, h4, h5, h6, h7⟩
    rw [ht0] at h
    simp only [] at h
    split_ifs at h with c1
    injection h with h
    subst h
    exact ⟨rfl, rfl, Or.inr ⟨i, t0, hk, ht0, hst0, rfl, rfl, rfl⟩⟩
/-- The reader on a line `setqindex N` with the index of a queue, when the task list
has a free entry: it selects the queue `N` and does nothing else. -/
theorem fifo_line_setqindex (T : CTRLConsts) (env : CTRLEnv) (loc : FIFO_LOCALS)
    (buff : List Char) (v : FIFO_VARS) (N : Nat)
    (hfree : freeCount v.fpsctrltasklist ≠ 0)
    (hk : fifo_kind buff = .setqindex)
    (hN : sscanf_s_d (fifo_cmdline buff) = some (N : Int))
    (hlt : N < T.NB_FPSCTRL_TASKQUEUE_MAX) (hmax : T.NB_FPSCTRL_TASKQUEUE_MAX ≤ 2147483648) :
    fifo_line T env loc buff v = .ok { v with statics := { v.statics with queue := N } } := by
  obtain ⟨-, k0n, -, k2, -⟩ := fifo_kind_spec buff
  have hd : ¬ fifo_disregards buff := k0n (by rw [hk]; decide)
  obtain ⟨h1, h2⟩ := k2 hk
  cases hf : task_free_slot v.fpsctrltasklist 0 with
  | none => exact absurd ((task_free_slot_none _ _).mp hf) hfree
  | some i =>
    unfold fifo_line
    rw [hf]
    simp only []
    rw [if_neg hd, if_neg h1, if_pos h2, hN]
    simp only [Option.getD_some]
    rw [if_neg (by omega), if_pos ⟨by omega, by exact_mod_cast hlt⟩]
    simp

/-- The reader on a line between a line `setqindex N` and the next command, when the
queue `N` is selected and the task list has a free entry: it returns and the queue `N`
is still selected. -/
theorem fifo_line_between (T : CTRLConsts) (env : CTRLEnv) (loc : FIFO_LOCALS)
    (buff : List Char) (v : FIFO_VARS) (N : Nat)
    (hfree : freeCount v.fpsctrltasklist ≠ 0)
    (hb : fifo_between T loc N buff) (hq : v.statics.queue = N)
    (hlt : N < v.s.fpsctrlqueuelist.length) :
    ∃ v1, fifo_line T env loc buff v = .ok v1 ∧ v1.statics.queue = N := by
  obtain ⟨k0, k0n, k1, k2, k3, k4, k5, k6, k7, k8⟩ := fifo_kind_spec buff
  obtain ⟨b1, b2, b3⟩ := hb
  cases hf : task_free_slot v.fpsctrltasklist 0 with
  | none => exact absurd ((task_free_slot_none _ _).mp hf) hfree
  | some i =>
    unfold fifo_line
    rw [hf]
    simp only []
    cases hk : fifo_kind buff with
    | disregarded =>
      rw [if_pos (k0 hk)]
      exact ⟨_, rfl, hq⟩
    | taskcntzero =>
      have hd := k0n (by rw [hk]; decide)
      rw [if_neg hd, if_pos (k1.mp hk).2]
      exact ⟨_, rfl, hq⟩
    | setqindex =>
      have hd := k0n (by rw [hk]; decide)
      obtain ⟨h1, h2⟩ := k2 hk
      obtain ⟨⟨i1, i2⟩, hor⟩ := b2 hk
      rw [if_neg hd, if_neg h1, if_pos h2]
      rw [if_neg (by omega)]
      by_cases c : -1 < (sscanf_s_d (fifo_cmdline buff)).getD loc.queue_index ∧
          (sscanf_s_d (fifo_cmdline buff)).getD loc.queue_index
            < (T.NB_FPSCTRL_TASKQUEUE_MAX : Int)
      · rw [if_pos c]
        rcases hor with e | e
        · exact ⟨_, rfl, by simp [e]⟩
        · exact absurd c e
      · rw [if_neg c]
        exact ⟨_, rfl, hq⟩
    | setqprio =>
      have hd := k0n (by rw [hk]; decide)
      obtain ⟨h1, h2, h3⟩ := k3 hk
      obtain ⟨i1, i2⟩ := b3 hk
      rw [if_neg hd, if_neg h1, if_neg h2, if_pos h3]
      rw [if_neg (by omega), if_neg (by omega)]
      exact ⟨_, rfl, hq⟩
    | waitonrunON =>
      have hd := k0n (by rw [hk]; decide)
      obtain ⟨h1, h2, h3, h4⟩ := k4 hk
      rw [if_neg hd, if_neg h1, if_neg h2, if_neg h3, if_pos h4]
      exact ⟨_, rfl, hq⟩
    | waitonrunOFF =>
      have hd := k0n (by rw [hk]; decide)
      obtain ⟨h1, h2, h3, h4, h5⟩ := k5 hk
      rw [if_neg hd, if_neg h1, if_neg h2, if_neg h3, if_neg h4, if_pos h5]
      exact ⟨_, rfl, hq⟩
    | waitonconfON =>
      have hd := k0n (by rw [hk]; decide)
      obtain ⟨h1, h2, h3, h4, h5, h6⟩ := k6 hk
      rw [if_neg hd, if_neg h1, if_neg h2, if_neg h3, if_neg h4, if_neg h5, if_pos h6]
      exact ⟨_, rfl, hq⟩
    | waitonconfOFF =>
      have hd := k0n (by rw [hk]; decide)
      obtain ⟨h1, h2, h3, h4, h5, h6, h7⟩ := k7 hk
      rw [if_neg hd, if_neg h1, if_neg h2, if_neg h3, if_neg h4, if_neg h5, if_neg h6,
        if_pos h7]
      exact ⟨_, rfl, hq⟩
    | command => exact absurd hk b1

/-- The reader on a command that fits `cmdstring`, when the task list has a free entry:
it returns, and it has entered the command in an entry that had the status 0. -/
theorem fifo_line_command (T : CTRLConsts) (env : CTRLEnv) (loc : FIFO_LOCALS)
    (buff : List Char) (v : FIFO_VARS)
    (hfree : freeCount v.fpsctrltasklist ≠ 0)
    (hk : fifo_kind buff = .command)
    (hlen : (fifo_cmdline buff).length < T.STRINGMAXLEN_FPS_CMDLINE) :
    ∃ (i : Nat) (t : FPSCTRL_TASK_ENTRY), v.fpsctrltasklist[i]? = some t ∧ t.status = 0 ∧
      fifo_line T env loc buff v = .ok
        { v with
          fpsctrltasklist := v.fpsctrltasklist.set i
            (fifo_entry T env v.statics v.s.clock (fifo_cmdline buff) t)
          s := { v.s with clock := v.s.clock + 1 }
          statics := { v.statics with cmdinputcnt := (v.statics.cmdinputcnt + 1) % 2 ^ 16 }
          cmdcnt := v.cmdcnt + 1 } := by
  obtain ⟨-, -, -, -, -, -, -, -, -, k8⟩ := fifo_kind_spec buff
  obtain ⟨hd, h1, h2, h3, h4, h5, h6, h7⟩ := k8.mp hk
  cases hf : task_free_slot v.fpsctrltasklist 0 with
  | none => exact absurd ((task_free_slot_none _ _).mp hf) hfree
  | some i =>
    obtain ⟨-, t0, ht0, hst0⟩ := task_free_slot_some _ _ _ hf
    rw [Nat.sub_zero] at ht0
    refine ⟨i, t0, ht0, hst0, ?_⟩
    unfold fifo_line
    rw [hf]
    simp only []
    rw [if_neg hd, if_neg h1, if_neg h2, if_neg h3, if_neg h4, if_neg h5, if_neg h6,
      if_neg h7, ht0]
    simp only []
    rw [if_neg (by omega)]

/-- The bytes of a sequence of lines that starts with the line `l`. -/
theorem fifo_bytes_cons (l : List Char) (ls : List (List Char)) :
    fifo_bytes (l :: ls) = l ++ Char.ofNat 10 :: fifo_bytes ls := by
  simp [fifo_bytes]

/-- The reader on the bytes of a line that fits the buffer, followed by a newline and
other bytes: it processes the line and goes on with the other bytes. -/
theorem fifo_read_loop_line (T : CTRLConsts) (env : CTRLEnv) (loc : FIFO_LOCALS)
    (line rest buff : List Char) (v : FIFO_VARS)
    (hnl : Char.ofNat 10 ∉ line) (hlen : (buff ++ line).length < 200) :
    fifo_read_loop T env loc (line ++ Char.ofNat 10 :: rest) buff v =
      match fifo_line T env loc (buff ++ line) v with
      | .error e => .error e
      | .ok v1 => fifo_read_loop T env loc rest [] v1 := by
  induction line generalizing buff with
  | nil =>
    simp only [List.nil_append, List.append_nil] at hlen ⊢
    rw [fifo_read_loop, if_neg (by omega), if_pos rfl]
    try rfl
  | cons c l ih =>
    have hc : c ≠ Char.ofNat 10 := fun e => hnl (by rw [e]; exact List.mem_cons_self _ _)
    have hl : Char.ofNat 10 ∉ l := fun e => hnl (List.mem_cons_of_mem _ e)
    have hlen2 : buff.length < 200 := by
      simp only [List.length_append, List.length_cons] at hlen
      omega
    rw [List.cons_append, fifo_read_loop, if_neg (by omega), if_neg hc,
      ih (buff ++ [c]) hl (by simpa using hlen)]
    simp

/-- The reader on the bytes of a sequence of lines that fit the buffer, followed by
other bytes: it processes the lines and goes on with the other bytes. -/
theorem fifo_read_loop_append (T : CTRLConsts) (env : CTRLEnv) (loc : FIFO_LOCALS)
    (lines : List (List Char)) (rest : List Char) (v : FIFO_VARS)
    (hfit : ∀ l ∈ lines, fifo_fits l) :
    fifo_read_loop T env loc (fifo_bytes lines ++ rest) [] v =
      match fifo_read_loop T env loc (fifo_bytes lines) [] v with
      | .error e => .error e
      | .ok v1 => fifo_read_loop T env loc rest [] v1 := by
  induction lines generalizing v with
  | nil =>
    simp only [fifo_bytes, List.map_nil, List.flatten_nil, List.nil_append]
    rw [fifo_read_loop]
  | cons l ls ih =>
    obtain ⟨f1, f2⟩ := hfit l (List.mem_cons_self _ _)
    rw [fifo_bytes_cons, List.append_assoc, List.cons_append,
      fifo_read_loop_line T env loc l _ [] v f2 (by simpa using f1),
      fifo_read_loop_line T env loc l _ [] v f2 (by simpa using f1)]
    cases fifo_line T env loc ([] ++ l) v with
    | error e => rfl
    | ok v1 => exact ih v1 (fun x hx => hfit x (List.mem_cons_of_mem _ hx))
/-- The bytes of two sequences of lines, one after the other. -/
theorem fifo_bytes_append (ls ms : List (List Char)) :
    fifo_bytes (ls ++ ms) = fifo_bytes ls ++ fifo_bytes ms := by
  simp [fifo_bytes]

/-- The reader on the lines between a line `setqindex N` and the next command, when the
queue `N` is selected and the task list has a free entry: it goes on with the bytes
that follow, the task list and `cmdcnt` are as they were and the queue `N` is still
selected. -/
theorem fifo_read_loop_between (T : CTRLConsts) (env : CTRLEnv) (loc : FIFO_LOCALS) (N : Nat)
    (mid : List (List Char)) (rest : List Char) (v : FIFO_VARS)
    (hmid : ∀ l ∈ mid, fifo_between T loc N l ∧ fifo_fits l)
    (hfree : freeCount v.fpsctrltasklist ≠ 0) (hq : v.statics.queue = N)
    (hlt : N < v.s.fpsctrlqueuelist.length) :
    ∃ v1, fifo_read_loop T env loc (fifo_bytes mid ++ rest) [] v
        = fifo_read_loop T env loc rest [] v1 ∧
      v1.fpsctrltasklist = v.fpsctrltasklist ∧ v1.cmdcnt = v.cmdcnt ∧
      v1.statics.queue = N ∧ v1.s.fpsctrlqueuelist.length = v.s.fpsctrlqueuelist.length := by
  induction mid generalizing v with
  | nil => exact ⟨v, by simp [fifo_bytes], rfl, rfl, hq, rfl⟩
  | cons l ls ih =>
    obtain ⟨hb, f1, f2⟩ := hmid l (List.mem_cons_self _ _)
    obtain ⟨v1, e1, q1⟩ := fifo_line_between T env loc l v N hfree hb hq hlt
    obtain ⟨-, a2, a3⟩ := fifo_line_ok T env loc l v v1 e1
    have a4 : v1.fpsctrltasklist = v.fpsctrltasklist ∧ v1.cmdcnt = v.cmdcnt := by
      rcases a3 with ⟨b1, b2, -⟩ | ⟨i, t, b1, -⟩
      · exact ⟨b1, b2⟩
      · exact absurd b1 hb.1
    obtain ⟨v2, e2, c1, c2, c3, c4⟩ := ih v1
      (fun x hx => hmid x (List.mem_cons_of_mem _ hx))
      (by rw [a4.1]; exact hfree) q1 (by rw [a2]; exact hlt)
    refine ⟨v2, ?_, c1.trans a4.1, c2.trans a4.2, c3, c4.trans a2⟩
    rw [fifo_bytes_cons, List.append_assoc, List.cons_append,
      fifo_read_loop_line T env loc l _ [] v f2 (by simpa using f1)]
    rw [List.nil_append, e1]
    exact e2

/-- C24. The reader on a line `setqindex N` with the index `N` of a queue, on a task
list with a free entry and for lines that fit the buffer of the reader: the line, and
the lines that follow it when none of them is a command, leave the task list as it was
and `cmdcnt` at 0; and when the lines that follow are lines that are disregarded (empty,
or starting with the comment character or with a blank) or directives, none of which is
a `setqindex` line with the index of another queue, and then a command that fits
`cmdstring`, the reader enters the command once: one entry of the task list that had
the status 0 is replaced, by a task with the status ACTIVE | SHOW, the queue `N` and the
command as `cmdstring`, and `cmdcnt` is 1. -/
theorem C24_setqindex_isolation (T : CTRLConsts) (env : CTRLEnv) (loc : FIFO_LOCALS) (N : Nat)
    (l0 : List Char) (mid : List (List Char)) (l1 : List Char)
    (statics : FIFO_STATICS) (tasks : List FPSCTRL_TASK_ENTRY) (s : CTRLState)
    (hlen : tasks.length = T.NB_FPSCTRL_TASK_MAX)
    (hqlen : s.fpsctrlqueuelist.length = T.NB_FPSCTRL_TASKQUEUE_MAX)
    (hfree : freeCount tasks ≠ 0)
    (hN : N < T.NB_FPSCTRL_TASKQUEUE_MAX) (hmax : T.NB_FPSCTRL_TASKQUEUE_MAX ≤ 2147483648)
    (h0 : fifo_kind l0 = .setqindex) (h0N : sscanf_s_d (fifo_cmdline l0) = some (N : Int))
    (h0f : fifo_fits l0)
    (hmid : ∀ l ∈ mid, fifo_between T loc N l ∧ fifo_fits l)
    (h1 : fifo_kind l1 = .command) (h1f : fifo_fits l1)
    (h1len : (fifo_cmdline l1).length < T.STRINGMAXLEN_FPS_CMDLINE) :
    (∃ v : FIFO_VARS,
      functionparameter_read_fpsCMD_fifo T env loc (String.mk (fifo_bytes (l0 :: mid)))
        statics tasks s = .ok v ∧
      v.fpsctrltasklist = tasks ∧ v.cmdcnt = 0) ∧
    ∃ (v : FIFO_VARS) (i : Nat) (t e : FPSCTRL_TASK_ENTRY),
      functionparameter_read_fpsCMD_fifo T env loc
        (String.mk (fifo_bytes (l0 :: mid ++ [l1]))) statics tasks s = .ok v ∧
      tasks[i]? = some t ∧ t.status = 0 ∧
      v.fpsctrltasklist = tasks.set i e ∧ v.cmdcnt = 1 ∧
      e.status = T.FPSTASK_STATUS_ACTIVE ||| T.FPSTASK_STATUS_SHOW ∧ e.queue = N ∧
      e.cmdstring = fifo_cmdline l1 := by
  have hguard : ¬ (tasks.length ≠ T.NB_FPSCTRL_TASK_MAX
      ∨ s.fpsctrlqueuelist.length ≠ T.NB_FPSCTRL_TASKQUEUE_MAX) := by
    intro h
    rcases h with h | h
    · exact h hlen
    · exact h hqlen
  have e0 := fifo_line_setqindex T env loc l0
    { statics := statics, fpsctrltasklist := tasks, s := s, cmdcnt := 0 } N hfree h0 h0N hN hmax
  have step0 : ∀ rest : List Char,
      fifo_read_loop T env loc (l0 ++ Char.ofNat 10 :: rest) []
          { statics := statics, fpsctrltasklist := tasks, s := s, cmdcnt := 0 }
        = fifo_read_loop T env loc rest []
            { statics := { statics with queue := N }, fpsctrltasklist := tasks, s := s,
              cmdcnt := 0 } := by
    intro rest
    rw [fifo_read_loop_line T env loc l0 rest [] _ h0f.2 (by simpa using h0f.1),
      List.nil_append, e0]
  constructor
  · obtain ⟨v1, e1, c1, c2, -, -⟩ := fifo_read_loop_between T env loc N mid []
      { statics := { statics with queue := N }, fpsctrltasklist := tasks, s := s, cmdcnt := 0 }
      hmid hfree rfl (by rw [hqlen]; exact hN)
    refine ⟨v1, ?_, c1, c2⟩
    unfold functionparameter_read_fpsCMD_fifo
    rw [if_neg hguard]
    show fifo_read_loop T env loc (fifo_bytes (l0 :: mid)) [] _ = _
    rw [fifo_bytes_cons, step0, ← List.append_nil (fifo_bytes mid), e1, fifo_read_loop]
  · obtain ⟨v1, e1, c1, c2, c3, -⟩ := fifo_read_loop_between T env loc N mid
      (l1 ++ Char.ofNat 10 :: [])
      { statics := { statics with queue := N }, fpsctrltasklist := tasks, s := s, cmdcnt := 0 }
      hmid hfree rfl (by rw [hqlen]; exact hN)
    obtain ⟨i, t, ht, hst, e2⟩ := fifo_line_command T env loc l1 v1
      (by rw [c1]; exact hfree) h1 h1len
    rw [c1] at ht
    refine ⟨{ v1 with
          fpsctrltasklist := v1.fpsctrltasklist.set i
            (fifo_entry T env v1.statics v1.s.clock (fifo_cmdline l1) t)
          s := { v1.s with clock := v1.s.clock + 1 }
          statics := { v1.statics with cmdinputcnt := (v1.statics.cmdinputcnt + 1) % 2 ^ 16 }
          cmdcnt := v1.cmdcnt + 1 },
      i, t, fifo_entry T env v1.statics v1.s.clock (fifo_cmdline l1) t,
      ?_, ht, hst, ?_, ?_, rfl, c3, rfl⟩
    · unfold functionparameter_read_fpsCMD_fifo
      rw [if_neg hguard]
      show fifo_read_loop T env loc (fifo_bytes (l0 :: mid ++ [l1])) [] _ = _
      have hnil : fifo_bytes [] = [] := rfl
      rw [List.cons_append, fifo_bytes_cons, step0, fifo_bytes_append, fifo_bytes_cons, hnil, e1,
        fifo_read_loop_line T env loc l1 _ [] v1 h1f.2 (by simpa using h1f.1),
        List.nil_append, e2]
      simp only []
      rw [fifo_read_loop]
    · simp only [c1]
    · simp only [c2]

/-- Witness for C24: the lines `setqindex 2`, a comment, `setqprio 7`, `waitonrunON`, an
empty line and the command `getval fps.delayus`, on a task list of four free entries
and a queue list of three entries. -/
theorem C24_setqindex_isolation_witness :
    ∃ (v : FIFO_VARS) (i : Nat) (t e : FPSCTRL_TASK_ENTRY),
      functionparameter_read_fpsCMD_fifo smallCTRLConsts stdCTRLEnv zeroFifoLocals
        (String.mk (fifo_bytes ("setqindex 2".data ::
          ["# comment".data, "setqprio 7".data, "waitonrunON".data, []]
            ++ ["getval fps.delayus".data])))
        FIFO_STATICS.zero (List.replicate 4 FPSCTRL_TASK_ENTRY.zero) delayCTRL = .ok v ∧
      (List.replicate 4 FPSCTRL_TASK_ENTRY.zero)[i]? = some t ∧ t.status = 0 ∧
      v.fpsctrltasklist = (List.replicate 4 FPSCTRL_TASK_ENTRY.zero).set i e ∧ v.cmdcnt = 1 ∧
      e.status = smallCTRLConsts.FPSTASK_STATUS_ACTIVE ||| smallCTRLConsts.FPSTASK_STATUS_SHOW ∧
      e.queue = 2 ∧ e.cmdstring = fifo_cmdline "getval fps.delayus".data :=
  (C24_setqindex_isolation smallCTRLConsts stdCTRLEnv zeroFifoLocals 2 "setqindex 2".data
    ["# comment".data, "setqprio 7".data, "waitonrunON".data, []] "getval fps.delayus".data
    FIFO_STATICS.zero (List.replicate 4 FPSCTRL_TASK_ENTRY.zero) delayCTRL
    (by decide) (by decide) (by decide) (by decide) (by decide) (by decide) (by decide)
    (by decide) (by decide) (by decide) (by decide) (by decide)).2

/-- Counterexample for C24. After the line `setqindex 1`, the directive `setqindex 2`
changes the queue of the next task: the command `foo` that follows is entered in queue
2, not in queue 1. And the next line that is neither a directive nor a comment nor
empty is not entered when it starts with a blank: after `setqindex 1`, the line
` foo` leaves the task list without a task. -/
theorem C24_setqindex_isolation_counterexample :
    (functionparameter_read_fpsCMD_fifo smallCTRLConsts stdCTRLEnv zeroFifoLocals
        (fifoText ["setqindex 1", "setqindex 2", "foo"])
        FIFO_STATICS.zero (List.replicate 4 FPSCTRL_TASK_ENTRY.zero) delayCTRL).toOption.map
      (fun v => v.fpsctrltasklist.map (fun t => (t.cmdstring, t.queue, t.status)))
      = some [("foo", 2, 3), ("", 0, 0), ("", 0, 0), ("", 0, 0)] ∧
    (functionparameter_read_fpsCMD_fifo smallCTRLConsts stdCTRLEnv zeroFifoLocals
        (fifoText ["setqindex 1", " foo"])
        FIFO_STATICS.zero (List.replicate 4 FPSCTRL_TASK_ENTRY.zero) delayCTRL).toOption.map
      (fun v => (v.fpsctrltasklist.map (fun t => t.status), v.cmdcnt))
      = some ([0, 0, 0, 0], 0) := by
  refine ⟨by decide, by decide⟩
/-! ## The task list along the runs of the control loop -/

/-- A word that holds a bit is not zero. -/
theorem ne_zero_of_and_ne_zero (x m : Nat) (h : x &&& m ≠ 0) : x ≠ 0 := by
  intro e
  rw [e, Nat.zero_and] at h
  exact h rfl

/-- A word to which a mask other than zero is added holds the mask. -/
theorem or_and_self_ne_zero (x m : Nat) (hm : m ≠ 0) : (x ||| m) &&& m ≠ 0 := by
  rw [Nat.lor_comm]
  exact or_and_ne_zero _ _ _ (by rw [Nat.and_self]; exact hm)

/-- Entering a task in an entry with the status 0 takes one from the number of entries
with the status 0. -/
theorem freeCount_set (tasks : List FPSCTRL_TASK_ENTRY) (i : Nat) (t e : FPSCTRL_TASK_ENTRY)
    (ht : tasks[i]? = some t) (h0 : t.status = 0) (he : e.status ≠ 0) :
    freeCount (tasks.set i e) + 1 = freeCount tasks :=
  List.countP_set_lt _ tasks i t e ht (by simp [h0]) (by simp [he])

/-- Two task lists whose entries have the status 0 at the same indices have the same
number of entries with the status 0. -/
theorem freeCount_congr (l0 l1 : List FPSCTRL_TASK_ENTRY) (hlen : l1.length = l0.length)
    (h : ∀ (j : Nat) (t0 t1 : FPSCTRL_TASK_ENTRY), l0[j]? = some t0 → l1[j]? = some t1 →
      (t0.status = 0 ↔ t1.status = 0)) :
    freeCount l1 = freeCount l0 := by
  induction l0 generalizing l1 with
  | nil =>
    cases l1 with
    | nil => rfl
    | cons a l => simp at hlen
  | cons a0 l0 ih =>
    cases l1 with
    | nil => simp at hlen
    | cons a1 l1 =>
      have e0 := h 0 a0 a1 (List.getElem?_cons_zero) (List.getElem?_cons_zero)
      have e1 := ih l1 (by simpa using hlen) (fun j t0 t1 h0 h1 =>
        h (j + 1) t0 t1 (by rw [List.getElem?_cons_succ]; exact h0)
          (by rw [List.getElem?_cons_succ]; exact h1))
      simp only [freeCount, List.countP_cons] at e1 ⊢
      rw [e1]
      by_cases c : a0.status = 0
      · simp [c, e0.mp c]
      · have c1 : ¬ a1.status = 0 := fun x => c (e0.mpr x)
        simp [c, c1]

/-- The status of the task that the reader enters. -/
theorem fifo_entry_status (T : CTRLConsts) (env : CTRLEnv) (st : FIFO_STATICS) (clock : Nat)
    (FPScmdline : String) (t : FPSCTRL_TASK_ENTRY) :
    (fifo_entry T env st clock FPScmdline t).status
        = T.FPSTASK_STATUS_ACTIVE ||| T.FPSTASK_STATUS_SHOW ∧
    (fifo_entry T env st clock FPScmdline t).queue = st.queue ∧
    (fifo_entry T env st clock FPScmdline t).inputindex = st.cmdinputcnt :=
  ⟨rfl, rfl, rfl⟩

/-- A line leaves the state of the entries as it should be, for the commands that the
control loop had counted before the call of the reader and those of `cmdcnt`. -/
theorem fifo_line_slots (T : CTRLConsts) (env : CTRLEnv) (hT : T.WF) (loc : FIFO_LOCALS)
    (base : Nat) (buff : List Char) (v v1 : FIFO_VARS)
    (hv : slotsInv T v.fpsctrltasklist (base + v.cmdcnt))
    (h : fifo_line T env loc buff v = .ok v1) :
    slotsInv T v1.fpsctrltasklist (base + v1.cmdcnt) := by
  obtain ⟨hlen, hshow, hcnt⟩ := hv
  obtain ⟨hn0, hnS, -, -⟩ := new_status_bits T hT
  obtain ⟨-, -, a⟩ := fifo_line_ok T env loc buff v v1 h
  rcases a with ⟨b1, b2, -⟩ | ⟨i, t, -, ht, hst, b1, b2, -⟩
  · rw [b1, b2]
    exact ⟨hlen, hshow, hcnt⟩
  · rw [b1, b2]
    refine ⟨by rw [List.length_set]; exact hlen, ?_, ?_⟩
    · intro u hu
      rcases List.mem_or_eq_of_mem_set hu with hu | hu
      · exact hshow u hu
      · right
        rw [hu]
        exact hnS
    · have := freeCount_set v.fpsctrltasklist i t
        (fifo_entry T env v.statics v.s.clock (fifo_cmdline buff) t) ht hst hn0
      omega

/-- A property of the variables of the reader that every line keeps holds when the
reader returns; with `r`, for the lines of an input without the directive
`taskcntzero`. -/
theorem fifo_read_loop_inv (T : CTRLConsts) (env : CTRLEnv) (loc : FIFO_LOCALS)
    (P : FIFO_VARS → Prop) (r : Bool)
    (hstep : ∀ (buff : List Char) (v v1 : FIFO_VARS),
      (r = true → fifo_kind buff ≠ .taskcntzero) → P v →
      fifo_line T env loc buff v = .ok v1 → P v1)
    (input buff : List Char) (v v1 : FIFO_VARS)
    (hr : r = true → fifo_no_reset input buff = true) (hv : P v)
    (h : fifo_read_loop T env loc input buff v = .ok v1) : P v1 := by
  induction input generalizing buff v with
  | nil =>
    rw [fifo_read_loop] at h
    injection h with h
    rw [← h]
    exact hv
  | cons c rest ih =>
    rw [fifo_read_loop] at h
    split_ifs at h with c1 c2
    · cases hl : fifo_line T env loc buff v with
      | error e => rw [hl] at h; cases h
      | ok v2 =>
        rw [hl] at h
        have hr2 : r = true → fifo_kind buff ≠ .taskcntzero ∧ fifo_no_reset rest [] = true := by
          intro e
          have := hr e
          rw [fifo_no_reset, if_pos c2] at this
          simpa using this
        exact ih [] v2 (fun e => (hr2 e).2) (hstep buff v v2 (fun e => (hr2 e).1) hv hl) h
    · refine ih (buff ++ [c]) v (fun e => ?_) hv h
      have := hr e
      rw [fifo_no_reset, if_neg c2] at this
      exact this
/-- What a completion leaves of a task: its queue and its `inputindex`; the status 0 of
an entry that is not in use; the status bit SHOW; and whether it has been activated. -/
theorem completedFrom_slots (T : CTRLConsts) (hT : T.WF) (t0 t1 : FPSCTRL_TASK_ENTRY)
    (h : completedFrom T t0 t1) :
    t1.queue = t0.queue ∧ t1.inputindex = t0.inputindex ∧
    (t0.status = 0 → t1 = t0) ∧
    (t0.status &&& T.FPSTASK_STATUS_SHOW ≠ 0 → t1.status &&& T.FPSTASK_STATUS_SHOW ≠ 0) ∧
    (taskActivated T t0 ↔ taskActivated T t1) := by
  obtain ⟨hA, hR, hRA, -, -⟩ := hT.taskBits
  obtain ⟨hS, -, hSA, hSR⟩ := hT.showBits
  obtain ⟨f1, f2, -, -, -, f6⟩ := completedFrom_fields T hT t0 t1 h
  refine ⟨f1, f2, ?_, ?_, ?_⟩
  · intro h0
    rcases f6 with e | ⟨-, -, a, -⟩
    · exact e
    · rw [h0, Nat.zero_and] at a
      exact absurd rfl a
  · intro hs
    rcases h with e | ⟨-, -, ct, e⟩
    · rw [e]; exact hs
    · rw [e]
      show clearFlag (clearFlag t0.status T.FPSTASK_STATUS_RUNNING) T.FPSTASK_STATUS_ACTIVE
        &&& T.FPSTASK_STATUS_SHOW ≠ 0
      rw [clearFlag_and_other _ _ _ hA hS hSA, clearFlag_and_other _ _ _ hR hS hSR]
      exact hs
  · rcases f6 with e | ⟨a1, -, -, r0⟩
    · rw [e]
    · exact ⟨fun _ => Or.inr a1, fun _ => Or.inl r0⟩

/-- What the dispatch leaves of a task: its queue and its `inputindex`, the status bit
SHOW, and the task has been activated. -/
theorem dispatched_slots (T : CTRLConsts) (hT : T.WF) (t : FPSCTRL_TASK_ENTRY)
    (taskstatus : Nat) (fpsindex : Int) (time : Int × Int) :
    (dispatched T t taskstatus fpsindex time).queue = t.queue ∧
    (dispatched T t taskstatus fpsindex time).inputindex = t.inputindex ∧
    (t.status &&& T.FPSTASK_STATUS_SHOW ≠ 0 →
      (dispatched T t taskstatus fpsindex time).status &&& T.FPSTASK_STATUS_SHOW ≠ 0) ∧
    taskActivated T (dispatched T t taskstatus fpsindex time) := by
  obtain ⟨-, -, -, -, hR0⟩ := hT.taskBits
  refine ⟨rfl, rfl, ?_, ?_⟩
  · intro hs
    exact or_and_ne_zero _ _ _ (or_and_ne_zero _ _ _ hs)
  · left
    exact or_and_self_ne_zero _ _ hR0

/-- What a tick leaves of every entry of the task list: its queue and its `inputindex`,
the status 0 of an entry that is not in use, the status bit SHOW, and the activation of
a task that has been activated. -/
theorem tick_slots (T : CTRLConsts) (env : CTRLEnv) (loc : CMDLINE_LOCALS)
    (tasks : List FPSCTRL_TASK_ENTRY) (s : CTRLState) (hT : T.WF)
    (tasks2 : List FPSCTRL_TASK_ENTRY) (s2 : CTRLState) (n : Nat)
    (h : function_parameter_process_fpsCMDarray T env loc tasks s = some (tasks2, s2, n)) :
    tasks2.length = tasks.length ∧
    ∀ (j : Nat) (t t2 : FPSCTRL_TASK_ENTRY), tasks[j]? = some t → tasks2[j]? = some t2 →
      t2.queue = t.queue ∧ t2.inputindex = t.inputindex ∧
      (t.status = 0 → t2.status = 0) ∧
      (t.status &&& T.FPSTASK_STATUS_SHOW ≠ 0 → t2.status &&& T.FPSTASK_STATUS_SHOW ≠ 0) ∧
      (taskActivated T t → taskActivated T t2) := by
  obtain ⟨tasks1, clock1, qn, -, -, -, hcomp, hcase⟩ := tick_some T env loc tasks s hT tasks2 s2 n h
  have hc : ∀ (j : Nat) (t t1 : FPSCTRL_TASK_ENTRY), tasks[j]? = some t → tasks1[j]? = some t1 →
      completedFrom T t t1 := by
    intro j t t1 ht ht1
    obtain ⟨u, hu, hcu, -⟩ := hcomp.2 j t ht
    rw [ht1] at hu
    injection hu with hu
    rw [hu]
    exact hcu
  rcases hcase with ⟨e, -⟩ | ⟨q, c, tc, r, -, -, hcand, htc, -, e, -⟩
  · rw [e]
    refine ⟨hcomp.1, ?_⟩
    intro j t t2 ht ht2
    obtain ⟨a1, a2, a3, a4, a5⟩ := completedFrom_slots T hT t t2 (hc j t t2 ht ht2)
    exact ⟨a1, a2, fun h0 => by rw [a3 h0]; exact h0, a4, a5.mp⟩
  · rw [e]
    refine ⟨by rw [List.length_set]; exact hcomp.1, ?_⟩
    intro j t t2 ht ht2
    by_cases hjc : c = j
    · subst hjc
      rw [List.getElem?_set_self (List.getElem?_eq_some_iff.mp htc).1] at ht2
      injection ht2 with ht2
      obtain ⟨a1, a2, a3, a4, a5⟩ := completedFrom_slots T hT t tc (hc c t tc ht htc)
      obtain ⟨d1, d2, d3, d4⟩ := dispatched_slots T hT tc r.2.1 r.2.2 (env.clock_gettime r.1.clock)
      obtain ⟨u, hu, hq, -⟩ := hcand.1
      rw [htc] at hu
      injection hu with hu
      subst hu
      rw [← ht2]
      refine ⟨d1.trans a1, d2.trans a2, ?_, fun hs => d3 (a4 hs), fun _ => d4⟩
      intro h0
      have hq1 := hq.1
      rw [a3 h0, h0, Nat.zero_and] at hq1
      exact absurd rfl hq1
    · rw [List.getElem?_set_ne hjc] at ht2
      obtain ⟨a1, a2, a3, a4, a5⟩ := completedFrom_slots T hT t t2 (hc j t t2 ht ht2)
      exact ⟨a1, a2, fun h0 => by rw [a3 h0]; exact h0, a4, a5.mp⟩

/-- The state of the entries before the first pass of the control loop. -/
theorem atStart_slots (T : CTRLConsts) (L : CTRL_LOOP) (h : L.atStart T) :
    slotsInv T L.fpsctrltasklist L.fifocmdcnt := by
  obtain ⟨h1, h2, -, h4⟩ := h
  refine ⟨h1, fun t ht => Or.inl (h2 t ht), ?_⟩
  have : freeCount L.fpsctrltasklist = L.fpsctrltasklist.length := by
    unfold freeCount
    rw [List.countP_eq_length]
    intro t ht
    simp [h2 t ht]
  rw [this, h4, h1]
  rfl

/-- A step of the control loop keeps the state of the entries as it should be; it
leaves the task list with its length; the number of entries with the status 0 does not
increase; and an entry in use is in use after it, with its queue and its `inputindex`,
and activated if it was. -/
theorem ctrl_step_slots (T : CTRLConsts) (env : CTRLEnv) (hT : T.WF) (e : CTRL_EVENT)
    (L L1 : CTRL_LOOP) (hL : slotsInv T L.fpsctrltasklist L.fifocmdcnt)
    (h : ctrl_step T env e L = .ok L1) :
    slotsInv T L1.fpsctrltasklist L1.fifocmdcnt ∧
    L1.fpsctrltasklist.length = L.fpsctrltasklist.length ∧
    freeCount L1.fpsctrltasklist ≤ freeCount L.fpsctrltasklist ∧
    ∀ (i : Nat) (t t1 : FPSCTRL_TASK_ENTRY), L.fpsctrltasklist[i]? = some t →
      L1.fpsctrltasklist[i]? = some t1 → t.status ≠ 0 →
      t1.status ≠ 0 ∧ t1.queue = t.queue ∧ t1.inputindex = t.inputindex ∧
      (taskActivated T t → taskActivated T t1) := by
  cases e with
  | fifo input loc =>
    unfold ctrl_step at h
    simp only [] at h
    cases hr : functionparameter_read_fpsCMD_fifo T env loc input L.statics L.fpsctrltasklist
        L.s with
    | error x => rw [hr] at h; cases h
    | ok v =>
      rw [hr] at h
      injection h with h
      subst h
      unfold functionparameter_read_fpsCMD_fifo at hr
      split_ifs at hr with c1
      have key := fifo_read_loop_inv T env loc
        (fun w => slotsInv T w.fpsctrltasklist (L.fifocmdcnt + w.cmdcnt) ∧
          w.fpsctrltasklist.length = L.fpsctrltasklist.length ∧
          freeCount w.fpsctrltasklist ≤ freeCount L.fpsctrltasklist ∧
          ∀ (i : Nat) (t t1 : FPSCTRL_TASK_ENTRY), L.fpsctrltasklist[i]? = some t →
            w.fpsctrltasklist[i]? = some t1 → t.status ≠ 0 → t1 = t) false
        (by
          intro buff w w1 _ hw hl
          obtain ⟨w1', w2, w3, w4⟩ := hw
          have s1 := fifo_line_slots T env hT loc L.fifocmdcnt buff w w1 w1' hl
          obtain ⟨-, -, a⟩ := fifo_line_ok T env loc buff w w1 hl
          rcases a with ⟨b1, -⟩ | ⟨i, t, -, ht, hst, b1, -⟩
          · rw [b1]
            rw [b1] at s1
            exact ⟨s1, w2, w3, w4⟩
          · have hn0 := (new_status_bits T hT).1
            have := freeCount_set w.fpsctrltasklist i t
              (fifo_entry T env w.statics w.s.clock (fifo_cmdline buff) t) ht hst hn0
            refine ⟨s1, ?_, ?_, ?_⟩
            · rw [b1, List.length_set]; exact w2
            · rw [b1]; omega
            · intro k u u1 hu hu1 hne
              rw [b1] at hu1
              by_cases hik : i = k
              · subst hik
                have := w4 i u t hu ht hne
                rw [← this] at hne
                exact absurd hst hne
              · rw [List.getElem?_set_ne hik] at hu1
                exact w4 k u u1 hu hu1 hne)
        input.data []
        { statics := L.statics, fpsctrltasklist := L.fpsctrltasklist, s := L.s, cmdcnt := 0 } v
        (fun e => by cases e)
        ⟨hL, rfl, le_refl _, fun i t t1 a b _ => by
          rw [a] at b
          injection b with b
          exact b.symm⟩ hr
      obtain ⟨k1, k2, k3, k4⟩ := key
      exact ⟨k1, k2, k3, fun i t t1 a b c => by
        rw [k4 i t t1 a b c]
        exact ⟨c, rfl, rfl, fun x => x⟩⟩
  | tick loc =>
    unfold ctrl_step at h
    simp only [] at h
    cases hr : function_parameter_process_fpsCMDarray T env loc L.fpsctrltasklist L.s with
    | none => rw [hr] at h; cases h
    | some r =>
      rw [hr] at h
      injection h with h
      subst h
      obtain ⟨tasks2, s2, n⟩ := r
      obtain ⟨t1, t2⟩ := tick_slots T env loc L.fpsctrltasklist L.s hT tasks2 s2 n hr
      obtain ⟨hlen, hshow, hcnt⟩ := hL
      have hnz : ∀ (i : Nat) (t u : FPSCTRL_TASK_ENTRY), L.fpsctrltasklist[i]? = some t →
          tasks2[i]? = some u → t.status ≠ 0 → u.status &&& T.FPSTASK_STATUS_SHOW ≠ 0 := by
        intro i t u a b c
        rcases hshow t (List.getElem?_mem a) with d | d
        · exact absurd d c
        · exact (t2 i t u a b).2.2.2.1 d
      have hfree : freeCount tasks2 = freeCount L.fpsctrltasklist := by
        apply freeCount_congr _ _ t1
        intro j a b ha hb
        constructor
        · exact (t2 j a b ha hb).2.2.1
        · intro hb0
          by_contra hne
          have := hnz j a b ha hb hne
          rw [hb0, Nat.zero_and] at this
          exact this rfl
      refine ⟨⟨t1.trans hlen, ?_, ?_⟩, t1, le_of_eq hfree, ?_⟩
      · intro u hu
        obtain ⟨j, hj, hju⟩ := List.getElem_of_mem hu
        have hj2 : j < L.fpsctrltasklist.length := by rw [← t1]; exact hj
        have ha : L.fpsctrltasklist[j]? = some (L.fpsctrltasklist[j]) :=
          List.getElem?_eq_getElem hj2
        have hb : tasks2[j]? = some u := by
          rw [List.getElem?_eq_getElem hj, hju]
        by_cases c : (L.fpsctrltasklist[j]).status = 0
        · exact Or.inl ((t2 j _ u ha hb).2.2.1 c)
        · exact Or.inr (hnz j _ u ha hb c)
      · show freeCount tasks2 + L.fifocmdcnt = T.NB_FPSCTRL_TASK_MAX
        rw [hfree]
        exact hcnt
      · intro i t u a b c
        obtain ⟨x1, x2, -, -, x5⟩ := t2 i t u a b
        exact ⟨ne_zero_of_and_ne_zero _ _ (hnz i t u a b c), x1, x2, x5⟩
  | shm fps =>
    unfold ctrl_step at h
    simp only [] at h
    injection h with h
    subst h
    exact ⟨hL, rfl, le_refl _, fun i t t1 a b c => by
      rw [a] at b
      injection b with b
      rw [← b]
      exact ⟨c, rfl, rfl, fun x => x⟩⟩

/-- The state of the entries is as it should be after every run of the control loop from
its start. -/
theorem ctrl_run_slots (T : CTRLConsts) (env : CTRLEnv) (hT : T.WF) (events : List CTRL_EVENT)
    (L0 L : CTRL_LOOP) (h0 : slotsInv T L0.fpsctrltasklist L0.fifocmdcnt)
    (h : ctrl_run T env events L0 = .ok L) :
    slotsInv T L.fpsctrltasklist L.fifocmdcnt ∧
    freeCount L.fpsctrltasklist ≤ freeCount L0.fpsctrltasklist := by
  induction events generalizing L0 with
  | nil =>
    rw [ctrl_run] at h
    injection h with h
    rw [← h]
    exact ⟨h0, le_refl _⟩
  | cons e es ih =>
    rw [ctrl_run] at h
    cases hs : ctrl_step T env e L0 with
    | error x => rw [hs] at h; cases h
    | ok L1 =>
      rw [hs] at h
      obtain ⟨a1, -, a3, -⟩ := ctrl_step_slots T env hT e L0 L1 h0 hs
      obtain ⟨b1, b2⟩ := ih L1 a1 h
      exact ⟨b1, le_trans b2 a3⟩
/-- C30. Task slots are never recycled. The reader, on a line, leaves the task list as
it is or replaces one entry whose status is 0 by a task with the status ACTIVE | SHOW,
which is not 0. A tick leaves the status bit SHOW in every entry that has it. After
every run of the control loop from its start, the entries with the status 0 and the
commands counted in `fifocmdcnt` make up the task list of `NB_FPSCTRL_TASK_MAX`
entries; a further step does not increase the number of entries with the status 0 and
leaves no entry in use with the status 0; and in a call of the reader, after lines that
fit its buffer, the entries with the status 0 and the commands entered so far make up
the task list, the reader stops at the next line with the exit "task list full",
whatever the line is, when `NB_FPSCTRL_TASK_MAX` commands have been entered, and it
does not stop there with that exit when fewer have been. -/
theorem C30_slots_never_recycled (T : CTRLConsts) (env : CTRLEnv) (hT : T.WF) :
    (∀ (loc : FIFO_LOCALS) (buff : List Char) (v v1 : FIFO_VARS),
      fifo_line T env loc buff v = .ok v1 →
      v1.fpsctrltasklist = v.fpsctrltasklist ∨
      ∃ (i : Nat) (t e : FPSCTRL_TASK_ENTRY), v.fpsctrltasklist[i]? = some t ∧ t.status = 0 ∧
        v1.fpsctrltasklist = v.fpsctrltasklist.set i e ∧
        e.status = T.FPSTASK_STATUS_ACTIVE ||| T.FPSTASK_STATUS_SHOW ∧ e.status ≠ 0) ∧
    (∀ (loc : CMDLINE_LOCALS) (tasks : List FPSCTRL_TASK_ENTRY) (s : CTRLState)
        (tasks2 : List FPSCTRL_TASK_ENTRY) (s2 : CTRLState) (n : Nat),
      function_parameter_process_fpsCMDarray T env loc tasks s = some (tasks2, s2, n) →
      tasks2.length = tasks.length ∧
      ∀ (j : Nat) (t t2 : FPSCTRL_TASK_ENTRY), tasks[j]? = some t → tasks2[j]? = some t2 →
        t.status &&& T.FPSTASK_STATUS_SHOW ≠ 0 →
        t2.status &&& T.FPSTASK_STATUS_SHOW ≠ 0 ∧ t2.status ≠ 0) ∧
    (∀ (events : List CTRL_EVENT) (L0 L : CTRL_LOOP), L0.atStart T →
      ctrl_run T env events L0 = .ok L →
      freeCount L.fpsctrltasklist + L.fifocmdcnt = T.NB_FPSCTRL_TASK_MAX ∧
      (∀ (e : CTRL_EVENT) (L1 : CTRL_LOOP), ctrl_step T env e L = .ok L1 →
        freeCount L1.fpsctrltasklist ≤ freeCount L.fpsctrltasklist ∧
        ∀ (i : Nat) (t t1 : FPSCTRL_TASK_ENTRY), L.fpsctrltasklist[i]? = some t →
          L1.fpsctrltasklist[i]? = some t1 → t.status ≠ 0 → t1.status ≠ 0) ∧
      ∀ (loc : FIFO_LOCALS) (lines : List (List Char)) (line : List Char) (v : FIFO_VARS),
        (∀ l ∈ lines, fifo_fits l) → fifo_fits line →
        functionparameter_read_fpsCMD_fifo T env loc (String.mk (fifo_bytes lines))
          L.statics L.fpsctrltasklist L.s = .ok v →
        freeCount v.fpsctrltasklist + (L.fifocmdcnt + v.cmdcnt) = T.NB_FPSCTRL_TASK_MAX ∧
        (L.fifocmdcnt + v.cmdcnt = T.NB_FPSCTRL_TASK_MAX → ∀ rest : List Char,
          functionparameter_read_fpsCMD_fifo T env loc
            (String.mk (fifo_bytes (lines ++ [line]) ++ rest))
            L.statics L.fpsctrltasklist L.s = .error .full) ∧
        (L.fifocmdcnt + v.cmdcnt < T.NB_FPSCTRL_TASK_MAX →
          functionparameter_read_fpsCMD_fifo T env loc
            (String.mk (fifo_bytes (lines ++ [line])))
            L.statics L.fpsctrltasklist L.s ≠ .error .full)) := by
  refine ⟨?_, ?_, ?_⟩
  · intro loc buff v v1 h
    obtain ⟨-, -, a⟩ := fifo_line_ok T env loc buff v v1 h
    rcases a with ⟨b1, -⟩ | ⟨i, t, -, ht, hst, b1, -⟩
    · exact Or.inl b1
    · exact Or.inr ⟨i, t, _, ht, hst, b1, rfl, (new_status_bits T hT).1⟩
  · intro loc tasks s tasks2 s2 n h
    obtain ⟨t1, t2⟩ := tick_slots T env loc tasks s hT tasks2 s2 n h
    refine ⟨t1, fun j t u a b c => ?_⟩
    have := (t2 j t u a b).2.2.2.1 c
    exact ⟨this, ne_zero_of_and_ne_zero _ _ this⟩
  · intro events L0 L h0 hrun
    obtain ⟨hinv, -⟩ := ctrl_run_slots T env hT events L0 L (atStart_slots T L0 h0) hrun
    refine ⟨hinv.2.2, ?_, ?_⟩
    · intro e L1 hs
      obtain ⟨-, -, a3, a4⟩ := ctrl_step_slots T env hT e L L1 hinv hs
      exact ⟨a3, fun i t t1 a b c => (a4 i t t1 a b c).1⟩
    · intro loc lines line v hfit hline hr
      have hguard : ¬ (L.fpsctrltasklist.length ≠ T.NB_FPSCTRL_TASK_MAX
          ∨ L.s.fpsctrlqueuelist.length ≠ T.NB_FPSCTRL_TASKQUEUE_MAX) := by
        intro hg
        unfold functionparameter_read_fpsCMD_fifo at hr
        rw [if_pos hg] at hr
        cases hr
      unfold functionparameter_read_fpsCMD_fifo at hr
      rw [if_neg hguard] at hr
      have hr1 : fifo_read_loop T env loc (fifo_bytes lines) []
          { statics := L.statics, fpsctrltasklist := L.fpsctrltasklist, s := L.s, cmdcnt := 0 }
          = .ok v := hr
      have hv := fifo_read_loop_inv T env loc
        (fun w => slotsInv T w.fpsctrltasklist (L.fifocmdcnt + w.cmdcnt)) false
        (fun buff w w1 _ hw hl => fifo_line_slots T env hT loc L.fifocmdcnt buff w w1 hw hl)
        (fifo_bytes lines) []
        { statics := L.statics, fpsctrltasklist := L.fpsctrltasklist, s := L.s, cmdcnt := 0 } v
        (fun e => by cases e) hinv hr1
      have hnil : fifo_bytes [] = [] := rfl
      have hstep : ∀ rest : List Char,
          functionparameter_read_fpsCMD_fifo T env loc
            (String.mk (fifo_bytes (lines ++ [line]) ++ rest))
            L.statics L.fpsctrltasklist L.s =
          match fifo_line T env loc line v with
          | .error e => .error e
          | .ok v1 => fifo_read_loop T env loc rest [] v1 := by
        intro rest
        unfold functionparameter_read_fpsCMD_fifo
        rw [if_neg hguard]
        show fifo_read_loop T env loc (fifo_bytes (lines ++ [line]) ++ rest) [] _ = _
        rw [fifo_bytes_append, fifo_bytes_cons, hnil, List.append_assoc,
          fifo_read_loop_append T env loc lines _ _ hfit, hr1]
        simp only []
        rw [List.append_assoc, List.cons_append, List.nil_append,
          fifo_read_loop_line T env loc line rest [] v hline.2 (by simpa using hline.1),
          List.nil_append]
      refine ⟨hv.2.2, ?_, ?_⟩
      · intro hfull rest
        have h0 : freeCount v.fpsctrltasklist = 0 := by
          have := hv.2.2
          omega
        rw [hstep rest, (fifo_line_full T env loc line v).mpr h0]
      · intro hlt
        have h0 : freeCount v.fpsctrltasklist ≠ 0 := by
          have := hv.2.2
          omega
        have hne : fifo_line T env loc line v ≠ .error .full :=
          fun e => h0 ((fifo_line_full T env loc line v).mp e)
        have := hstep []
        rw [List.append_nil] at this
        rw [this]
        cases hl : fifo_line T env loc line v with
        | error e =>
          intro he
          injection he with he
          rw [hl, he] at hne
          exact hne rfl
        | ok v1 =>
          show fifo_read_loop T env loc [] [] v1 ≠ .error .full
          rw [fifo_read_loop]
          exact fun he => by cases he

/-- Witness for C30: a run of the control loop from its start on a task list of four
entries, in which four commands are entered and two ticks run in between; at its end
no entry has the status 0 and `fifocmdcnt` is 4. -/
theorem C30_slots_never_recycled_witness :
    startLoop.atStart smallCTRLConsts ∧
    ∃ L : CTRL_LOOP,
      ctrl_run smallCTRLConsts stdCTRLEnv
        [.fifo (fifoText ["getval fps.delayus", "getval fps.delay"]) zeroFifoLocals,
          .tick zeroLocals, .tick zeroLocals,
          .fifo (fifoText ["a", "b"]) zeroFifoLocals] startLoop = .ok L ∧
      freeCount L.fpsctrltasklist + L.fifocmdcnt = 4 := by
  refine ⟨by decide, ?_⟩
  have hok : (ctrl_run smallCTRLConsts stdCTRLEnv
      [.fifo (fifoText ["getval fps.delayus", "getval fps.delay"]) zeroFifoLocals,
        .tick zeroLocals, .tick zeroLocals,
        .fifo (fifoText ["a", "b"]) zeroFifoLocals] startLoop).toOption.isSome = true := by
    decide
  cases hrun : ctrl_run smallCTRLConsts stdCTRLEnv
      [.fifo (fifoText ["getval fps.delayus", "getval fps.delay"]) zeroFifoLocals,
        .tick zeroLocals, .tick zeroLocals,
        .fifo (fifoText ["a", "b"]) zeroFifoLocals] startLoop with
  | error x =>
    rw [hrun] at hok
    cases hok
  | ok L =>
    exact ⟨L, rfl, ((C30_slots_never_recycled smallCTRLConsts stdCTRLEnv (by decide)).2.2 _
      startLoop L (by decide) hrun).1⟩
/-- The task that the reader enters has not been activated. -/
theorem fifo_entry_not_activated (T : CTRLConsts) (env : CTRLEnv) (hT : T.WF)
    (st : FIFO_STATICS) (clock : Nat) (FPScmdline : String) (t : FPSCTRL_TASK_ENTRY) :
    ¬ taskActivated T (fifo_entry T env st clock FPScmdline t) := by
  obtain ⟨-, -, hA, hR⟩ := new_status_bits T hT
  intro h
  rcases h with h | h
  · exact h hR
  · exact hA h

/-- A line other than the directive `taskcntzero` keeps the state of the counter
`cmdinputcnt` and the order of activation, for a task list of 65536 entries at most. -/
theorem fifo_line_order (T : CTRLConsts) (env : CTRLEnv) (hT : T.WF)
    (hNB : T.NB_FPSCTRL_TASK_MAX ≤ 2 ^ 16) (loc : FIFO_LOCALS)
    (buff : List Char) (v v1 : FIFO_VARS)
    (hlen : v.fpsctrltasklist.length = T.NB_FPSCTRL_TASK_MAX)
    (hv : orderInv T v.fpsctrltasklist v.statics.cmdinputcnt)
    (hk : fifo_kind buff ≠ .taskcntzero)
    (h : fifo_line T env loc buff v = .ok v1) :
    orderInv T v1.fpsctrltasklist v1.statics.cmdinputcnt := by
  obtain ⟨hc, hidx, hord⟩ := hv
  obtain ⟨-, -, a⟩ := fifo_line_ok T env loc buff v v1 h
  rcases a with ⟨b1, -, -, -, b5, -⟩ | ⟨i, t, -, ht, hst, b1, -, b3⟩
  · rw [b1, b5 hk]
    exact ⟨hc, hidx, hord⟩
  · have hn0 := (new_status_bits T hT).1
    have hF := freeCount_set v.fpsctrltasklist i t
      (fifo_entry T env v.statics v.s.clock (fifo_cmdline buff) t) ht hst hn0
    have hle : freeCount v.fpsctrltasklist ≤ T.NB_FPSCTRL_TASK_MAX := by
      rw [← hlen]
      exact List.countP_le_length _
    have hc1 : v.statics.cmdinputcnt = T.NB_FPSCTRL_TASK_MAX - freeCount v.fpsctrltasklist := by
      rw [hc]
      exact Nat.mod_eq_of_lt (by omega)
    have hidx1 : (fifo_entry T env v.statics v.s.clock (fifo_cmdline buff) t).inputindex
        = T.NB_FPSCTRL_TASK_MAX - freeCount v.fpsctrltasklist := hc1
    rw [b1, b3]
    refine ⟨?_, ?_, ?_⟩
    · show (v.statics.cmdinputcnt + 1) % 2 ^ 16 = _
      rw [hc1]
      congr 1
      omega
    · intro u hu hne
      rcases List.mem_or_eq_of_mem_set hu with hu | hu
      · have := hidx u hu hne
        omega
      · rw [hu, hidx1]
        omega
    · intro k l a b ha hb hna hnb hq hlt hact
      by_cases hl : i = l
      · subst hl
        rw [List.getElem?_set_self (List.getElem?_eq_some_iff.mp ht).1] at hb
        injection hb with hb
        rw [← hb] at hact
        exact absurd hact (fifo_entry_not_activated T env hT _ _ _ _)
      · rw [List.getElem?_set_ne hl] at hb
        by_cases hk2 : i = k
        · subst hk2
          rw [List.getElem?_set_self (List.getElem?_eq_some_iff.mp ht).1] at ha
          injection ha with ha
          rw [← ha, hidx1] at hlt
          have := hidx b (List.getElem?_mem hb) hnb
          omega
        · rw [List.getElem?_set_ne hk2] at ha
          exact hord k l a b ha hb hna hnb hq hlt hact

/-- A tick keeps the order of activation: a task that the tick dispatches is the head
of its queue, so the tasks of the queue with a smaller `inputindex` are not active any
more. -/
theorem tick_ordered (T : CTRLConsts) (env : CTRLEnv) (loc : CMDLINE_LOCALS)
    (tasks : List FPSCTRL_TASK_ENTRY) (s : CTRLState) (hT : T.WF)
    (tasks2 : List FPSCTRL_TASK_ENTRY) (s2 : CTRLState) (n : Nat)
    (hord : schedOrdered T tasks)
    (h : function_parameter_process_fpsCMDarray T env loc tasks s = some (tasks2, s2, n)) :
    schedOrdered T tasks2 := by
  obtain ⟨tasks1, clock1, qn, -, -, -, hcomp, hcase⟩ := tick_some T env loc tasks s hT tasks2 s2 n h
  have hord1 : schedOrdered T tasks1 := by
    intro i j a b ha hb hna hnb hq hlt hact
    obtain ⟨a0, ea, ca, -⟩ := completionsOn_inv T _ tasks tasks1 hcomp i a ha
    obtain ⟨b0, eb, cb, -⟩ := completionsOn_inv T _ tasks tasks1 hcomp j b hb
    obtain ⟨x1, x2, x3, -, x5⟩ := completedFrom_slots T hT a0 a ca
    obtain ⟨y1, y2, y3, -, y5⟩ := completedFrom_slots T hT b0 b cb
    have hna0 : a0.status ≠ 0 := fun e => hna (by rw [x3 e]; exact e)
    have hnb0 : b0.status ≠ 0 := fun e => hnb (by rw [y3 e]; exact e)
    exact x5.mp (hord i j a0 b0 ea eb hna0 hnb0 (by rw [← x1, ← y1]; exact hq)
      (by rw [← x2, ← y2]; exact hlt) (y5.mpr hact))
  rcases hcase with ⟨e, -⟩ | ⟨q, c, tc, r, -, -, hcand, htc, -, e, -⟩
  · rw [e]
    exact hord1
  · rw [e]
    obtain ⟨d1, d2, -, d4⟩ := dispatched_slots T hT tc r.2.1 r.2.2 (env.clock_gettime r.1.clock)
    have hclt := (List.getElem?_eq_some_iff.mp htc).1
    intro i j a b ha hb hna hnb hq hlt hact
    by_cases hi : c = i
    · subst hi
      rw [List.getElem?_set_self hclt] at ha
      injection ha with ha
      rw [← ha]
      exact d4
    · rw [List.getElem?_set_ne hi] at ha
      by_cases hj : c = j
      · subst hj
        rw [List.getElem?_set_self hclt] at hb
        injection hb with hb
        rw [← hb, d1] at hq
        rw [← hb, d2] at hlt
        obtain ⟨u, hu, hqu, -, hmin⟩ := hcand.1
        rw [htc] at hu
        injection hu with hu
        subst hu
        right
        by_contra hA
        have := (hmin i a ha ⟨hA, by rw [hq]; exact hqu.2⟩).1
        omega
      · rw [List.getElem?_set_ne hj] at hb
        exact hord1 i j a b ha hb hna hnb hq hlt hact

/-- The state of the counter `cmdinputcnt` and the order of activation before the first
pass of the control loop. -/
theorem atStart_order (T : CTRLConsts) (L : CTRL_LOOP) (h : L.atStart T) :
    orderInv T L.fpsctrltasklist L.statics.cmdinputcnt := by
  have hs := atStart_slots T L h
  obtain ⟨h1, h2, h3, h4⟩ := h
  have hF : freeCount L.fpsctrltasklist = T.NB_FPSCTRL_TASK_MAX := by
    have := hs.2.2
    omega
  refine ⟨?_, ?_, ?_⟩
  · rw [h3, hF]
    simp [FIFO_STATICS.zero]
  · intro t ht hne
    exact absurd (h2 t ht) hne
  · intro i j a b ha hb hna
    exact absurd (h2 a (List.getElem?_mem ha)) hna

/-- A step of the control loop that reads no directive `taskcntzero` keeps the state of
the counter `cmdinputcnt` and the order of activation, for a task list of 65536 entries
at most. -/
theorem ctrl_step_order (T : CTRLConsts) (env : CTRLEnv) (hT : T.WF)
    (hNB : T.NB_FPSCTRL_TASK_MAX ≤ 2 ^ 16) (e : CTRL_EVENT) (L L1 : CTRL_LOOP)
    (hL : slotsInv T L.fpsctrltasklist L.fifocmdcnt)
    (hO : orderInv T L.fpsctrltasklist L.statics.cmdinputcnt)
    (hnr : events_no_reset [e] = true)
    (h : ctrl_step T env e L = .ok L1) :
    orderInv T L1.fpsctrltasklist L1.statics.cmdinputcnt := by
  obtain ⟨hL1, hlen1, -, hslot⟩ := ctrl_step_slots T env hT e L L1 hL h
  cases e with
  | fifo input loc =>
    unfold ctrl_step at h
    simp only [] at h
    cases hr : functionparameter_read_fpsCMD_fifo T env loc input L.statics L.fpsctrltasklist
        L.s with
    | error x => rw [hr] at h; cases h
    | ok v =>
      rw [hr] at h
      injection h with h
      subst h
      unfold functionparameter_read_fpsCMD_fifo at hr
      split_ifs at hr with c1
      have hnr1 : fifo_no_reset input.data [] = true := by
        simpa [events_no_reset] using hnr
      have key := fifo_read_loop_inv T env loc
        (fun w => slotsInv T w.fpsctrltasklist (L.fifocmdcnt + w.cmdcnt) ∧
          orderInv T w.fpsctrltasklist w.statics.cmdinputcnt) true
        (fun buff w w1 hk hw hl =>
          ⟨fifo_line_slots T env hT loc L.fifocmdcnt buff w w1 hw.1 hl,
            fifo_line_order T env hT hNB loc buff w w1 hw.1.1 hw.2 (hk rfl) hl⟩)
        input.data []
        { statics := L.statics, fpsctrltasklist := L.fpsctrltasklist, s := L.s, cmdcnt := 0 } v
        (fun _ => hnr1) ⟨hL, hO⟩ hr
      exact key.2
  | tick loc =>
    unfold ctrl_step at h
    simp only [] at h
    cases hr : function_parameter_process_fpsCMDarray T env loc L.fpsctrltasklist L.s with
    | none => rw [hr] at h; cases h
    | some r =>
      rw [hr] at h
      injection h with h
      subst h
      obtain ⟨tasks2, s2, n⟩ := r
      obtain ⟨hc, hidx, hord⟩ := hO
      have hF : freeCount tasks2 = freeCount L.fpsctrltasklist := by
        have a := hL.2.2
        have b : freeCount tasks2 + L.fifocmdcnt = T.NB_FPSCTRL_TASK_MAX := hL1.2.2
        omega
      obtain ⟨t1, t2⟩ := tick_slots T env loc L.fpsctrltasklist L.s hT tasks2 s2 n hr
      refine ⟨?_, ?_, tick_ordered T env loc L.fpsctrltasklist L.s hT tasks2 s2 n hord hr⟩
      · show L.statics.cmdinputcnt = (T.NB_FPSCTRL_TASK_MAX - freeCount tasks2) % 2 ^ 16
        rw [hF]
        exact hc
      · intro u hu hne
        show u.inputindex < T.NB_FPSCTRL_TASK_MAX - freeCount tasks2
        rw [hF]
        obtain ⟨j, hj, hju⟩ := List.getElem_of_mem hu
        have hj2 : j < L.fpsctrltasklist.length := by rw [← t1]; exact hj
        have ha : L.fpsctrltasklist[j]? = some (L.fpsctrltasklist[j]) :=
          List.getElem?_eq_getElem hj2
        have hb : tasks2[j]? = some u := by
          rw [List.getElem?_eq_getElem hj, hju]
        obtain ⟨-, x2, x3, -⟩ := t2 j _ u ha hb
        rw [x2]
        exact hidx _ (List.getElem?_mem ha) (fun e0 => hne (x3 e0))
  | shm fps =>
    unfold ctrl_step at h
    simp only [] at h
    injection h with h
    subst h
    exact hO

/-- The order of activation holds after every run of the control loop from its start
that reads no directive `taskcntzero`, for a task list of 65536 entries at most. -/
theorem ctrl_run_order (T : CTRLConsts) (env : CTRLEnv) (hT : T.WF)
    (hNB : T.NB_FPSCTRL_TASK_MAX ≤ 2 ^ 16) (events : List CTRL_EVENT) (L0 L : CTRL_LOOP)
    (h0 : slotsInv T L0.fpsctrltasklist L0.fifocmdcnt)
    (hO : orderInv T L0.fpsctrltasklist L0.statics.cmdinputcnt)
    (hnr : events_no_reset events = true)
    (h : ctrl_run T env events L0 = .ok L) :
    slotsInv T L.fpsctrltasklist L.fifocmdcnt ∧
    orderInv T L.fpsctrltasklist L.statics.cmdinputcnt := by
  induction events generalizing L0 with
  | nil =>
    rw [ctrl_run] at h
    injection h with h
    rw [← h]
    exact ⟨h0, hO⟩
  | cons e es ih =>
    rw [ctrl_run] at h
    cases hs : ctrl_step T env e L0 with
    | error x => rw [hs] at h; cases h
    | ok L1 =>
      rw [hs] at h
      have hsplit : events_no_reset [e] = true ∧ events_no_reset es = true := by
        cases e with
        | fifo input loc => simpa [events_no_reset] using hnr
        | tick loc => simpa [events_no_reset] using hnr
        | shm fps => simpa [events_no_reset] using hnr
      obtain ⟨a1, -⟩ := ctrl_step_slots T env hT e L0 L1 h0 hs
      exact ih L1 a1 (ctrl_step_order T env hT hNB e L0 L1 h0 hO hsplit.1 hs) hsplit.2 h
/-- The test of the order of activation holds on a task list in which the order of
activation holds. -/
theorem schedOrderedB_of_schedOrdered (T : CTRLConsts) (tasks : List FPSCTRL_TASK_ENTRY)
    (h : schedOrdered T tasks) : schedOrderedB T tasks = true := by
  unfold schedOrderedB
  rw [List.all_eq_true]
  intro a ha
  rw [List.all_eq_true]
  intro b hb
  obtain ⟨i, hi⟩ := List.mem_iff_getElem?.mp ha
  obtain ⟨j, hj⟩ := List.mem_iff_getElem?.mp hb
  exact decide_eq_true (h i j a b hi hj)

/-- C21. Scheduler ordering, for the runs of the control loop from its start (calls of
the reader, ticks of the scheduler and writes of the structures by other processes, in
any order) in which the reader receives no directive `taskcntzero`, and for a task list
of 65536 entries at most, the range of the counter `cmdinputcnt`. After every such run,
of two entries in use in the same queue, the one with the larger `inputindex` has been
activated only if the one with the smaller `inputindex` has been; and a further step
leaves an entry in use with its queue and its `inputindex`, and activated if it was. -/
theorem C21_scheduler_ordering (T : CTRLConsts) (env : CTRLEnv) (hT : T.WF)
    (hNB : T.NB_FPSCTRL_TASK_MAX ≤ 2 ^ 16) (events : List CTRL_EVENT) (L0 L : CTRL_LOOP)
    (h0 : L0.atStart T) (hnr : events_no_reset events = true)
    (hrun : ctrl_run T env events L0 = .ok L) :
    schedOrdered T L.fpsctrltasklist ∧
    ∀ (e : CTRL_EVENT) (L1 : CTRL_LOOP), ctrl_step T env e L = .ok L1 →
      ∀ (i : Nat) (t t1 : FPSCTRL_TASK_ENTRY), L.fpsctrltasklist[i]? = some t →
        L1.fpsctrltasklist[i]? = some t1 → t.status ≠ 0 →
        t1.status ≠ 0 ∧ t1.queue = t.queue ∧ t1.inputindex = t.inputindex ∧
        (taskActivated T t → taskActivated T t1) := by
  obtain ⟨a1, a2⟩ := ctrl_run_order T env hT hNB events L0 L (atStart_slots T L0 h0)
    (atStart_order T L0 h0) hnr hrun
  exact ⟨a2.2.2, fun e L1 hs => (ctrl_step_slots T env hT e L L1 a1 hs).2.2.2⟩

/-- Witness for C21: a run of the control loop from its start on a task list of four
entries, in which two commands are entered, two ticks run and a third command is
entered. -/
theorem C21_scheduler_ordering_witness :
    startLoop.atStart smallCTRLConsts ∧
    ∃ L : CTRL_LOOP,
      ctrl_run smallCTRLConsts stdCTRLEnv
        [.fifo (fifoText ["getval fps.delayus", "getval fps.delay"]) zeroFifoLocals,
          .tick zeroLocals, .tick zeroLocals,
          .fifo (fifoText ["setqprio 2", "getval fps.delayus"]) zeroFifoLocals]
        startLoop = .ok L ∧
      schedOrdered smallCTRLConsts L.fpsctrltasklist := by
  refine ⟨by decide, ?_⟩
  have hok : (ctrl_run smallCTRLConsts stdCTRLEnv
      [.fifo (fifoText ["getval fps.delayus", "getval fps.delay"]) zeroFifoLocals,
        .tick zeroLocals, .tick zeroLocals,
        .fifo (fifoText ["setqprio 2", "getval fps.delayus"]) zeroFifoLocals]
      startLoop).toOption.isSome = true := by
    decide
  cases hrun : ctrl_run smallCTRLConsts stdCTRLEnv
      [.fifo (fifoText ["getval fps.delayus", "getval fps.delay"]) zeroFifoLocals,
        .tick zeroLocals, .tick zeroLocals,
        .fifo (fifoText ["setqprio 2", "getval fps.delayus"]) zeroFifoLocals]
      startLoop with
  | error x =>
    rw [hrun] at hok
    cases hok
  | ok L =>
    exact ⟨L, rfl, (C21_scheduler_ordering smallCTRLConsts stdCTRLEnv (by decide) (by decide) _
      startLoop L (by decide) (by decide) hrun).1⟩

/-- Counterexample for C21. The reader enters two commands in queue 0, with the
`inputindex` 0 and 1; two ticks activate them (the second tick completes the first task
and dispatches the second, status 0x907); then the reader receives the directive
`taskcntzero` and a third command, which gets the `inputindex` 0 in queue 0 (status
3). The third task has a smaller `inputindex` than the second task and it has not been
activated, while the second has been. -/
theorem C21_scheduler_ordering_counterexample :
    (ctrl_run smallCTRLConsts stdCTRLEnv
        [.fifo (fifoText ["getval fps.delayus", "getval fps.delay"]) zeroFifoLocals,
          .tick zeroLocals, .tick zeroLocals,
          .fifo (fifoText ["taskcntzero", "getval fps.delayus"]) zeroFifoLocals]
        startLoop).toOption.map
      (fun L => (L.fpsctrltasklist.map (fun t => (t.queue, t.inputindex, t.status)),
        schedOrderedB smallCTRLConsts L.fpsctrltasklist))
      = some ([(0, 0, 0x902), (0, 1, 0x907), (0, 0, 3), (0, 0, 0)], false) := by
  decide

/-- Counterexample for C22. The reader enters `getval fps.delay` and, with the flag
WAITONRUN, `runstart fps.delayus` in queue 0 (`inputindex` 0 and 1); two ticks dispatch
them, and the second task stays running (status 0x907) while its structure has the
status bit CMDRUN (0x20). The reader then receives `taskcntzero` and a third command,
which gets the `inputindex` 0 in queue 0 (status 3). The next tick leaves the second
task running and dispatches the third task, a task of the same queue, which is the
head of the queue (status 0x907, three tasks launched). -/
theorem C22_gate_on_run_counterexample :
    (ctrl_run smallCTRLConsts stdCTRLEnv
        [.fifo (fifoText ["getval fps.delay", "waitonrunON", "runstart fps.delayus"])
            zeroFifoLocals,
          .tick zeroLocals, .tick zeroLocals,
          .fifo (fifoText ["taskcntzero", "waitonrunOFF", "getval fps.delayus"])
            zeroFifoLocals]
        { startLoop with s := S5state 0x20 }).toOption.map
      (fun L => (L.fpsctrltasklist.map (fun t => (t.queue, t.inputindex, t.status, t.flag)),
        L.NBtaskLaunched, L.s.fps.map (fun f => f.status)))
      = some ([(0, 0, 0x902, 0), (0, 1, 0x907, 1), (0, 0, 3, 0), (0, 0, 0, 0)], 2, [0x20]) ∧
    (ctrl_run smallCTRLConsts stdCTRLEnv
        [.fifo (fifoText ["getval fps.delay", "waitonrunON", "runstart fps.delayus"])
            zeroFifoLocals,
          .tick zeroLocals, .tick zeroLocals,
          .fifo (fifoText ["taskcntzero", "waitonrunOFF", "getval fps.delayus"])
            zeroFifoLocals,
          .tick zeroLocals]
        { startLoop with s := S5state 0x20 }).toOption.map
      (fun L => (L.fpsctrltasklist.map (fun t => (t.queue, t.inputindex, t.status, t.flag)),
        L.NBtaskLaunched, L.s.fps.map (fun f => f.status)))
      = some ([(0, 0, 0x902, 0), (0, 1, 0x907, 1), (0, 0, 0x907, 0), (0, 0, 0, 0)], 3,
          [0x20]) := by
  refine ⟨by decide, by decide⟩

end Milk
